import Mathlib

/-!
OUCH 4.2 over SoupBinTCP 3: a verification development

Shallow embedding of the OUCH session engine (`ouch.hpp`, `session.hpp`,
`session.cpp`, `store.hpp`) and proofs of properties of its codec, framer and
sequence counters.

Conventions of the embedding

* A byte is a `Nat` below 256.  `char` is signed on the target platform
  (x86-64 Linux, the platform of `epoll`/`timerfd` and of the "little-endian
  platform only" macros); `toSChar` gives the value a `char` expression has
  after integer promotion.
* An `int` is an `Int` in the range of 32-bit two's complement; `toU32` and
  `toI32` are the conversions between `int` and `uint32_t`.  A `uint64_t` is a
  `Nat` below `2 ^ 64`.
* The host is little-endian, so `htonl`, `htons` and the `htonll` macro reverse
  bytes.
* The message structs are `packed`: `toBytes` is the memory image of a struct
  and `ofBytes` reads a struct through a pointer cast of a byte buffer.
-/

namespace OUCH

/-! ## Machine integers and byte order -/

/-- Value of a `char` holding byte `b` after integer promotion (signed `char`). -/
def toSChar (b : Nat) : Int := if b % 256 < 128 then (b % 256 : Nat) else ((b % 256 : Nat) : Int) - 256

/-- Conversion `int` to `uint32_t`. -/
def toU32 (v : Int) : Nat := (v % 4294967296).toNat

/-- Conversion `uint32_t` to `int` (two's complement). -/
def toI32 (x : Nat) : Int :=
  if x % 4294967296 < 2147483648 then ((x % 4294967296 : Nat) : Int)
  else ((x % 4294967296 : Nat) : Int) - 4294967296

/-- Range of the type `int`. -/
def isInt32 (v : Int) : Prop := -2147483648 ≤ v ∧ v < 2147483648

instance (v : Int) : Decidable (isInt32 v) := by unfold isInt32; infer_instance

/-- The libc `htonl` on a little-endian host: the four bytes of a `uint32_t` reversed. -/
def htonl (x : Nat) : Nat :=
  (x % 256) * 16777216 + (x / 256 % 256) * 65536 + (x / 65536 % 256) * 256 + (x / 16777216 % 256)

/-- The libc `ntohl`: on a little-endian host the same byte reversal as `htonl`. -/
def ntohl (x : Nat) : Nat := htonl x

/-- The libc `htons` on a little-endian host: the two bytes of a `uint16_t` reversed. -/
def htons (x : Nat) : Nat := (x % 256) * 256 + (x / 256 % 256)

/-- Macro `htonll(y) (((uint64_t)htonl(y)) << 32 | htonl(y>>32))`; the argument of the
first `htonl` is truncated to `uint32_t`. -/
def htonll (y : Nat) : Nat := ((htonl (y % 4294967296)) <<< 32) ||| htonl ((y >>> 32) % 4294967296)

/-- Macro `ntohll(y) (((uint64_t)ntohl(y)) << 32 | ntohl(y>>32))`. -/
def ntohll (y : Nat) : Nat := ((ntohl (y % 4294967296)) <<< 32) ||| ntohl ((y >>> 32) % 4294967296)

/-- Statement `f = htonl(f)` on an `int` field `f`: the implicit conversions to and from
`uint32_t` around `htonl`. -/
def htonlInt (v : Int) : Int := toI32 (htonl (toU32 v))

/-- Statement `f = ntohl(f)` on an `int` field `f`. -/
def ntohlInt (v : Int) : Int := toI32 (ntohl (toU32 v))

/-! ## Memory images -/

/-- Byte `i` of a buffer image (0 outside it). -/
def byteAt (w : List Nat) (i : Nat) : Nat := w.getD i 0

/-- The `n` bytes of a `char[n]` field at offset `o`. -/
def chars (w : List Nat) (o n : Nat) : List Nat := (List.range n).map (fun i => byteAt w (o + i))

/-- Little-endian image of a 32-bit value. -/
def le32 (x : Nat) : List Nat := [x % 256, x / 256 % 256, x / 65536 % 256, x / 16777216 % 256]

/-- Little-endian image of a 64-bit value. -/
def le64 (x : Nat) : List Nat := le32 (x % 4294967296) ++ le32 (x / 4294967296 % 4294967296)

/-- Big-endian image of a 32-bit value. -/
def be32 (x : Nat) : List Nat := [x / 16777216 % 256, x / 65536 % 256, x / 256 % 256, x % 256]

/-- Big-endian image of a 64-bit value. -/
def be64 (x : Nat) : List Nat := be32 (x / 4294967296 % 4294967296) ++ be32 (x % 4294967296)

/-- Load of a `uint32_t` at offset `o` (little-endian host). -/
def getU32 (w : List Nat) (o : Nat) : Nat :=
  byteAt w o + 256 * byteAt w (o + 1) + 65536 * byteAt w (o + 2) + 16777216 * byteAt w (o + 3)

/-- Load of an `int` at offset `o`. -/
def getI32 (w : List Nat) (o : Nat) : Int := toI32 (getU32 w o)

/-- Load of a `uint64_t` at offset `o`. -/
def getU64 (w : List Nat) (o : Nat) : Nat := getU32 w o + 4294967296 * getU32 w (o + 4)

/-- Memory image of an `int`. -/
def leI32 (v : Int) : List Nat := le32 (toU32 v)

/-- Function `strncpy(dest, src, n)`: the `n` bytes written to `dest`; `src` is read up to
its first NUL and the rest of `dest` is filled with NULs. -/
def strncpy (src : List Nat) (n : Nat) : List Nat :=
  ((src.takeWhile (fun c => c != 0)).take n) ++
    List.replicate (n - ((src.takeWhile (fun c => c != 0)).take n).length) 0

/-- Function `rpadStr(dest, destLen, src)` of `ouch.hpp`: `strncpy(dest, src, destLen)`, then
spaces from `srcLen` on when `srcLen < destLen`.  `src` is the content of the `std::string`
(`srcLen` is its size). -/
def rpadStr (destLen : Nat) (src : List Nat) : List Nat :=
  if src.length < destLen then
    (strncpy src destLen).take src.length ++ List.replicate (destLen - src.length) 32
  else strncpy src destLen

/-! ## OUCH messages sent by a client -/

/-- Struct `OrderMsg` (48 bytes, type `'O'`). -/
structure OrderMsg where
  type : Nat
  id : List Nat
  side : Nat
  shares : Int
  symbol : List Nat
  price : Int
  tif : Int
  firm : List Nat
  display : Nat
  capacity : Nat
  sweep : Nat
  minQty : Int
  cross : Nat
deriving DecidableEq, Repr

namespace OrderMsg

def TYPE : Nat := 79

def sizeof : Nat := 48

/-- Constructor `OrderMsg(id, side, shares, symbol, price, firm, display)`. -/
def new (id : List Nat) (side : Nat) (shares : Int) (symbol : List Nat) (price : Int)
    (firm : List Nat) (display : Nat) : OrderMsg :=
  { type := TYPE, id := rpadStr 14 id, side := side, shares := shares,
    symbol := rpadStr 8 symbol, price := price, tif := 99998, firm := rpadStr 4 firm,
    display := display, capacity := 65, sweep := 78, minQty := 0, cross := 78 }

def hton (m : OrderMsg) : OrderMsg :=
  { m with
    shares := htonlInt m.shares
    price := htonlInt m.price
    tif := htonlInt m.tif
    minQty := if m.minQty ≠ 0 then htonlInt m.minQty else m.minQty }

def ntoh (m : OrderMsg) : OrderMsg :=
  { m with
    shares := ntohlInt m.shares
    price := ntohlInt m.price
    tif := ntohlInt m.tif
    minQty := if m.minQty ≠ 0 then ntohlInt m.minQty else m.minQty }

/-- Memory image of the packed struct. -/
def toBytes (m : OrderMsg) : List Nat :=
  [m.type] ++ m.id ++ [m.side] ++ leI32 m.shares ++ m.symbol ++ leI32 m.price ++ leI32 m.tif ++
    m.firm ++ [m.display, m.capacity, m.sweep] ++ leI32 m.minQty ++ [m.cross]

/-- The struct seen through `(OrderMsg*)` at the start of `w`. -/
def ofBytes (w : List Nat) : OrderMsg :=
  { type := byteAt w 0, id := chars w 1 14, side := byteAt w 15, shares := getI32 w 16,
    symbol := chars w 20 8, price := getI32 w 28, tif := getI32 w 32, firm := chars w 36 4,
    display := byteAt w 40, capacity := byteAt w 41, sweep := byteAt w 42,
    minQty := getI32 w 43, cross := byteAt w 47 }

end OrderMsg

/-- Struct `ReplaceMsg` (47 bytes, type `'U'`). -/
structure ReplaceMsg where
  type : Nat
  oldid : List Nat
  newid : List Nat
  shares : Int
  price : Int
  tif : Int
  display : Nat
  sweep : Nat
  minQty : Int
deriving DecidableEq, Repr

namespace ReplaceMsg

def TYPE : Nat := 85

def sizeof : Nat := 47

/-- Constructor `ReplaceMsg(oldid, newid, shares, price, display)`. -/
def new (oldid newid : List Nat) (shares price : Int) (display : Nat) : ReplaceMsg :=
  { type := TYPE, oldid := rpadStr 14 oldid, newid := rpadStr 14 newid, shares := shares,
    price := price, tif := 99998, display := display, sweep := 78, minQty := 0 }

def hton (m : ReplaceMsg) : ReplaceMsg :=
  { m with
    shares := htonlInt m.shares
    price := htonlInt m.price
    tif := htonlInt m.tif
    minQty := if m.minQty ≠ 0 then htonlInt m.minQty else m.minQty }

def ntoh (m : ReplaceMsg) : ReplaceMsg :=
  { m with
    shares := ntohlInt m.shares
    price := ntohlInt m.price
    tif := ntohlInt m.tif
    minQty := if m.minQty ≠ 0 then ntohlInt m.minQty else m.minQty }

def toBytes (m : ReplaceMsg) : List Nat :=
  [m.type] ++ m.oldid ++ m.newid ++ leI32 m.shares ++ leI32 m.price ++ leI32 m.tif ++
    [m.display, m.sweep] ++ leI32 m.minQty

def ofBytes (w : List Nat) : ReplaceMsg :=
  { type := byteAt w 0, oldid := chars w 1 14, newid := chars w 15 14, shares := getI32 w 29,
    price := getI32 w 33, tif := getI32 w 37, display := byteAt w 41, sweep := byteAt w 42,
    minQty := getI32 w 43 }

end ReplaceMsg

/-- Struct `CancelMsg` (19 bytes, type `'X'`). -/
structure CancelMsg where
  type : Nat
  id : List Nat
  shares : Int
deriving DecidableEq, Repr

namespace CancelMsg

def TYPE : Nat := 88

def sizeof : Nat := 19

/-- Constructor `CancelMsg(id, shares)`. -/
def new (id : List Nat) (shares : Int) : CancelMsg :=
  { type := TYPE, id := rpadStr 14 id, shares := shares }

def hton (m : CancelMsg) : CancelMsg :=
  { m with shares := if m.shares ≠ 0 then htonlInt m.shares else m.shares }

def ntoh (m : CancelMsg) : CancelMsg :=
  { m with shares := if m.shares ≠ 0 then ntohlInt m.shares else m.shares }

def toBytes (m : CancelMsg) : List Nat := [m.type] ++ m.id ++ leI32 m.shares

def ofBytes (w : List Nat) : CancelMsg :=
  { type := byteAt w 0, id := chars w 1 14, shares := getI32 w 15 }

end CancelMsg

/-- Struct `ModifyMsg` (20 bytes, type `'M'`). -/
structure ModifyMsg where
  type : Nat
  id : List Nat
  side : Nat
  shares : Int
deriving DecidableEq, Repr

namespace ModifyMsg

def TYPE : Nat := 77

def sizeof : Nat := 20

/-- Constructor `ModifyMsg(id, side, shares)`. -/
def new (id : List Nat) (side : Nat) (shares : Int) : ModifyMsg :=
  { type := TYPE, id := rpadStr 14 id, side := side, shares := shares }

def hton (m : ModifyMsg) : ModifyMsg :=
  { m with shares := if m.shares ≠ 0 then htonlInt m.shares else m.shares }

def ntoh (m : ModifyMsg) : ModifyMsg :=
  { m with shares := if m.shares ≠ 0 then ntohlInt m.shares else m.shares }

def toBytes (m : ModifyMsg) : List Nat := [m.type] ++ m.id ++ [m.side] ++ leI32 m.shares

def ofBytes (w : List Nat) : ModifyMsg :=
  { type := byteAt w 0, id := chars w 1 14, side := byteAt w 15, shares := getI32 w 16 }

end ModifyMsg

/-! ## OUCH messages sent by the market -/

/-- Struct `SysMsg` (10 bytes, type `'S'`). -/
structure SysMsg where
  type : Nat
  tm : Nat
  evt : Nat
deriving DecidableEq, Repr

namespace SysMsg

def TYPE : Nat := 83

def sizeof : Nat := 10

def ntoh (m : SysMsg) : SysMsg := { m with tm := ntohll m.tm }

def toBytes (m : SysMsg) : List Nat := [m.type] ++ le64 m.tm ++ [m.evt]

def ofBytes (w : List Nat) : SysMsg := { type := byteAt w 0, tm := getU64 w 1, evt := byteAt w 9 }

end SysMsg

/-- Struct `AcceptedMsg` (66 bytes, type `'A'`). -/
structure AcceptedMsg where
  type : Nat
  tm : Nat
  id : List Nat
  side : Nat
  shares : Int
  symbol : List Nat
  price : Int
  tif : Int
  firm : List Nat
  display : Nat
  ref : Nat
  capacity : Nat
  sweep : Nat
  minQty : Int
  cross : Nat
  state : Nat
  bbo : Nat
deriving DecidableEq, Repr

namespace AcceptedMsg

def TYPE : Nat := 65

def sizeof : Nat := 66

/-- Constructor `AcceptedMsg(const OrderMsg& o)`. -/
def ofOrder (o : OrderMsg) : AcceptedMsg :=
  { type := TYPE, tm := 0, side := o.side, shares := o.shares, price := o.price, tif := o.tif,
    display := o.display, ref := 0, capacity := o.capacity, sweep := o.sweep,
    minQty := o.minQty, cross := o.cross, state := 76, bbo := 32,
    id := strncpy o.id 14, symbol := strncpy o.symbol 8, firm := strncpy o.firm 4 }

def ntoh (m : AcceptedMsg) : AcceptedMsg :=
  { m with
    tm := ntohll m.tm
    shares := ntohlInt m.shares
    price := ntohlInt m.price
    tif := ntohlInt m.tif
    ref := ntohll m.ref
    minQty := if m.minQty ≠ 0 then ntohlInt m.minQty else m.minQty }

def hton (m : AcceptedMsg) : AcceptedMsg :=
  { m with
    tm := htonll m.tm
    shares := htonlInt m.shares
    price := htonlInt m.price
    tif := htonlInt m.tif
    ref := htonll m.ref
    minQty := if m.minQty ≠ 0 then htonlInt m.minQty else m.minQty }

def toBytes (m : AcceptedMsg) : List Nat :=
  [m.type] ++ le64 m.tm ++ m.id ++ [m.side] ++ leI32 m.shares ++ m.symbol ++ leI32 m.price ++
    leI32 m.tif ++ m.firm ++ [m.display] ++ le64 m.ref ++ [m.capacity, m.sweep] ++
    leI32 m.minQty ++ [m.cross, m.state, m.bbo]

def ofBytes (w : List Nat) : AcceptedMsg :=
  { type := byteAt w 0, tm := getU64 w 1, id := chars w 9 14, side := byteAt w 23,
    shares := getI32 w 24, symbol := chars w 28 8, price := getI32 w 36, tif := getI32 w 40,
    firm := chars w 44 4, display := byteAt w 48, ref := getU64 w 49, capacity := byteAt w 57,
    sweep := byteAt w 58, minQty := getI32 w 59, cross := byteAt w 63, state := byteAt w 64,
    bbo := byteAt w 65 }

end AcceptedMsg

/-- Struct `ReplacedMsg` (80 bytes, type `'U'`). -/
structure ReplacedMsg where
  type : Nat
  tm : Nat
  newid : List Nat
  side : Nat
  shares : Int
  symbol : List Nat
  price : Int
  tif : Int
  firm : List Nat
  display : Nat
  ref : Nat
  capacity : Nat
  sweep : Nat
  minQty : Int
  cross : Nat
  state : Nat
  oldid : List Nat
  bbo : Nat
deriving DecidableEq, Repr

namespace ReplacedMsg

def TYPE : Nat := 85

def sizeof : Nat := 80

def ntoh (m : ReplacedMsg) : ReplacedMsg :=
  { m with
    tm := ntohll m.tm
    shares := ntohlInt m.shares
    price := ntohlInt m.price
    tif := ntohlInt m.tif
    ref := ntohll m.ref
    minQty := if m.minQty ≠ 0 then ntohlInt m.minQty else m.minQty }

def toBytes (m : ReplacedMsg) : List Nat :=
  [m.type] ++ le64 m.tm ++ m.newid ++ [m.side] ++ leI32 m.shares ++ m.symbol ++
    leI32 m.price ++ leI32 m.tif ++ m.firm ++ [m.display] ++ le64 m.ref ++
    [m.capacity, m.sweep] ++ leI32 m.minQty ++ [m.cross, m.state] ++ m.oldid ++ [m.bbo]

def ofBytes (w : List Nat) : ReplacedMsg :=
  { type := byteAt w 0, tm := getU64 w 1, newid := chars w 9 14, side := byteAt w 23,
    shares := getI32 w 24, symbol := chars w 28 8, price := getI32 w 36, tif := getI32 w 40,
    firm := chars w 44 4, display := byteAt w 48, ref := getU64 w 49, capacity := byteAt w 57,
    sweep := byteAt w 58, minQty := getI32 w 59, cross := byteAt w 63, state := byteAt w 64,
    oldid := chars w 65 14, bbo := byteAt w 79 }

end ReplacedMsg

/-- Struct `CanceledMsg` (28 bytes, type `'C'`). -/
structure CanceledMsg where
  type : Nat
  tm : Nat
  id : List Nat
  canceledShares : Int
  reason : Nat
deriving DecidableEq, Repr

namespace CanceledMsg

def TYPE : Nat := 67

def sizeof : Nat := 28

/-- Constructor `CanceledMsg(const CancelMsg& o)`.  The constructor does not initialise
`canceledShares`; `indeterminate` is the value the field happens to hold. -/
def ofCancel (o : CancelMsg) (indeterminate : Int) : CanceledMsg :=
  { type := TYPE, tm := 0, id := o.id, canceledShares := indeterminate, reason := 32 }

def ntoh (m : CanceledMsg) : CanceledMsg :=
  { m with
    tm := ntohll m.tm
    canceledShares := ntohlInt m.canceledShares }

def hton (m : CanceledMsg) : CanceledMsg :=
  { m with
    tm := htonll m.tm
    canceledShares := htonlInt m.canceledShares }

def toBytes (m : CanceledMsg) : List Nat :=
  [m.type] ++ le64 m.tm ++ m.id ++ leI32 m.canceledShares ++ [m.reason]

def ofBytes (w : List Nat) : CanceledMsg :=
  { type := byteAt w 0, tm := getU64 w 1, id := chars w 9 14, canceledShares := getI32 w 23,
    reason := byteAt w 27 }

end CanceledMsg

/-- Struct `AIQCanceledMsg` (37 bytes, type `'D'`). -/
structure AIQCanceledMsg where
  type : Nat
  tm : Nat
  id : List Nat
  canceledShares : Int
  reason : Nat
  execShares : Int
  execPx : Int
  liquidity : Nat
deriving DecidableEq, Repr

namespace AIQCanceledMsg

def TYPE : Nat := 68

def sizeof : Nat := 37

def ntoh (m : AIQCanceledMsg) : AIQCanceledMsg :=
  { m with
    tm := ntohll m.tm
    canceledShares := ntohlInt m.canceledShares
    execShares := ntohlInt m.execShares
    execPx := ntohlInt m.execPx }

def toBytes (m : AIQCanceledMsg) : List Nat :=
  [m.type] ++ le64 m.tm ++ m.id ++ leI32 m.canceledShares ++ [m.reason] ++
    leI32 m.execShares ++ leI32 m.execPx ++ [m.liquidity]

def ofBytes (w : List Nat) : AIQCanceledMsg :=
  { type := byteAt w 0, tm := getU64 w 1, id := chars w 9 14, canceledShares := getI32 w 23,
    reason := byteAt w 27, execShares := getI32 w 28, execPx := getI32 w 32,
    liquidity := byteAt w 36 }

end AIQCanceledMsg

/-- Struct `ExecMsg` (40 bytes, type `'E'`). -/
structure ExecMsg where
  type : Nat
  tm : Nat
  id : List Nat
  execShares : Int
  execPx : Int
  liquidity : Nat
  matchNum : Nat
deriving DecidableEq, Repr

namespace ExecMsg

def TYPE : Nat := 69

def sizeof : Nat := 40

def ntoh (m : ExecMsg) : ExecMsg :=
  { m with
    tm := ntohll m.tm
    execShares := ntohlInt m.execShares
    execPx := ntohlInt m.execPx
    matchNum := ntohll m.matchNum }

def toBytes (m : ExecMsg) : List Nat :=
  [m.type] ++ le64 m.tm ++ m.id ++ leI32 m.execShares ++ leI32 m.execPx ++ [m.liquidity] ++
    le64 m.matchNum

def ofBytes (w : List Nat) : ExecMsg :=
  { type := byteAt w 0, tm := getU64 w 1, id := chars w 9 14, execShares := getI32 w 23,
    execPx := getI32 w 27, liquidity := byteAt w 31, matchNum := getU64 w 32 }

end ExecMsg

/-- Struct `BrokenTradeMsg` (32 bytes, type `'B'`). -/
structure BrokenTradeMsg where
  type : Nat
  tm : Nat
  id : List Nat
  matchNum : Nat
  reason : Nat
deriving DecidableEq, Repr

namespace BrokenTradeMsg

def TYPE : Nat := 66

def sizeof : Nat := 32

def ntoh (m : BrokenTradeMsg) : BrokenTradeMsg :=
  { m with
    tm := ntohll m.tm
    matchNum := ntohll m.matchNum }

def toBytes (m : BrokenTradeMsg) : List Nat :=
  [m.type] ++ le64 m.tm ++ m.id ++ le64 m.matchNum ++ [m.reason]

def ofBytes (w : List Nat) : BrokenTradeMsg :=
  { type := byteAt w 0, tm := getU64 w 1, id := chars w 9 14, matchNum := getU64 w 23,
    reason := byteAt w 31 }

end BrokenTradeMsg

/-- Struct `RejectedMsg` (24 bytes, type `'J'`). -/
structure RejectedMsg where
  type : Nat
  tm : Nat
  id : List Nat
  reason : Nat
deriving DecidableEq, Repr

namespace RejectedMsg

def TYPE : Nat := 74

def sizeof : Nat := 24

def ntoh (m : RejectedMsg) : RejectedMsg := { m with tm := ntohll m.tm }

def toBytes (m : RejectedMsg) : List Nat := [m.type] ++ le64 m.tm ++ m.id ++ [m.reason]

def ofBytes (w : List Nat) : RejectedMsg :=
  { type := byteAt w 0, tm := getU64 w 1, id := chars w 9 14, reason := byteAt w 23 }

end RejectedMsg

/-- Struct `CancelPendingMsg` (23 bytes, type `'P'`). -/
structure CancelPendingMsg where
  type : Nat
  tm : Nat
  id : List Nat
deriving DecidableEq, Repr

namespace CancelPendingMsg

def TYPE : Nat := 80

def sizeof : Nat := 23

def ntoh (m : CancelPendingMsg) : CancelPendingMsg := { m with tm := ntohll m.tm }

def toBytes (m : CancelPendingMsg) : List Nat := [m.type] ++ le64 m.tm ++ m.id

def ofBytes (w : List Nat) : CancelPendingMsg :=
  { type := byteAt w 0, tm := getU64 w 1, id := chars w 9 14 }

end CancelPendingMsg

/-- Struct `CancelRejectMsg` (23 bytes, type `'I'`). -/
structure CancelRejectMsg where
  type : Nat
  tm : Nat
  id : List Nat
deriving DecidableEq, Repr

namespace CancelRejectMsg

def TYPE : Nat := 73

def sizeof : Nat := 23

def ntoh (m : CancelRejectMsg) : CancelRejectMsg := { m with tm := ntohll m.tm }

def toBytes (m : CancelRejectMsg) : List Nat := [m.type] ++ le64 m.tm ++ m.id

def ofBytes (w : List Nat) : CancelRejectMsg :=
  { type := byteAt w 0, tm := getU64 w 1, id := chars w 9 14 }

end CancelRejectMsg

/-- Struct `PriorityMsg` (36 bytes, type `'T'`). -/
structure PriorityMsg where
  type : Nat
  tm : Nat
  id : List Nat
  price : Int
  display : Nat
  ref : Nat
deriving DecidableEq, Repr

namespace PriorityMsg

def TYPE : Nat := 84

def sizeof : Nat := 36

def ntoh (m : PriorityMsg) : PriorityMsg :=
  { m with
    tm := ntohll m.tm
    price := ntohlInt m.price
    ref := ntohll m.ref }

def toBytes (m : PriorityMsg) : List Nat :=
  [m.type] ++ le64 m.tm ++ m.id ++ leI32 m.price ++ [m.display] ++ le64 m.ref

def ofBytes (w : List Nat) : PriorityMsg :=
  { type := byteAt w 0, tm := getU64 w 1, id := chars w 9 14, price := getI32 w 23,
    display := byteAt w 27, ref := getU64 w 28 }

end PriorityMsg

/-- Struct `ModifiedMsg` (28 bytes, type `'M'`). -/
structure ModifiedMsg where
  type : Nat
  tm : Nat
  id : List Nat
  side : Nat
  shares : Int
deriving DecidableEq, Repr

namespace ModifiedMsg

def TYPE : Nat := 77

def sizeof : Nat := 28

def ntoh (m : ModifiedMsg) : ModifiedMsg :=
  { m with
    tm := ntohll m.tm
    shares := ntohlInt m.shares }

def toBytes (m : ModifiedMsg) : List Nat :=
  [m.type] ++ le64 m.tm ++ m.id ++ [m.side] ++ leI32 m.shares

def ofBytes (w : List Nat) : ModifiedMsg :=
  { type := byteAt w 0, tm := getU64 w 1, id := chars w 9 14, side := byteAt w 23,
    shares := getI32 w 24 }

end ModifiedMsg

/-! ## Typed messages that can be sent -/

/-- What the template `Session::send<T>` uses of a message type `T`: `sizeof(T)`, the memory
image of a value and `T::hton`. -/
class OuchMsg (T : Type) where
  sizeof : Nat
  toBytes : T → List Nat
  hton : T → T

instance : OuchMsg OrderMsg := ⟨OrderMsg.sizeof, OrderMsg.toBytes, OrderMsg.hton⟩

instance : OuchMsg ReplaceMsg := ⟨ReplaceMsg.sizeof, ReplaceMsg.toBytes, ReplaceMsg.hton⟩

instance : OuchMsg CancelMsg := ⟨CancelMsg.sizeof, CancelMsg.toBytes, CancelMsg.hton⟩

instance : OuchMsg ModifyMsg := ⟨ModifyMsg.sizeof, ModifyMsg.toBytes, ModifyMsg.hton⟩

instance : OuchMsg AcceptedMsg := ⟨AcceptedMsg.sizeof, AcceptedMsg.toBytes, AcceptedMsg.hton⟩

instance : OuchMsg CanceledMsg := ⟨CanceledMsg.sizeof, CanceledMsg.toBytes, CanceledMsg.hton⟩

/-! ## SoupBinTCP packets -/

/-- Modelled from the spec: `soupbin3.hpp` is not among the sources; packet type of
sequenced data, `'S'` (table of packet types). -/
def SOUPBIN3_PACKET_SEQ_DATA : Nat := 83

/-- Modelled from the spec: `soupbin3.hpp` is not among the sources; packet type of login
accepted, `'A'`. -/
def SOUPBIN3_PACKET_LOGIN_ACCEPTED : Nat := 65

/-- Modelled from the spec: `soupbin3.hpp` is not among the sources; packet type of login
rejected, `'J'`. -/
def SOUPBIN3_PACKET_LOGIN_REJECTED : Nat := 74

/-- Modelled from the spec: `soupbin3.hpp` is not among the sources; packet type of the
server heartbeat, `'H'`. -/
def SOUPBIN3_PACKET_SERVER_HEARTBEAT : Nat := 72

/-- Modelled from the spec: `soupbin3.hpp` is not among the sources; packet type of end of
session, `'Z'`. -/
def SOUPBIN3_PACKET_END_OF_SESSION : Nat := 90

/-- Modelled from the spec: `soupbin3.hpp` is not among the sources; packet type of the
client heartbeat, `'R'`. -/
def SOUPBIN3_PACKET_CLIENT_HEARTBEAT : Nat := 82

/-- Modelled from the spec: `soupbin3.hpp` is not among the sources; packet type of the
login request, `'L'`. -/
def SOUPBIN3_PACKET_LOGIN_REQUEST : Nat := 76

/-- Modelled from the spec: `soupbin3.hpp` is not among the sources; packet type of
unsequenced data, `'U'`. -/
def SOUPBIN3_PACKET_UNSEQ_DATA : Nat := 85

/-- Modelled from the spec: `soupbin3.hpp` is not among the sources; `sizeof(soupbin3_packet)`,
the header of a 16-bit length and a type byte. -/
def soupbin3_packet.sizeof : Nat := 3

/-- Modelled from the spec: `soupbin3.hpp` is not among the sources; size of the login
accepted packet: header, 10-byte session, 20-byte sequence number. -/
def soupbin3_packet_login_accepted.sizeof : Nat := 33

/-- Modelled from the spec: `soupbin3.hpp` is not among the sources; size of the login
rejected packet: header and one reason byte. -/
def soupbin3_packet_login_rejected.sizeof : Nat := 4

/-- Modelled from the spec: `soupbin3.hpp` is not among the sources; size of the server
heartbeat packet (empty body). -/
def soupbin3_packet_server_heartbeat.sizeof : Nat := 3

/-- Modelled from the spec: `soupbin3.hpp` is not among the sources; size of the end of
session packet (empty body). -/
def soupbin3_packet_end_of_session.sizeof : Nat := 3

/-- Modelled from the spec: `soupbin3.hpp` is not among the sources; size of the client
heartbeat packet (empty body). -/
def soupbin3_packet_client_heartbeat.sizeof : Nat := 3

/-- Modelled from the spec: `soupbin3.hpp` is not among the sources; size of the login
request packet: header, 6-byte username, 10-byte password, 10-byte requested session,
20-byte requested sequence number. -/
def soupbin3_packet_login_request.sizeof : Nat := 49

/-- Modelled from the spec: `soupbin3.hpp` is not among the sources; offset of the field
`SequenceNumber` in the login accepted packet (after the header and the 10-byte session). -/
def soupbin3_packet_login_accepted.SequenceNumber : Nat := 13

/-- Memory image of a `uint16_t`. -/
def le16 (x : Nat) : List Nat := [x % 256, x / 256 % 256]

/-- The bytes of an ASCII text. -/
def str (s : String) : List Nat := s.toList.map Char.toNat

/-- The C string that starts at the beginning of `bs`: the bytes before the first NUL. -/
def cstr (bs : List Nat) : List Nat := bs.takeWhile (fun c => c != 0)

/-- Decimal digits of `n`, most significant first, consed onto `acc`. -/
def utoaAux : Nat → Nat → List Nat → List Nat
  | 0, _, acc => acc
  | fuel + 1, n, acc =>
    if n < 10 then (48 + n) :: acc else utoaAux fuel (n / 10) ((48 + n % 10) :: acc)

/-- Decimal text of a natural number. -/
def utoa (n : Nat) : List Nat := utoaAux (n + 1) n []

/-- Conversion `%d` of `printf`: decimal text of an `int`. -/
def fmtInt (v : Int) : List Nat := if v < 0 then 45 :: utoa v.natAbs else utoa v.toNat

/-- Function `lpadStr(dest, destLen, src)` of `session.cpp`. -/
def lpadStr (destLen : Nat) (src : List Nat) : List Nat :=
  if src.length < destLen then
    List.replicate (destLen - src.length) 32 ++ strncpy src src.length
  else strncpy src destLen

/-- Arithmetic of the type `int` as the target performs it (two's complement wrap-around). -/
def wrapInt32 (v : Int) : Int := toI32 (toU32 v)

/-! ## Message store -/

/-- Class `MemoryStore`: the stored messages by sequence number and the two counters. -/
structure MemoryStore where
  messages : List (Int × List Nat)
  nextSenderMsgSeqNum : Int
  nextTargetMsgSeqNum : Int

namespace MemoryStore

/-- Constructor `MemoryStore()`. -/
def new : MemoryStore := { messages := [], nextSenderMsgSeqNum := 1, nextTargetMsgSeqNum := 1 }

def getNextSenderMsgSeqNum (st : MemoryStore) : Int := st.nextSenderMsgSeqNum

def getNextTargetMsgSeqNum (st : MemoryStore) : Int := st.nextTargetMsgSeqNum

def setNextSenderMsgSeqNum (st : MemoryStore) (value : Int) : MemoryStore :=
  { st with nextSenderMsgSeqNum := value }

def setNextTargetMsgSeqNum (st : MemoryStore) (value : Int) : MemoryStore :=
  { st with nextTargetMsgSeqNum := value }

def incrNextSenderMsgSeqNum (st : MemoryStore) : MemoryStore :=
  { st with nextSenderMsgSeqNum := wrapInt32 (st.nextSenderMsgSeqNum + 1) }

def incrNextTargetMsgSeqNum (st : MemoryStore) : MemoryStore :=
  { st with nextTargetMsgSeqNum := wrapInt32 (st.nextTargetMsgSeqNum + 1) }

end MemoryStore

/-! ## Session -/

inductive SessionState
  | st_none
  | st_session_terminated
  | st_logon_sent
  | st_logon_received
  | st_logoff_sent
deriving DecidableEq, Repr

/-- The socket options the sessions read and set. -/
inductive SockOpt
  | SO_RCVBUF
  | SO_SNDBUF
  | TCP_NODELAY
deriving DecidableEq, Repr

/-- What a session does to its collaborators, in the order of the calls. -/
inductive Effect
  /-- `Log::onEvent` with the text formatted by `Session::event`. -/
  | event (text : List Nat)
  /-- `Log::onIncoming(msg, len)`; `msg` is recorded as the bytes of the packet body. -/
  | onIncoming (msg : List Nat) (len : Nat)
  /-- `Log::onOutgoing(msg, len)`. -/
  | onOutgoing (msg : List Nat) (len : Nat)
  /-- `App::fromApp(*msg, session)`; `msg` is recorded as the bytes of the packet body. -/
  | fromApp (msg : List Nat)
  /-- `App::onLogon`. -/
  | onLogon
  /-- `App::onLogout`. -/
  | onLogout
  /-- `rm_fd` on the input poller (`false`) or on the output poller (`true`). -/
  | rm_fd (out : Bool)
  /-- `closeSock(fd)`. -/
  | closeSock (fd : Int)
  /-- `set_pollout` on the output poller. -/
  | set_pollout
  /-- A failed `assert`: the process is aborted. -/
  | abort
  /-- `createClientSock(host, port)`: a socket is made and connected to the host. -/
  | createClientSock (host : List Nat) (port : Int)
  /-- `setNonBlocking(fd)`. -/
  | setNonBlocking (fd : Int)
  /-- `add_fd(fd, this)` on the input poller (`false`) or on the output poller (`true`). -/
  | add_fd (out : Bool) (fd : Int)
  /-- `set_pollin` on the input poller. -/
  | set_pollin
  /-- `setSockOpt(fd, opt, optval)`. -/
  | setSockOpt (fd : Int) (opt : SockOpt) (optval : Int)
  /-- `reset_pollout` on the output poller. -/
  | reset_pollout
deriving DecidableEq, Repr

/-- Struct `Session::Buffer`: the receive buffer.  `data` is the content of the array (and of
the memory after it) by offset. -/
structure Buffer where
  data : Nat → Nat
  start : Nat
  len : Nat

namespace Buffer

def FIX_MAX_MESSAGE_SIZE : Nat := 1024

def cap : Nat := 1048576

def reset (b : Buffer) : Buffer := { b with start := 0, len := 0 }

def full (b : Buffer) : Bool := b.start + b.len + FIX_MAX_MESSAGE_SIZE > cap

/-- Method `remaining`: `cap - start - len` in `size_t` arithmetic. -/
def remaining (b : Buffer) : Nat :=
  (((cap : Int) - b.start - b.len) % 18446744073709551616).toNat

/-- Method `advance`; it is called with `n ≤ len` only. -/
def advance (b : Buffer) (n : Nat) : Buffer := { b with start := b.start + n, len := b.len - n }

/-- Method `compact`: `memmove(data, data + start, len); start = 0`. -/
def compact (b : Buffer) : Buffer :=
  { b with data := fun j => if j < b.len then b.data (b.start + j) else b.data j, start := 0 }

/-- Offset of `begin()`. -/
def begin (b : Buffer) : Nat := b.start

/-- Offset of `end()`. -/
def end_ (b : Buffer) : Nat := b.begin + b.len

end Buffer

/-- The `n` bytes of memory from offset `p`. -/
def readMem (d : Nat → Nat) (p n : Nat) : List Nat := (List.range n).map (fun i => d (p + i))

/-- Memory after the bytes `bs` are stored from offset `p`. -/
def writeMem (d : Nat → Nat) (p : Nat) (bs : List Nat) : Nat → Nat :=
  fun j => if p ≤ j ∧ j < p + bs.length then bs.getD (j - p) 0 else d j

/-- Call `((T*)p)->ntoh()` on memory: the struct of `size` bytes at `p` is converted in
place by `f`, the conversion of `T` on memory images. -/
def ntohAt (d : Nat → Nat) (p size : Nat) (f : List Nat → List Nat) : Nat → Nat :=
  writeMem d p (f (readMem d p size))

/-- Class `Session`, the fields its protocol engine uses.  `outpipe` is the content of the
outbound pipe (bytes pushed and not yet popped), `sharedPoll` is `_poll == _outpoll`, `timer`
is the last `setTimer(_tfd, value, interval)`, `trace` the calls made so far. -/
structure Session where
  isClient : Bool
  reconnectInterval : Int
  fd : Int
  state : SessionState
  store : MemoryStore
  outpipe : List Nat
  rxbuf : Buffer
  rxtm : Nat
  txtm : Nat
  sharedPoll : Bool
  timer : Int × Int
  trace : List Effect

/-- Result of `read(fd, buf, count)`: the bytes the socket has ready (the call returns at
most `count` of them; none is end of stream) or failure with `errno`.  `errno` is also given
in the first case, where the call leaves it as it was. -/
inductive ReadResult
  | data (bytes : List Nat) (errno : Int)
  | error (errno : Int)

def EAGAIN : Int := 11

def EINTR : Int := 4

/-- How the body of the loop of `in_event` is left: `next` by `break` out of the `switch`
(the packet is then consumed), `ret` by `return` or by a failed `assert`. -/
inductive Step
  | next (s : Session)
  | ret (s : Session)

namespace Session

def getExpectedSenderNum (s : Session) : Int := s.store.getNextSenderMsgSeqNum

def getExpectedTargetNum (s : Session) : Int := s.store.getNextTargetMsgSeqNum

def isLoggedOn (s : Session) : Bool := s.state = SessionState.st_logon_received

def incrNextTargetMsgSeqNum (s : Session) : Session :=
  { s with store := s.store.incrNextTargetMsgSeqNum }

def setNextTargetMsgSeqNum (s : Session) (n : Int) : Session :=
  { s with store := s.store.setNextTargetMsgSeqNum n }

def emit (s : Session) (e : Effect) : Session := { s with trace := s.trace ++ [e] }

/-- Method `event(format, ...)`: the text is formatted into `char buf[256]`, which holds its
first 255 bytes and a NUL, and the array is handed to `Log::onEvent(const char*)`, which takes
the text up to the first NUL in it. -/
def event (s : Session) (text : List Nat) : Session :=
  s.emit (Effect.event (cstr (text.take 255)))

/-- Method `close`. -/
def close (s : Session) : Session :=
  let s := s.event (str "Disconnecting")
  let s := s.emit Effect.onLogout
  let s := s.emit (Effect.rm_fd false)
  let s := if s.sharedPoll then s else s.emit (Effect.rm_fd true)
  let s := s.emit (Effect.closeSock s.fd)
  { s with
    rxbuf := s.rxbuf.reset
    outpipe := []
    timer := (if s.isClient then s.reconnectInterval else 0, 0)
    fd := -1
    state := SessionState.st_session_terminated }

/-- Method `send(void* data, size_t len)`. -/
def sendBytes (s : Session) (data : List Nat) (now : Nat) : Session :=
  if s.fd < 0 then s
  else ({ s with txtm := now, outpipe := s.outpipe ++ data }).emit Effect.set_pollout

/-- The array `packet` that `send<T>` builds. -/
def packet {T : Type} [OuchMsg T] (isClient : Bool) (msg : T) : List Nat :=
  le16 (htons (OuchMsg.sizeof T + 1)) ++ [if isClient then 85 else 83] ++
    OuchMsg.toBytes (OuchMsg.hton msg)

/-- Template `send<T>(const T& msg)`. -/
def send {T : Type} [OuchMsg T] (s : Session) (msg : T) (now : Nat) : Session :=
  let s := s.sendBytes (packet s.isClient msg) now
  s.emit (Effect.onOutgoing (OuchMsg.toBytes msg) (OuchMsg.sizeof T))

end Session

/-- The packet length the loop of `in_event` computes,
`unsigned len = 2 + (start[1] | start[0] << 8)`, from the two bytes `b0 = start[0]` and
`b1 = start[1]`; `start` is a `char*`, so both operands are promoted from `char`. -/
def pktLen (b0 b1 : Nat) : Nat :=
  (2 + (toU32 (toSChar b1) ||| toU32 (toSChar b0 * 256))) % 4294967296

/-- The loop over `msg->SequenceNumber` of the login accepted arm. -/
def parseSeqNum (field : List Nat) : Int :=
  field.foldl (fun n c => if c = 32 then n else wrapInt32 (n * 10 + (toSChar c - 48))) 0

/-- The cases of the inner `switch (msg->type)` of the sequenced data arm: for the tag `t`,
`sizeof(T)` of the message type `T` the case casts `msg` to and `T::ntoh` on memory images;
`none` is the `default` arm. -/
def seqDataCase (t : Nat) : Option (Nat × (List Nat → List Nat)) :=
  if t = AcceptedMsg.TYPE then
    some (AcceptedMsg.sizeof, fun w => (AcceptedMsg.ofBytes w).ntoh.toBytes)
  else if t = ReplacedMsg.TYPE then
    some (ReplacedMsg.sizeof, fun w => (ReplacedMsg.ofBytes w).ntoh.toBytes)
  else if t = CanceledMsg.TYPE then
    some (CanceledMsg.sizeof, fun w => (CanceledMsg.ofBytes w).ntoh.toBytes)
  else if t = AIQCanceledMsg.TYPE then
    some (AIQCanceledMsg.sizeof, fun w => (AIQCanceledMsg.ofBytes w).ntoh.toBytes)
  else if t = ExecMsg.TYPE then
    some (ExecMsg.sizeof, fun w => (ExecMsg.ofBytes w).ntoh.toBytes)
  else if t = BrokenTradeMsg.TYPE then
    some (BrokenTradeMsg.sizeof, fun w => (BrokenTradeMsg.ofBytes w).ntoh.toBytes)
  else if t = RejectedMsg.TYPE then
    some (RejectedMsg.sizeof, fun w => (RejectedMsg.ofBytes w).ntoh.toBytes)
  else if t = CancelPendingMsg.TYPE then
    some (CancelPendingMsg.sizeof, fun w => (CancelPendingMsg.ofBytes w).ntoh.toBytes)
  else if t = CancelRejectMsg.TYPE then
    some (CancelRejectMsg.sizeof, fun w => (CancelRejectMsg.ofBytes w).ntoh.toBytes)
  else if t = PriorityMsg.TYPE then
    some (PriorityMsg.sizeof, fun w => (PriorityMsg.ofBytes w).ntoh.toBytes)
  else if t = ModifiedMsg.TYPE then
    some (ModifiedMsg.sizeof, fun w => (ModifiedMsg.ofBytes w).ntoh.toBytes)
  else if t = SysMsg.TYPE then
    some (SysMsg.sizeof, fun w => (SysMsg.ofBytes w).ntoh.toBytes)
  else none

/-- The flag `countseq` after the inner `switch` of the sequenced data arm: it is cleared in
the case of `RejectedMsg` when, after `ntoh`, `m->reason == 'T'`.  `d1` is the memory after
the conversion. -/
def countseq (d1 : Nat → Nat) (msg : Nat) (t : Nat) : Bool :=
  if t = RejectedMsg.TYPE ∧ (RejectedMsg.ofBytes (readMem d1 msg RejectedMsg.sizeof)).reason = 84
  then false else true

/-- The cases of the inner `switch (msg->type)` of the unsequenced data arm (`OrderMsg`,
`ReplaceMsg` and `CancelMsg`; the `switch` has no `default`). -/
def unseqDataCase (t : Nat) : Option (Nat × (List Nat → List Nat)) :=
  if t = OrderMsg.TYPE then
    some (OrderMsg.sizeof, fun w => (OrderMsg.ofBytes w).ntoh.toBytes)
  else if t = ReplaceMsg.TYPE then
    some (ReplaceMsg.sizeof, fun w => (ReplaceMsg.ofBytes w).ntoh.toBytes)
  else if t = CancelMsg.TYPE then
    some (CancelMsg.sizeof, fun w => (CancelMsg.ofBytes w).ntoh.toBytes)
  else none

/-- The inner `switch (msg->type)` of the unsequenced data arm: the memory after it. -/
def unseqDataNtoh (d : Nat → Nat) (msg : Nat) : Nat → Nat :=
  match unseqDataCase (d msg) with
  | some (size, f) => ntohAt d msg size f
  | none => d

/-- The login accepted packet that the login request arm builds. -/
def loginAcceptedPacket (senderNum : Int) : List Nat :=
  le16 (htons (soupbin3_packet_login_accepted.sizeof - 2)) ++ [SOUPBIN3_PACKET_LOGIN_ACCEPTED] ++
    List.replicate 10 32 ++ lpadStr 20 (fmtInt senderNum)

/-- The login request packet that `logon` builds for the expected target sequence number
`targetNum`.  Modelled from the spec for the order of the fields (`soupbin3.hpp` is not among
the sources): username, password, requested session, requested sequence number. -/
def loginRequestPacket (username password : List Nat) (targetNum : Int) : List Nat :=
  le16 (htons (soupbin3_packet_login_request.sizeof - 2)) ++ [SOUPBIN3_PACKET_LOGIN_REQUEST] ++
    rpadStr 6 username ++ rpadStr 10 password ++ List.replicate 10 32 ++
    lpadStr 20 (fmtInt targetNum)

/-- An `assert(c)` followed by the way `k` the arm is left. -/
def assertThen (c : Bool) (s : Session) (k : Session → Step) : Step :=
  if c then k s else Step.ret (s.emit Effect.abort)

/-- The `switch (start[2])` of `in_event` for a packet of length `len > 2` at the head of the
receive buffer. -/
def handlePacket (s : Session) (len : Nat) (now : Nat) : Step :=
  let start := s.rxbuf.begin
  let d := s.rxbuf.data
  let msg := start + 3
  let ty := d (start + 2)
  if ty = SOUPBIN3_PACKET_SEQ_DATA then
    match seqDataCase (d msg) with
    | none => Step.ret ((s.event (str "unknown OUCH message type " ++ [d msg])).close)
    | some (size, f) =>
      let d1 := ntohAt d msg size f
      let s := { s with rxbuf := { s.rxbuf with data := d1 } }
      let s := s.emit (Effect.onIncoming (readMem d1 msg (len - 3)) len)
      let s := s.emit (Effect.fromApp (readMem d1 msg (len - 3)))
      Step.next (if countseq d1 msg (d msg) then s.incrNextTargetMsgSeqNum else s)
  else if ty = SOUPBIN3_PACKET_LOGIN_ACCEPTED then
    let s := s.event (str "Login accepted: " ++
      cstr (readMem d (start + 3) (soupbin3_packet_login_accepted.sizeof - 3)))
    let n := parseSeqNum (readMem d (start + soupbin3_packet_login_accepted.SequenceNumber) 20)
    let s := if n ≠ s.getExpectedTargetNum then s.setNextTargetMsgSeqNum n else s
    let s := { s with state := SessionState.st_logon_received }
    let s := s.emit Effect.onLogon
    assertThen (len = soupbin3_packet_login_accepted.sizeof) s Step.next
  else if ty = SOUPBIN3_PACKET_LOGIN_REJECTED then
    let s := s.event (str "Login rejected: " ++ [d (start + 3)])
    let s := s.close
    assertThen (len = soupbin3_packet_login_rejected.sizeof) s Step.ret
  else if ty = SOUPBIN3_PACKET_SERVER_HEARTBEAT then
    assertThen (len = soupbin3_packet_server_heartbeat.sizeof) s Step.next
  else if ty = SOUPBIN3_PACKET_END_OF_SESSION then
    let s := s.event (str "End of session by peer")
    let s := s.close
    assertThen (len = soupbin3_packet_end_of_session.sizeof) s Step.ret
  else if ty = SOUPBIN3_PACKET_CLIENT_HEARTBEAT then
    assertThen (len = soupbin3_packet_client_heartbeat.sizeof) s Step.next
  else if ty = SOUPBIN3_PACKET_LOGIN_REQUEST then
    let s := s.event (str "Received logon request: " ++
      cstr (readMem d (start + 3) (soupbin3_packet_login_request.sizeof - 3)))
    let s := s.sendBytes (loginAcceptedPacket s.getExpectedSenderNum) now
    assertThen (len = soupbin3_packet_login_request.sizeof) s Step.next
  else if ty = SOUPBIN3_PACKET_UNSEQ_DATA then
    let d1 := unseqDataNtoh d msg
    let s := { s with rxbuf := { s.rxbuf with data := d1 } }
    let s := s.emit (Effect.onIncoming (readMem d1 msg (len - 3)) len)
    let s := s.emit (Effect.fromApp (readMem d1 msg (len - 3)))
    Step.next s
  else Step.next s

/-- The loop `while (_rxbuf.len > 2)` of `in_event`, run for at most `fuel` iterations;
`none` when the loop has not ended by then. -/
def drain : Nat → Session → Nat → Option Session
  | 0, _, _ => none
  | fuel + 1, s, now =>
    if s.rxbuf.len > 2 then
      let len := pktLen (s.rxbuf.data s.rxbuf.begin) (s.rxbuf.data (s.rxbuf.begin + 1))
      if len ≤ s.rxbuf.len then
        if len > 2 then
          match handlePacket s len now with
          | Step.ret s1 => some s1
          | Step.next s1 => drain fuel { s1 with rxbuf := s1.rxbuf.advance len } now
        else drain fuel { s with rxbuf := s.rxbuf.advance len } now
      else some s
    else some s

/-- Method `Session::in_event(fd)`.  `rd` is what `read` meets on the socket and `now` the
reading of the clock during the call.  The result is `none` when the loop over the packets
never ends: an iteration either consumes at least one byte of the buffer, so that
`len + 1` iterations are enough for every run that ends, or it computes the length 0 and
leaves the session as it found it. -/
def Session.in_event (s : Session) (rd : ReadResult) (now : Nat) : Option Session :=
  let s := if s.rxbuf.full then { s with rxbuf := s.rxbuf.compact } else s
  match rd with
  | ReadResult.data bytes errno =>
    let got := bytes.take s.rxbuf.remaining
    if got.length > 0 then
      let s := { s with
        rxtm := now
        rxbuf := { s.rxbuf with
          data := writeMem s.rxbuf.data s.rxbuf.end_ got
          len := s.rxbuf.len + got.length } }
      drain (s.rxbuf.len + 1) s now
    else
      some ((s.event (str "Connection reset by peer: nr=" ++ fmtInt 0 ++ str " errno=" ++
        fmtInt errno)).close)
  | ReadResult.error errno =>
    if errno ≠ EAGAIN ∧ errno ≠ EINTR then
      some ((s.event (str "Connection reset by peer: nr=" ++ fmtInt (-1) ++ str " errno=" ++
        fmtInt errno)).close)
    else some s

/-! ## Notions used to state the properties -/

/-- The session a `Step` ends in. -/
def Step.session : Step → Session
  | Step.next s => s
  | Step.ret s => s

/-- A session without its receive buffer and its two time stamps: the fields by which the
handling of packets is observed (trace, counters, state, socket, pipe, timer). -/
def Session.core (s : Session) : Session :=
  { s with rxbuf := { data := fun _ => 0, start := 0, len := 0 }, rxtm := 0, txtm := 0 }

/-- The bytes the receive buffer holds. -/
def Buffer.pending (b : Buffer) : List Nat := readMem b.data b.start b.len

/-- One run of the `switch` of `in_event` on the packet `p` alone, placed at the start of
the receive buffer of `c`. -/
def dispatch (c : Session) (p : List Nat) : Session :=
  (handlePacket
    { c with rxbuf := { data := fun i => p.getD i 0, start := 0, len := p.length } }
    p.length 0).session.core

/-- A packet as the loop of `in_event` delimits it (its length is the one computed from its
first two bytes, at least 3) that is well formed and does not close the session: the body of
a sequenced data packet is exactly one message of a known type, the body of an unsequenced
data packet is not empty and is exactly one message when its type is converted, a login
accepted, login request or heartbeat packet has its fixed size, and the packet is neither a
login rejected nor an end of session packet. -/
def wellFormed (p : List Nat) : Bool :=
  decide (3 ≤ p.length) && decide (pktLen (p.getD 0 0) (p.getD 1 0) = p.length) &&
  (if p.getD 2 0 = SOUPBIN3_PACKET_SEQ_DATA then
    match seqDataCase (p.getD 3 0) with
    | some (size, _) => decide (p.length = size + 3)
    | none => false
  else if p.getD 2 0 = SOUPBIN3_PACKET_UNSEQ_DATA then
    match unseqDataCase (p.getD 3 0) with
    | some (size, _) => decide (p.length = size + 3)
    | none => decide (4 ≤ p.length)
  else if p.getD 2 0 = SOUPBIN3_PACKET_LOGIN_ACCEPTED then
    decide (p.length = soupbin3_packet_login_accepted.sizeof)
  else if p.getD 2 0 = SOUPBIN3_PACKET_LOGIN_REQUEST then
    decide (p.length = soupbin3_packet_login_request.sizeof)
  else if p.getD 2 0 = SOUPBIN3_PACKET_SERVER_HEARTBEAT then
    decide (p.length = soupbin3_packet_server_heartbeat.sizeof)
  else if p.getD 2 0 = SOUPBIN3_PACKET_CLIENT_HEARTBEAT then
    decide (p.length = soupbin3_packet_client_heartbeat.sizeof)
  else decide (p.getD 2 0 ≠ SOUPBIN3_PACKET_LOGIN_REJECTED ∧
    p.getD 2 0 ≠ SOUPBIN3_PACKET_END_OF_SESSION))

/-- Successive calls of `in_event`, one per read of the socket; a read is given by the bytes
it returns and the reading of the clock. -/
def feed (s : Session) (errno : Int) : List (List Nat × Nat) → Option Session
  | [] => some s
  | rd :: rest =>
    (s.in_event (ReadResult.data rd.1 errno) rd.2).bind (fun s1 => feed s1 errno rest)

/-- Frame of the handling of a packet of `len` bytes at the head of the receive buffer: the
buffer keeps its bounds and every byte outside the packet. -/
def Session.frame (len : Nat) (s s1 : Session) : Prop :=
  s1.rxbuf.start = s.rxbuf.start ∧ s1.rxbuf.len = s.rxbuf.len ∧ s1.rxtm = s.rxtm ∧
  ∀ j, (j < s.rxbuf.start ∨ s.rxbuf.start + len ≤ j) → s1.rxbuf.data j = s.rxbuf.data j

/-- A content of the receive buffer at which the loop of `in_event` stops: fewer than three
bytes, or a first packet longer than the content. -/
def stalls (t : List Nat) : Prop :=
  t.length ≤ 2 ∨ t.length < pktLen (t.getD 0 0) (t.getD 1 0)

/-- The number of bytes the `read` of `in_event` asks for: `remaining()` after the
compaction at the start of the call. -/
def Session.room (s : Session) : Nat :=
  (if s.rxbuf.full then s.rxbuf.compact else s.rxbuf).remaining

/-- The fields of a `OrderMsg` fit their types: the sizes of the `char` arrays and the ranges
of the integers. -/
def OrderMsg.WF (x : OrderMsg) : Prop :=
  x.id.length = 14 ∧ isInt32 x.shares ∧ x.symbol.length = 8 ∧ isInt32 x.price ∧ isInt32 x.tif ∧ x.firm.length = 4 ∧ isInt32 x.minQty

instance (x : OrderMsg) : Decidable x.WF := by unfold OrderMsg.WF; infer_instance

/-- The fields of a `AcceptedMsg` fit their types: the sizes of the `char` arrays and the ranges
of the integers. -/
def AcceptedMsg.WF (x : AcceptedMsg) : Prop :=
  x.tm < 18446744073709551616 ∧ x.id.length = 14 ∧ isInt32 x.shares ∧ x.symbol.length = 8 ∧ isInt32 x.price ∧ isInt32 x.tif ∧ x.firm.length = 4 ∧ x.ref < 18446744073709551616 ∧ isInt32 x.minQty

instance (x : AcceptedMsg) : Decidable x.WF := by unfold AcceptedMsg.WF; infer_instance


/-- The fields of a `ReplaceMsg` fit their types: the sizes of the `char` arrays and the ranges
of the integers. -/
def ReplaceMsg.WF (x : ReplaceMsg) : Prop :=
  x.oldid.length = 14 ∧ x.newid.length = 14 ∧ isInt32 x.shares ∧ isInt32 x.price ∧ isInt32 x.tif ∧ isInt32 x.minQty

instance (x : ReplaceMsg) : Decidable x.WF := by unfold ReplaceMsg.WF; infer_instance

/-- The fields of a `CancelMsg` fit their types: the sizes of the `char` arrays and the ranges
of the integers. -/
def CancelMsg.WF (x : CancelMsg) : Prop :=
  x.id.length = 14 ∧ isInt32 x.shares

instance (x : CancelMsg) : Decidable x.WF := by unfold CancelMsg.WF; infer_instance

/-- The fields of a `ModifyMsg` fit their types: the sizes of the `char` arrays and the ranges
of the integers. -/
def ModifyMsg.WF (x : ModifyMsg) : Prop :=
  x.id.length = 14 ∧ isInt32 x.shares

instance (x : ModifyMsg) : Decidable x.WF := by unfold ModifyMsg.WF; infer_instance

/-- The fields of a `CanceledMsg` fit their types: the sizes of the `char` arrays and the ranges
of the integers. -/
def CanceledMsg.WF (x : CanceledMsg) : Prop :=
  x.tm < 18446744073709551616 ∧ x.id.length = 14 ∧ isInt32 x.canceledShares

instance (x : CanceledMsg) : Decidable x.WF := by unfold CanceledMsg.WF; infer_instance


/-- Big-endian image of an `int`. -/
def beI32 (v : Int) : List Nat := be32 (toU32 v)

/-- A session as `start` leaves it on socket 5 right after its construction, with an empty
receive buffer and pipe and a `MemoryStore`; used as a concrete instance. -/
def Session.example (isClient : Bool) : Session :=
  { isClient := isClient, reconnectInterval := 15, fd := 5, state := SessionState.st_none,
    store := MemoryStore.new, outpipe := [], rxbuf := { data := fun _ => 0, start := 0, len := 0 },
    rxtm := 0, txtm := 0, sharedPoll := true, timer := (1, 1), trace := [] }

/-- The tags of the inner `switch` of the sequenced data arm: A, U, C, D, E, B, J, P, I, T, M,
S. -/
def knownTags : List Nat := [65, 85, 67, 68, 69, 66, 74, 80, 73, 84, 77, 83]

/-- The order that the test program sends: id `12345`, side `B`, 100 shares of `MSFT` at the
price 123400, default firm and display. -/
def OrderMsg.example : OrderMsg :=
  OrderMsg.new [49, 50, 51, 52, 53] 66 100 [77, 83, 70, 84] 123400 [] 32

/-- The session `s` with the bytes `p` alone in its receive buffer, from the start of it. -/
def Session.holding (s : Session) (p : List Nat) : Session :=
  { s with rxbuf := { data := fun i => p.getD i 0, start := 0, len := p.length } }

/-! ## The stores -/

/-- Assignment `m[k] = v` on a `std::map<int, T>`, kept as the list of its entries in
ascending order of the keys. -/
def mapSet {α : Type} (m : List (Int × α)) (k : Int) (v : α) : List (Int × α) :=
  match m with
  | [] => [(k, v)]
  | (k1, v1) :: rest =>
    if k < k1 then (k, v) :: (k1, v1) :: rest
    else if k = k1 then (k, v) :: rest
    else (k1, v1) :: mapSet rest k v

/-- Call `m.find(k)` on a `std::map<int, T>`: the entry of key `k` with the entries an
iterator meets after it, nothing for `end()`. -/
def mapFind {α : Type} (m : List (Int × α)) (k : Int) : List (Int × α) :=
  match m with
  | [] => []
  | (k1, v1) :: rest => if k1 = k then (k1, v1) :: rest else mapFind rest k

/-- Method `MemoryStore::set(data, len)`: the value returned and the store. -/
def MemoryStore.set (st : MemoryStore) (data : List Nat) : Bool × MemoryStore :=
  (true, { st with messages := mapSet st.messages st.getNextSenderMsgSeqNum data })

/-- Method `MemoryStore::get(begin, end, messages)`: the content of `messages` afterwards. -/
def MemoryStore.get (st : MemoryStore) (b e : Int) : List (List Nat) :=
  ((mapFind st.messages b).takeWhile (fun x => decide (x.1 ≤ e))).map Prod.snd

/-- Function `isspace` of the C locale. -/
def isspace (c : Nat) : Bool := c == 32 || (decide (9 ≤ c) && decide (c ≤ 13))

/-- Function `isdigit`. -/
def isdigit (c : Nat) : Bool := decide (48 ≤ c) && decide (c ≤ 57)

/-- The number a string of decimal digits denotes. -/
def digitsValue (ds : List Nat) : Nat := ds.foldl (fun n c => n * 10 + (c - 48)) 0

/-- Conversion `%d` of `fscanf`: white space is skipped, then an optional sign and the
longest run of digits are read; the value and the rest of the input, or `none` when no digit
is there.  The value is the number written, which is what `fscanf` stores for a text in the
range of `int`. -/
def scanInt (inp : List Nat) : Option (Int × List Nat) :=
  let inp := inp.dropWhile isspace
  let neg : Bool := inp.head? == some 45
  let inp := if inp.head? == some 45 || inp.head? == some 43 then inp.tail else inp
  let ds := inp.takeWhile isdigit
  if ds.isEmpty then none
  else some (if neg then -(digitsValue ds : Int) else (digitsValue ds : Int),
    inp.dropWhile isdigit)

/-- An ordinary character `c` in a format of `fscanf`: the next character has to be `c`. -/
def scanLit (c : Nat) (inp : List Nat) : Option (List Nat) :=
  match inp with
  | [] => none
  | x :: rest => if x = c then some rest else none

/-- A space in a format of `fscanf`: any amount of white space is skipped. -/
def scanSpace (inp : List Nat) : List Nat := inp.dropWhile isspace

/-- One call `fscanf(headerFile, "%d,%d,%d ", &num, &offset, &size)` that returns 3: the
three numbers and the rest of the input. -/
def scanHeaderEntry (inp : List Nat) : Option ((Int × Int × Int) × List Nat) :=
  (scanInt inp).bind fun (num, r) =>
  (scanLit 44 r).bind fun r =>
  (scanInt r).bind fun (offset, r) =>
  (scanLit 44 r).bind fun r =>
  (scanInt r).bind fun (size, r) =>
  some ((num, offset, size), scanSpace r)

/-- The loop `while (fscanf(...) == 3) _offsets[num] = std::make_pair(offset, size)` of
`populateCache`, run for at most `fuel` iterations. -/
def scanHeader : Nat → List Nat → List (Int × (Int × Int)) → List (Int × (Int × Int))
  | 0, _, m => m
  | fuel + 1, inp, m =>
    match scanHeaderEntry inp with
    | none => m
    | some ((num, offset, size), rest) => scanHeader fuel rest (mapSet m num (offset, size))

/-- Call `fscanf(seqNumsFile, "%d : %d", &sender, &target)` that returns 2. -/
def scanSeqNums (inp : List Nat) : Option (Int × Int) :=
  (scanInt inp).bind fun (sender, r) =>
  (scanLit 58 (scanSpace r)).bind fun r =>
  (scanInt (scanSpace r)).bind fun (target, _) =>
  some (sender, target)

/-- Conversion `%10.10d` of `fprintf`: at least ten digits, after the sign. -/
def fmtInt10 (v : Int) : List Nat :=
  (if v < 0 then [45] else []) ++ List.replicate (10 - (utoa v.natAbs).length) 48 ++
    utoa v.natAbs

/-- What a stream holds after `text` is written at its start (`rewind`, then `fprintf`). -/
def overwrite (file text : List Nat) : List Nat := text ++ file.drop text.length

/-- Class `FileStore`: the cache, the index, and the content of the body, header and
sequence number files.  The session file and the creation time are left out: no method
modelled here reads them.  Errors of the file system are left out too. -/
structure FileStore where
  cache : MemoryStore
  offsets : List (Int × (Int × Int))
  msgFile : List Nat
  headerFile : List Nat
  seqNumsFile : List Nat

namespace FileStore

def getNextSenderMsgSeqNum (fs : FileStore) : Int := fs.cache.getNextSenderMsgSeqNum

def getNextTargetMsgSeqNum (fs : FileStore) : Int := fs.cache.getNextTargetMsgSeqNum

/-- Method `setSeqNum`. -/
def setSeqNum (fs : FileStore) : FileStore :=
  { fs with seqNumsFile := (overwrite fs.seqNumsFile
      (fmtInt10 fs.getNextSenderMsgSeqNum ++ str " : " ++ fmtInt10 fs.getNextTargetMsgSeqNum)) }

def setNextSenderMsgSeqNum (fs : FileStore) (value : Int) : FileStore :=
  ({ fs with cache := fs.cache.setNextSenderMsgSeqNum value }).setSeqNum

def setNextTargetMsgSeqNum (fs : FileStore) (value : Int) : FileStore :=
  ({ fs with cache := fs.cache.setNextTargetMsgSeqNum value }).setSeqNum

def incrNextSenderMsgSeqNum (fs : FileStore) : FileStore :=
  ({ fs with cache := fs.cache.incrNextSenderMsgSeqNum }).setSeqNum

def incrNextTargetMsgSeqNum (fs : FileStore) : FileStore :=
  ({ fs with cache := fs.cache.incrNextTargetMsgSeqNum }).setSeqNum

/-- Method `populateCache`, for the header and the sequence number files. -/
def populateCache (fs : FileStore) : FileStore :=
  let fs := { fs with offsets := scanHeader fs.headerFile.length fs.headerFile fs.offsets }
  match scanSeqNums fs.seqNumsFile with
  | some (sender, target) =>
    { fs with cache := (fs.cache.setNextSenderMsgSeqNum sender).setNextTargetMsgSeqNum target }
  | none => fs

/-- Method `open(false)`. -/
def open_ (fs : FileStore) : FileStore :=
  let fs := fs.populateCache
  let fs := fs.setNextSenderMsgSeqNum fs.getNextSenderMsgSeqNum
  fs.setNextTargetMsgSeqNum fs.getNextTargetMsgSeqNum

/-- Constructor `FileStore(s)` when the files of the session hold `body`, `header` and
`seqNums` (nothing for a file that does not exist). -/
def new (body header seqNums : List Nat) : FileStore :=
  open_ { cache := MemoryStore.new, offsets := [], msgFile := body, headerFile := header,
          seqNumsFile := seqNums }

/-- Method `set(msgSeqNum, data, len)`; `none` when it calls `die`. -/
def set3 (fs : FileStore) (msgSeqNum : Int) (data : List Nat) : Option (Bool × FileStore) :=
  let offset := wrapInt32 fs.msgFile.length
  if offset < 0 then none
  else some (true,
    { fs with
      headerFile := fs.headerFile ++ (fmtInt msgSeqNum ++ [44] ++ fmtInt offset ++ [44] ++
        fmtInt data.length ++ [32]),
      offsets := mapSet fs.offsets msgSeqNum (offset, wrapInt32 data.length),
      msgFile := fs.msgFile ++ data })

/-- Method `set(data, len)`. -/
def set (fs : FileStore) (data : List Nat) : Option (Bool × FileStore) :=
  fs.set3 fs.getNextSenderMsgSeqNum data

/-- Method `get(msgSeqNum, msg)`: `some none` when it returns `false`, `some (some msg)` when
it returns `true`, `none` when the seek fails or the size is negative.  `heap` is the content
of the buffer that `new char[]` returns. -/
def get1 (fs : FileStore) (msgSeqNum : Int) (heap : Nat → Nat) : Option (Option (List Nat)) :=
  match (mapFind fs.offsets msgSeqNum).head? with
  | none => some none
  | some (_, (offset, size)) =>
    if offset < 0 ∨ size < 0 then none
    else
      let got := (fs.msgFile.drop offset.toNat).take size.toNat
      let buffer := got ++ readMem heap got.length (size.toNat - got.length) ++ [0]
      some (some (cstr buffer))

/-- Method `get(begin, end, result)`: the content of `result` afterwards. -/
def get (fs : FileStore) (b e : Int) (heap : Nat → Nat) : Option (List (List Nat)) :=
  (List.range (e - b + 1).toNat).foldl
    (fun acc (i : Nat) => acc.bind fun result =>
      (fs.get1 (b + (i : Int)) heap).map fun r =>
        match r with
        | some msg => result ++ [msg]
        | none => result)
    (some [])

end FileStore

/-- The text that `fprintf(_headerFile, "%d,%d,%ld ", msgSeqNum, offset, len)` writes. -/
def headerLine (e : Int × Int × Int) : List Nat :=
  fmtInt e.1 ++ [44] ++ fmtInt e.2.1 ++ [44] ++ fmtInt e.2.2 ++ [32]

/-- The message most recently stored for the sequence number `seq` by the calls
`set(msgSeqNum, data, len)` of `hist`, the oldest first. -/
def lastStored (hist : List (Int × List Nat)) (seq : Int) : Option (List Nat) :=
  (hist.reverse.find? fun x => x.1 == seq).map Prod.snd

/-- The calls `set(msgSeqNum, data, len)` of `ops` one after the other; `none` when one of
them calls `die`. -/
def FileStore.setAll (fs : FileStore) : List (Int × List Nat) → Option FileStore
  | [] => some fs
  | op :: ops => (fs.set3 op.1 op.2).bind fun r => FileStore.setAll r.2 ops

/-- The files and the index of `fs` after the calls `set(msgSeqNum, data, len)` of `hist`
on a fresh store, `es` being the lines of the header: the body is the messages one after the
other, the index is the replay of the lines, and the entry of a sequence number delimits in
the body the message stored last for it. -/
def FileStore.holds (fs : FileStore) (hist : List (Int × List Nat))
    (es : List (Int × Int × Int)) : Prop :=
  fs.msgFile = (hist.map Prod.snd).flatten ∧
  fs.headerFile = (es.map headerLine).flatten ∧
  fs.offsets = es.foldl (fun m e => mapSet m e.1 (e.2.1, e.2.2)) [] ∧
  ∀ seq, (lastStored hist seq = none → (mapFind fs.offsets seq).head? = none) ∧
    ∀ data, lastStored hist seq = some data →
      ∃ off len, (mapFind fs.offsets seq).head? = some (seq, (off, len)) ∧ 0 ≤ off ∧ 0 ≤ len ∧
        off.toNat + len.toNat ≤ fs.msgFile.length ∧
        (fs.msgFile.drop off.toNat).take len.toNat = data

/-! ## The text renderers -/

/-- Function `lengthRTrim(str, n)` on a `char` array of `n` bytes: `n` less the number of
spaces at its end. -/
def lengthRTrim (s : List Nat) : Nat := (s.reverse.dropWhile (fun c => c == 32)).length

/-- Macro `WRITE_RTRIM(out, str)`: what `out.write(str, lengthRTrim(str, sizeof(str)))` puts
out. -/
def writeRTrim (s : List Nat) : List Nat := s.take (lengthRTrim s)

/-- Function `writeSide(out, side)`: what it puts out. -/
def writeSide (side : Nat) : List Nat :=
  str "54=" ++
    [if side = 66 then 49 else if side = 83 then 50 else if side = 84 then 53
      else if side = 69 then 54 else side] ++ [1]

/-- What `out << std::setfill(fill) << std::setw(w) << v` puts out for the text `t` of `v`
(the adjustment is the default one, to the right). -/
def setw (w fill : Nat) (t : List Nat) : List Nat := List.replicate (w - t.length) fill ++ t

/-- The statement `if (price) out << tag << (price/10000) << '.' << std::setfill('0') <<
std::setw(4) << (price%10000) << '\1'` of the renderers, `tag` being `"44="` or `"31="`:
what it puts out.  The division and the remainder are those of C++ on `int`. -/
def writePrice (tag : List Nat) (price : Int) : List Nat :=
  if price ≠ 0 then
    tag ++ fmtInt (price.tdiv 10000) ++ [46] ++ setw 4 48 (fmtInt (price.tmod 10000)) ++ [1]
  else []

/-- Method `OrderMsg::write(out)`: what it puts out when `clock_gettime` gives `tv_sec` and
`tv_nsec`. -/
def OrderMsg.write (m : OrderMsg) (tv_sec tv_nsec : Int) : List Nat :=
  str "35=" ++ str "D" ++ [1] ++
  str "11=" ++ writeRTrim m.id ++ [1] ++
  writeSide m.side ++
  str "38=" ++ fmtInt m.shares ++ [1] ++
  str "55=" ++ writeRTrim m.symbol ++ [1] ++
  writePrice (str "44=") m.price ++
  str "59=" ++ fmtInt m.tif ++ [1] ++
  (if m.firm.getD 0 0 ≠ 32 then str "49=" ++ writeRTrim m.firm ++ [1] else []) ++
  (if m.display ≠ 32 then str "9140=" ++ [m.display] ++ [1] else []) ++
  (if m.capacity ≠ 32 then str "47=" ++ [m.capacity] ++ [1] else []) ++
  (if m.sweep = 89 then str "18=f" ++ [1] else []) ++
  (if m.minQty > 0 then str "110=" ++ fmtInt m.minQty ++ [1] else []) ++
  (if m.cross ≠ 32 then str "9355=" ++ [m.cross] ++ [1] else []) ++
  str "0=" ++ fmtInt tv_sec ++ [46] ++ fmtInt tv_nsec ++ [1]

/-- Method `ModifyMsg::write(out)`: what it puts out. -/
def ModifyMsg.write (m : ModifyMsg) : List Nat :=
  str "35=" ++ str "G" ++ [1] ++
  str "11=" ++ writeRTrim m.id ++ [1] ++
  writeSide m.side ++
  str "38=" ++ fmtInt m.shares ++ [1]

/-- Method `AcceptedMsg::write(out)`: what it puts out when `clock_gettime` gives `tv_sec`
and `tv_nsec`. -/
def AcceptedMsg.write (m : AcceptedMsg) (tv_sec tv_nsec : Int) : List Nat :=
  str "35=" ++ str "8" ++ [1] ++
  str "60=" ++ utoa m.tm ++ [1] ++
  str "11=" ++ writeRTrim m.id ++ [1] ++
  writeSide m.side ++
  str "38=" ++ fmtInt m.shares ++ [1] ++
  str "55=" ++ writeRTrim m.symbol ++ [1] ++
  writePrice (str "44=") m.price ++
  str "59=" ++ fmtInt m.tif ++ [1] ++
  (if m.firm.getD 0 0 ≠ 32 then str "49=" ++ writeRTrim m.firm ++ [1] else []) ++
  (if m.display ≠ 32 then str "9140=" ++ [m.display] ++ [1] else []) ++
  str "37=" ++ utoa m.ref ++ [1] ++
  (if m.capacity ≠ 32 then str "47=" ++ [m.capacity] ++ [1] else []) ++
  (if m.sweep = 89 then str "18=f" ++ [1] else []) ++
  (if m.minQty > 0 then str "110=" ++ fmtInt m.minQty ++ [1] else []) ++
  (if m.cross ≠ 32 then str "9355=" ++ [m.cross] ++ [1] else []) ++
  str "150=" ++ [if m.state = 68 then 52 else 48] ++ [1] ++
  (if m.bbo ≠ 32 then str "9883=" ++ [m.bbo] ++ [1] else []) ++
  str "0=" ++ fmtInt tv_sec ++ [46] ++ fmtInt tv_nsec ++ [1]

/-- Method `ReplacedMsg::write(out)`: what it puts out. -/
def ReplacedMsg.write (m : ReplacedMsg) : List Nat :=
  str "35=" ++ str "8" ++ [1] ++
  str "60=" ++ utoa m.tm ++ [1] ++
  str "11=" ++ writeRTrim m.newid ++ [1] ++
  str "54=" ++ [m.side] ++ [1] ++
  str "38=" ++ fmtInt m.shares ++ [1] ++
  str "55=" ++ writeRTrim m.symbol ++ [1] ++
  writePrice (str "44=") m.price ++
  str "59=" ++ fmtInt m.tif ++ [1] ++
  (if m.firm.getD 0 0 ≠ 32 then str "49=" ++ writeRTrim m.firm ++ [1] else []) ++
  (if m.display ≠ 32 then str "9140=" ++ [m.display] ++ [1] else []) ++
  str "37=" ++ utoa m.ref ++ [1] ++
  (if m.capacity ≠ 32 then str "47=" ++ [m.capacity] ++ [1] else []) ++
  (if m.sweep = 89 then str "18=f" ++ [1] else []) ++
  (if m.minQty > 0 then str "110=" ++ fmtInt m.minQty ++ [1] else []) ++
  (if m.cross ≠ 32 then str "9355=" ++ [m.cross] ++ [1] else []) ++
  str "150=" ++ [if m.state = 68 then 52 else 53] ++ [1] ++
  str "41=" ++ writeRTrim m.oldid ++ [1] ++
  (if m.bbo ≠ 32 then str "9883=" ++ [m.bbo] ++ [1] else [])

/-- Method `ModifiedMsg::write(out)`: what it puts out. -/
def ModifiedMsg.write (m : ModifiedMsg) : List Nat :=
  str "35=" ++ str "8" ++ [1] ++
  str "60=" ++ utoa m.tm ++ [1] ++
  str "11=" ++ writeRTrim m.id ++ [1] ++
  str "150=5" ++ [1] ++
  writeSide m.side ++
  str "38=" ++ fmtInt m.shares ++ [1]

/-! ## The value `send` returns -/

/-- Value that `send(void* data, size_t len)` returns. -/
def Session.sendBytesRet (s : Session) (_data : List Nat) (_now : Nat) : Bool :=
  if s.fd < 0 then true else true

/-- Value that the template `send<T>(const T& msg)` returns. -/
def Session.sendRet {T : Type} [OuchMsg T] (_s : Session) (_msg : T) (_now : Nat) : Bool := true

/-! ## The byte pipe -/

def CHUNK_SIZE : Nat := 1048576

/-- Struct `Chunk` of `pipe.hpp`; `data` is the content of the allocation by offset, and the
pointer `next` is kept by the order of the chunks in the pipe. -/
structure Chunk where
  head : Nat
  tail : Nat
  capacity : Nat
  data : Nat → Nat

/-- Constructor `Chunk(unsigned n)`; `mem` is the content of the memory that `malloc`
returns. -/
def Chunk.new (n : Nat) (mem : Nat → Nat) : Chunk :=
  { head := 0, tail := 0, capacity := max (n % 4294967296) CHUNK_SIZE, data := mem }

def Chunk.reset (c : Chunk) : Chunk := { c with head := 0, tail := 0 }

def Chunk.resize (c : Chunk) (n : Nat) (mem : Nat → Nat) : Chunk :=
  { c with capacity := n % 4294967296, data := mem }

/-- Class `Pipe`: the chunks from `head_` to `tail_` along `next`, and `spared_`. -/
structure Pipe where
  chunks : List Chunk
  spared : Option Chunk

namespace Pipe

/-- Constructor `Pipe()`. -/
def new (mem : Nat → Nat) : Pipe := { chunks := [Chunk.new CHUNK_SIZE mem], spared := none }

/-- Method `push(str, n)`; `mem` is the content of the memory that `malloc` returns when the
method allocates, and the result is `none` when an `assert` fails. -/
def push (p : Pipe) (bytes : List Nat) (mem : Nat → Nat) : Option Pipe :=
  match p.chunks.getLast? with
  | none => none
  | some tl =>
    let tail := tl.tail
    let remained := (tl.capacity + 4294967296 - tail) % 4294967296
    let n := bytes.length
    if remained > n then
      let tl1 := { tl with data := writeMem tl.data tail bytes, tail := (tail + n) % 4294967296 }
      if tl1.tail < tl1.capacity then some { p with chunks := p.chunks.dropLast ++ [tl1] }
      else none
    else if remained > 0 then
      let data1 := writeMem tl.data tail (bytes.take remained)
      let rest := bytes.drop remained
      let n := n - remained
      let t := match p.spared with
        | none => Chunk.new (n * 2) mem
        | some t => if t.reset.capacity ≤ n then t.reset.resize (n * 2) mem else t.reset
      let t := if n ≠ 0 then { t with data := writeMem t.data 0 rest, tail := n % 4294967296 }
        else t
      some { chunks := p.chunks.dropLast ++ [{ tl with data := data1, tail := tl.capacity }, t],
             spared := none }
    else none

/-- Method `data(str, n)`: `some none` when it returns `false`, `some (some span)` when it
returns `true` with the `n` bytes at `str`, `none` when the `assert` fails. -/
def data (p : Pipe) : Option (Option (List Nat)) :=
  match p.chunks.head? with
  | none => none
  | some h =>
    if h.tail < h.head then none
    else if h.tail = h.head then some none
    else some (some (readMem h.data h.head (h.tail - h.head)))

/-- Method `pop(n)`; `none` when an `assert` fails. -/
def pop (p : Pipe) (n : Nat) : Option Pipe :=
  match p.chunks with
  | [] => none
  | h :: rest =>
    if n ≤ (h.tail + 4294967296 - h.head) % 4294967296 then
      let h1 := { h with head := (h.head + n) % 4294967296 }
      if h1.head = h1.capacity then
        match rest with
        | [] => none
        | _ :: _ => some { chunks := rest, spared := some h1 }
      else some { p with chunks := h1 :: rest }
    else none

/-- The bytes the pipe holds: those between `head` and `tail` of its chunks, in order. -/
def contents (p : Pipe) : List Nat :=
  (p.chunks.map fun c => readMem c.data c.head (c.tail - c.head)).flatten

end Pipe

/-- A call made on a pipe: `push` by the producer, or the step of the consumer, which calls
`data` and, given a span, takes `k` bytes of it (all of them when `k` is more than the span
has) and pops as many, the way `out_event` does with the count `write` returns. -/
inductive PipeOp
  | push (bytes : List Nat) (mem : Nat → Nat)
  | consume (k : Nat)

/-- One call on the pipe: the pipe afterwards and the bytes the consumer took. -/
def Pipe.step (p : Pipe) : PipeOp → Option (Pipe × List Nat)
  | PipeOp.push bytes mem => (p.push bytes mem).map fun q => (q, [])
  | PipeOp.consume k =>
    match p.data with
    | none => none
    | some none => some (p, [])
    | some (some span) => (p.pop (min k span.length)).map fun q => (q, span.take k)

/-- A sequence of calls on the pipe: the pipe afterwards and all the bytes taken. -/
def Pipe.run (p : Pipe) : List PipeOp → Option (Pipe × List Nat)
  | [] => some (p, [])
  | op :: ops =>
    (p.step op).bind fun (q, taken) => (Pipe.run q ops).map fun (r, more) => (r, taken ++ more)

/-- The bytes that a sequence of calls pushes. -/
def pushed : List PipeOp → List Nat
  | [] => []
  | PipeOp.push bytes _ :: ops => bytes ++ pushed ops
  | PipeOp.consume _ :: ops => pushed ops

/-- The chunks of a pipe are in order: every chunk but the last is full (its `tail` is its
`capacity`) and not consumed to its end, the last has `head ≤ tail < capacity`, and the
capacities fit 32 bits. -/
def chunksOk : List Chunk → Prop
  | [] => False
  | [c] => c.head ≤ c.tail ∧ c.tail < c.capacity ∧ c.capacity < 4294967296
  | c :: d :: rest =>
    c.head < c.capacity ∧ c.tail = c.capacity ∧ c.capacity < 4294967296 ∧ chunksOk (d :: rest)

/-- The chunks of the pipe are in order and the spare chunk, if any, has a capacity that is
positive and fits 32 bits. -/
def Pipe.ok (p : Pipe) : Prop :=
  chunksOk p.chunks ∧ ∀ t, p.spared = some t → 0 < t.capacity ∧ t.capacity < 4294967296

/-- The number of bytes a call hands to the pipe. -/
def PipeOp.size : PipeOp → Nat
  | PipeOp.push bytes _ => bytes.length
  | PipeOp.consume _ => 0

/-! ## Settings -/

/-- Function `tolower` of the C locale. -/
def tolower (c : Nat) : Nat := if 65 ≤ c ∧ c ≤ 90 then c + 32 else c

/-- Function `toLower(value)` of `util.hpp`. -/
def toLower (value : List Nat) : List Nat := value.map tolower

/-- Function `ltrim(s)`: the copy without the white space at its start. -/
def ltrim (s : List Nat) : List Nat := s.dropWhile isspace

/-- Function `rtrim(s)`: the copy without the white space at its end. -/
def rtrim (s : List Nat) : List Nat := (s.reverse.dropWhile isspace).reverse

/-- Function `trim(s)`. -/
def trim (s : List Nat) : List Nat := ltrim (rtrim s)

/-- Comparison `a < b` of two `std::string`, the order of the keys of a
`std::map<std::string, T>`: the bytes are compared as `unsigned char`. -/
def strLess : List Nat → List Nat → Bool
  | [], [] => false
  | [], _ :: _ => true
  | _ :: _, [] => false
  | a :: as, b :: bs => if a < b then true else if b < a then false else strLess as bs

/-- Type `strmap_t`, a `std::map<std::string, std::string>`, kept as the list of its entries
in ascending order of the keys. -/
abbrev StrMap := List (List Nat × List Nat)

/-- Assignment `m[k] = v` on a `std::map<std::string, T>`. -/
def strmapSet {α : Type} (m : List (List Nat × α)) (k : List Nat) (v : α) :
    List (List Nat × α) :=
  match m with
  | [] => [(k, v)]
  | (k1, v1) :: rest =>
    if strLess k k1 then (k, v) :: (k1, v1) :: rest
    else if k = k1 then (k, v) :: rest
    else (k1, v1) :: strmapSet rest k v

/-- Call `m.find(k)` on a `std::map<std::string, T>`: the value of the entry of key `k`,
`none` for `end()`. -/
def strmapFind {α : Type} (m : List (List Nat × α)) (k : List Nat) : Option α :=
  (m.find? fun e => e.1 == k).map Prod.snd

/-- Function `atoi` as the C library of the platform computes it: white space is skipped,
then an optional sign and the longest run of digits are read (0 when there is none); the
number is cut to the range of `long` and converted to `int`.  The argument is a C string. -/
def atoi (s : List Nat) : Int :=
  let inp := (cstr s).dropWhile isspace
  let neg : Bool := inp.head? == some 45
  let inp := if inp.head? == some 45 || inp.head? == some 43 then inp.tail else inp
  let v : Int := digitsValue (inp.takeWhile isdigit)
  wrapInt32 (if neg then max (-v) (-9223372036854775808) else min v 9223372036854775807)

namespace StrMapIgnoreCase

/-- Operator `StrMapIgnoreCase::operator[]`. -/
def index (m : StrMap) (k : List Nat) : List Nat :=
  match strmapFind m (toLower k) with
  | some v => v
  | none => []

/-- Method `StrMapIgnoreCase::get(k, defaultValue)`. -/
def get (m : StrMap) (k : List Nat) (defaultValue : Int) : Int :=
  match strmapFind m (toLower k) with
  | some v => atoi v
  | none => defaultValue

end StrMapIgnoreCase

/-- The lines that the calls `std::getline(stream, line)` give until one fails: the stream
is cut at every line feed, and what follows the last line feed is a line when it is not
empty. -/
def getlinesAux : List Nat → List Nat → List (List Nat)
  | [], cur => if cur.isEmpty then [] else [cur]
  | c :: rest, cur => if c = 10 then cur :: getlinesAux rest [] else getlinesAux rest (cur ++ [c])

def getlines (stream : List Nat) : List (List Nat) := getlinesAux stream []

/-- The body of the loop `while (std::getline(stream, line))` of `readSettings`.  The
`std::multimap` `secmap` is kept as the list of its entries in the order of their insertion
(a multimap keeps entries of equal key in that order, and the function reads it by
`equal_range` only); the iterator `it` is at the entry inserted last.  The call `trim(line)`
at the top of the loop returns a copy that is dropped, so that the tests are made on the line
as it was read. -/
def readSettingsLine (secmap : List (List Nat × StrMap)) (line : List Nat) :
    List (List Nat × StrMap) :=
  if line.isEmpty then secmap
  else if line.head? = some 35 then secmap
  else if line.head? = some 91 ∧ line.getLast? = some 93 then
    secmap ++ [(toLower (trim ((line.drop 1).take (line.length - 2))), [])]
  else if 61 ∈ line then
    let equals := (line.takeWhile fun c => c != 61).length
    match secmap.getLast? with
    | none => secmap
    | some it =>
      secmap.dropLast ++ [(it.1, strmapSet it.2 (toLower (trim (line.take equals)))
        (trim (line.drop (equals + 1))))]
  else secmap

/-- The sections that the loop of `readSettings` collects from the lines. -/
def readSections (lines : List (List Nat)) : List (List Nat × StrMap) :=
  lines.foldl readSettingsLine []

/-- The map `defaults` of `readSettings`: the entries of the first section named `default`,
if there is one. -/
def defaultsOf (secmap : List (List Nat × StrMap)) : StrMap :=
  match (secmap.filter fun e => e.1 == str "default").head? with
  | some e => e.2
  | none => []

/-- The map `session` that `readSettings` makes for a section named `session`: a copy of
`defaults` in which the entries of the section are assigned one by one. -/
def overrideWith (defaults own : StrMap) : StrMap :=
  own.foldl (fun session kv => strmapSet session kv.1 kv.2) defaults

/-- Function `readSettings(stream)` on the lines of the stream. -/
def readSettingsLines (lines : List (List Nat)) : List StrMap :=
  let secmap := readSections lines
  (secmap.filter fun e => e.1 == str "session").map fun e => overrideWith (defaultsOf secmap) e.2

/-- Function `readSettings(stream)`. -/
def readSettings (stream : List Nat) : List StrMap := readSettingsLines (getlines stream)

/-! ## Sessions from settings -/

/-- The members of a `Session` that its constructor computes from the settings. -/
structure SessionInfo where
  username : List Nat
  password : List Nat
  firm : List Nat
  senderCompId : List Nat
  targetCompId : List Nat
  id : List Nat
  reconnectInterval : Int
  isClient : Bool
deriving DecidableEq, Repr

/-- Function `Session::makeId`. -/
def Session.makeId (senderCompId targetCompId : List Nat) : List Nat :=
  senderCompId ++ str "->" ++ targetCompId

/-- Constructor `Session(settings)`. -/
def SessionInfo.new (settings : StrMap) : SessionInfo :=
  let username := StrMapIgnoreCase.index settings (str "Username")
  let isClient : Bool :=
    decide (StrMapIgnoreCase.index settings (str "ConnectionType") = str "initiator") ||
    decide (StrMapIgnoreCase.index settings (str "ConnectionType") = str "client")
  let senderCompId := StrMapIgnoreCase.index settings (str "SenderCompId")
  let targetCompId := StrMapIgnoreCase.index settings (str "TargetCompId")
  let senderCompId := if senderCompId.isEmpty && isClient then username else senderCompId
  let senderCompId1 := if targetCompId.isEmpty && !isClient then
    (if senderCompId.isEmpty then str "OUCH" else senderCompId) else senderCompId
  let targetCompId1 := if targetCompId.isEmpty && !isClient then username else targetCompId
  let n := atoi (StrMapIgnoreCase.index settings (str "ReconnectInterval"))
  { username := username,
    password := StrMapIgnoreCase.index settings (str "Password"),
    firm := StrMapIgnoreCase.index settings (str "Firm"),
    senderCompId := senderCompId1,
    targetCompId := targetCompId1,
    id := Session.makeId senderCompId1 targetCompId1,
    reconnectInterval := if n > 0 then n else 15,
    isClient := isClient }

/-- The tests that the loop of `createSessions(sections)` makes on the section of index `i`
before it constructs the session: the message of `die` when one fails. -/
def Session.checkSection (i : Nat) (s : StrMap) : Option (List Nat) :=
  let n := fmtInt ((i : Int) + 1)
  let type := StrMapIgnoreCase.index s (str "ConnectionType")
  let isClient : Bool := decide (type = str "initiator") || decide (type = str "client")
  let port := StrMapIgnoreCase.index s
    (if isClient then str "SocketConnectPort" else str "SocketAcceptPort")
  if (StrMapIgnoreCase.index s (str "Username")).isEmpty then
    some (str "Username not given in #" ++ n ++ str " session")
  else if (StrMapIgnoreCase.index s (str "Password")).isEmpty then
    some (str "password not given in #" ++ n ++ str " session")
  else if type ≠ str "initiator" ∧ type ≠ str "client" ∧ type ≠ str "acceptor" ∧
      type ≠ str "server" then
    some (str "ConnectionType must be 'initiator', 'client', 'acceptor' or 'server' in #" ++
      n ++ str " session")
  else if isClient ∧ (StrMapIgnoreCase.index s (str "SocketConnectHost")).isEmpty then
    some (str "SocketConnectHost not given in #" ++ n ++ str " session")
  else if port.isEmpty then
    some ((if isClient then str "SocketConnectPort" else str "SocketAcceptPort") ++
      str "not given in #" ++ n ++ str " session")
  else if atoi port ≤ 0 then
    some (str "invalid port '" ++ port ++ str "' in #" ++ n ++ str " session")
  else none

/-- The static data of `session.cpp`: the map `_sessionMap` from the ids to the sessions and
the vector `_sessions`. -/
structure Registry where
  sessionMap : List (List Nat × SessionInfo)
  sessions : List SessionInfo
deriving DecidableEq, Repr

deriving instance DecidableEq for Except

/-- The loop of `createSessions(sections)` from the section of index `i` on.  The result is
the message of `die` when a section is refused, and otherwise the static data afterwards with
the vector `ans`. -/
def Session.createSessionsFrom (reg : Registry) (ans : List SessionInfo) (i : Nat) :
    List StrMap → Except (List Nat) (Registry × List SessionInfo)
  | [] => Except.ok (reg, ans)
  | s :: rest =>
    match Session.checkSection i s with
    | some msg => Except.error msg
    | none =>
      let session := SessionInfo.new s
      if (strmapFind reg.sessionMap session.id).isSome then
        Except.error (str "duplicate session " ++ session.id)
      else
        Session.createSessionsFrom
          { sessionMap := strmapSet reg.sessionMap session.id session,
            sessions := reg.sessions ++ [session] } (ans ++ [session]) (i + 1) rest

/-- Function `Session::createSessions(sections)`. -/
def Session.createSessions (reg : Registry) (sections : List StrMap) :
    Except (List Nat) (Registry × List SessionInfo) :=
  Session.createSessionsFrom reg [] 0 sections

/-- The stream that `main` of `test.C` hands to `App::init`, for the port `port`. -/
def testSettings (port : Int) : List Nat :=
  str "[DEFAULT]\n" ++
  str "SocketConnectHost=localhost\n" ++
  str "SocketConnectPort=" ++ fmtInt port ++ str "\n" ++
  str "SocketAcceptPort=" ++ fmtInt port ++ str "\n" ++
  str "FileStorePath=out/test_store\n" ++
  str "FileLogPath=out/test_log\n" ++
  str "[SESSION]\n" ++
  str "Username=zhb\n" ++
  str "Password=xxx\n" ++
  str "ConnectionType=acceptor\n" ++
  str "[SESSION]\n" ++
  str "Username=zhb2\n" ++
  str "Password=xxx\n" ++
  str "ConnectionType=acceptor\n" ++
  str "[SESSION]\n" ++
  str "Username=zhb\n" ++
  str "Password=xxx\n" ++
  str "ConnectionType=initiator\n" ++
  str "[SESSION]\n" ++
  str "Username=zhb2\n" ++
  str "Password=xxx\n" ++
  str "ConnectionType=initiator\n"

/-- The name of the section that a line opens, for a line that `readSettings` takes as the
header of a section: a line that starts with `[` and ends with `]`. -/
def headerName (line : List Nat) : Option (List Nat) :=
  if line.head? = some 91 ∧ line.getLast? = some 93 then
    some (toLower (trim ((line.drop 1).take (line.length - 2))))
  else none

/-- The key and the value that a line gives, for a line that `readSettings` takes as an
assignment: a line with `=` that is neither a comment nor the header of a section. -/
def keyValue (line : List Nat) : Option (List Nat × List Nat) :=
  if line.head? = some 35 ∨ (headerName line).isSome then none
  else if 61 ∈ line then
    some (toLower (trim (line.take (line.takeWhile fun c => c != 61).length)),
      trim (line.drop ((line.takeWhile fun c => c != 61).length + 1)))
  else none

/-- The map that the assignments `kvs` make, the first one first, starting from `m`. -/
def assignAll (m : StrMap) (kvs : List (List Nat × List Nat)) : StrMap :=
  kvs.foldl (fun m kv => strmapSet m kv.1 kv.2) m

/-! ## Connecting, the timer -/

/-- Method `Pipe::reset`: the chunks before the last one are deleted and the last one is
reset. -/
def Pipe.reset (p : Pipe) : Pipe :=
  match p.chunks.getLast? with
  | some tl => { p with chunks := [tl.reset] }
  | none => p

/-- What the system gives back to `connect`: the value of `createClientSock` (the calls in
which it throws are left out), the value of `setNonBlocking`, and the values of the three
calls of `getSockOpt`. -/
structure SockEnv where
  sock : Int
  nonBlocking : Int
  rcvbuf : Int
  sndbuf : Int
  nodelay : Int

/-- Modelled from the spec: `soupbin3.hpp` is not among the sources; packet type of the
logout request, `'O'`. -/
def SOUPBIN3_PACKET_LOGOUT_REQUEST : Nat := 79

/-- Modelled from the spec: `soupbin3.hpp` is not among the sources; size of the logout
request packet (empty body). -/
def soupbin3_packet_logout_request.sizeof : Nat := 3

namespace Session

/-- Method `start(fd)`; `nonBlocking` is what `setNonBlocking(fd)` returns. -/
def start (s : Session) (fd : Int) (nonBlocking : Int) : Session :=
  let s := { s with fd := fd }
  let s := s.emit (Effect.setNonBlocking fd)
  let s := if nonBlocking ≠ 0 then s.event (str "Failed to set non blocking mode") else s
  let s := s.emit (Effect.add_fd false fd)
  let s := s.emit Effect.set_pollin
  let s := if s.sharedPoll then s else s.emit (Effect.add_fd true fd)
  { s with timer := (1, 1) }

/-- Method `logon`; `settings` is the member `_settings`, from which the constructor took
the user name and the password. -/
def logon (s : Session) (settings : StrMap) (now : Nat) : Session :=
  let msg := loginRequestPacket (SessionInfo.new settings).username
    (SessionInfo.new settings).password s.getExpectedTargetNum
  let s := s.event (str "Initiated logon request: " ++
    cstr (msg.drop 3))
  let s := s.sendBytes msg now
  { s with state := SessionState.st_logon_sent, rxtm := now, txtm := now }

/-- Method `logout`. -/
def logout (s : Session) (now : Nat) : Session :=
  let s := s.event (str "Initiated logout request")
  let s := s.sendBytes (le16 (htons (soupbin3_packet_logout_request.sizeof - 2)) ++
    [SOUPBIN3_PACKET_LOGOUT_REQUEST]) now
  { s with state := SessionState.st_logoff_sent }

/-- Method `heartbeat`. -/
def heartbeat (s : Session) (now : Nat) : Session :=
  s.sendBytes (le16 (htons (soupbin3_packet_server_heartbeat.sizeof - 2)) ++
    [if s.isClient then SOUPBIN3_PACKET_CLIENT_HEARTBEAT
     else SOUPBIN3_PACKET_SERVER_HEARTBEAT]) now

/-- Method `connect(firstTime)`. -/
def connect (s : Session) (settings : StrMap) (env : SockEnv) (firstTime : Bool)
    (now : Nat) : Session :=
  let host := StrMapIgnoreCase.index settings (str "SocketConnectHost")
  let port := StrMapIgnoreCase.get settings (str "SocketConnectPort") 0
  let s := s.emit (Effect.createClientSock (cstr host) port)
  let fd := env.sock
  let s := s.event (str "Connecting to " ++ cstr host ++ str " on port " ++ fmtInt port)
  if fd < 0 then
    let s := s.event (str "Connection failed")
    { s with timer := (s.reconnectInterval, 0) }
  else
    let s := s.start fd env.nonBlocking
    let rsize := StrMapIgnoreCase.get settings (str "ReceiveBufferSize") 0
    let ssize := StrMapIgnoreCase.get settings (str "SendBufferSize") 0
    let s := if rsize > 0 then s.emit (Effect.setSockOpt fd SockOpt.SO_RCVBUF rsize) else s
    let s := if ssize > 0 then s.emit (Effect.setSockOpt fd SockOpt.SO_SNDBUF ssize) else s
    let s := s.event (str "Connection succeeded")
    let s := if firstTime then
      s.event (str "recv/send_buf=" ++ fmtInt env.rcvbuf ++ str "/" ++ fmtInt env.sndbuf ++
        str " tcp_nodelay=" ++ fmtInt env.nodelay) else s
    s.logon settings now

end Session

/-! ## Arithmetic of `double` -/

/-- The number of binary digits of `n`, counted in at most `fuel` steps. -/
def bitLenAux : Nat → Nat → Nat
  | 0, _ => 0
  | fuel + 1, n => if n = 0 then 0 else bitLenAux fuel (n / 2) + 1

/-- The number of binary digits of `n`. -/
def bitLen (n : Nat) : Nat := bitLenAux n n

/-- The whole number nearest to `n / d`, and of two that are as near the even one. -/
def roundHalfEven (n d : Nat) : Nat :=
  if 2 * (n % d) < d then n / d
  else if d < 2 * (n % d) then n / d + 1
  else if n / d % 2 = 0 then n / d else n / d + 1

/-- Rounding to `double` (IEEE 754 binary64: 53 binary digits, round to nearest, ties to
even).  The values are counted in units of 2^-82: the doubles met in the comparison of two
times are whole numbers of that unit, because a count of nanoseconds divided by `1.e9` is 0
or at least 2^-30.  The function gives the double nearest to `n / d` units, for a ratio that
is a whole number or at least 2^52. -/
def fpNearest (n d : Nat) : Nat :=
  roundHalfEven n (d * 2 ^ (bitLen (n / d) - 53)) * 2 ^ (bitLen (n / d) - 53)

/-- The double nearest to the whole number `v` of units: the result of an addition or a
subtraction of two doubles, or of the conversion of an integer. -/
def fpRound (v : Int) : Int :=
  if v < 0 then -((fpNearest v.natAbs 1 : Nat) : Int) else ((fpNearest v.natAbs 1 : Nat) : Int)

/-- The double of an integer number of seconds, in units of 2^-82. -/
def fpOfInt (v : Int) : Int := fpRound (v * 4835703278458516698824704)

/-- The double `tv_nsec / 1.e9`, in units of 2^-82. -/
def fpNanos (nsec : Nat) : Int :=
  ((fpNearest (nsec * 4835703278458516698824704) 1000000000 : Nat) : Int)

/-- The expression `now.tv_sec + now.tv_nsec / 1.e9 - t.tv_sec - t.tv_nsec / 1.e9` of
`Timer::in_event`, computed in `double` from left to right, for the times `now` and `t` in
nanoseconds (`tv_sec` is the quotient by 10^9 and `tv_nsec` the remainder); in units of
2^-82. -/
def fpElapsed (now t : Nat) : Int :=
  fpRound (fpRound (fpRound (fpOfInt ((now / 1000000000 : Nat) : Int) +
    fpNanos (now % 1000000000)) - fpOfInt ((t / 1000000000 : Nat) : Int)) -
      fpNanos (t % 1000000000))

/-- Method `Timer::in_event(fd)` on the session of the timer; `now` is the reading of the
clock, in nanoseconds as the times `rxtm` and `txtm` of the session.  The handler first reads
the timer, a descriptor made by `timerfd_create(CLOCK_REALTIME, 0)`, on which `read` waits
for an expiry: the pair `timer` of the session holds the seconds and the interval of the last
`setTimer`, and with 0 seconds the timer is disarmed, the `read` does not return and the
result is `none`.  The two differences are computed and compared in `double`. -/
def Timer.in_event (s : Session) (settings : StrMap) (env : SockEnv) (now : Nat) :
    Option Session :=
  if s.timer.1 = 0 then none
  else if s.fd < 0 then some (s.connect settings env false now)
  else if fpElapsed now s.rxtm ≥ fpOfInt s.reconnectInterval then
    some (s.event (str "Timed out waiting for heartbeat")).close
  else if fpElapsed now s.txtm ≥ fpOfInt 1 then some (s.heartbeat now)
  else some s

/-! ## The calls that reach a session -/

/-- The turn of the loop of `App::connect` for the session `s`, with the store that the
factory makes for it: an acceptor is passed over; for an initiator the two events are logged
and `connect(true)` is called.  The pollers and the log are not part of the state. -/
def App.connect (s : Session) (store : MemoryStore) (settings : StrMap) (env : SockEnv)
    (now : Nat) : Session :=
  if ¬ s.isClient then s
  else
    let s := { s with store := store }
    let s := s.event []
    let s := s.event (str "Created session")
    s.connect settings env true now

/-- Method `Acceptor::in_event(fd)` as the session `s` of the listening port meets it, when
every session before it in the list of the port has a socket; `peer` is what `accept`
returns.  The static events, which go to no log of a session, are left out. -/
def Acceptor.in_event (s : Session) (peer : Int) (nonBlocking : Int) : Session :=
  if peer < 0 then s
  else if s.fd < 0 then s.start peer nonBlocking
  else s

/-- Struct `DateTime`: a Julian day number and the milliseconds since midnight.  The
arithmetic is that of `int`, with the division and the remainder of C++; no operation leaves
the range of `int` for the dates and times that are converted here. -/
structure DateTime where
  m_date : Int
  m_time : Int
deriving DecidableEq, Repr

namespace DateTime

/-- Function `makeHMS`. -/
def makeHMS (hour minute second millis : Int) : Int :=
  1000 * (3600 * hour + 60 * minute + second) + millis

/-- Function `julianDate(year, month, day)`. -/
def julianDate (year month day : Int) : Int :=
  let a := (14 - month).tdiv 12
  let y := year + 4800 - a
  let m := month + 12 * a - 3
  day + (153 * m + 2).tdiv 5 + y * 365 + y.tdiv 4 - y.tdiv 100 + y.tdiv 400 - 32045

/-- Function `getYMD(jday, year, month, day)`: the year, the month and the day. -/
def getYMD (jday : Int) : Int × Int × Int :=
  let a := jday + 32044
  let b := (4 * a + 3).tdiv 146097
  let c := a - (b * 146097).tdiv 4
  let d := (4 * c + 3).tdiv 1461
  let e := c - (1461 * d).tdiv 4
  let m := (5 * e + 2).tdiv 153
  (b * 100 + d - 4800 + m.tdiv 10, m + 3 - 12 * m.tdiv 10, e - (153 * m + 2).tdiv 5 + 1)

/-- Method `getHMS(hour, minute, second, millis)`. -/
def getHMS (t : DateTime) : Int × Int × Int × Int :=
  ((t.m_time.tdiv 1000).tdiv 3600, ((t.m_time.tdiv 1000).tdiv 60).tmod 60,
    (t.m_time.tdiv 1000).tmod 60, t.m_time.tmod 1000)

end DateTime

/-- Constructor `UtcTimeStamp(hour, minute, second, millisecond, date, month, year)`. -/
def UtcTimeStamp.new (hour minute second millisecond date month year : Int) : DateTime :=
  { m_date := DateTime.julianDate year month date,
    m_time := DateTime.makeHMS hour minute second millisecond }

/-- Function `integer_to_string_padded(buf, len, t, width, paddingChar)` for an `int` `t`
and a width that is not zero, `buf` being at the offset `off` of an array `mem`: the digits
are written from the end of `buf` backwards, with a sign before them when `t` is negative and
a byte of `buf` is left, and the padding before that down to the width.  The result is the
content of the array afterwards and the offset of the pointer returned, or `none` when a byte
would be written before the start of the array. -/
def integer_to_string_padded (mem : Nat → Nat) (off len : Nat) (t : Int)
    (width paddingChar : Nat) : Option ((Nat → Nat) × Nat) :=
  let digits := utoa t.natAbs
  let text := if t < 0 ∧ digits.length + 1 < len then 45 :: digits else digits
  let out := List.replicate (min width (len - 1) - text.length) paddingChar ++ text
  if len = 0 ∨ off + len - 1 < out.length then none
  else some (writeMem mem (off + len - 1 - out.length) (out ++ [0]), off + len - 1 - out.length)

namespace UtcTimeStampConvertor

/-- Function `convert(const UtcTimeStamp& value, bool showMilliseconds)`: the string it
returns.  `stack` is the content of the array `result` before it is written. -/
def convert (value : DateTime) (showMilliseconds : Bool) (stack : Nat → Nat) :
    Option (List Nat) :=
  (integer_to_string_padded stack 0 5 (DateTime.getYMD value.m_date).1 4 48).bind fun r =>
  (integer_to_string_padded r.1 4 3 (DateTime.getYMD value.m_date).2.1 2 48).bind fun r =>
  (integer_to_string_padded r.1 6 3 (DateTime.getYMD value.m_date).2.2 2 48).bind fun r =>
  (integer_to_string_padded (writeMem r.1 8 [45]) 9 3 value.getHMS.1 2 48).bind fun r =>
  (integer_to_string_padded (writeMem r.1 11 [58]) 12 3 value.getHMS.2.1 2 48).bind fun r =>
  (integer_to_string_padded (writeMem r.1 14 [58]) 15 3 value.getHMS.2.2.1 2 48).bind fun r =>
  if showMilliseconds then
    (integer_to_string_padded (writeMem r.1 17 [46]) 18 4 value.getHMS.2.2.2 3 48).bind
      fun r => if r.2 ≠ 18 then some [] else some (cstr (readMem r.1 0 22))
  else some (cstr (readMem r.1 0 22))

/-- Function `convert(const std::string& value, bool calculateDays)`: the time stamp, or
`none` when it calls `die`. -/
def convertFrom (value : List Nat) : Option DateTime :=
  let haveMilliseconds : Bool := value.length == 21
  let v := fun i => value.getD i 0
  let d : Nat → Int := fun i => toSChar (v i) - 48
  if value.length ≠ 21 ∧ value.length ≠ 17 then none
  else if ¬ ((List.range 8).all (fun i => isdigit (v i)) ∧ v 8 = 45 ∧
      isdigit (v 9) ∧ isdigit (v 10) ∧ v 11 = 58 ∧ isdigit (v 12) ∧ isdigit (v 13) ∧
      v 14 = 58 ∧ isdigit (v 15) ∧ isdigit (v 16)) then none
  else if haveMilliseconds ∧ ¬ (v 17 = 46 ∧ isdigit (v 18) ∧ isdigit (v 19) ∧ isdigit (v 20))
    then none
  else
    let year := 10 * (10 * (10 * d 0 + d 1) + d 2) + d 3
    let mon := 10 * d 4 + d 5
    let mday := 10 * d 6 + d 7
    let hour := 10 * d 9 + d 10
    let min := 10 * d 12 + d 13
    let sec := 10 * d 15 + d 16
    let millis := if haveMilliseconds then 100 * d 18 + 10 * d 19 + d 20 else 0
    if mon < 1 ∨ 12 < mon then none
    else if mday < 1 ∨ 31 < mday then none
    else if 23 < hour then none
    else if 59 < min then none
    else if 60 < sec then none
    else some (UtcTimeStamp.new hour min sec millis mday mon year)

end UtcTimeStampConvertor

/-- Conversion `%s` of `fscanf`: white space is skipped and the characters up to the next
white space are read; `none` when there is none. -/
def scanStr (inp : List Nat) : Option (List Nat) :=
  if ((inp.dropWhile isspace).takeWhile fun c => !isspace c).isEmpty then none
  else some ((inp.dropWhile isspace).takeWhile fun c => !isspace c)

/-- The part of a `FileStore` that the model above leaves out: the creation time that the
cache holds and the content of the session file, which is `none` when the file does not
exist. -/
structure StoreSession where
  creationTime : DateTime
  sessionFile : Option (List Nat)
deriving DecidableEq, Repr

namespace StoreSession

/-- Method `FileStore::setSession`; `none` when the convertor writes out of its array. -/
def setSession (st : StoreSession) (stack : Nat → Nat) : Option StoreSession :=
  (UtcTimeStampConvertor.convert st.creationTime false stack).map fun text =>
    { st with sessionFile := some (overwrite (st.sessionFile.getD []) text) }

/-- Method `FileStore::populateCache`, for the session file: the text is read into
`char time[22]` and converted; `none` when the text does not fit the array or the convertor
calls `die`. -/
def populateCache (st : StoreSession) : Option StoreSession :=
  match st.sessionFile with
  | none => some st
  | some file =>
    match scanStr file with
    | none => some st
    | some time =>
      if 21 < time.length then none
      else (UtcTimeStampConvertor.convertFrom (cstr time)).map fun t =>
        { st with creationTime := t }

/-- Method `FileStore::open(false)`, for the session file: the cache is filled; the file is
made when it does not exist, and it is then that the creation time is written. -/
def open_ (st : StoreSession) (stack : Nat → Nat) : Option StoreSession :=
  st.populateCache.bind fun st =>
    match st.sessionFile with
    | none => ({ st with sessionFile := some [] } : StoreSession).setSession stack
    | some _ => some st

/-- Constructor `FileStore(s)`, for the session file `file`, when the clock shows `now`: the
creation time of the new cache is the time of its construction. -/
def new (now : DateTime) (file : Option (List Nat)) (stack : Nat → Nat) : Option StoreSession :=
  open_ { creationTime := now, sessionFile := file } stack

end StoreSession

/-- The text `YYYYMMDD-HH:MM:SS` of a year of four digits and five numbers of two digits. -/
def stampText (Y M D h mi s : Nat) : List Nat :=
  [48 + Y / 1000, 48 + Y / 100 % 10, 48 + Y / 10 % 10, 48 + Y % 10, 48 + M / 10, 48 + M % 10,
    48 + D / 10, 48 + D % 10, 45, 48 + h / 10, 48 + h % 10, 58, 48 + mi / 10, 48 + mi % 10, 58,
    48 + s / 10, 48 + s % 10]

/-- The text `YYYYMMDD-HH:MM:SS` of a time stamp: the year, the month and the day of its
Julian day number and the hour, the minute and the second of its time of the day. -/
def DateTime.stamp (ts : DateTime) : List Nat :=
  stampText (DateTime.getYMD ts.m_date).1.toNat (DateTime.getYMD ts.m_date).2.1.toNat
    (DateTime.getYMD ts.m_date).2.2.toNat (ts.m_time / 1000 / 3600).toNat
    (ts.m_time / 1000 / 60 % 60).toNat (ts.m_time / 1000 % 60).toNat

/-! ## The message log -/

/-- The `write` methods that `Log::write` calls, named by the type `msg` is cast to. -/
inductive Renderer
  | OrderMsg
  | CancelMsg
  | AcceptedMsg
  | ReplacedMsg
  | ReplaceMsg
  | ModifiedMsg
  | ModifyMsg
  | CanceledMsg
  | AIQCanceledMsg
  | ExecMsg
  | BrokenTradeMsg
  | RejectedMsg
  | CancelPendingMsg
  | CancelRejectMsg
  | PriorityMsg
  | SysMsg
deriving DecidableEq, Repr

/-- One `case` of the `switch` of `Log::write`: the label, the `write` that the statements
after it call for a message of `len` bytes, and whether they end with `break`. -/
structure SwitchCase where
  label : Nat
  body : Nat → Renderer
  breaks : Bool

/-- The statements run from a case on: those of the case and, as long as there is no
`break`, those of the cases after it. -/
def fallThrough (len : Nat) : List SwitchCase → List Renderer
  | [] => []
  | c :: rest => c.body len :: (if c.breaks then [] else fallThrough len rest)

/-- Statement `switch (value)` without `default`: control goes to the case with the label
`value`, if there is one. -/
def runSwitch (value len : Nat) : List SwitchCase → List Renderer
  | [] => []
  | c :: rest => if c.label = value then fallThrough len (c :: rest) else runSwitch value len rest

/-- The cases of the `switch` of `Log::write`, in the order of the source. -/
def Log.writeCases : List SwitchCase :=
  [⟨OrderMsg.TYPE, fun _ => Renderer.OrderMsg, true⟩,
   ⟨CancelMsg.TYPE, fun _ => Renderer.CancelMsg, true⟩,
   ⟨AcceptedMsg.TYPE, fun _ => Renderer.AcceptedMsg, true⟩,
   ⟨ReplacedMsg.TYPE, fun len =>
      if len = ReplacedMsg.sizeof + 3 then Renderer.ReplacedMsg else Renderer.ReplaceMsg, true⟩,
   ⟨ModifiedMsg.TYPE, fun len =>
      if len = ModifiedMsg.sizeof + 3 then Renderer.ModifiedMsg else Renderer.ModifyMsg, false⟩,
   ⟨CanceledMsg.TYPE, fun _ => Renderer.CanceledMsg, true⟩,
   ⟨AIQCanceledMsg.TYPE, fun _ => Renderer.AIQCanceledMsg, true⟩,
   ⟨ExecMsg.TYPE, fun _ => Renderer.ExecMsg, true⟩,
   ⟨BrokenTradeMsg.TYPE, fun _ => Renderer.BrokenTradeMsg, true⟩,
   ⟨RejectedMsg.TYPE, fun _ => Renderer.RejectedMsg, true⟩,
   ⟨CancelPendingMsg.TYPE, fun _ => Renderer.CancelPendingMsg, true⟩,
   ⟨CancelRejectMsg.TYPE, fun _ => Renderer.CancelRejectMsg, true⟩,
   ⟨PriorityMsg.TYPE, fun _ => Renderer.PriorityMsg, true⟩,
   ⟨SysMsg.TYPE, fun _ => Renderer.SysMsg, true⟩]

/-- Function `Log::write(out, msg, len)` for a message whose first byte is `type`: the
`write` methods it calls on `msg`, in the order of the calls. -/
def Log.write (type len : Nat) : List Renderer := runSwitch type len Log.writeCases

/-! ## The calendar -/

/-- Constant `JULIAN_19700101`: the day number of the epoch of `time_t`. -/
def DateTime.JULIAN_19700101 : Int := 2440588

/-- A leap year of the Gregorian calendar: every fourth year, but of the years of a century
only every fourth. -/
def isLeapYear (year : Int) : Bool :=
  decide (year % 4 = 0 ∧ (year % 100 ≠ 0 ∨ year % 400 = 0))

/-- The number of days of a month of the Gregorian calendar. -/
def daysInMonth (year month : Int) : Int :=
  if month = 2 then (if isLeapYear year then 29 else 28)
  else if month = 4 ∨ month = 6 ∨ month = 9 ∨ month = 11 then 30
  else 31

/-- A date of the Gregorian calendar in the years 0 to 9999. -/
def validDate (year month day : Int) : Prop :=
  0 ≤ year ∧ year ≤ 9999 ∧ 1 ≤ month ∧ month ≤ 12 ∧ 1 ≤ day ∧ day ≤ daysInMonth year month

instance (year month day : Int) : Decidable (validDate year month day) := by
  unfold validDate; infer_instance

/-- The calendar day after a date. -/
def nextDay (year month day : Int) : Int × Int × Int :=
  if day < daysInMonth year month then (year, month, day + 1)
  else if month < 12 then (year, month + 1, 1)
  else (year + 1, 1, 1)

/-- The calls of `Log::onOutgoing` in a trace. -/
def onOutgoingCalls (trace : List Effect) : List Effect :=
  trace.filter fun e => match e with
    | Effect.onOutgoing _ _ => true
    | _ => false

/-! ## Concurrent calls of `send` -/

/-- Where a thread is in `Session::send(void* data, size_t len)`: before the test of `_fd`,
before `clock_gettime`, before the lock is taken, in `push` under the lock with `k` bytes
copied, or after the return. -/
inductive SendPc
  | start
  | stamp
  | wait
  | push (k : Nat)
  | done
deriving DecidableEq, Repr

/-- The fields of a session that `send` reads and writes, the mutex `_m` (the thread that
holds it), the place of every thread in `send`, and the threads in the order in which they
took the lock. -/
structure SendState where
  fd : Int
  txtm : Nat
  outpipe : List Nat
  mutex : Option Nat
  pc : Nat → SendPc
  order : List Nat
  trace : List Effect

/-- The state when the threads enter `send` on the session `s`. -/
def SendState.init (s : Session) : SendState :=
  { fd := s.fd, txtm := s.txtm, outpipe := s.outpipe, mutex := none,
    pc := fun _ => SendPc.start, order := [], trace := s.trace }

/-- One step of the thread `i`, which sends the packet `pkts[i]`, when the clock shows `now`:
the test `_fd < 0`, `clock_gettime(&_txtm)`, the construction of the `lock_t` (the thread
does not move while another one holds the mutex), the copy of one more byte into the pipe by
`push`, or, the copy done, `set_pollout` and the return, which releases the mutex. -/
def sendStep (pkts : List (List Nat)) (st : SendState) (i now : Nat) : SendState :=
  if pkts.length ≤ i then st
  else match st.pc i with
    | SendPc.start =>
      if st.fd < 0 then { st with pc := fun j => if j = i then SendPc.done else st.pc j }
      else { st with pc := fun j => if j = i then SendPc.stamp else st.pc j }
    | SendPc.stamp => { st with txtm := now, pc := fun j => if j = i then SendPc.wait else st.pc j }
    | SendPc.wait =>
      match st.mutex with
      | none => { st with mutex := some i, order := st.order ++ [i],
                          pc := fun j => if j = i then SendPc.push 0 else st.pc j }
      | some _ => st
    | SendPc.push k =>
      if k < (pkts.getD i []).length then
        { st with outpipe := st.outpipe ++ [(pkts.getD i []).getD k 0],
                  pc := fun j => if j = i then SendPc.push (k + 1) else st.pc j }
      else
        { st with trace := st.trace ++ [Effect.set_pollout], mutex := none,
                  pc := fun j => if j = i then SendPc.done else st.pc j }
    | SendPc.done => st

/-- A run of the threads: the schedule names, step by step, the thread that moves and the
reading of the clock. -/
def runSends (pkts : List (List Nat)) (st : SendState) (sched : List (Nat × Nat)) : SendState :=
  sched.foldl (fun st x => sendStep pkts st x.1 x.2) st

/-- The schedule in which the thread `i` moves alone until it has returned from `send`. -/
def soloSchedule (pkts : List (List Nat)) (i now : Nat) : List (Nat × Nat) :=
  List.replicate ((pkts.getD i []).length + 4) (i, now)

/-- What holds of every state the threads reach from `init` on a session with a socket and
the pipe content `p0`: the threads that took the lock are those in `push` or returned; with
the mutex free the pipe holds `p0` and then the packets of these threads, whole, in the order
of the lock; with the mutex held by `i`, the last to take the lock, it holds the packets of
the others and then the bytes of `pkts[i]` copied so far. -/
def SendInv (pkts : List (List Nat)) (p0 : List Nat) (st : SendState) : Prop :=
  0 ≤ st.fd ∧ st.order.Nodup ∧ (∀ i ∈ st.order, i < pkts.length) ∧
  (∀ i, (st.pc i = SendPc.done ∨ ∃ k, st.pc i = SendPc.push k) ↔ i ∈ st.order) ∧
  (match st.mutex with
   | none => (∀ i k, st.pc i ≠ SendPc.push k) ∧
       st.outpipe = p0 ++ (st.order.map fun i => pkts.getD i []).flatten
   | some i => ∃ k init, st.pc i = SendPc.push k ∧ k ≤ (pkts.getD i []).length ∧
       st.order = init ++ [i] ∧ (∀ j, j ≠ i → ∀ k1, st.pc j ≠ SendPc.push k1) ∧
       st.outpipe = p0 ++ (init.map fun i => pkts.getD i []).flatten ++ (pkts.getD i []).take k)

/-- The steps the thread `i` has before it, in a state in which it can move. -/
def stepsLeft (pkts : List (List Nat)) (i : Nat) : SendPc → Nat
  | SendPc.start => (pkts.getD i []).length + 4
  | SendPc.stamp => (pkts.getD i []).length + 3
  | SendPc.wait => (pkts.getD i []).length + 2
  | SendPc.push k => (pkts.getD i []).length - k + 1
  | SendPc.done => 0

/-! ## Host order -/

/-- The image of a message in host order, made from its image `w` in network byte order: on
the little-endian host the bytes of each integer field, given by its offset and its width,
come in the reverse order, and every other byte stays where it is. -/
def hostOrder (fields : List (Nat × Nat)) (w : List Nat) : List Nat :=
  fields.foldl
    (fun v f => v.take f.1 ++ ((v.drop f.1).take f.2).reverse ++ v.drop (f.1 + f.2)) w

/-- The integer fields (`uint64_t` and `int`) of the struct that the sequenced data arm casts
a message of tag `t` to, each by its offset and its width in bytes; the structs of `ouch.hpp`
are packed. -/
def seqIntFields (t : Nat) : List (Nat × Nat) :=
  if t = AcceptedMsg.TYPE then [(1, 8), (24, 4), (36, 4), (40, 4), (49, 8), (59, 4)]
  else if t = ReplacedMsg.TYPE then [(1, 8), (24, 4), (36, 4), (40, 4), (49, 8), (59, 4)]
  else if t = CanceledMsg.TYPE then [(1, 8), (23, 4)]
  else if t = AIQCanceledMsg.TYPE then [(1, 8), (23, 4), (28, 4), (32, 4)]
  else if t = ExecMsg.TYPE then [(1, 8), (23, 4), (27, 4), (32, 8)]
  else if t = BrokenTradeMsg.TYPE then [(1, 8), (23, 8)]
  else if t = RejectedMsg.TYPE then [(1, 8)]
  else if t = CancelPendingMsg.TYPE then [(1, 8)]
  else if t = CancelRejectMsg.TYPE then [(1, 8)]
  else if t = PriorityMsg.TYPE then [(1, 8), (23, 4), (28, 8)]
  else if t = ModifiedMsg.TYPE then [(1, 8), (24, 4)]
  else if t = SysMsg.TYPE then [(1, 8)]
  else []

/-! ## Byte-order lemmas -/

theorem htonl_lt (x : Nat) : htonl x < 4294967296 := by
  unfold htonl; omega

theorem htonl_bytes (a b c d : Nat) (ha : a < 256) (hb : b < 256) (hc : c < 256)
    (hd : d < 256) :
    htonl (a + 256 * b + 65536 * c + 16777216 * d) = d + 256 * c + 65536 * b + 16777216 * a := by
  unfold htonl; omega

theorem htonl_htonl (x : Nat) (h : x < 4294967296) : htonl (htonl x) = x := by
  have h1 : htonl x = x / 16777216 % 256 + 256 * (x / 65536 % 256) + 65536 * (x / 256 % 256)
      + 16777216 * (x % 256) := by unfold htonl; omega
  rw [h1, htonl_bytes _ _ _ _ (Nat.mod_lt _ (by decide)) (Nat.mod_lt _ (by decide))
    (Nat.mod_lt _ (by decide)) (Nat.mod_lt _ (by decide))]
  have e1 : x / 65536 = x / 256 / 256 := by rw [Nat.div_div_eq_div_mul]
  have e2 : x / 16777216 = x / 256 / 256 / 256 := by
    rw [Nat.div_div_eq_div_mul, Nat.div_div_eq_div_mul]
  rw [e2, e1]
  clear e1 e2 h1
  omega

theorem htonl_eq_zero (x : Nat) (h : x < 4294967296) : htonl x = 0 ↔ x = 0 := by
  unfold htonl; omega

theorem toU32_lt (v : Int) : toU32 v < 4294967296 := by
  unfold toU32; omega

theorem toU32_toI32 (x : Nat) (h : x < 4294967296) : toU32 (toI32 x) = x := by
  unfold toU32 toI32; split <;> omega

theorem toI32_toU32 (v : Int) (h : isInt32 v) : toI32 (toU32 v) = v := by
  unfold isInt32 at h; unfold toU32 toI32; split <;> omega

theorem toI32_eq_zero (x : Nat) (h : x < 4294967296) : toI32 x = 0 ↔ x = 0 := by
  unfold toI32; split <;> omega

theorem toU32_eq_zero (v : Int) (h : isInt32 v) : toU32 v = 0 ↔ v = 0 := by
  unfold isInt32 at h; unfold toU32; omega

theorem htonlInt_eq_zero (v : Int) (h : isInt32 v) : htonlInt v = 0 ↔ v = 0 := by
  unfold htonlInt
  rw [toI32_eq_zero _ (htonl_lt _), htonl_eq_zero _ (toU32_lt _), toU32_eq_zero _ h]

theorem ntohlInt_htonlInt (v : Int) (h : isInt32 v) : ntohlInt (htonlInt v) = v := by
  unfold ntohlInt htonlInt ntohl
  rw [toU32_toI32 _ (htonl_lt _), htonl_htonl _ (toU32_lt _), toI32_toU32 _ h]

/-- The conditional conversion `if (f) f = htonl(f)` followed by `if (f) f = ntohl(f)`. -/
theorem ntohl_htonl_guarded (v : Int) (h : isInt32 v) :
    (if (if v ≠ 0 then htonlInt v else v) ≠ 0 then ntohlInt (if v ≠ 0 then htonlInt v else v)
      else (if v ≠ 0 then htonlInt v else v)) = v := by
  by_cases hv : v = 0
  · subst hv; simp
  · have h1 : htonlInt v ≠ 0 := fun hz => hv ((htonlInt_eq_zero v h).1 hz)
    simp [hv, h1, ntohlInt_htonlInt v h]

/-! ## C1 -/

/-- C1: for every OrderMsg, ReplaceMsg, CancelMsg and ModifyMsg whose integer fields hold
any 32-bit `int` values, `ntoh` after `hton` gives the message back, and both conversions
leave the type byte, the text fields and the single-byte fields as they are. -/
theorem hton_ntoh_roundtrip (o : OrderMsg) (r : ReplaceMsg) (c : CancelMsg) (m : ModifyMsg)
    (ho : isInt32 o.shares ∧ isInt32 o.price ∧ isInt32 o.tif ∧ isInt32 o.minQty)
    (hr : isInt32 r.shares ∧ isInt32 r.price ∧ isInt32 r.tif ∧ isInt32 r.minQty)
    (hc : isInt32 c.shares) (hm : isInt32 m.shares) :
    (o.hton.ntoh = o ∧ r.hton.ntoh = r ∧ c.hton.ntoh = c ∧ m.hton.ntoh = m) ∧
    (∀ x : OrderMsg, ∀ y, (y = x.hton ∨ y = x.ntoh) →
      y.type = x.type ∧ y.id = x.id ∧ y.side = x.side ∧ y.symbol = x.symbol ∧
      y.firm = x.firm ∧ y.display = x.display ∧ y.capacity = x.capacity ∧
      y.sweep = x.sweep ∧ y.cross = x.cross) ∧
    (∀ x : ReplaceMsg, ∀ y, (y = x.hton ∨ y = x.ntoh) →
      y.type = x.type ∧ y.oldid = x.oldid ∧ y.newid = x.newid ∧ y.display = x.display ∧
      y.sweep = x.sweep) ∧
    (∀ x : CancelMsg, ∀ y, (y = x.hton ∨ y = x.ntoh) → y.type = x.type ∧ y.id = x.id) ∧
    (∀ x : ModifyMsg, ∀ y, (y = x.hton ∨ y = x.ntoh) →
      y.type = x.type ∧ y.id = x.id ∧ y.side = x.side) := by
  refine ⟨⟨?_, ?_, ?_, ?_⟩, ?_, ?_, ?_, ?_⟩
  · cases o
    obtain ⟨h1, h2, h3, h4⟩ := ho
    dsimp only at h1 h2 h3 h4
    simp only [OrderMsg.hton, OrderMsg.ntoh, OrderMsg.mk.injEq, true_and]
    exact ⟨ntohlInt_htonlInt _ h1, ntohlInt_htonlInt _ h2, ntohlInt_htonlInt _ h3,
      ntohl_htonl_guarded _ h4, trivial⟩
  · cases r
    obtain ⟨h1, h2, h3, h4⟩ := hr
    dsimp only at h1 h2 h3 h4
    simp only [ReplaceMsg.hton, ReplaceMsg.ntoh, ReplaceMsg.mk.injEq, true_and]
    exact ⟨ntohlInt_htonlInt _ h1, ntohlInt_htonlInt _ h2, ntohlInt_htonlInt _ h3,
      ntohl_htonl_guarded _ h4⟩
  · cases c
    dsimp only at hc
    simp only [CancelMsg.hton, CancelMsg.ntoh, CancelMsg.mk.injEq, true_and]
    exact ntohl_htonl_guarded _ hc
  · cases m
    dsimp only at hm
    simp only [ModifyMsg.hton, ModifyMsg.ntoh, ModifyMsg.mk.injEq, true_and]
    exact ntohl_htonl_guarded _ hm
  · rintro x y (rfl | rfl) <;> simp [OrderMsg.hton, OrderMsg.ntoh]
  · rintro x y (rfl | rfl) <;> simp [ReplaceMsg.hton, ReplaceMsg.ntoh]
  · rintro x y (rfl | rfl) <;> simp [CancelMsg.hton, CancelMsg.ntoh]
  · rintro x y (rfl | rfl) <;> simp [ModifyMsg.hton, ModifyMsg.ntoh]

/-! ## Memory lemmas -/

theorem readMem_length (d : Nat → Nat) (p n : Nat) : (readMem d p n).length = n := by
  simp [readMem]

theorem readMem_getD (d : Nat → Nat) (p n i : Nat) (h : i < n) :
    (readMem d p n).getD i 0 = d (p + i) := by
  simp [readMem, List.getD_eq_getElem?_getD, List.getElem?_map, List.getElem?_range h]

theorem writeMem_inside (d : Nat → Nat) (p : Nat) (bs : List Nat) (i : Nat) (h : i < bs.length) :
    writeMem d p bs (p + i) = bs.getD i 0 := by
  simp [writeMem, h]

theorem writeMem_outside (d : Nat → Nat) (p : Nat) (bs : List Nat) (j : Nat)
    (h : j < p ∨ p + bs.length ≤ j) : writeMem d p bs j = d j := by
  unfold writeMem
  rw [if_neg]
  omega

theorem readMem_congr (d1 d2 : Nat → Nat) (p1 p2 n : Nat)
    (h : ∀ i, i < n → d1 (p1 + i) = d2 (p2 + i)) : readMem d1 p1 n = readMem d2 p2 n := by
  unfold readMem
  apply List.map_congr_left
  intro i hi
  exact h i (List.mem_range.1 hi)

theorem readMem_eq_iff (d : Nat → Nat) (p : Nat) (bs : List Nat) :
    readMem d p bs.length = bs ↔ ∀ i, i < bs.length → d (p + i) = bs.getD i 0 := by
  constructor
  · intro h i hi
    rw [← readMem_getD d p bs.length i hi, h]
  · intro h
    apply List.ext_getElem (readMem_length _ _ _)
    intro i h1 h2
    have := h i h2
    simp [readMem, this, List.getD_eq_getElem?_getD, List.getElem?_eq_getElem h2]

theorem readMem_writeMem_same (d : Nat → Nat) (p : Nat) (bs : List Nat) :
    readMem (writeMem d p bs) p bs.length = bs :=
  (readMem_eq_iff _ _ _).2 (fun i hi => writeMem_inside d p bs i hi)

theorem readMem_writeMem_disjoint (d : Nat → Nat) (p : Nat) (bs : List Nat) (q n : Nat)
    (h : q + n ≤ p ∨ p + bs.length ≤ q) : readMem (writeMem d p bs) q n = readMem d q n := by
  apply readMem_congr
  intro i hi
  apply writeMem_outside
  omega

theorem readMem_add (d : Nat → Nat) (p m n : Nat) :
    readMem d p (m + n) = readMem d p m ++ readMem d (p + m) n := by
  unfold readMem
  rw [List.range_add, List.map_append, List.map_map]
  congr 1
  apply List.map_congr_left
  intro i _
  simp [Nat.add_assoc]

theorem readMem_take_drop (d : Nat → Nat) (p : Nat) (bs : List Nat) (o n : Nat)
    (h : readMem d p bs.length = bs) (hon : o + n ≤ bs.length) :
    readMem d (p + o) n = (bs.drop o).take n := by
  have h1 := (readMem_eq_iff d p bs).1 h
  apply List.ext_getElem
  · simp [readMem_length]; omega
  · intro i hi1 hi2
    simp only [readMem_length] at hi1
    have := h1 (o + i) (by omega)
    simp [readMem, List.getElem_take, List.getElem_drop] 
    rw [Nat.add_assoc, this, List.getD_eq_getElem?_getD, List.getElem?_eq_getElem (by omega)]
    simp

/-! ## Sizes of the memory images -/

theorem chars_length (w : List Nat) (o n : Nat) : (chars w o n).length = n := by
  simp [chars]

theorem leI32_length (v : Int) : (leI32 v).length = 4 := rfl

theorem le64_length (x : Nat) : (le64 x).length = 8 := rfl

theorem seqDataCase_length (t size : Nat) (f : List Nat → List Nat)
    (h : seqDataCase t = some (size, f)) (w : List Nat) : (f w).length = size := by
  unfold seqDataCase at h
  by_cases h0 : t = AcceptedMsg.TYPE
  · rw [if_pos h0] at h
    injection h with h
    injection h with ha hb
    subst ha hb
    simp [AcceptedMsg.toBytes, AcceptedMsg.ofBytes, AcceptedMsg.ntoh, AcceptedMsg.sizeof, chars_length, leI32_length, le64_length]
  rw [if_neg h0] at h
  by_cases h1 : t = ReplacedMsg.TYPE
  · rw [if_pos h1] at h
    injection h with h
    injection h with ha hb
    subst ha hb
    simp [ReplacedMsg.toBytes, ReplacedMsg.ofBytes, ReplacedMsg.ntoh, ReplacedMsg.sizeof, chars_length, leI32_length, le64_length]
  rw [if_neg h1] at h
  by_cases h2 : t = CanceledMsg.TYPE
  · rw [if_pos h2] at h
    injection h with h
    injection h with ha hb
    subst ha hb
    simp [CanceledMsg.toBytes, CanceledMsg.ofBytes, CanceledMsg.ntoh, CanceledMsg.sizeof, chars_length, leI32_length, le64_length]
  rw [if_neg h2] at h
  by_cases h3 : t = AIQCanceledMsg.TYPE
  · rw [if_pos h3] at h
    injection h with h
    injection h with ha hb
    subst ha hb
    simp [AIQCanceledMsg.toBytes, AIQCanceledMsg.ofBytes, AIQCanceledMsg.ntoh, AIQCanceledMsg.sizeof, chars_length, leI32_length, le64_length]
  rw [if_neg h3] at h
  by_cases h4 : t = ExecMsg.TYPE
  · rw [if_pos h4] at h
    injection h with h
    injection h with ha hb
    subst ha hb
    simp [ExecMsg.toBytes, ExecMsg.ofBytes, ExecMsg.ntoh, ExecMsg.sizeof, chars_length, leI32_length, le64_length]
  rw [if_neg h4] at h
  by_cases h5 : t = BrokenTradeMsg.TYPE
  · rw [if_pos h5] at h
    injection h with h
    injection h with ha hb
    subst ha hb
    simp [BrokenTradeMsg.toBytes, BrokenTradeMsg.ofBytes, BrokenTradeMsg.ntoh, BrokenTradeMsg.sizeof, chars_length, leI32_length, le64_length]
  rw [if_neg h5] at h
  by_cases h6 : t = RejectedMsg.TYPE
  · rw [if_pos h6] at h
    injection h with h
    injection h with ha hb
    subst ha hb
    simp [RejectedMsg.toBytes, RejectedMsg.ofBytes, RejectedMsg.ntoh, RejectedMsg.sizeof, chars_length, leI32_length, le64_length]
  rw [if_neg h6] at h
  by_cases h7 : t = CancelPendingMsg.TYPE
  · rw [if_pos h7] at h
    injection h with h
    injection h with ha hb
    subst ha hb
    simp [CancelPendingMsg.toBytes, CancelPendingMsg.ofBytes, CancelPendingMsg.ntoh, CancelPendingMsg.sizeof, chars_length, leI32_length, le64_length]
  rw [if_neg h7] at h
  by_cases h8 : t = CancelRejectMsg.TYPE
  · rw [if_pos h8] at h
    injection h with h
    injection h with ha hb
    subst ha hb
    simp [CancelRejectMsg.toBytes, CancelRejectMsg.ofBytes, CancelRejectMsg.ntoh, CancelRejectMsg.sizeof, chars_length, leI32_length, le64_length]
  rw [if_neg h8] at h
  by_cases h9 : t = PriorityMsg.TYPE
  · rw [if_pos h9] at h
    injection h with h
    injection h with ha hb
    subst ha hb
    simp [PriorityMsg.toBytes, PriorityMsg.ofBytes, PriorityMsg.ntoh, PriorityMsg.sizeof, chars_length, leI32_length, le64_length]
  rw [if_neg h9] at h
  by_cases h10 : t = ModifiedMsg.TYPE
  · rw [if_pos h10] at h
    injection h with h
    injection h with ha hb
    subst ha hb
    simp [ModifiedMsg.toBytes, ModifiedMsg.ofBytes, ModifiedMsg.ntoh, ModifiedMsg.sizeof, chars_length, leI32_length, le64_length]
  rw [if_neg h10] at h
  by_cases h11 : t = SysMsg.TYPE
  · rw [if_pos h11] at h
    injection h with h
    injection h with ha hb
    subst ha hb
    simp [SysMsg.toBytes, SysMsg.ofBytes, SysMsg.ntoh, SysMsg.sizeof, chars_length, leI32_length, le64_length]
  rw [if_neg h11] at h
  cases h

theorem unseqDataCase_length (t size : Nat) (f : List Nat → List Nat)
    (h : unseqDataCase t = some (size, f)) (w : List Nat) : (f w).length = size := by
  unfold unseqDataCase at h
  by_cases h0 : t = OrderMsg.TYPE
  · rw [if_pos h0] at h
    injection h with h
    injection h with ha hb
    subst ha hb
    simp [OrderMsg.toBytes, OrderMsg.ofBytes, OrderMsg.ntoh, OrderMsg.sizeof, chars_length, leI32_length, le64_length]
  rw [if_neg h0] at h
  by_cases h1 : t = ReplaceMsg.TYPE
  · rw [if_pos h1] at h
    injection h with h
    injection h with ha hb
    subst ha hb
    simp [ReplaceMsg.toBytes, ReplaceMsg.ofBytes, ReplaceMsg.ntoh, ReplaceMsg.sizeof, chars_length, leI32_length, le64_length]
  rw [if_neg h1] at h
  by_cases h2 : t = CancelMsg.TYPE
  · rw [if_pos h2] at h
    injection h with h
    injection h with ha hb
    subst ha hb
    simp [CancelMsg.toBytes, CancelMsg.ofBytes, CancelMsg.ntoh, CancelMsg.sizeof, chars_length, leI32_length, le64_length]
  rw [if_neg h2] at h
  cases h

/-! ## The arms of the `switch` of `in_event` -/

theorem seqDataCase_pos (t size : Nat) (f : List Nat → List Nat)
    (h : seqDataCase t = some (size, f)) : 10 ≤ size := by
  unfold seqDataCase at h
  by_cases h0 : t = AcceptedMsg.TYPE
  · rw [if_pos h0] at h
    injection h with h
    injection h with ha hb
    subst ha
    decide
  rw [if_neg h0] at h
  by_cases h1 : t = ReplacedMsg.TYPE
  · rw [if_pos h1] at h
    injection h with h
    injection h with ha hb
    subst ha
    decide
  rw [if_neg h1] at h
  by_cases h2 : t = CanceledMsg.TYPE
  · rw [if_pos h2] at h
    injection h with h
    injection h with ha hb
    subst ha
    decide
  rw [if_neg h2] at h
  by_cases h3 : t = AIQCanceledMsg.TYPE
  · rw [if_pos h3] at h
    injection h with h
    injection h with ha hb
    subst ha
    decide
  rw [if_neg h3] at h
  by_cases h4 : t = ExecMsg.TYPE
  · rw [if_pos h4] at h
    injection h with h
    injection h with ha hb
    subst ha
    decide
  rw [if_neg h4] at h
  by_cases h5 : t = BrokenTradeMsg.TYPE
  · rw [if_pos h5] at h
    injection h with h
    injection h with ha hb
    subst ha
    decide
  rw [if_neg h5] at h
  by_cases h6 : t = RejectedMsg.TYPE
  · rw [if_pos h6] at h
    injection h with h
    injection h with ha hb
    subst ha
    decide
  rw [if_neg h6] at h
  by_cases h7 : t = CancelPendingMsg.TYPE
  · rw [if_pos h7] at h
    injection h with h
    injection h with ha hb
    subst ha
    decide
  rw [if_neg h7] at h
  by_cases h8 : t = CancelRejectMsg.TYPE
  · rw [if_pos h8] at h
    injection h with h
    injection h with ha hb
    subst ha
    decide
  rw [if_neg h8] at h
  by_cases h9 : t = PriorityMsg.TYPE
  · rw [if_pos h9] at h
    injection h with h
    injection h with ha hb
    subst ha
    decide
  rw [if_neg h9] at h
  by_cases h10 : t = ModifiedMsg.TYPE
  · rw [if_pos h10] at h
    injection h with h
    injection h with ha hb
    subst ha
    decide
  rw [if_neg h10] at h
  by_cases h11 : t = SysMsg.TYPE
  · rw [if_pos h11] at h
    injection h with h
    injection h with ha hb
    subst ha
    decide
  rw [if_neg h11] at h
  cases h

theorem unseqDataCase_pos (t size : Nat) (f : List Nat → List Nat)
    (h : unseqDataCase t = some (size, f)) : 10 ≤ size := by
  unfold unseqDataCase at h
  by_cases h0 : t = OrderMsg.TYPE
  · rw [if_pos h0] at h
    injection h with h
    injection h with ha hb
    subst ha
    decide
  rw [if_neg h0] at h
  by_cases h1 : t = ReplaceMsg.TYPE
  · rw [if_pos h1] at h
    injection h with h
    injection h with ha hb
    subst ha
    decide
  rw [if_neg h1] at h
  by_cases h2 : t = CancelMsg.TYPE
  · rw [if_pos h2] at h
    injection h with h
    injection h with ha hb
    subst ha
    decide
  rw [if_neg h2] at h
  cases h


theorem core_eq_iff (s t : Session) :
    s.core = t.core ↔ s.isClient = t.isClient ∧ s.reconnectInterval = t.reconnectInterval ∧
      s.fd = t.fd ∧ s.state = t.state ∧ s.store = t.store ∧ s.outpipe = t.outpipe ∧
      s.sharedPoll = t.sharedPoll ∧ s.timer = t.timer ∧ s.trace = t.trace := by
  cases s; cases t
  simp [Session.core]

theorem handlePacket_seq (s : Session) (len now size : Nat) (f : List Nat → List Nat)
    (hty : s.rxbuf.data (s.rxbuf.start + 2) = SOUPBIN3_PACKET_SEQ_DATA)
    (hc : seqDataCase (s.rxbuf.data (s.rxbuf.start + 3)) = some (size, f)) :
    handlePacket s len now =
      Step.next
        (if countseq (ntohAt s.rxbuf.data (s.rxbuf.start + 3) size f) (s.rxbuf.start + 3)
            (s.rxbuf.data (s.rxbuf.start + 3))
         then ((({ s with rxbuf := { s.rxbuf with
                  data := ntohAt s.rxbuf.data (s.rxbuf.start + 3) size f } }).emit
                (Effect.onIncoming
                  (readMem (ntohAt s.rxbuf.data (s.rxbuf.start + 3) size f) (s.rxbuf.start + 3)
                    (len - 3)) len)).emit
                (Effect.fromApp
                  (readMem (ntohAt s.rxbuf.data (s.rxbuf.start + 3) size f) (s.rxbuf.start + 3)
                    (len - 3)))).incrNextTargetMsgSeqNum
         else (({ s with rxbuf := { s.rxbuf with
                  data := ntohAt s.rxbuf.data (s.rxbuf.start + 3) size f } }).emit
                (Effect.onIncoming
                  (readMem (ntohAt s.rxbuf.data (s.rxbuf.start + 3) size f) (s.rxbuf.start + 3)
                    (len - 3)) len)).emit
                (Effect.fromApp
                  (readMem (ntohAt s.rxbuf.data (s.rxbuf.start + 3) size f) (s.rxbuf.start + 3)
                    (len - 3)))) := by
  simp only [handlePacket, Buffer.begin, hty, hc, if_true]

theorem handlePacket_seq_unknown (s : Session) (len now : Nat)
    (hty : s.rxbuf.data (s.rxbuf.start + 2) = SOUPBIN3_PACKET_SEQ_DATA)
    (hc : seqDataCase (s.rxbuf.data (s.rxbuf.start + 3)) = none) :
    handlePacket s len now =
      Step.ret ((s.event (str "unknown OUCH message type " ++
        [s.rxbuf.data (s.rxbuf.start + 3)])).close) := by
  simp only [handlePacket, Buffer.begin, hty, hc, if_true]

theorem handlePacket_unseq (s : Session) (len now : Nat)
    (hty : s.rxbuf.data (s.rxbuf.start + 2) = SOUPBIN3_PACKET_UNSEQ_DATA) :
    handlePacket s len now =
      Step.next
        ((({ s with rxbuf := { s.rxbuf with
              data := unseqDataNtoh s.rxbuf.data (s.rxbuf.start + 3) } }).emit
            (Effect.onIncoming
              (readMem (unseqDataNtoh s.rxbuf.data (s.rxbuf.start + 3)) (s.rxbuf.start + 3)
                (len - 3)) len)).emit
            (Effect.fromApp
              (readMem (unseqDataNtoh s.rxbuf.data (s.rxbuf.start + 3)) (s.rxbuf.start + 3)
                (len - 3)))) := by
  simp [handlePacket, Buffer.begin, hty, SOUPBIN3_PACKET_UNSEQ_DATA, SOUPBIN3_PACKET_SEQ_DATA,
    SOUPBIN3_PACKET_LOGIN_ACCEPTED, SOUPBIN3_PACKET_LOGIN_REJECTED,
    SOUPBIN3_PACKET_SERVER_HEARTBEAT, SOUPBIN3_PACKET_END_OF_SESSION,
    SOUPBIN3_PACKET_CLIENT_HEARTBEAT, SOUPBIN3_PACKET_LOGIN_REQUEST]

theorem handlePacket_login_accepted (s : Session) (len now : Nat)
    (hty : s.rxbuf.data (s.rxbuf.start + 2) = SOUPBIN3_PACKET_LOGIN_ACCEPTED) :
    handlePacket s len now =
      assertThen (len = soupbin3_packet_login_accepted.sizeof)
        (({ (if parseSeqNum (readMem s.rxbuf.data
                (s.rxbuf.start + soupbin3_packet_login_accepted.SequenceNumber) 20) ≠
                s.getExpectedTargetNum
             then (s.event (str "Login accepted: " ++ cstr (readMem s.rxbuf.data (s.rxbuf.start + 3)
                  (soupbin3_packet_login_accepted.sizeof - 3)))).setNextTargetMsgSeqNum
                (parseSeqNum (readMem s.rxbuf.data
                  (s.rxbuf.start + soupbin3_packet_login_accepted.SequenceNumber) 20))
             else (s.event (str "Login accepted: " ++ cstr (readMem s.rxbuf.data (s.rxbuf.start + 3)
                  (soupbin3_packet_login_accepted.sizeof - 3))))) with
            state := SessionState.st_logon_received }).emit Effect.onLogon)
        Step.next := by
  simp [handlePacket, Buffer.begin, hty, SOUPBIN3_PACKET_LOGIN_ACCEPTED, SOUPBIN3_PACKET_SEQ_DATA,
    Session.getExpectedTargetNum, Session.event, Session.emit]

theorem handlePacket_login_request (s : Session) (len now : Nat)
    (hty : s.rxbuf.data (s.rxbuf.start + 2) = SOUPBIN3_PACKET_LOGIN_REQUEST) :
    handlePacket s len now =
      assertThen (len = soupbin3_packet_login_request.sizeof)
        ((s.event (str "Received logon request: " ++ cstr (readMem s.rxbuf.data (s.rxbuf.start + 3)
            (soupbin3_packet_login_request.sizeof - 3)))).sendBytes
          (loginAcceptedPacket s.getExpectedSenderNum) now)
        Step.next := by
  simp [handlePacket, Buffer.begin, hty, SOUPBIN3_PACKET_UNSEQ_DATA, SOUPBIN3_PACKET_SEQ_DATA,
    SOUPBIN3_PACKET_LOGIN_ACCEPTED, SOUPBIN3_PACKET_LOGIN_REJECTED,
    SOUPBIN3_PACKET_SERVER_HEARTBEAT, SOUPBIN3_PACKET_END_OF_SESSION,
    SOUPBIN3_PACKET_CLIENT_HEARTBEAT, SOUPBIN3_PACKET_LOGIN_REQUEST,
    Session.getExpectedSenderNum, Session.event, Session.emit]

theorem handlePacket_login_rejected (s : Session) (len now : Nat)
    (hty : s.rxbuf.data (s.rxbuf.start + 2) = SOUPBIN3_PACKET_LOGIN_REJECTED) :
    handlePacket s len now =
      assertThen (len = soupbin3_packet_login_rejected.sizeof)
        ((s.event (str "Login rejected: " ++ [s.rxbuf.data (s.rxbuf.start + 3)])).close)
        Step.ret := by
  simp [handlePacket, Buffer.begin, hty, SOUPBIN3_PACKET_UNSEQ_DATA, SOUPBIN3_PACKET_SEQ_DATA,
    SOUPBIN3_PACKET_LOGIN_ACCEPTED, SOUPBIN3_PACKET_LOGIN_REJECTED]

theorem handlePacket_end_of_session (s : Session) (len now : Nat)
    (hty : s.rxbuf.data (s.rxbuf.start + 2) = SOUPBIN3_PACKET_END_OF_SESSION) :
    handlePacket s len now =
      assertThen (len = soupbin3_packet_end_of_session.sizeof)
        ((s.event (str "End of session by peer")).close) Step.ret := by
  simp [handlePacket, Buffer.begin, hty, SOUPBIN3_PACKET_UNSEQ_DATA, SOUPBIN3_PACKET_SEQ_DATA,
    SOUPBIN3_PACKET_LOGIN_ACCEPTED, SOUPBIN3_PACKET_LOGIN_REJECTED,
    SOUPBIN3_PACKET_SERVER_HEARTBEAT, SOUPBIN3_PACKET_END_OF_SESSION]

theorem handlePacket_server_heartbeat (s : Session) (len now : Nat)
    (hty : s.rxbuf.data (s.rxbuf.start + 2) = SOUPBIN3_PACKET_SERVER_HEARTBEAT) :
    handlePacket s len now =
      assertThen (len = soupbin3_packet_server_heartbeat.sizeof) s Step.next := by
  simp [handlePacket, Buffer.begin, hty, SOUPBIN3_PACKET_UNSEQ_DATA, SOUPBIN3_PACKET_SEQ_DATA,
    SOUPBIN3_PACKET_LOGIN_ACCEPTED, SOUPBIN3_PACKET_LOGIN_REJECTED,
    SOUPBIN3_PACKET_SERVER_HEARTBEAT]

theorem handlePacket_client_heartbeat (s : Session) (len now : Nat)
    (hty : s.rxbuf.data (s.rxbuf.start + 2) = SOUPBIN3_PACKET_CLIENT_HEARTBEAT) :
    handlePacket s len now =
      assertThen (len = soupbin3_packet_client_heartbeat.sizeof) s Step.next := by
  simp [handlePacket, Buffer.begin, hty, SOUPBIN3_PACKET_UNSEQ_DATA, SOUPBIN3_PACKET_SEQ_DATA,
    SOUPBIN3_PACKET_LOGIN_ACCEPTED, SOUPBIN3_PACKET_LOGIN_REJECTED,
    SOUPBIN3_PACKET_SERVER_HEARTBEAT, SOUPBIN3_PACKET_END_OF_SESSION,
    SOUPBIN3_PACKET_CLIENT_HEARTBEAT]

theorem handlePacket_other (s : Session) (len now : Nat)
    (h1 : s.rxbuf.data (s.rxbuf.start + 2) ≠ SOUPBIN3_PACKET_SEQ_DATA)
    (h2 : s.rxbuf.data (s.rxbuf.start + 2) ≠ SOUPBIN3_PACKET_LOGIN_ACCEPTED)
    (h3 : s.rxbuf.data (s.rxbuf.start + 2) ≠ SOUPBIN3_PACKET_LOGIN_REJECTED)
    (h4 : s.rxbuf.data (s.rxbuf.start + 2) ≠ SOUPBIN3_PACKET_SERVER_HEARTBEAT)
    (h5 : s.rxbuf.data (s.rxbuf.start + 2) ≠ SOUPBIN3_PACKET_END_OF_SESSION)
    (h6 : s.rxbuf.data (s.rxbuf.start + 2) ≠ SOUPBIN3_PACKET_CLIENT_HEARTBEAT)
    (h7 : s.rxbuf.data (s.rxbuf.start + 2) ≠ SOUPBIN3_PACKET_LOGIN_REQUEST)
    (h8 : s.rxbuf.data (s.rxbuf.start + 2) ≠ SOUPBIN3_PACKET_UNSEQ_DATA) :
    handlePacket s len now = Step.next s := by
  simp only [handlePacket, Buffer.begin, if_neg h1, if_neg h2, if_neg h3, if_neg h4, if_neg h5,
    if_neg h6, if_neg h7, if_neg h8]

theorem countseq_congr (d d' : Nat → Nat) (m m' t size : Nat) (f : List Nat → List Nat)
    (body : List Nat) (hc : seqDataCase t = some (size, f))
    (h : readMem d m size = body) (h' : readMem d' m' size = body) :
    countseq d m t = countseq d' m' t := by
  unfold countseq
  by_cases ht : t = RejectedMsg.TYPE
  · have : size = RejectedMsg.sizeof := by
      subst ht
      simp [seqDataCase, RejectedMsg.TYPE, AcceptedMsg.TYPE, ReplacedMsg.TYPE, CanceledMsg.TYPE,
        AIQCanceledMsg.TYPE, ExecMsg.TYPE, BrokenTradeMsg.TYPE] at hc
      exact hc.1.symm
    subst this
    rw [h, h']
  · simp [ht]

theorem readMem_ntohAt (d : Nat → Nat) (m size : Nat) (f : List Nat → List Nat) (body : List Nat)
    (hbody : readMem d m size = body) (hfl : (f body).length = size) :
    readMem (ntohAt d m size f) m size = f body := by
  unfold ntohAt
  rw [hbody]
  conv => lhs; arg 3; rw [← hfl]
  exact readMem_writeMem_same _ _ _

theorem ntohAt_outside (d : Nat → Nat) (m size : Nat) (f : List Nat → List Nat)
    (hfl : ∀ w, (f w).length = size) (j : Nat) (hj : j < m ∨ m + size ≤ j) :
    ntohAt d m size f j = d j := by
  unfold ntohAt
  apply writeMem_outside
  rw [hfl]
  exact hj

theorem handlePacket_seq_rebase (s s' : Session) (p : List Nat) (now now' size : Nat)
    (f : List Nat → List Nat)
    (hcore : s.core = s'.core)
    (hp : readMem s.rxbuf.data s.rxbuf.start p.length = p)
    (hp' : readMem s'.rxbuf.data s'.rxbuf.start p.length = p)
    (hty : p.getD 2 0 = SOUPBIN3_PACKET_SEQ_DATA)
    (hcase : seqDataCase (p.getD 3 0) = some (size, f))
    (hlen : p.length = size + 3) :
    ∃ s1 s1', handlePacket s p.length now = Step.next s1 ∧
      handlePacket s' p.length now' = Step.next s1' ∧ s1.core = s1'.core ∧
      Session.frame p.length s s1 := by
  have hsz := seqDataCase_pos _ _ _ hcase
  have hb := (readMem_eq_iff _ _ _).1 hp
  have hb' := (readMem_eq_iff _ _ _).1 hp'
  have e2 := hb 2 (by omega)
  have e3 := hb 3 (by omega)
  have e2' := hb' 2 (by omega)
  have e3' := hb' 3 (by omega)
  have hbody := readMem_take_drop _ _ p 3 size hp (by omega)
  have hbody' := readMem_take_drop _ _ p 3 size hp' (by omega)
  have hfl := seqDataCase_length _ _ _ hcase
  have hr := readMem_ntohAt _ _ _ f _ hbody (hfl _)
  have hr' := readMem_ntohAt _ _ _ f _ hbody' (hfl _)
  have hcs := countseq_congr _ _ _ _ _ _ _ _ hcase hr hr'
  rw [handlePacket_seq s _ now size f (by rw [e2, hty]) (by rw [e3, hcase]),
    handlePacket_seq s' _ now' size f (by rw [e2', hty]) (by rw [e3', hcase])]
  refine ⟨_, _, rfl, rfl, ?_, ?_⟩
  · have hl : p.length - 3 = size := by omega
    rw [hl, hr, hr', e3, e3', hcs]
    obtain ⟨h1, h2, h3, h4, h5, h6, h7, h8, h9⟩ := (core_eq_iff _ _).1 hcore
    split <;> simp [core_eq_iff, Session.emit, Session.incrNextTargetMsgSeqNum, *]
  · have hfr : ∀ j, (j < s.rxbuf.start ∨ s.rxbuf.start + p.length ≤ j) →
        ntohAt s.rxbuf.data (s.rxbuf.start + 3) size f j = s.rxbuf.data j := by
      intro j hj
      apply ntohAt_outside _ _ _ _ hfl
      omega
    split <;> simp [Session.frame, Session.emit, Session.incrNextTargetMsgSeqNum] <;> exact hfr

theorem handlePacket_unseq_rebase (s s' : Session) (p : List Nat) (now now' : Nat)
    (hcore : s.core = s'.core)
    (hp : readMem s.rxbuf.data s.rxbuf.start p.length = p)
    (hp' : readMem s'.rxbuf.data s'.rxbuf.start p.length = p)
    (hty : p.getD 2 0 = SOUPBIN3_PACKET_UNSEQ_DATA)
    (hcase : match unseqDataCase (p.getD 3 0) with
      | some (size, _) => p.length = size + 3
      | none => 4 ≤ p.length) :
    ∃ s1 s1', handlePacket s p.length now = Step.next s1 ∧
      handlePacket s' p.length now' = Step.next s1' ∧ s1.core = s1'.core ∧
      Session.frame p.length s s1 := by
  have hb := (readMem_eq_iff _ _ _).1 hp
  have hb' := (readMem_eq_iff _ _ _).1 hp'
  have h4 : 4 ≤ p.length := by
    cases hc : unseqDataCase (p.getD 3 0) with
    | none => rw [hc] at hcase; exact hcase
    | some x =>
      obtain ⟨size, f⟩ := x
      rw [hc] at hcase
      have := unseqDataCase_pos _ _ _ hc
      simp only at hcase
      omega
  have e2 := hb 2 (by omega)
  have e3 := hb 3 (by omega)
  have e2' := hb' 2 (by omega)
  have e3' := hb' 3 (by omega)
  rw [handlePacket_unseq s _ now (by rw [e2, hty]), handlePacket_unseq s' _ now' (by rw [e2', hty])]
  refine ⟨_, _, rfl, rfl, ?_, ?_⟩
  · obtain ⟨h1, h2, h3, h4, h5, h6, h7, h8, h9⟩ := (core_eq_iff _ _).1 hcore
    have key : readMem (unseqDataNtoh s.rxbuf.data (s.rxbuf.start + 3)) (s.rxbuf.start + 3)
        (p.length - 3) = readMem (unseqDataNtoh s'.rxbuf.data (s'.rxbuf.start + 3))
        (s'.rxbuf.start + 3) (p.length - 3) := by
      unfold unseqDataNtoh
      rw [e3, e3']
      cases hc : unseqDataCase (p.getD 3 0) with
      | none =>
        simp only
        rw [readMem_take_drop _ _ p 3 (p.length - 3) hp (by omega),
          readMem_take_drop _ _ p 3 (p.length - 3) hp' (by omega)]
      | some x =>
        obtain ⟨size, f⟩ := x
        rw [hc] at hcase
        simp only at hcase ⊢
        have hl : p.length - 3 = size := by omega
        rw [hl]
        have hfl := unseqDataCase_length _ _ _ hc
        rw [readMem_ntohAt _ _ _ f _ (readMem_take_drop _ _ p 3 size hp (by omega)) (hfl _),
          readMem_ntohAt _ _ _ f _ (readMem_take_drop _ _ p 3 size hp' (by omega)) (hfl _)]
    rw [key]
    simp [core_eq_iff, Session.emit, *]
  · simp only [Session.frame, Session.emit, true_and]
    intro j hj
    unfold unseqDataNtoh
    rw [e3]
    cases hc : unseqDataCase (p.getD 3 0) with
    | none => rfl
    | some x =>
      obtain ⟨size, f⟩ := x
      rw [hc] at hcase
      simp only at hcase ⊢
      apply ntohAt_outside _ _ _ _ (unseqDataCase_length _ _ _ hc)
      omega



theorem frame_refl (len : Nat) (s : Session) : Session.frame len s s :=
  ⟨rfl, rfl, rfl, fun _ _ => rfl⟩

theorem handlePacket_login_accepted_rebase (s s' : Session) (p : List Nat) (now now' : Nat)
    (hcore : s.core = s'.core)
    (hp : readMem s.rxbuf.data s.rxbuf.start p.length = p)
    (hp' : readMem s'.rxbuf.data s'.rxbuf.start p.length = p)
    (hty : p.getD 2 0 = SOUPBIN3_PACKET_LOGIN_ACCEPTED)
    (hlen : p.length = soupbin3_packet_login_accepted.sizeof) :
    ∃ s1 s1', handlePacket s p.length now = Step.next s1 ∧
      handlePacket s' p.length now' = Step.next s1' ∧ s1.core = s1'.core ∧
      Session.frame p.length s s1 := by
  have hb := (readMem_eq_iff _ _ _).1 hp
  have hb' := (readMem_eq_iff _ _ _).1 hp'
  have h33 : p.length = 33 := hlen
  have e2 := hb 2 (by omega)
  have e2' := hb' 2 (by omega)
  rw [handlePacket_login_accepted s _ now (by rw [e2, hty]),
    handlePacket_login_accepted s' _ now' (by rw [e2', hty])]
  simp only [assertThen, hlen, decide_True, if_true]
  refine ⟨_, _, rfl, rfl, ?_, ?_⟩
  · obtain ⟨h1, h2, h3, h4, h5, h6, h7, h8, h9⟩ := (core_eq_iff _ _).1 hcore
    have k1 := readMem_take_drop _ _ p 3 30 hp (by omega)
    have k1' := readMem_take_drop _ _ p 3 30 hp' (by omega)
    have k2 := readMem_take_drop _ _ p 13 20 hp (by omega)
    have k2' := readMem_take_drop _ _ p 13 20 hp' (by omega)
    simp only [soupbin3_packet_login_accepted.sizeof, soupbin3_packet_login_accepted.SequenceNumber,
      Nat.reduceSub, k1, k1', k2, k2', Session.getExpectedTargetNum, h5]
    split <;> simp [core_eq_iff, Session.emit, Session.event, Session.setNextTargetMsgSeqNum, *]
  · split <;> simp [Session.frame, Session.emit, Session.event, Session.setNextTargetMsgSeqNum]

theorem handlePacket_login_request_rebase (s s' : Session) (p : List Nat) (now now' : Nat)
    (hcore : s.core = s'.core)
    (hp : readMem s.rxbuf.data s.rxbuf.start p.length = p)
    (hp' : readMem s'.rxbuf.data s'.rxbuf.start p.length = p)
    (hty : p.getD 2 0 = SOUPBIN3_PACKET_LOGIN_REQUEST)
    (hlen : p.length = soupbin3_packet_login_request.sizeof) :
    ∃ s1 s1', handlePacket s p.length now = Step.next s1 ∧
      handlePacket s' p.length now' = Step.next s1' ∧ s1.core = s1'.core ∧
      Session.frame p.length s s1 := by
  have hb := (readMem_eq_iff _ _ _).1 hp
  have hb' := (readMem_eq_iff _ _ _).1 hp'
  have h49 : p.length = 49 := hlen
  have e2 := hb 2 (by omega)
  have e2' := hb' 2 (by omega)
  rw [handlePacket_login_request s _ now (by rw [e2, hty]),
    handlePacket_login_request s' _ now' (by rw [e2', hty])]
  simp only [assertThen, hlen, decide_True, if_true]
  refine ⟨_, _, rfl, rfl, ?_, ?_⟩
  · obtain ⟨h1, h2, h3, h4, h5, h6, h7, h8, h9⟩ := (core_eq_iff _ _).1 hcore
    have k1 := readMem_take_drop _ _ p 3 46 hp (by omega)
    have k1' := readMem_take_drop _ _ p 3 46 hp' (by omega)
    simp only [soupbin3_packet_login_request.sizeof, Nat.reduceSub, k1, k1',
      Session.getExpectedSenderNum, h5, Session.sendBytes, Session.event, Session.emit, h3]
    split <;> simp [core_eq_iff, Session.emit, *]
  · simp only [Session.sendBytes, Session.event, Session.emit]
    split <;> simp [Session.frame, Session.emit]

theorem handlePacket_rebase (s s' : Session) (p : List Nat) (now now' : Nat)
    (hcore : s.core = s'.core)
    (hp : readMem s.rxbuf.data s.rxbuf.start p.length = p)
    (hp' : readMem s'.rxbuf.data s'.rxbuf.start p.length = p)
    (hwf : wellFormed p = true) :
    ∃ s1 s1', handlePacket s p.length now = Step.next s1 ∧
      handlePacket s' p.length now' = Step.next s1' ∧ s1.core = s1'.core ∧
      Session.frame p.length s s1 := by
  unfold wellFormed at hwf
  simp only [Bool.and_eq_true, decide_eq_true_eq] at hwf
  obtain ⟨⟨h3, hpl⟩, hrest⟩ := hwf
  have hb := (readMem_eq_iff _ _ _).1 hp
  have hb' := (readMem_eq_iff _ _ _).1 hp'
  have e2 := hb 2 (by omega)
  have e2' := hb' 2 (by omega)
  by_cases hS : p.getD 2 0 = SOUPBIN3_PACKET_SEQ_DATA
  · rw [if_pos hS] at hrest
    cases hc : seqDataCase (p.getD 3 0) with
    | none => rw [hc] at hrest; cases hrest
    | some x =>
      obtain ⟨size, f⟩ := x
      rw [hc] at hrest
      simp only [decide_eq_true_eq] at hrest
      exact handlePacket_seq_rebase s s' p now now' size f hcore hp hp' hS hc hrest
  rw [if_neg hS] at hrest
  by_cases hU : p.getD 2 0 = SOUPBIN3_PACKET_UNSEQ_DATA
  · rw [if_pos hU] at hrest
    apply handlePacket_unseq_rebase s s' p now now' hcore hp hp' hU
    cases hc : unseqDataCase (p.getD 3 0) with
    | none => rw [hc] at hrest; simpa using hrest
    | some x =>
      obtain ⟨size, f⟩ := x
      rw [hc] at hrest
      simpa using hrest
  rw [if_neg hU] at hrest
  by_cases hA : p.getD 2 0 = SOUPBIN3_PACKET_LOGIN_ACCEPTED
  · rw [if_pos hA] at hrest
    exact handlePacket_login_accepted_rebase s s' p now now' hcore hp hp' hA (by simpa using hrest)
  rw [if_neg hA] at hrest
  by_cases hL : p.getD 2 0 = SOUPBIN3_PACKET_LOGIN_REQUEST
  · rw [if_pos hL] at hrest
    exact handlePacket_login_request_rebase s s' p now now' hcore hp hp' hL (by simpa using hrest)
  rw [if_neg hL] at hrest
  by_cases hH : p.getD 2 0 = SOUPBIN3_PACKET_SERVER_HEARTBEAT
  · rw [if_pos hH] at hrest
    have hl : p.length = soupbin3_packet_server_heartbeat.sizeof := by simpa using hrest
    rw [handlePacket_server_heartbeat s _ now (by rw [e2, hH]),
      handlePacket_server_heartbeat s' _ now' (by rw [e2', hH])]
    simp only [assertThen, hl, decide_True, if_true]
    exact ⟨_, _, rfl, rfl, hcore, frame_refl _ _⟩
  rw [if_neg hH] at hrest
  by_cases hR : p.getD 2 0 = SOUPBIN3_PACKET_CLIENT_HEARTBEAT
  · rw [if_pos hR] at hrest
    have hl : p.length = soupbin3_packet_client_heartbeat.sizeof := by simpa using hrest
    rw [handlePacket_client_heartbeat s _ now (by rw [e2, hR]),
      handlePacket_client_heartbeat s' _ now' (by rw [e2', hR])]
    simp only [assertThen, hl, decide_True, if_true]
    exact ⟨_, _, rfl, rfl, hcore, frame_refl _ _⟩
  rw [if_neg hR] at hrest
  simp only [decide_eq_true_eq] at hrest
  rw [handlePacket_other s _ now (by rw [e2]; exact hS) (by rw [e2]; exact hA)
      (by rw [e2]; exact hrest.1) (by rw [e2]; exact hH) (by rw [e2]; exact hrest.2)
      (by rw [e2]; exact hR) (by rw [e2]; exact hL) (by rw [e2]; exact hU),
    handlePacket_other s' _ now' (by rw [e2']; exact hS) (by rw [e2']; exact hA)
      (by rw [e2']; exact hrest.1) (by rw [e2']; exact hH) (by rw [e2']; exact hrest.2)
      (by rw [e2']; exact hR) (by rw [e2']; exact hL) (by rw [e2']; exact hU)]
  exact ⟨_, _, rfl, rfl, hcore, frame_refl _ _⟩

/-! ## The loop of `in_event` on a buffer of well-formed packets -/

theorem wellFormed_length (p : List Nat) (h : wellFormed p = true) :
    3 ≤ p.length ∧ pktLen (p.getD 0 0) (p.getD 1 0) = p.length := by
  unfold wellFormed at h
  simp only [Bool.and_eq_true, decide_eq_true_eq] at h
  exact h.1

theorem getD_append_left (p r : List Nat) (i : Nat) (h : i < p.length) :
    (p ++ r).getD i 0 = p.getD i 0 := by
  simp [List.getD_eq_getElem?_getD, List.getElem?_append_left h]

theorem drain_stalls (s : Session) (fuel now : Nat) (t : List Nat) (ht : stalls t)
    (hlen : s.rxbuf.len = t.length)
    (hp : readMem s.rxbuf.data s.rxbuf.start s.rxbuf.len = t) :
    drain (fuel + 1) s now = some s := by
  unfold drain
  by_cases h2 : s.rxbuf.len > 2
  · rw [if_pos h2]
    rw [hlen] at hp
    have hb := (readMem_eq_iff _ _ _).1 hp
    have e0 := hb 0 (by omega)
    have e1 := hb 1 (by omega)
    rw [Nat.add_zero] at e0
    simp only [Buffer.begin]
    rw [e0, e1]
    rcases ht with ht | ht
    · omega
    · rw [if_neg (by omega)]
  · rw [if_neg h2]

theorem dispatch_core (s : Session) (p : List Nat) (now : Nat)
    (hp : readMem s.rxbuf.data s.rxbuf.start p.length = p) (hwf : wellFormed p = true) :
    ∃ s1, handlePacket s p.length now = Step.next s1 ∧ s1.core = dispatch s.core p ∧
      Session.frame p.length s s1 := by
  obtain ⟨s1, s1', h1, h2, h3, h4⟩ := handlePacket_rebase s
    { s.core with rxbuf := { data := fun i => p.getD i 0, start := 0, len := p.length } }
    p now 0 (by simp [core_eq_iff, Session.core]) hp
    ((readMem_eq_iff _ _ _).2 (fun i _ => by simp)) hwf
  refine ⟨s1, h1, ?_, h4⟩
  unfold dispatch
  rw [h2, h3]
  rfl

theorem drain_packets (pkts : List (List Nat)) :
    ∀ (s : Session) (fuel : Nat) (tail : List Nat) (now : Nat),
    (∀ p ∈ pkts, wellFormed p = true) → stalls tail →
    s.rxbuf.len = (pkts.flatten ++ tail).length →
    readMem s.rxbuf.data s.rxbuf.start s.rxbuf.len = pkts.flatten ++ tail →
    pkts.length < fuel →
    ∃ s1, drain fuel s now = some s1 ∧ s1.core = pkts.foldl dispatch s.core ∧
      s1.rxbuf.len = tail.length ∧
      readMem s1.rxbuf.data s1.rxbuf.start s1.rxbuf.len = tail ∧
      s1.rxbuf.start + s1.rxbuf.len = s.rxbuf.start + s.rxbuf.len ∧ s1.rxtm = s.rxtm := by
  induction pkts with
  | nil =>
    intro s fuel tail now _ ht hlen hp hf
    obtain ⟨f, rfl⟩ : ∃ f, fuel = f + 1 := ⟨fuel - 1, by simp at hf; omega⟩
    simp only [List.flatten_nil, List.nil_append] at hlen hp
    exact ⟨s, drain_stalls s f now tail ht hlen hp, rfl, hlen, hp, rfl, rfl⟩
  | cons p pkts ih =>
    intro s fuel tail now hwf ht hlen hp hf
    obtain ⟨f, rfl⟩ : ∃ f, fuel = f + 1 := ⟨fuel - 1, by simp at hf; omega⟩
    have hwp := hwf p (List.mem_cons_self _ _)
    obtain ⟨h3, hpl⟩ := wellFormed_length p hwp
    simp only [List.flatten_cons, List.append_assoc, List.length_append] at hlen hp
    have hlen' : s.rxbuf.len = p.length + (pkts.flatten ++ tail).length := by
      simp only [List.length_append]; exact hlen
    rw [hlen', readMem_add] at hp
    have hp1 : readMem s.rxbuf.data s.rxbuf.start p.length = p := by
      have := congrArg (List.take p.length) hp
      simpa [List.take_append_eq_append_take, readMem_length] using this
    have hp2 : readMem s.rxbuf.data (s.rxbuf.start + p.length) (pkts.flatten ++ tail).length =
        pkts.flatten ++ tail := by
      have := congrArg (List.drop p.length) hp
      simpa [List.drop_append_eq_append_drop, readMem_length] using this
    have hb := (readMem_eq_iff _ _ _).1 hp1
    have e0 := hb 0 (by omega)
    have e1 := hb 1 (by omega)
    obtain ⟨s1, hs1, hcore, hfr⟩ := dispatch_core s p now hp1 hwp
    obtain ⟨fr1, fr2, fr3, fr4⟩ := hfr
    have hih := ih { s1 with rxbuf := s1.rxbuf.advance p.length } f tail now
      (fun q hq => hwf q (List.mem_cons_of_mem _ hq)) ht
      (by simp only [Buffer.advance, fr2, hlen']; omega)
      (by
        simp only [Buffer.advance, fr1, fr2, hlen']
        rw [Nat.add_sub_cancel_left]
        refine Eq.trans (readMem_congr _ _ _ _ _ ?_) hp2
        intro i _
        apply fr4
        omega)
      (by simp at hf; omega)
    obtain ⟨s2, hd, hc2, hl2, hr2, hsum, htm⟩ := hih
    refine ⟨s2, ?_, ?_, hl2, hr2, ?_, ?_⟩
    · rw [drain]
      rw [Nat.add_zero] at e0
      simp only [Buffer.begin]
      rw [if_pos (by omega), e0, e1, hpl]
      rw [if_pos (by omega), if_pos (by omega), hs1]
      exact hd
    · rw [hc2, List.foldl_cons, ← hcore]
      rfl
    · rw [hsum]
      simp only [Buffer.advance, fr1, fr2]
      omega
    · rw [htm]
      exact fr3

/-! ## One read -/

theorem in_event_read (s : Session) (bytes : List Nat) (e : Int) (now : Nat) (hne : bytes ≠ [])
    (hcap : (if s.rxbuf.full then s.rxbuf.len else s.rxbuf.start + s.rxbuf.len) + bytes.length
      ≤ Buffer.cap) :
    ∃ s1, s.in_event (ReadResult.data bytes e) now = drain (s1.rxbuf.len + 1) s1 now ∧
      s1.core = s.core ∧ s1.rxbuf.len = s.rxbuf.len + bytes.length ∧
      readMem s1.rxbuf.data s1.rxbuf.start s1.rxbuf.len =
        readMem s.rxbuf.data s.rxbuf.start s.rxbuf.len ++ bytes ∧
      s1.rxbuf.start = (if s.rxbuf.full then 0 else s.rxbuf.start) ∧ s1.rxtm = now := by
  have hpos : 0 < bytes.length := List.length_pos.2 hne
  unfold Session.in_event
  by_cases hf : s.rxbuf.full = true
  · rw [if_pos hf] at hcap
    simp only [hf, if_true]
    have hrem : s.rxbuf.compact.remaining = Buffer.cap - s.rxbuf.len := by
      simp only [Buffer.remaining, Buffer.compact, Buffer.cap] at hcap ⊢
      omega
    have htake : bytes.take (s.rxbuf.compact.remaining) = bytes := by
      apply List.take_of_length_le
      rw [hrem]; omega
    simp only [htake, hpos, if_true]
    refine ⟨_, rfl, ?_, rfl, ?_, rfl, rfl⟩
    · simp [core_eq_iff]
    · simp only [Buffer.compact, Buffer.end_, Buffer.begin, Nat.zero_add]
      rw [readMem_add, readMem_writeMem_disjoint _ s.rxbuf.len bytes 0 s.rxbuf.len
        (Or.inl (Nat.le_of_eq (Nat.zero_add _))), Nat.zero_add, readMem_writeMem_same]
      rw [readMem_congr _ s.rxbuf.data 0 s.rxbuf.start s.rxbuf.len (by intro i hi; simp [hi])]
  · have hf' : s.rxbuf.full = false := by simpa using hf
    rw [if_neg hf] at hcap
    simp only [hf', Bool.false_eq_true, if_false]
    have hrem : s.rxbuf.remaining = Buffer.cap - s.rxbuf.start - s.rxbuf.len := by
      simp only [Buffer.remaining, Buffer.cap] at hcap ⊢
      omega
    have htake : bytes.take (s.rxbuf.remaining) = bytes := by
      apply List.take_of_length_le
      rw [hrem]; omega
    simp only [htake, hpos, if_true]
    refine ⟨_, rfl, ?_, rfl, ?_, rfl, rfl⟩
    · simp [core_eq_iff]
    · simp only [Buffer.end_, Buffer.begin]
      rw [readMem_add, readMem_writeMem_disjoint _ _ _ _ _ (Or.inl (Nat.le_refl _)),
        readMem_writeMem_same]

/-! ## Cutting a stream of packets -/

theorem stalls_nil : stalls [] := Or.inl (by simp)

theorem stalls_prefix (p x r : List Nat) (hwf : wellFormed p = true) (hx : x ++ r = p)
    (hlt : x.length < p.length) : stalls x := by
  obtain ⟨h3, hpl⟩ := wellFormed_length p hwf
  by_cases h2 : x.length ≤ 2
  · exact Or.inl h2
  · right
    subst hx
    rw [getD_append_left _ _ _ (by omega), getD_append_left _ _ _ (by omega)] at hpl
    rw [hpl]
    exact hlt

theorem split_prefix (Q : List (List Nat)) :
    ∀ (x R : List Nat), x ++ R = Q.flatten → (∀ p ∈ Q, wellFormed p = true) →
    ∃ m t, x = (Q.take m).flatten ++ t ∧ t ++ R = (Q.drop m).flatten ∧ stalls t := by
  induction Q with
  | nil =>
    intro x R h _
    simp only [List.flatten_nil, List.append_eq_nil] at h
    exact ⟨0, [], by simp [h.1], by simp [h.2], stalls_nil⟩
  | cons p Q ih =>
    intro x R h hwf
    simp only [List.flatten_cons] at h
    by_cases hlt : x.length < p.length
    · refine ⟨0, x, by simp, by simpa using h, ?_⟩
      obtain ⟨a, h1, _⟩ | ⟨c, h1, _⟩ := List.append_eq_append_iff.1 h
      · exact stalls_prefix p x a (hwf p (List.mem_cons_self _ _)) h1.symm hlt
      · rw [h1, List.length_append] at hlt
        omega
    · have hx : x = p ++ x.drop p.length := by
        have := congrArg (List.take p.length) h
        rw [List.take_append_of_le_length (by omega), List.take_left'  rfl] at this
        conv => lhs; rw [← List.take_append_drop p.length x]
        rw [this]
      have hr : x.drop p.length ++ R = Q.flatten := by
        have := congrArg (List.drop p.length) h
        rw [List.drop_append_of_le_length (by omega), List.drop_left' rfl] at this
        exact this
      obtain ⟨m, t, h1, h2, h3⟩ := ih _ _ hr (fun q hq => hwf q (List.mem_cons_of_mem _ hq))
      refine ⟨m + 1, t, ?_, by simpa using h2, h3⟩
      rw [hx, h1]
      simp

theorem length_le_flatten (Q : List (List Nat)) (h : ∀ p ∈ Q, wellFormed p = true) :
    Q.length ≤ Q.flatten.length := by
  induction Q with
  | nil => simp
  | cons p Q ih =>
    have := (wellFormed_length p (h p (List.mem_cons_self _ _))).1
    have := ih (fun q hq => h q (List.mem_cons_of_mem _ hq))
    simp only [List.length_cons, List.flatten_cons, List.length_append]
    omega

theorem stalls_flatten (Q : List (List Nat)) (h : ∀ p ∈ Q, wellFormed p = true)
    (hs : stalls Q.flatten) : Q = [] := by
  cases Q with
  | nil => rfl
  | cons p Q =>
    exfalso
    obtain ⟨h3, hpl⟩ := wellFormed_length p (h p (List.mem_cons_self _ _))
    simp only [List.flatten_cons] at hs
    rcases hs with hs | hs
    · simp only [List.length_append] at hs; omega
    · rw [getD_append_left _ _ _ (by omega), getD_append_left _ _ _ (by omega), hpl] at hs
      simp only [List.length_append] at hs; omega

theorem feed_cons (s : Session) (e : Int) (bytes : List Nat) (now : Nat)
    (rest : List (List Nat × Nat)) :
    feed s e ((bytes, now) :: rest) =
      (s.in_event (ReadResult.data bytes e) now).bind (fun s1 => feed s1 e rest) := by
  rw [feed]

theorem feed_prefix (slices : List (List Nat × Nat)) :
    ∀ (s : Session) (Q : List (List Nat)) (t R : List Nat) (e : Int),
    (∀ sl ∈ slices, sl.1 ≠ []) → (∀ p ∈ Q, wellFormed p = true) → stalls t →
    s.rxbuf.len = t.length → readMem s.rxbuf.data s.rxbuf.start s.rxbuf.len = t →
    t ++ (slices.map Prod.fst).flatten ++ R = Q.flatten →
    (if s.rxbuf.full then s.rxbuf.len else s.rxbuf.start + s.rxbuf.len) +
      (slices.map Prod.fst).flatten.length ≤ Buffer.cap →
    ∃ m s2 t2, feed s e slices = some s2 ∧ s2.core = (Q.take m).foldl dispatch s.core ∧
      s2.rxbuf.len = t2.length ∧ readMem s2.rxbuf.data s2.rxbuf.start s2.rxbuf.len = t2 ∧
      stalls t2 ∧ t2 ++ R = (Q.drop m).flatten := by
  induction slices with
  | nil =>
    intro s Q t R e _ _ ht hlen hp hcat _
    refine ⟨0, s, t, rfl, rfl, hlen, hp, ht, ?_⟩
    simpa using hcat
  | cons sl rest ih =>
    intro s Q t R e hne hwf ht hlen hp hcat hcap
    obtain ⟨bytes, now⟩ := sl
    have hb : bytes ≠ [] := hne (bytes, now) (List.mem_cons_self _ _)
    simp only [List.map_cons, List.flatten_cons, List.length_append] at hcat hcap
    have hcap1 : (if s.rxbuf.full then s.rxbuf.len else s.rxbuf.start + s.rxbuf.len) +
        bytes.length ≤ Buffer.cap := by
      generalize (if s.rxbuf.full then s.rxbuf.len else s.rxbuf.start + s.rxbuf.len) = v at hcap ⊢
      generalize Buffer.cap = C at hcap ⊢
      omega
    obtain ⟨s1, hin, hc1, hl1, hr1, hst1, _⟩ := in_event_read s bytes e now hb hcap1
    have hcat' : (t ++ bytes) ++ ((rest.map Prod.fst).flatten ++ R) = Q.flatten := by
      rw [← hcat]; simp
    obtain ⟨m1, t1, hx, hrest, hst⟩ := split_prefix Q _ _ hcat' hwf
    have hwf1 : ∀ p ∈ Q.take m1, wellFormed p = true := fun p hp => hwf p (List.mem_of_mem_take hp)
    have hwf2 : ∀ p ∈ Q.drop m1, wellFormed p = true := fun p hp => hwf p (List.mem_of_mem_drop hp)
    rw [hp] at hr1
    obtain ⟨s2, hd, hc2, hl2, hr2, hsum, _⟩ := drain_packets (Q.take m1) s1 (s1.rxbuf.len + 1) t1
      now hwf1 hst (by rw [hl1, hlen, ← hx]; simp) (by rw [hr1, hx])
      (by
        have := length_le_flatten _ hwf1
        have h2 := congrArg List.length hx
        simp only [List.length_append] at h2
        rw [hl1, hlen]; omega)
    have hcap2 : (if s2.rxbuf.full then s2.rxbuf.len else s2.rxbuf.start + s2.rxbuf.len) +
        (rest.map Prod.fst).flatten.length ≤ Buffer.cap := by
      have h1 : s2.rxbuf.start + s2.rxbuf.len + (rest.map Prod.fst).flatten.length ≤
          Buffer.cap := by
        rw [hsum, hst1, hl1]
        generalize Buffer.cap = C at hcap ⊢
        by_cases hfull : s.rxbuf.full = true
        · rw [if_pos hfull] at hcap ⊢
          omega
        · rw [if_neg hfull] at hcap ⊢
          omega
      generalize Buffer.cap = C at h1 ⊢
      by_cases hfull : s2.rxbuf.full = true
      · rw [if_pos hfull]; omega
      · rw [if_neg hfull]; omega
    obtain ⟨m2, s3, t3, hf3, hc3, hl3, hr3, hst3, hcat3⟩ := ih s2 (Q.drop m1) t1 R e
      (fun x hx => hne x (List.mem_cons_of_mem _ hx)) hwf2 hst hl2 hr2
      (by rw [List.append_assoc]; exact hrest) hcap2
    refine ⟨m1 + m2, s3, t3, ?_, ?_, hl3, hr3, hst3, ?_⟩
    · rw [feed_cons, hin, hd]
      exact hf3
    · rw [hc3, hc2, hc1, List.take_add, List.foldl_append]
    · rw [hcat3, List.drop_drop, Nat.add_comm]

theorem feed_nil (s : Session) (e : Int) : feed s e [] = some s := by
  rw [feed]

theorem feed_one (s : Session) (e : Int) (bytes : List Nat) (now : Nat) :
    feed s e [(bytes, now)] = s.in_event (ReadResult.data bytes e) now := by
  rw [feed_cons]
  cases s.in_event (ReadResult.data bytes e) now with
  | none => rfl
  | some s1 => exact feed_nil s1 e

theorem room_cap (s : Session) (n : Nat) (h0 : s.rxbuf.len = 0) (h : n ≤ s.room) :
    (if s.rxbuf.full then s.rxbuf.len else s.rxbuf.start + s.rxbuf.len) + n ≤ Buffer.cap := by
  unfold Session.room at h
  by_cases hf : s.rxbuf.full = true
  · rw [if_pos hf] at h ⊢
    simp only [Buffer.remaining, Buffer.compact, Buffer.cap, h0] at h ⊢
    omega
  · rw [if_neg hf] at h ⊢
    simp only [Buffer.full, Buffer.FIX_MAX_MESSAGE_SIZE, Buffer.cap, h0, decide_eq_true_eq] at hf
    simp only [Buffer.remaining, Buffer.cap, h0] at h ⊢
    omega

/-- All the packets of a stream are handled once the whole stream has been read, however it
is cut into reads. -/
theorem feed_all (slices : List (List Nat × Nat)) (s : Session) (Q : List (List Nat)) (e : Int)
    (hsl : ∀ sl ∈ slices, sl.1 ≠ []) (hwf : ∀ p ∈ Q, wellFormed p = true)
    (h0 : s.rxbuf.len = 0) (hcut : (slices.map Prod.fst).flatten = Q.flatten)
    (hfit : Q.flatten.length ≤ s.room) :
    ∃ s2, feed s e slices = some s2 ∧ s2.core = Q.foldl dispatch s.core ∧ s2.rxbuf.len = 0 := by
  obtain ⟨m, s2, t2, hf, hc, hl, _, hst, hcat⟩ := feed_prefix slices s Q [] [] e hsl hwf
    stalls_nil h0 (by rw [h0]; rfl) (by simpa using hcut)
    (by rw [hcut]; exact room_cap s _ h0 hfit)
  rw [List.append_nil] at hcat
  subst hcat
  have hd := stalls_flatten _ (fun p hp => hwf p (List.mem_of_mem_drop hp)) hst
  have hm : Q.take m = Q := by
    have := List.take_append_drop m Q
    rw [hd, List.append_nil] at this
    exact this
  refine ⟨s2, hf, by rw [hc, hm], ?_⟩
  rw [hl, hd]
  rfl

/-- C2: for a session with an empty receive buffer, a stream of well-formed packets that
fits the buffer and any cut of the stream into non-empty reads, `in_event` on the reads one
after the other ends in the same session (same trace of log and application calls, same
counters, state, socket and pipe) as `in_event` on the whole stream in one read, and that
session is the one reached by handling each packet once, in order.  When a packet `p0` comes
in two reads `a` and `b`, the first read leaves everything but the buffer as it was and the
second handles `p0` once. -/
theorem in_event_slices (s : Session) (e : Int) (now : Nat) (pkts : List (List Nat))
    (slices : List (List Nat × Nat)) (p0 a b : List Nat) (na nb : Nat)
    (h0 : s.rxbuf.len = 0)
    (hwf : ∀ p ∈ pkts, wellFormed p = true) (hne : pkts ≠ [])
    (hsl : ∀ sl ∈ slices, sl.1 ≠ [])
    (hcut : (slices.map Prod.fst).flatten = pkts.flatten)
    (hfit : pkts.flatten.length ≤ s.room)
    (hp0 : wellFormed p0 = true) (ha : a ≠ []) (hb : b ≠ []) (hab : a ++ b = p0)
    (hfit0 : p0.length ≤ s.room) :
    (∃ s1 s2, s.in_event (ReadResult.data pkts.flatten e) now = some s1 ∧
      feed s e slices = some s2 ∧ s2.core = s1.core ∧
      s1.core = pkts.foldl dispatch s.core ∧ s1.rxbuf.len = 0 ∧ s2.rxbuf.len = 0) ∧
    (∃ sa sb, s.in_event (ReadResult.data a e) na = some sa ∧ sa.core = s.core ∧
      sa.in_event (ReadResult.data b e) nb = some sb ∧ sb.core = dispatch s.core p0) := by
  constructor
  · have hflat : pkts.flatten ≠ [] := by
      cases pkts with
      | nil => exact absurd rfl hne
      | cons p Q =>
        have := (wellFormed_length p (hwf p (List.mem_cons_self _ _))).1
        intro h
        have := congrArg List.length h
        simp only [List.flatten_cons, List.length_append, List.length_nil] at this
        omega
    obtain ⟨s1, h1, hc1, hl1⟩ := feed_all [(pkts.flatten, now)] s pkts e
      (by simpa using hflat) hwf h0 (by simp) hfit
    obtain ⟨s2, h2, hc2, hl2⟩ := feed_all slices s pkts e hsl hwf h0 hcut hfit
    rw [feed_one] at h1
    exact ⟨s1, s2, h1, h2, by rw [hc2, hc1], hc1, hl1, hl2⟩
  · have hwf0 : ∀ p ∈ [p0], wellFormed p = true := by simpa using hp0
    obtain ⟨m, sa, t2, hfa, hca, _, _, _, hcat⟩ := feed_prefix [(a, na)] s [p0] [] b e
      (by simpa using ha) hwf0 stalls_nil h0 (by rw [h0]; rfl) (by simpa using hab)
      (by
        have := room_cap s _ h0 hfit0
        rw [← hab, List.length_append] at this
        simp only [List.map_cons, List.map_nil, List.flatten_cons, List.flatten_nil,
          List.append_nil]
        generalize (if s.rxbuf.full then s.rxbuf.len else s.rxbuf.start + s.rxbuf.len) = v at this ⊢
        generalize Buffer.cap = C at this ⊢
        omega)
    have hm : m = 0 := by
      cases m with
      | zero => rfl
      | succ k =>
        exfalso
        simp only [List.drop_succ_cons, List.drop_nil, List.flatten_nil,
          List.append_eq_nil] at hcat
        exact hb hcat.2
    subst hm
    rw [feed_one] at hfa
    obtain ⟨sb, hfb, hcb, _⟩ := feed_all [(a, na), (b, nb)] s [p0] e
      (by
        intro sl hsl
        simp only [List.mem_cons, List.mem_singleton, List.not_mem_nil, or_false] at hsl
        rcases hsl with rfl | rfl
        · exact ha
        · exact hb)
      hwf0 h0 (by simpa using hab) (by simpa using hfit0)
    rw [feed_cons, hfa] at hfb
    simp only [Option.some_bind] at hfb
    rw [feed_one] at hfb
    exact ⟨sa, sb, hfa, by simpa using hca, hfb, by simpa using hcb⟩

/-! ## Memory images of the messages -/

theorem le32_sum (x : Nat) (h : x < 4294967296) :
    x % 256 + 256 * (x / 256 % 256) + 65536 * (x / 65536 % 256) + 16777216 * (x / 16777216 % 256)
      = x := by
  have e1 : x / 65536 = x / 256 / 256 := by rw [Nat.div_div_eq_div_mul]
  have e2 : x / 16777216 = x / 256 / 256 / 256 := by
    rw [Nat.div_div_eq_div_mul, Nat.div_div_eq_div_mul]
  rw [e2, e1]
  omega

theorem getD_append_right' (pre l : List Nat) (i : Nat) :
    (pre ++ l).getD (pre.length + i) 0 = l.getD i 0 := by
  simp [List.getD_eq_getElem?_getD, List.getElem?_append_right]

theorem byteAt_mid (pre post : List Nat) (b o : Nat) (ho : o = pre.length) :
    byteAt (pre ++ b :: post) o = b := by
  subst ho
  have := getD_append_right' pre (b :: post) 0
  simpa [byteAt] using this

theorem chars_mid (pre l post : List Nat) (o n : Nat) (ho : o = pre.length) (hn : n = l.length) :
    chars (pre ++ (l ++ post)) o n = l := by
  subst ho hn
  apply List.ext_getElem (by simp [chars])
  intro i h1 h2
  simp only [chars, List.getElem_map, List.getElem_range, byteAt]
  rw [getD_append_right', getD_append_left _ _ _ h2, List.getD_eq_getElem?_getD,
    List.getElem?_eq_getElem h2]
  rfl

theorem getU32_mid (pre post : List Nat) (x o : Nat) (ho : o = pre.length)
    (hx : x < 4294967296) : getU32 (pre ++ (le32 x ++ post)) o = x := by
  subst ho
  unfold getU32 byteAt
  have h0 := getD_append_right' pre (le32 x ++ post) 0
  rw [Nat.add_zero] at h0
  rw [h0, getD_append_right', getD_append_right', getD_append_right']
  simp only [le32, List.cons_append, List.getD_cons_zero, List.getD_cons_succ]
  exact le32_sum x hx

theorem getI32_mid (pre post : List Nat) (v : Int) (o : Nat) (ho : o = pre.length)
    (hv : isInt32 v) : getI32 (pre ++ (leI32 v ++ post)) o = v := by
  unfold getI32 leI32
  rw [getU32_mid pre post _ o ho (toU32_lt v), toI32_toU32 v hv]

theorem getU64_mid (pre post : List Nat) (x o : Nat) (ho : o = pre.length)
    (hx : x < 18446744073709551616) : getU64 (pre ++ (le64 x ++ post)) o = x := by
  unfold getU64 le64
  rw [List.append_assoc, getU32_mid pre _ _ o ho (Nat.mod_lt _ (by decide))]
  have h2 := getU32_mid (pre ++ le32 (x % 4294967296)) post (x / 4294967296 % 4294967296) (o + 4)
    (by subst ho; simp [le32]) (Nat.mod_lt _ (by decide))
  rw [List.append_assoc] at h2
  rw [h2]
  omega

theorem ofBytes_toBytes_OrderMsg (x : OrderMsg) (h : x.WF) : OrderMsg.ofBytes x.toBytes = x := by
  obtain ⟨type0, id0, side0, shares0, symbol0, price0, tif0, firm0, display0, capacity0, sweep0, minQty0, cross0⟩ := x
  obtain ⟨h_id, h_shares, h_symbol, h_price, h_tif, h_firm, h_minQty⟩ := h
  simp only at h_id h_shares h_symbol h_price h_tif h_firm h_minQty
  simp only [OrderMsg.ofBytes, OrderMsg.mk.injEq]
  refine ⟨?_, ?_, ?_, ?_, ?_, ?_, ?_, ?_, ?_, ?_, ?_, ?_, ?_⟩
  · have e : OrderMsg.toBytes ⟨type0, id0, side0, shares0, symbol0, price0, tif0, firm0, display0, capacity0, sweep0, minQty0, cross0⟩ =
        (([] : List Nat)) ++ type0 :: (id0 ++ [side0] ++ leI32 shares0 ++ symbol0 ++ leI32 price0 ++ leI32 tif0 ++ firm0 ++ [display0] ++ [capacity0] ++ [sweep0] ++ leI32 minQty0 ++ [cross0]) := by
      simp only [OrderMsg.toBytes, List.append_assoc, List.cons_append, List.nil_append,
        List.append_nil]
    rw [e]
    exact byteAt_mid _ _ _ _ (by simp [h_id, h_symbol, h_firm, leI32_length, le64_length])
  · have e : OrderMsg.toBytes ⟨type0, id0, side0, shares0, symbol0, price0, tif0, firm0, display0, capacity0, sweep0, minQty0, cross0⟩ =
        ([type0]) ++ (id0 ++ ([side0] ++ leI32 shares0 ++ symbol0 ++ leI32 price0 ++ leI32 tif0 ++ firm0 ++ [display0] ++ [capacity0] ++ [sweep0] ++ leI32 minQty0 ++ [cross0])) := by
      simp only [OrderMsg.toBytes, List.append_assoc, List.cons_append, List.nil_append,
        List.append_nil]
    rw [e]
    exact chars_mid _ _ _ _ _ (by simp [h_id, h_symbol, h_firm, leI32_length, le64_length]) h_id.symm
  · have e : OrderMsg.toBytes ⟨type0, id0, side0, shares0, symbol0, price0, tif0, firm0, display0, capacity0, sweep0, minQty0, cross0⟩ =
        ([type0] ++ id0) ++ side0 :: (leI32 shares0 ++ symbol0 ++ leI32 price0 ++ leI32 tif0 ++ firm0 ++ [display0] ++ [capacity0] ++ [sweep0] ++ leI32 minQty0 ++ [cross0]) := by
      simp only [OrderMsg.toBytes, List.append_assoc, List.cons_append, List.nil_append,
        List.append_nil]
    rw [e]
    exact byteAt_mid _ _ _ _ (by simp [h_id, h_symbol, h_firm, leI32_length, le64_length])
  · have e : OrderMsg.toBytes ⟨type0, id0, side0, shares0, symbol0, price0, tif0, firm0, display0, capacity0, sweep0, minQty0, cross0⟩ =
        ([type0] ++ id0 ++ [side0]) ++ (leI32 shares0 ++ (symbol0 ++ leI32 price0 ++ leI32 tif0 ++ firm0 ++ [display0] ++ [capacity0] ++ [sweep0] ++ leI32 minQty0 ++ [cross0])) := by
      simp only [OrderMsg.toBytes, List.append_assoc, List.cons_append, List.nil_append,
        List.append_nil]
    rw [e]
    exact getI32_mid _ _ _ _ (by simp [h_id, h_symbol, h_firm, leI32_length, le64_length]) h_shares
  · have e : OrderMsg.toBytes ⟨type0, id0, side0, shares0, symbol0, price0, tif0, firm0, display0, capacity0, sweep0, minQty0, cross0⟩ =
        ([type0] ++ id0 ++ [side0] ++ leI32 shares0) ++ (symbol0 ++ (leI32 price0 ++ leI32 tif0 ++ firm0 ++ [display0] ++ [capacity0] ++ [sweep0] ++ leI32 minQty0 ++ [cross0])) := by
      simp only [OrderMsg.toBytes, List.append_assoc, List.cons_append, List.nil_append,
        List.append_nil]
    rw [e]
    exact chars_mid _ _ _ _ _ (by simp [h_id, h_symbol, h_firm, leI32_length, le64_length]) h_symbol.symm
  · have e : OrderMsg.toBytes ⟨type0, id0, side0, shares0, symbol0, price0, tif0, firm0, display0, capacity0, sweep0, minQty0, cross0⟩ =
        ([type0] ++ id0 ++ [side0] ++ leI32 shares0 ++ symbol0) ++ (leI32 price0 ++ (leI32 tif0 ++ firm0 ++ [display0] ++ [capacity0] ++ [sweep0] ++ leI32 minQty0 ++ [cross0])) := by
      simp only [OrderMsg.toBytes, List.append_assoc, List.cons_append, List.nil_append,
        List.append_nil]
    rw [e]
    exact getI32_mid _ _ _ _ (by simp [h_id, h_symbol, h_firm, leI32_length, le64_length]) h_price
  · have e : OrderMsg.toBytes ⟨type0, id0, side0, shares0, symbol0, price0, tif0, firm0, display0, capacity0, sweep0, minQty0, cross0⟩ =
        ([type0] ++ id0 ++ [side0] ++ leI32 shares0 ++ symbol0 ++ leI32 price0) ++ (leI32 tif0 ++ (firm0 ++ [display0] ++ [capacity0] ++ [sweep0] ++ leI32 minQty0 ++ [cross0])) := by
      simp only [OrderMsg.toBytes, List.append_assoc, List.cons_append, List.nil_append,
        List.append_nil]
    rw [e]
    exact getI32_mid _ _ _ _ (by simp [h_id, h_symbol, h_firm, leI32_length, le64_length]) h_tif
  · have e : OrderMsg.toBytes ⟨type0, id0, side0, shares0, symbol0, price0, tif0, firm0, display0, capacity0, sweep0, minQty0, cross0⟩ =
        ([type0] ++ id0 ++ [side0] ++ leI32 shares0 ++ symbol0 ++ leI32 price0 ++ leI32 tif0) ++ (firm0 ++ ([display0] ++ [capacity0] ++ [sweep0] ++ leI32 minQty0 ++ [cross0])) := by
      simp only [OrderMsg.toBytes, List.append_assoc, List.cons_append, List.nil_append,
        List.append_nil]
    rw [e]
    exact chars_mid _ _ _ _ _ (by simp [h_id, h_symbol, h_firm, leI32_length, le64_length]) h_firm.symm
  · have e : OrderMsg.toBytes ⟨type0, id0, side0, shares0, symbol0, price0, tif0, firm0, display0, capacity0, sweep0, minQty0, cross0⟩ =
        ([type0] ++ id0 ++ [side0] ++ leI32 shares0 ++ symbol0 ++ leI32 price0 ++ leI32 tif0 ++ firm0) ++ display0 :: ([capacity0] ++ [sweep0] ++ leI32 minQty0 ++ [cross0]) := by
      simp only [OrderMsg.toBytes, List.append_assoc, List.cons_append, List.nil_append,
        List.append_nil]
    rw [e]
    exact byteAt_mid _ _ _ _ (by simp [h_id, h_symbol, h_firm, leI32_length, le64_length])
  · have e : OrderMsg.toBytes ⟨type0, id0, side0, shares0, symbol0, price0, tif0, firm0, display0, capacity0, sweep0, minQty0, cross0⟩ =
        ([type0] ++ id0 ++ [side0] ++ leI32 shares0 ++ symbol0 ++ leI32 price0 ++ leI32 tif0 ++ firm0 ++ [display0]) ++ capacity0 :: ([sweep0] ++ leI32 minQty0 ++ [cross0]) := by
      simp only [OrderMsg.toBytes, List.append_assoc, List.cons_append, List.nil_append,
        List.append_nil]
    rw [e]
    exact byteAt_mid _ _ _ _ (by simp [h_id, h_symbol, h_firm, leI32_length, le64_length])
  · have e : OrderMsg.toBytes ⟨type0, id0, side0, shares0, symbol0, price0, tif0, firm0, display0, capacity0, sweep0, minQty0, cross0⟩ =
        ([type0] ++ id0 ++ [side0] ++ leI32 shares0 ++ symbol0 ++ leI32 price0 ++ leI32 tif0 ++ firm0 ++ [display0] ++ [capacity0]) ++ sweep0 :: (leI32 minQty0 ++ [cross0]) := by
      simp only [OrderMsg.toBytes, List.append_assoc, List.cons_append, List.nil_append,
        List.append_nil]
    rw [e]
    exact byteAt_mid _ _ _ _ (by simp [h_id, h_symbol, h_firm, leI32_length, le64_length])
  · have e : OrderMsg.toBytes ⟨type0, id0, side0, shares0, symbol0, price0, tif0, firm0, display0, capacity0, sweep0, minQty0, cross0⟩ =
        ([type0] ++ id0 ++ [side0] ++ leI32 shares0 ++ symbol0 ++ leI32 price0 ++ leI32 tif0 ++ firm0 ++ [display0] ++ [capacity0] ++ [sweep0]) ++ (leI32 minQty0 ++ ([cross0])) := by
      simp only [OrderMsg.toBytes, List.append_assoc, List.cons_append, List.nil_append,
        List.append_nil]
    rw [e]
    exact getI32_mid _ _ _ _ (by simp [h_id, h_symbol, h_firm, leI32_length, le64_length]) h_minQty
  · have e : OrderMsg.toBytes ⟨type0, id0, side0, shares0, symbol0, price0, tif0, firm0, display0, capacity0, sweep0, minQty0, cross0⟩ =
        ([type0] ++ id0 ++ [side0] ++ leI32 shares0 ++ symbol0 ++ leI32 price0 ++ leI32 tif0 ++ firm0 ++ [display0] ++ [capacity0] ++ [sweep0] ++ leI32 minQty0) ++ cross0 :: (([] : List Nat)) := by
      simp only [OrderMsg.toBytes, List.append_assoc, List.cons_append, List.nil_append,
        List.append_nil]
    rw [e]
    exact byteAt_mid _ _ _ _ (by simp [h_id, h_symbol, h_firm, leI32_length, le64_length])

theorem ofBytes_toBytes_AcceptedMsg (x : AcceptedMsg) (h : x.WF) : AcceptedMsg.ofBytes x.toBytes = x := by
  obtain ⟨type0, tm0, id0, side0, shares0, symbol0, price0, tif0, firm0, display0, ref0, capacity0, sweep0, minQty0, cross0, state0, bbo0⟩ := x
  obtain ⟨h_tm, h_id, h_shares, h_symbol, h_price, h_tif, h_firm, h_ref, h_minQty⟩ := h
  simp only at h_tm h_id h_shares h_symbol h_price h_tif h_firm h_ref h_minQty
  simp only [AcceptedMsg.ofBytes, AcceptedMsg.mk.injEq]
  refine ⟨?_, ?_, ?_, ?_, ?_, ?_, ?_, ?_, ?_, ?_, ?_, ?_, ?_, ?_, ?_, ?_, ?_⟩
  · have e : AcceptedMsg.toBytes ⟨type0, tm0, id0, side0, shares0, symbol0, price0, tif0, firm0, display0, ref0, capacity0, sweep0, minQty0, cross0, state0, bbo0⟩ =
        (([] : List Nat)) ++ type0 :: (le64 tm0 ++ id0 ++ [side0] ++ leI32 shares0 ++ symbol0 ++ leI32 price0 ++ leI32 tif0 ++ firm0 ++ [display0] ++ le64 ref0 ++ [capacity0] ++ [sweep0] ++ leI32 minQty0 ++ [cross0] ++ [state0] ++ [bbo0]) := by
      simp only [AcceptedMsg.toBytes, List.append_assoc, List.cons_append, List.nil_append,
        List.append_nil]
    rw [e]
    exact byteAt_mid _ _ _ _ (by simp [h_id, h_symbol, h_firm, leI32_length, le64_length])
  · have e : AcceptedMsg.toBytes ⟨type0, tm0, id0, side0, shares0, symbol0, price0, tif0, firm0, display0, ref0, capacity0, sweep0, minQty0, cross0, state0, bbo0⟩ =
        ([type0]) ++ (le64 tm0 ++ (id0 ++ [side0] ++ leI32 shares0 ++ symbol0 ++ leI32 price0 ++ leI32 tif0 ++ firm0 ++ [display0] ++ le64 ref0 ++ [capacity0] ++ [sweep0] ++ leI32 minQty0 ++ [cross0] ++ [state0] ++ [bbo0])) := by
      simp only [AcceptedMsg.toBytes, List.append_assoc, List.cons_append, List.nil_append,
        List.append_nil]
    rw [e]
    exact getU64_mid _ _ _ _ (by simp [h_id, h_symbol, h_firm, leI32_length, le64_length]) h_tm
  · have e : AcceptedMsg.toBytes ⟨type0, tm0, id0, side0, shares0, symbol0, price0, tif0, firm0, display0, ref0, capacity0, sweep0, minQty0, cross0, state0, bbo0⟩ =
        ([type0] ++ le64 tm0) ++ (id0 ++ ([side0] ++ leI32 shares0 ++ symbol0 ++ leI32 price0 ++ leI32 tif0 ++ firm0 ++ [display0] ++ le64 ref0 ++ [capacity0] ++ [sweep0] ++ leI32 minQty0 ++ [cross0] ++ [state0] ++ [bbo0])) := by
      simp only [AcceptedMsg.toBytes, List.append_assoc, List.cons_append, List.nil_append,
        List.append_nil]
    rw [e]
    exact chars_mid _ _ _ _ _ (by simp [h_id, h_symbol, h_firm, leI32_length, le64_length]) h_id.symm
  · have e : AcceptedMsg.toBytes ⟨type0, tm0, id0, side0, shares0, symbol0, price0, tif0, firm0, display0, ref0, capacity0, sweep0, minQty0, cross0, state0, bbo0⟩ =
        ([type0] ++ le64 tm0 ++ id0) ++ side0 :: (leI32 shares0 ++ symbol0 ++ leI32 price0 ++ leI32 tif0 ++ firm0 ++ [display0] ++ le64 ref0 ++ [capacity0] ++ [sweep0] ++ leI32 minQty0 ++ [cross0] ++ [state0] ++ [bbo0]) := by
      simp only [AcceptedMsg.toBytes, List.append_assoc, List.cons_append, List.nil_append,
        List.append_nil]
    rw [e]
    exact byteAt_mid _ _ _ _ (by simp [h_id, h_symbol, h_firm, leI32_length, le64_length])
  · have e : AcceptedMsg.toBytes ⟨type0, tm0, id0, side0, shares0, symbol0, price0, tif0, firm0, display0, ref0, capacity0, sweep0, minQty0, cross0, state0, bbo0⟩ =
        ([type0] ++ le64 tm0 ++ id0 ++ [side0]) ++ (leI32 shares0 ++ (symbol0 ++ leI32 price0 ++ leI32 tif0 ++ firm0 ++ [display0] ++ le64 ref0 ++ [capacity0] ++ [sweep0] ++ leI32 minQty0 ++ [cross0] ++ [state0] ++ [bbo0])) := by
      simp only [AcceptedMsg.toBytes, List.append_assoc, List.cons_append, List.nil_append,
        List.append_nil]
    rw [e]
    exact getI32_mid _ _ _ _ (by simp [h_id, h_symbol, h_firm, leI32_length, le64_length]) h_shares
  · have e : AcceptedMsg.toBytes ⟨type0, tm0, id0, side0, shares0, symbol0, price0, tif0, firm0, display0, ref0, capacity0, sweep0, minQty0, cross0, state0, bbo0⟩ =
        ([type0] ++ le64 tm0 ++ id0 ++ [side0] ++ leI32 shares0) ++ (symbol0 ++ (leI32 price0 ++ leI32 tif0 ++ firm0 ++ [display0] ++ le64 ref0 ++ [capacity0] ++ [sweep0] ++ leI32 minQty0 ++ [cross0] ++ [state0] ++ [bbo0])) := by
      simp only [AcceptedMsg.toBytes, List.append_assoc, List.cons_append, List.nil_append,
        List.append_nil]
    rw [e]
    exact chars_mid _ _ _ _ _ (by simp [h_id, h_symbol, h_firm, leI32_length, le64_length]) h_symbol.symm
  · have e : AcceptedMsg.toBytes ⟨type0, tm0, id0, side0, shares0, symbol0, price0, tif0, firm0, display0, ref0, capacity0, sweep0, minQty0, cross0, state0, bbo0⟩ =
        ([type0] ++ le64 tm0 ++ id0 ++ [side0] ++ leI32 shares0 ++ symbol0) ++ (leI32 price0 ++ (leI32 tif0 ++ firm0 ++ [display0] ++ le64 ref0 ++ [capacity0] ++ [sweep0] ++ leI32 minQty0 ++ [cross0] ++ [state0] ++ [bbo0])) := by
      simp only [AcceptedMsg.toBytes, List.append_assoc, List.cons_append, List.nil_append,
        List.append_nil]
    rw [e]
    exact getI32_mid _ _ _ _ (by simp [h_id, h_symbol, h_firm, leI32_length, le64_length]) h_price
  · have e : AcceptedMsg.toBytes ⟨type0, tm0, id0, side0, shares0, symbol0, price0, tif0, firm0, display0, ref0, capacity0, sweep0, minQty0, cross0, state0, bbo0⟩ =
        ([type0] ++ le64 tm0 ++ id0 ++ [side0] ++ leI32 shares0 ++ symbol0 ++ leI32 price0) ++ (leI32 tif0 ++ (firm0 ++ [display0] ++ le64 ref0 ++ [capacity0] ++ [sweep0] ++ leI32 minQty0 ++ [cross0] ++ [state0] ++ [bbo0])) := by
      simp only [AcceptedMsg.toBytes, List.append_assoc, List.cons_append, List.nil_append,
        List.append_nil]
    rw [e]
    exact getI32_mid _ _ _ _ (by simp [h_id, h_symbol, h_firm, leI32_length, le64_length]) h_tif
  · have e : AcceptedMsg.toBytes ⟨type0, tm0, id0, side0, shares0, symbol0, price0, tif0, firm0, display0, ref0, capacity0, sweep0, minQty0, cross0, state0, bbo0⟩ =
        ([type0] ++ le64 tm0 ++ id0 ++ [side0] ++ leI32 shares0 ++ symbol0 ++ leI32 price0 ++ leI32 tif0) ++ (firm0 ++ ([display0] ++ le64 ref0 ++ [capacity0] ++ [sweep0] ++ leI32 minQty0 ++ [cross0] ++ [state0] ++ [bbo0])) := by
      simp only [AcceptedMsg.toBytes, List.append_assoc, List.cons_append, List.nil_append,
        List.append_nil]
    rw [e]
    exact chars_mid _ _ _ _ _ (by simp [h_id, h_symbol, h_firm, leI32_length, le64_length]) h_firm.symm
  · have e : AcceptedMsg.toBytes ⟨type0, tm0, id0, side0, shares0, symbol0, price0, tif0, firm0, display0, ref0, capacity0, sweep0, minQty0, cross0, state0, bbo0⟩ =
        ([type0] ++ le64 tm0 ++ id0 ++ [side0] ++ leI32 shares0 ++ symbol0 ++ leI32 price0 ++ leI32 tif0 ++ firm0) ++ display0 :: (le64 ref0 ++ [capacity0] ++ [sweep0] ++ leI32 minQty0 ++ [cross0] ++ [state0] ++ [bbo0]) := by
      simp only [AcceptedMsg.toBytes, List.append_assoc, List.cons_append, List.nil_append,
        List.append_nil]
    rw [e]
    exact byteAt_mid _ _ _ _ (by simp [h_id, h_symbol, h_firm, leI32_length, le64_length])
  · have e : AcceptedMsg.toBytes ⟨type0, tm0, id0, side0, shares0, symbol0, price0, tif0, firm0, display0, ref0, capacity0, sweep0, minQty0, cross0, state0, bbo0⟩ =
        ([type0] ++ le64 tm0 ++ id0 ++ [side0] ++ leI32 shares0 ++ symbol0 ++ leI32 price0 ++ leI32 tif0 ++ firm0 ++ [display0]) ++ (le64 ref0 ++ ([capacity0] ++ [sweep0] ++ leI32 minQty0 ++ [cross0] ++ [state0] ++ [bbo0])) := by
      simp only [AcceptedMsg.toBytes, List.append_assoc, List.cons_append, List.nil_append,
        List.append_nil]
    rw [e]
    exact getU64_mid _ _ _ _ (by simp [h_id, h_symbol, h_firm, leI32_length, le64_length]) h_ref
  · have e : AcceptedMsg.toBytes ⟨type0, tm0, id0, side0, shares0, symbol0, price0, tif0, firm0, display0, ref0, capacity0, sweep0, minQty0, cross0, state0, bbo0⟩ =
        ([type0] ++ le64 tm0 ++ id0 ++ [side0] ++ leI32 shares0 ++ symbol0 ++ leI32 price0 ++ leI32 tif0 ++ firm0 ++ [display0] ++ le64 ref0) ++ capacity0 :: ([sweep0] ++ leI32 minQty0 ++ [cross0] ++ [state0] ++ [bbo0]) := by
      simp only [AcceptedMsg.toBytes, List.append_assoc, List.cons_append, List.nil_append,
        List.append_nil]
    rw [e]
    exact byteAt_mid _ _ _ _ (by simp [h_id, h_symbol, h_firm, leI32_length, le64_length])
  · have e : AcceptedMsg.toBytes ⟨type0, tm0, id0, side0, shares0, symbol0, price0, tif0, firm0, display0, ref0, capacity0, sweep0, minQty0, cross0, state0, bbo0⟩ =
        ([type0] ++ le64 tm0 ++ id0 ++ [side0] ++ leI32 shares0 ++ symbol0 ++ leI32 price0 ++ leI32 tif0 ++ firm0 ++ [display0] ++ le64 ref0 ++ [capacity0]) ++ sweep0 :: (leI32 minQty0 ++ [cross0] ++ [state0] ++ [bbo0]) := by
      simp only [AcceptedMsg.toBytes, List.append_assoc, List.cons_append, List.nil_append,
        List.append_nil]
    rw [e]
    exact byteAt_mid _ _ _ _ (by simp [h_id, h_symbol, h_firm, leI32_length, le64_length])
  · have e : AcceptedMsg.toBytes ⟨type0, tm0, id0, side0, shares0, symbol0, price0, tif0, firm0, display0, ref0, capacity0, sweep0, minQty0, cross0, state0, bbo0⟩ =
        ([type0] ++ le64 tm0 ++ id0 ++ [side0] ++ leI32 shares0 ++ symbol0 ++ leI32 price0 ++ leI32 tif0 ++ firm0 ++ [display0] ++ le64 ref0 ++ [capacity0] ++ [sweep0]) ++ (leI32 minQty0 ++ ([cross0] ++ [state0] ++ [bbo0])) := by
      simp only [AcceptedMsg.toBytes, List.append_assoc, List.cons_append, List.nil_append,
        List.append_nil]
    rw [e]
    exact getI32_mid _ _ _ _ (by simp [h_id, h_symbol, h_firm, leI32_length, le64_length]) h_minQty
  · have e : AcceptedMsg.toBytes ⟨type0, tm0, id0, side0, shares0, symbol0, price0, tif0, firm0, display0, ref0, capacity0, sweep0, minQty0, cross0, state0, bbo0⟩ =
        ([type0] ++ le64 tm0 ++ id0 ++ [side0] ++ leI32 shares0 ++ symbol0 ++ leI32 price0 ++ leI32 tif0 ++ firm0 ++ [display0] ++ le64 ref0 ++ [capacity0] ++ [sweep0] ++ leI32 minQty0) ++ cross0 :: ([state0] ++ [bbo0]) := by
      simp only [AcceptedMsg.toBytes, List.append_assoc, List.cons_append, List.nil_append,
        List.append_nil]
    rw [e]
    exact byteAt_mid _ _ _ _ (by simp [h_id, h_symbol, h_firm, leI32_length, le64_length])
  · have e : AcceptedMsg.toBytes ⟨type0, tm0, id0, side0, shares0, symbol0, price0, tif0, firm0, display0, ref0, capacity0, sweep0, minQty0, cross0, state0, bbo0⟩ =
        ([type0] ++ le64 tm0 ++ id0 ++ [side0] ++ leI32 shares0 ++ symbol0 ++ leI32 price0 ++ leI32 tif0 ++ firm0 ++ [display0] ++ le64 ref0 ++ [capacity0] ++ [sweep0] ++ leI32 minQty0 ++ [cross0]) ++ state0 :: ([bbo0]) := by
      simp only [AcceptedMsg.toBytes, List.append_assoc, List.cons_append, List.nil_append,
        List.append_nil]
    rw [e]
    exact byteAt_mid _ _ _ _ (by simp [h_id, h_symbol, h_firm, leI32_length, le64_length])
  · have e : AcceptedMsg.toBytes ⟨type0, tm0, id0, side0, shares0, symbol0, price0, tif0, firm0, display0, ref0, capacity0, sweep0, minQty0, cross0, state0, bbo0⟩ =
        ([type0] ++ le64 tm0 ++ id0 ++ [side0] ++ leI32 shares0 ++ symbol0 ++ leI32 price0 ++ leI32 tif0 ++ firm0 ++ [display0] ++ le64 ref0 ++ [capacity0] ++ [sweep0] ++ leI32 minQty0 ++ [cross0] ++ [state0]) ++ bbo0 :: (([] : List Nat)) := by
      simp only [AcceptedMsg.toBytes, List.append_assoc, List.cons_append, List.nil_append,
        List.append_nil]
    rw [e]
    exact byteAt_mid _ _ _ _ (by simp [h_id, h_symbol, h_firm, leI32_length, le64_length])

theorem ofBytes_toBytes_ReplaceMsg (x : ReplaceMsg) (h : x.WF) : ReplaceMsg.ofBytes x.toBytes = x := by
  obtain ⟨type0, oldid0, newid0, shares0, price0, tif0, display0, sweep0, minQty0⟩ := x
  obtain ⟨h_oldid, h_newid, h_shares, h_price, h_tif, h_minQty⟩ := h
  simp only at h_oldid h_newid h_shares h_price h_tif h_minQty
  simp only [ReplaceMsg.ofBytes, ReplaceMsg.mk.injEq]
  refine ⟨?_, ?_, ?_, ?_, ?_, ?_, ?_, ?_, ?_⟩
  · have e : ReplaceMsg.toBytes ⟨type0, oldid0, newid0, shares0, price0, tif0, display0, sweep0, minQty0⟩ =
        (([] : List Nat)) ++ type0 :: (oldid0 ++ newid0 ++ leI32 shares0 ++ leI32 price0 ++ leI32 tif0 ++ [display0] ++ [sweep0] ++ leI32 minQty0) := by
      simp only [ReplaceMsg.toBytes, List.append_assoc, List.cons_append, List.nil_append,
        List.append_nil]
    rw [e]
    exact byteAt_mid _ _ _ _ (by simp [h_oldid, h_newid, leI32_length, le64_length])
  · have e : ReplaceMsg.toBytes ⟨type0, oldid0, newid0, shares0, price0, tif0, display0, sweep0, minQty0⟩ =
        ([type0]) ++ (oldid0 ++ (newid0 ++ leI32 shares0 ++ leI32 price0 ++ leI32 tif0 ++ [display0] ++ [sweep0] ++ leI32 minQty0)) := by
      simp only [ReplaceMsg.toBytes, List.append_assoc, List.cons_append, List.nil_append,
        List.append_nil]
    rw [e]
    exact chars_mid _ _ _ _ _ (by simp [h_oldid, h_newid, leI32_length, le64_length]) h_oldid.symm
  · have e : ReplaceMsg.toBytes ⟨type0, oldid0, newid0, shares0, price0, tif0, display0, sweep0, minQty0⟩ =
        ([type0] ++ oldid0) ++ (newid0 ++ (leI32 shares0 ++ leI32 price0 ++ leI32 tif0 ++ [display0] ++ [sweep0] ++ leI32 minQty0)) := by
      simp only [ReplaceMsg.toBytes, List.append_assoc, List.cons_append, List.nil_append,
        List.append_nil]
    rw [e]
    exact chars_mid _ _ _ _ _ (by simp [h_oldid, h_newid, leI32_length, le64_length]) h_newid.symm
  · have e : ReplaceMsg.toBytes ⟨type0, oldid0, newid0, shares0, price0, tif0, display0, sweep0, minQty0⟩ =
        ([type0] ++ oldid0 ++ newid0) ++ (leI32 shares0 ++ (leI32 price0 ++ leI32 tif0 ++ [display0] ++ [sweep0] ++ leI32 minQty0)) := by
      simp only [ReplaceMsg.toBytes, List.append_assoc, List.cons_append, List.nil_append,
        List.append_nil]
    rw [e]
    exact getI32_mid _ _ _ _ (by simp [h_oldid, h_newid, leI32_length, le64_length]) h_shares
  · have e : ReplaceMsg.toBytes ⟨type0, oldid0, newid0, shares0, price0, tif0, display0, sweep0, minQty0⟩ =
        ([type0] ++ oldid0 ++ newid0 ++ leI32 shares0) ++ (leI32 price0 ++ (leI32 tif0 ++ [display0] ++ [sweep0] ++ leI32 minQty0)) := by
      simp only [ReplaceMsg.toBytes, List.append_assoc, List.cons_append, List.nil_append,
        List.append_nil]
    rw [e]
    exact getI32_mid _ _ _ _ (by simp [h_oldid, h_newid, leI32_length, le64_length]) h_price
  · have e : ReplaceMsg.toBytes ⟨type0, oldid0, newid0, shares0, price0, tif0, display0, sweep0, minQty0⟩ =
        ([type0] ++ oldid0 ++ newid0 ++ leI32 shares0 ++ leI32 price0) ++ (leI32 tif0 ++ ([display0] ++ [sweep0] ++ leI32 minQty0)) := by
      simp only [ReplaceMsg.toBytes, List.append_assoc, List.cons_append, List.nil_append,
        List.append_nil]
    rw [e]
    exact getI32_mid _ _ _ _ (by simp [h_oldid, h_newid, leI32_length, le64_length]) h_tif
  · have e : ReplaceMsg.toBytes ⟨type0, oldid0, newid0, shares0, price0, tif0, display0, sweep0, minQty0⟩ =
        ([type0] ++ oldid0 ++ newid0 ++ leI32 shares0 ++ leI32 price0 ++ leI32 tif0) ++ display0 :: ([sweep0] ++ leI32 minQty0) := by
      simp only [ReplaceMsg.toBytes, List.append_assoc, List.cons_append, List.nil_append,
        List.append_nil]
    rw [e]
    exact byteAt_mid _ _ _ _ (by simp [h_oldid, h_newid, leI32_length, le64_length])
  · have e : ReplaceMsg.toBytes ⟨type0, oldid0, newid0, shares0, price0, tif0, display0, sweep0, minQty0⟩ =
        ([type0] ++ oldid0 ++ newid0 ++ leI32 shares0 ++ leI32 price0 ++ leI32 tif0 ++ [display0]) ++ sweep0 :: (leI32 minQty0) := by
      simp only [ReplaceMsg.toBytes, List.append_assoc, List.cons_append, List.nil_append,
        List.append_nil]
    rw [e]
    exact byteAt_mid _ _ _ _ (by simp [h_oldid, h_newid, leI32_length, le64_length])
  · have e : ReplaceMsg.toBytes ⟨type0, oldid0, newid0, shares0, price0, tif0, display0, sweep0, minQty0⟩ =
        ([type0] ++ oldid0 ++ newid0 ++ leI32 shares0 ++ leI32 price0 ++ leI32 tif0 ++ [display0] ++ [sweep0]) ++ (leI32 minQty0 ++ (([] : List Nat))) := by
      simp only [ReplaceMsg.toBytes, List.append_assoc, List.cons_append, List.nil_append,
        List.append_nil]
    rw [e]
    exact getI32_mid _ _ _ _ (by simp [h_oldid, h_newid, leI32_length, le64_length]) h_minQty

theorem ofBytes_toBytes_CancelMsg (x : CancelMsg) (h : x.WF) : CancelMsg.ofBytes x.toBytes = x := by
  obtain ⟨type0, id0, shares0⟩ := x
  obtain ⟨h_id, h_shares⟩ := h
  simp only at h_id h_shares
  simp only [CancelMsg.ofBytes, CancelMsg.mk.injEq]
  refine ⟨?_, ?_, ?_⟩
  · have e : CancelMsg.toBytes ⟨type0, id0, shares0⟩ =
        (([] : List Nat)) ++ type0 :: (id0 ++ leI32 shares0) := by
      simp only [CancelMsg.toBytes, List.append_assoc, List.cons_append, List.nil_append,
        List.append_nil]
    rw [e]
    exact byteAt_mid _ _ _ _ (by simp [h_id, leI32_length, le64_length])
  · have e : CancelMsg.toBytes ⟨type0, id0, shares0⟩ =
        ([type0]) ++ (id0 ++ (leI32 shares0)) := by
      simp only [CancelMsg.toBytes, List.append_assoc, List.cons_append, List.nil_append,
        List.append_nil]
    rw [e]
    exact chars_mid _ _ _ _ _ (by simp [h_id, leI32_length, le64_length]) h_id.symm
  · have e : CancelMsg.toBytes ⟨type0, id0, shares0⟩ =
        ([type0] ++ id0) ++ (leI32 shares0 ++ (([] : List Nat))) := by
      simp only [CancelMsg.toBytes, List.append_assoc, List.cons_append, List.nil_append,
        List.append_nil]
    rw [e]
    exact getI32_mid _ _ _ _ (by simp [h_id, leI32_length, le64_length]) h_shares

theorem ofBytes_toBytes_ModifyMsg (x : ModifyMsg) (h : x.WF) : ModifyMsg.ofBytes x.toBytes = x := by
  obtain ⟨type0, id0, side0, shares0⟩ := x
  obtain ⟨h_id, h_shares⟩ := h
  simp only at h_id h_shares
  simp only [ModifyMsg.ofBytes, ModifyMsg.mk.injEq]
  refine ⟨?_, ?_, ?_, ?_⟩
  · have e : ModifyMsg.toBytes ⟨type0, id0, side0, shares0⟩ =
        (([] : List Nat)) ++ type0 :: (id0 ++ [side0] ++ leI32 shares0) := by
      simp only [ModifyMsg.toBytes, List.append_assoc, List.cons_append, List.nil_append,
        List.append_nil]
    rw [e]
    exact byteAt_mid _ _ _ _ (by simp [h_id, leI32_length, le64_length])
  · have e : ModifyMsg.toBytes ⟨type0, id0, side0, shares0⟩ =
        ([type0]) ++ (id0 ++ ([side0] ++ leI32 shares0)) := by
      simp only [ModifyMsg.toBytes, List.append_assoc, List.cons_append, List.nil_append,
        List.append_nil]
    rw [e]
    exact chars_mid _ _ _ _ _ (by simp [h_id, leI32_length, le64_length]) h_id.symm
  · have e : ModifyMsg.toBytes ⟨type0, id0, side0, shares0⟩ =
        ([type0] ++ id0) ++ side0 :: (leI32 shares0) := by
      simp only [ModifyMsg.toBytes, List.append_assoc, List.cons_append, List.nil_append,
        List.append_nil]
    rw [e]
    exact byteAt_mid _ _ _ _ (by simp [h_id, leI32_length, le64_length])
  · have e : ModifyMsg.toBytes ⟨type0, id0, side0, shares0⟩ =
        ([type0] ++ id0 ++ [side0]) ++ (leI32 shares0 ++ (([] : List Nat))) := by
      simp only [ModifyMsg.toBytes, List.append_assoc, List.cons_append, List.nil_append,
        List.append_nil]
    rw [e]
    exact getI32_mid _ _ _ _ (by simp [h_id, leI32_length, le64_length]) h_shares

theorem ofBytes_toBytes_CanceledMsg (x : CanceledMsg) (h : x.WF) : CanceledMsg.ofBytes x.toBytes = x := by
  obtain ⟨type0, tm0, id0, canceledShares0, reason0⟩ := x
  obtain ⟨h_tm, h_id, h_canceledShares⟩ := h
  simp only at h_tm h_id h_canceledShares
  simp only [CanceledMsg.ofBytes, CanceledMsg.mk.injEq]
  refine ⟨?_, ?_, ?_, ?_, ?_⟩
  · have e : CanceledMsg.toBytes ⟨type0, tm0, id0, canceledShares0, reason0⟩ =
        (([] : List Nat)) ++ type0 :: (le64 tm0 ++ id0 ++ leI32 canceledShares0 ++ [reason0]) := by
      simp only [CanceledMsg.toBytes, List.append_assoc, List.cons_append, List.nil_append,
        List.append_nil]
    rw [e]
    exact byteAt_mid _ _ _ _ (by simp [h_id, leI32_length, le64_length])
  · have e : CanceledMsg.toBytes ⟨type0, tm0, id0, canceledShares0, reason0⟩ =
        ([type0]) ++ (le64 tm0 ++ (id0 ++ leI32 canceledShares0 ++ [reason0])) := by
      simp only [CanceledMsg.toBytes, List.append_assoc, List.cons_append, List.nil_append,
        List.append_nil]
    rw [e]
    exact getU64_mid _ _ _ _ (by simp [h_id, leI32_length, le64_length]) h_tm
  · have e : CanceledMsg.toBytes ⟨type0, tm0, id0, canceledShares0, reason0⟩ =
        ([type0] ++ le64 tm0) ++ (id0 ++ (leI32 canceledShares0 ++ [reason0])) := by
      simp only [CanceledMsg.toBytes, List.append_assoc, List.cons_append, List.nil_append,
        List.append_nil]
    rw [e]
    exact chars_mid _ _ _ _ _ (by simp [h_id, leI32_length, le64_length]) h_id.symm
  · have e : CanceledMsg.toBytes ⟨type0, tm0, id0, canceledShares0, reason0⟩ =
        ([type0] ++ le64 tm0 ++ id0) ++ (leI32 canceledShares0 ++ ([reason0])) := by
      simp only [CanceledMsg.toBytes, List.append_assoc, List.cons_append, List.nil_append,
        List.append_nil]
    rw [e]
    exact getI32_mid _ _ _ _ (by simp [h_id, leI32_length, le64_length]) h_canceledShares
  · have e : CanceledMsg.toBytes ⟨type0, tm0, id0, canceledShares0, reason0⟩ =
        ([type0] ++ le64 tm0 ++ id0 ++ leI32 canceledShares0) ++ reason0 :: (([] : List Nat)) := by
      simp only [CanceledMsg.toBytes, List.append_assoc, List.cons_append, List.nil_append,
        List.append_nil]
    rw [e]
    exact byteAt_mid _ _ _ _ (by simp [h_id, leI32_length, le64_length])

/-! ## Data packets with a body of the exact size -/

theorem handlePacket_seq_exact (s : Session) (p : List Nat) (now size : Nat)
    (f : List Nat → List Nat)
    (hp : readMem s.rxbuf.data s.rxbuf.start p.length = p)
    (hty : p.getD 2 0 = SOUPBIN3_PACKET_SEQ_DATA)
    (hcase : seqDataCase (p.getD 3 0) = some (size, f))
    (hlen : p.length = size + 3) :
    ∃ s1, handlePacket s p.length now = Step.next s1 ∧
      s1.core = (if p.getD 3 0 = RejectedMsg.TYPE ∧
          (RejectedMsg.ofBytes (f (p.drop 3))).reason = 84
        then ((s.core.emit (Effect.onIncoming (f (p.drop 3)) p.length)).emit
          (Effect.fromApp (f (p.drop 3))))
        else ((s.core.emit (Effect.onIncoming (f (p.drop 3)) p.length)).emit
          (Effect.fromApp (f (p.drop 3)))).incrNextTargetMsgSeqNum) := by
  have hsz := seqDataCase_pos _ _ _ hcase
  have hb := (readMem_eq_iff _ _ _).1 hp
  have e2 := hb 2 (by omega)
  have e3 := hb 3 (by omega)
  have hbody := readMem_take_drop _ _ p 3 size hp (by omega)
  have hfl := seqDataCase_length _ _ _ hcase
  have htk : (p.drop 3).take size = p.drop 3 := by
    apply List.take_of_length_le
    simp only [List.length_drop]; omega
  rw [htk] at hbody
  have hr := readMem_ntohAt _ _ _ f _ hbody (hfl _)
  rw [handlePacket_seq s _ now size f (by rw [e2, hty]) (by rw [e3, hcase])]
  refine ⟨_, rfl, ?_⟩
  have hl : p.length - 3 = size := by omega
  have hcs : countseq (ntohAt s.rxbuf.data (s.rxbuf.start + 3) size f) (s.rxbuf.start + 3)
      (p.getD 3 0) = (if p.getD 3 0 = RejectedMsg.TYPE ∧
          (RejectedMsg.ofBytes (f (p.drop 3))).reason = 84 then false else true) := by
    unfold countseq
    by_cases hrej : p.getD 3 0 = RejectedMsg.TYPE
    · have hs24 : size = RejectedMsg.sizeof := by
        rw [hrej] at hcase
        simp [seqDataCase, RejectedMsg.TYPE, AcceptedMsg.TYPE, ReplacedMsg.TYPE,
          CanceledMsg.TYPE, AIQCanceledMsg.TYPE, ExecMsg.TYPE, BrokenTradeMsg.TYPE] at hcase
        exact hcase.1.symm
      rw [← hs24, hr]
    · rw [if_neg (fun h => hrej h.1), if_neg (fun h => hrej h.1)]
  rw [hl, hr, e3, hcs]
  by_cases hc : p.getD 3 0 = RejectedMsg.TYPE ∧ (RejectedMsg.ofBytes (f (p.drop 3))).reason = 84
  · rw [if_pos hc, if_pos hc]
    simp [core_eq_iff, Session.emit, Session.core]
  · rw [if_neg hc, if_neg hc]
    simp [core_eq_iff, Session.emit, Session.core, Session.incrNextTargetMsgSeqNum]

theorem handlePacket_unseq_exact (s : Session) (p : List Nat) (now size : Nat)
    (f : List Nat → List Nat)
    (hp : readMem s.rxbuf.data s.rxbuf.start p.length = p)
    (hty : p.getD 2 0 = SOUPBIN3_PACKET_UNSEQ_DATA)
    (hcase : unseqDataCase (p.getD 3 0) = some (size, f))
    (hlen : p.length = size + 3) :
    ∃ s1, handlePacket s p.length now = Step.next s1 ∧
      s1.core = (s.core.emit (Effect.onIncoming (f (p.drop 3)) p.length)).emit
          (Effect.fromApp (f (p.drop 3))) := by
  have hsz := unseqDataCase_pos _ _ _ hcase
  have hb := (readMem_eq_iff _ _ _).1 hp
  have e2 := hb 2 (by omega)
  have e3 := hb 3 (by omega)
  have hbody := readMem_take_drop _ _ p 3 size hp (by omega)
  have hfl := unseqDataCase_length _ _ _ hcase
  have htk : (p.drop 3).take size = p.drop 3 := by
    apply List.take_of_length_le
    simp only [List.length_drop]; omega
  rw [htk] at hbody
  have hr := readMem_ntohAt _ _ _ f _ hbody (hfl _)
  rw [handlePacket_unseq s _ now (by rw [e2, hty])]
  refine ⟨_, rfl, ?_⟩
  have hl : p.length - 3 = size := by omega
  unfold unseqDataNtoh
  rw [e3, hcase]
  simp only
  rw [hl, hr]
  simp [core_eq_iff, Session.emit, Session.core]

/-- A session with an empty receive buffer reads exactly one well-formed packet. -/
theorem in_event_one (s : Session) (p : List Nat) (e : Int) (now : Nat)
    (h0 : s.rxbuf.len = 0) (hwf : wellFormed p = true) (hfit : p.length ≤ s.room) :
    ∃ s1, s.in_event (ReadResult.data p e) now = some s1 ∧ s1.core = dispatch s.core p ∧
      s1.rxbuf.len = 0 := by
  have hne : p ≠ [] := by
    have := (wellFormed_length p hwf).1
    intro h; rw [h] at this; simp at this
  obtain ⟨s1, h1, hc1, hl1⟩ := feed_all [(p, now)] s [p] e (by simpa using hne)
    (by simpa using hwf) h0 (by simp) (by simpa using hfit)
  rw [feed_one] at h1
  exact ⟨s1, h1, by simpa using hc1, hl1⟩

theorem dispatch_eq (c : Session) (p : List Nat) (hwf : wellFormed p = true) :
    ∃ s1, handlePacket
      { c with rxbuf := { data := fun i => p.getD i 0, start := 0, len := p.length } }
      p.length 0 = Step.next s1 ∧ dispatch c p = s1.core := by
  obtain ⟨s1, h1, _, _⟩ := dispatch_core
    { c with rxbuf := { data := fun i => p.getD i 0, start := 0, len := p.length } } p 0
    ((readMem_eq_iff _ _ _).2 (fun i _ => by simp)) hwf
  refine ⟨s1, h1, ?_⟩
  unfold dispatch
  rw [h1]
  rfl

theorem room_ge (s : Session) (h0 : s.rxbuf.len = 0) : 1024 ≤ s.room := by
  unfold Session.room
  by_cases hf : s.rxbuf.full = true
  · rw [if_pos hf]
    simp only [Buffer.remaining, Buffer.compact, Buffer.cap, h0]
    omega
  · rw [if_neg hf]
    simp only [Buffer.full, Buffer.FIX_MAX_MESSAGE_SIZE, Buffer.cap, h0, decide_eq_true_eq] at hf
    simp only [Buffer.remaining, Buffer.cap, h0]
    omega

/-! ## The packet length -/

theorem pktLen_low (b0 b1 : Nat) (h0 : b0 < 128) (h1 : b1 < 128) :
    pktLen b0 b1 = 2 + 256 * b0 + b1 := by
  unfold pktLen
  have e0 : toU32 (toSChar b0 * 256) = 256 * b0 := by
    unfold toU32 toSChar; split <;> omega
  have e1 : toU32 (toSChar b1) = b1 := by
    unfold toU32 toSChar; split <;> omega
  rw [e0, e1, Nat.lor_comm]
  have := Nat.mul_add_lt_is_or (i := 8) (b := b1) (by omega) b0
  norm_num at this
  rw [← this]
  omega

theorem drain_zero_len (fuel : Nat) : ∀ (s : Session) (now : Nat), s.rxbuf.len > 2 →
    pktLen (s.rxbuf.data s.rxbuf.begin) (s.rxbuf.data (s.rxbuf.begin + 1)) = 0 →
    drain fuel s now = none := by
  induction fuel with
  | zero => intro s now _ _; rfl
  | succ f ih =>
    intro s now h2 h
    rw [drain, if_pos h2]
    simp only [h]
    rw [if_pos (Nat.zero_le _), if_neg (by decide)]
    apply ih
    · exact h2
    · exact h

set_option maxRecDepth 8192

/-- C3: with the header bytes `b0 = 0x00`, `b1 = 0x80` (length field 128) the loop of
`in_event` computes the length 4294967170 and not 130, and with `b1 = 0xFE` it computes 0.
A session that reads a whole packet of 130 bytes with the header `00 80` keeps the 130 bytes
in its buffer without handling them; a session that reads the header `00 FE` never leaves the
loop, whatever the number of iterations allowed.  Below 128 in both bytes the length is two
plus the big-endian length field. -/
theorem pktLen_sign_extension :
    pktLen 0 128 = 4294967170 ∧ pktLen 0 128 ≠ 2 + 256 * 0 + 128 ∧ pktLen 0 254 = 0 ∧
    ((Session.example true).in_event
      (ReadResult.data ([0, 128, 72] ++ List.replicate 127 0) 0) 1).map
        (fun s : Session => (s.rxbuf.len, s.trace)) = some (130, []) ∧
    ((Session.example true).in_event (ReadResult.data [0, 254, 72] 0) 1).isSome = false ∧
    (∀ (fuel : Nat) (s : Session) (now : Nat), s.rxbuf.len > 2 →
      pktLen (s.rxbuf.data s.rxbuf.begin) (s.rxbuf.data (s.rxbuf.begin + 1)) = 0 →
      drain fuel s now = none) ∧
    (∀ b0 b1, b0 < 128 → b1 < 128 → pktLen b0 b1 = 2 + 256 * b0 + b1) := by
  refine ⟨by decide, by decide, by decide, by decide, by decide, drain_zero_len, pktLen_low⟩

set_option maxRecDepth 512

/-! ## Network byte order of the images -/

theorem le32_bytes (a b c d : Nat) (ha : a < 256) (hb : b < 256) (hc : c < 256) (hd : d < 256) :
    le32 (d + 256 * c + 65536 * b + 16777216 * a) = [d, c, b, a] := by
  unfold le32
  simp only [List.cons.injEq, and_true]
  refine ⟨?_, ?_, ?_, ?_⟩ <;> omega

theorem le32_htonl (x : Nat) : le32 (htonl x) = be32 x := by
  have h1 : htonl x = x / 16777216 % 256 + 256 * (x / 65536 % 256) + 65536 * (x / 256 % 256)
      + 16777216 * (x % 256) := by unfold htonl; omega
  rw [h1]
  exact le32_bytes _ _ _ _ (Nat.mod_lt _ (by decide)) (Nat.mod_lt _ (by decide))
    (Nat.mod_lt _ (by decide)) (Nat.mod_lt _ (by decide))

theorem leI32_htonlInt (v : Int) : leI32 (htonlInt v) = beI32 v := by
  unfold leI32 htonlInt beI32
  rw [toU32_toI32 _ (htonl_lt _), le32_htonl]

theorem leI32_htonl_guarded (v : Int) :
    leI32 (if v ≠ 0 then htonlInt v else v) = beI32 v := by
  by_cases h : v = 0
  · subst h; decide
  · rw [if_pos h, leI32_htonlInt]

theorem leI32_htonl_guarded' (v : Int) :
    leI32 (if v = 0 then v else htonlInt v) = beI32 v := by
  by_cases h : v = 0
  · subst h; decide
  · rw [if_neg h, leI32_htonlInt]

theorem htonll_eq (y : Nat) :
    htonll y = htonl (y % 4294967296) * 4294967296 + htonl (y / 4294967296 % 4294967296) := by
  unfold htonll
  rw [Nat.shiftLeft_eq, Nat.shiftRight_eq_div_pow]
  have := Nat.mul_add_lt_is_or (i := 32) (b := htonl (y / 2 ^ 32 % 4294967296))
    (by have := htonl_lt (y / 2 ^ 32 % 4294967296); norm_num; exact this)
    (htonl (y % 4294967296))
  norm_num at this ⊢
  rw [Nat.mul_comm (htonl (y % 4294967296)) 4294967296, ← this]

theorem le64_htonll (y : Nat) : le64 (htonll y) = be64 y := by
  have h1 := htonl_lt (y % 4294967296)
  have h2 := htonl_lt (y / 4294967296 % 4294967296)
  rw [htonll_eq]
  unfold le64 be64
  have e1 : (htonl (y % 4294967296) * 4294967296 + htonl (y / 4294967296 % 4294967296))
      % 4294967296 = htonl (y / 4294967296 % 4294967296) := by omega
  have e2 : (htonl (y % 4294967296) * 4294967296 + htonl (y / 4294967296 % 4294967296))
      / 4294967296 % 4294967296 = htonl (y % 4294967296) := by omega
  rw [e1, e2, le32_htonl, le32_htonl]

theorem ntohll_htonll (y : Nat) (h : y < 18446744073709551616) : ntohll (htonll y) = y := by
  have h1 := htonl_lt (y % 4294967296)
  have h2 := htonl_lt (y / 4294967296 % 4294967296)
  have e : ntohll = htonll := by
    funext z; unfold ntohll htonll ntohl; rfl
  rw [e, htonll_eq (htonll y), htonll_eq y]
  have e1 : (htonl (y % 4294967296) * 4294967296 + htonl (y / 4294967296 % 4294967296))
      % 4294967296 = htonl (y / 4294967296 % 4294967296) := by omega
  have e2 : (htonl (y % 4294967296) * 4294967296 + htonl (y / 4294967296 % 4294967296))
      / 4294967296 % 4294967296 = htonl (y % 4294967296) := by omega
  rw [e1, e2, htonl_htonl _ (Nat.mod_lt _ (by decide)), htonl_htonl _ (Nat.mod_lt _ (by decide))]
  omega

theorem htonll_lt (y : Nat) : htonll y < 18446744073709551616 := by
  have h1 := htonl_lt (y % 4294967296)
  have h2 := htonl_lt (y / 4294967296 % 4294967296)
  rw [htonll_eq]
  omega



theorem beI32_length (v : Int) : (beI32 v).length = 4 := rfl

theorem be64_length (x : Nat) : (be64 x).length = 8 := rfl

theorem send_outpipe {T : Type} [OuchMsg T] (s : Session) (msg : T) (now : Nat) (h : 0 ≤ s.fd) :
    (s.send msg now).outpipe = s.outpipe ++ Session.packet s.isClient msg := by
  unfold Session.send Session.sendBytes
  rw [if_neg (by omega)]
  rfl

/-- C4: for each message type that can be sent and for either role, the packet built by the
typed `send` is the big-endian 16-bit length `sizeof(T) + 1`, the type byte `'U'` for an
initiator or `'S'` for an acceptor, and the message with its integer fields big-endian, in
all `sizeof(T) + 3` bytes (51, 50, 22, 23, 69, 31); on a bound socket `send` appends exactly
this packet to the outbound pipe. -/
theorem send_packet (s : Session) (now : Nat) (o : OrderMsg) (r : ReplaceMsg) (c : CancelMsg)
    (m : ModifyMsg) (a : AcceptedMsg) (x : CanceledMsg)
    (ho : o.WF) (hr : r.WF) (hc : c.WF) (hm : m.WF) (ha : a.WF) (hx : x.WF) (hfd : 0 ≤ s.fd) :
    (Session.packet s.isClient o = [0, 49, if s.isClient then 85 else 83] ++
        ([o.type] ++ o.id ++ [o.side] ++ beI32 o.shares ++ o.symbol ++ beI32 o.price ++
          beI32 o.tif ++ o.firm ++ [o.display, o.capacity, o.sweep] ++ beI32 o.minQty ++
          [o.cross]) ∧
      (Session.packet s.isClient o).length = 48 + 3 ∧
      (s.send o now).outpipe = s.outpipe ++ Session.packet s.isClient o) ∧
    (Session.packet s.isClient r = [0, 48, if s.isClient then 85 else 83] ++
        ([r.type] ++ r.oldid ++ r.newid ++ beI32 r.shares ++ beI32 r.price ++ beI32 r.tif ++
          [r.display, r.sweep] ++ beI32 r.minQty) ∧
      (Session.packet s.isClient r).length = 47 + 3 ∧
      (s.send r now).outpipe = s.outpipe ++ Session.packet s.isClient r) ∧
    (Session.packet s.isClient c = [0, 20, if s.isClient then 85 else 83] ++
        ([c.type] ++ c.id ++ beI32 c.shares) ∧
      (Session.packet s.isClient c).length = 19 + 3 ∧
      (s.send c now).outpipe = s.outpipe ++ Session.packet s.isClient c) ∧
    (Session.packet s.isClient m = [0, 21, if s.isClient then 85 else 83] ++
        ([m.type] ++ m.id ++ [m.side] ++ beI32 m.shares) ∧
      (Session.packet s.isClient m).length = 20 + 3 ∧
      (s.send m now).outpipe = s.outpipe ++ Session.packet s.isClient m) ∧
    (Session.packet s.isClient a = [0, 67, if s.isClient then 85 else 83] ++
        ([a.type] ++ be64 a.tm ++ a.id ++ [a.side] ++ beI32 a.shares ++ a.symbol ++
          beI32 a.price ++ beI32 a.tif ++ a.firm ++ [a.display] ++ be64 a.ref ++
          [a.capacity, a.sweep] ++ beI32 a.minQty ++ [a.cross, a.state, a.bbo]) ∧
      (Session.packet s.isClient a).length = 66 + 3 ∧
      (s.send a now).outpipe = s.outpipe ++ Session.packet s.isClient a) ∧
    (Session.packet s.isClient x = [0, 29, if s.isClient then 85 else 83] ++
        ([x.type] ++ be64 x.tm ++ x.id ++ beI32 x.canceledShares ++ [x.reason]) ∧
      (Session.packet s.isClient x).length = 28 + 3 ∧
      (s.send x now).outpipe = s.outpipe ++ Session.packet s.isClient x) := by
  have eo : Session.packet s.isClient o = [0, 49, if s.isClient then 85 else 83] ++
        ([o.type] ++ o.id ++ [o.side] ++ beI32 o.shares ++ o.symbol ++ beI32 o.price ++
          beI32 o.tif ++ o.firm ++ [o.display, o.capacity, o.sweep] ++ beI32 o.minQty ++
          [o.cross]) := by
    simp [Session.packet, OuchMsg.sizeof, OuchMsg.toBytes, OuchMsg.hton, OrderMsg.sizeof, le16,
      htons, OrderMsg.toBytes, OrderMsg.hton, leI32_htonlInt, leI32_htonl_guarded']
  have er : Session.packet s.isClient r = [0, 48, if s.isClient then 85 else 83] ++
        ([r.type] ++ r.oldid ++ r.newid ++ beI32 r.shares ++ beI32 r.price ++ beI32 r.tif ++
          [r.display, r.sweep] ++ beI32 r.minQty) := by
    simp [Session.packet, OuchMsg.sizeof, OuchMsg.toBytes, OuchMsg.hton, ReplaceMsg.sizeof, le16,
      htons, ReplaceMsg.toBytes, ReplaceMsg.hton, leI32_htonlInt, leI32_htonl_guarded']
  have ec : Session.packet s.isClient c = [0, 20, if s.isClient then 85 else 83] ++
        ([c.type] ++ c.id ++ beI32 c.shares) := by
    simp [Session.packet, OuchMsg.sizeof, OuchMsg.toBytes, OuchMsg.hton, CancelMsg.sizeof, le16,
      htons, CancelMsg.toBytes, CancelMsg.hton, leI32_htonlInt, leI32_htonl_guarded']
  have em : Session.packet s.isClient m = [0, 21, if s.isClient then 85 else 83] ++
        ([m.type] ++ m.id ++ [m.side] ++ beI32 m.shares) := by
    simp [Session.packet, OuchMsg.sizeof, OuchMsg.toBytes, OuchMsg.hton, ModifyMsg.sizeof, le16,
      htons, ModifyMsg.toBytes, ModifyMsg.hton, leI32_htonlInt, leI32_htonl_guarded']
  have ea : Session.packet s.isClient a = [0, 67, if s.isClient then 85 else 83] ++
        ([a.type] ++ be64 a.tm ++ a.id ++ [a.side] ++ beI32 a.shares ++ a.symbol ++
          beI32 a.price ++ beI32 a.tif ++ a.firm ++ [a.display] ++ be64 a.ref ++
          [a.capacity, a.sweep] ++ beI32 a.minQty ++ [a.cross, a.state, a.bbo]) := by
    simp [Session.packet, OuchMsg.sizeof, OuchMsg.toBytes, OuchMsg.hton, AcceptedMsg.sizeof,
      le16, htons, AcceptedMsg.toBytes, AcceptedMsg.hton, leI32_htonlInt, leI32_htonl_guarded',
      le64_htonll]
  have ex : Session.packet s.isClient x = [0, 29, if s.isClient then 85 else 83] ++
        ([x.type] ++ be64 x.tm ++ x.id ++ beI32 x.canceledShares ++ [x.reason]) := by
    simp [Session.packet, OuchMsg.sizeof, OuchMsg.toBytes, OuchMsg.hton, CanceledMsg.sizeof,
      le16, htons, CanceledMsg.toBytes, CanceledMsg.hton, leI32_htonlInt, le64_htonll]
  refine ⟨⟨eo, ?_, send_outpipe s o now hfd⟩, ⟨er, ?_, send_outpipe s r now hfd⟩,
    ⟨ec, ?_, send_outpipe s c now hfd⟩, ⟨em, ?_, send_outpipe s m now hfd⟩,
    ⟨ea, ?_, send_outpipe s a now hfd⟩, ⟨ex, ?_, send_outpipe s x now hfd⟩⟩
  · obtain ⟨h1, _, h2, _, _, h3, _⟩ := ho
    rw [eo]; simp [beI32_length, h1, h2, h3]
  · obtain ⟨h1, h2, _⟩ := hr
    rw [er]; simp [beI32_length, h1, h2]
  · obtain ⟨h1, _⟩ := hc
    rw [ec]; simp [beI32_length, h1]
  · obtain ⟨h1, _⟩ := hm
    rw [em]; simp [beI32_length, h1]
  · obtain ⟨_, h1, _, h2, _, _, h3, _⟩ := ha
    rw [ea]; simp [beI32_length, be64_length, h1, h2, h3]
  · obtain ⟨_, h1, _⟩ := hx
    rw [ex]; simp [beI32_length, be64_length, h1]

/-! ## The sequence number field of the login packets -/

theorem wrapInt32_id (v : Int) (h : isInt32 v) : wrapInt32 v = v := toI32_toU32 v h

theorem toSChar_digit (d : Nat) (h : d < 10) : toSChar (48 + d) - 48 = d := by
  unfold toSChar
  split <;> omega

theorem utoaAux_digits (fuel : Nat) : ∀ (n : Nat) (acc : List Nat),
    ∀ c ∈ utoaAux fuel n acc, c ∈ acc ∨ (48 ≤ c ∧ c ≤ 57) := by
  induction fuel with
  | zero => intro n acc c hc; exact Or.inl hc
  | succ f ih =>
    intro n acc c hc
    unfold utoaAux at hc
    split at hc
    · rcases List.mem_cons.1 hc with rfl | h
      · right; omega
      · exact Or.inl h
    · rcases ih _ _ c hc with h | h
      · rcases List.mem_cons.1 h with rfl | h
        · right; omega
        · exact Or.inl h
      · exact Or.inr h

theorem utoaAux_length (fuel : Nat) : ∀ (n k : Nat) (acc : List Nat), n < 10 ^ (k + 1) →
    (utoaAux fuel n acc).length ≤ acc.length + k + 1 := by
  induction fuel with
  | zero => intro n k acc _; simp [utoaAux]; omega
  | succ f ih =>
    intro n k acc h
    unfold utoaAux
    split
    · simp only [List.length_cons]; omega
    · rename_i h10
      cases k with
      | zero => simp at h; omega
      | succ k =>
        have : n / 10 < 10 ^ (k + 1) := by
          rw [Nat.div_lt_iff_lt_mul (by decide)]
          calc n < 10 ^ (k + 1 + 1) := h
            _ = 10 ^ (k + 1) * 10 := by ring
        have := ih (n / 10) k ((48 + n % 10) :: acc) this
        simp only [List.length_cons] at this
        omega

/-- The step of the loop over `SequenceNumber`. -/
theorem foldl_utoaAux (fuel : Nat) : ∀ (n : Nat) (acc : List Nat), n < fuel → n < 2147483648 →
    List.foldl (fun (n : Int) (c : Nat) =>
        if c = 32 then n else wrapInt32 (n * 10 + (toSChar c - 48))) 0 (utoaAux fuel n acc) =
      List.foldl (fun (n : Int) (c : Nat) =>
        if c = 32 then n else wrapInt32 (n * 10 + (toSChar c - 48))) (n : Int) acc := by
  induction fuel with
  | zero => intro n acc h; omega
  | succ f ih =>
    intro n acc hf hn
    unfold utoaAux
    split
    · rename_i h10
      rw [List.foldl_cons, if_neg (by omega), toSChar_digit n h10]
      rw [wrapInt32_id _ (by unfold isInt32; omega)]
      simp
    · rename_i h10
      rw [ih (n / 10) _ (by omega) (by omega), List.foldl_cons, if_neg (by omega),
        toSChar_digit _ (Nat.mod_lt _ (by decide))]
      rw [wrapInt32_id _ (by unfold isInt32; omega)]
      congr 1
      omega

theorem foldl_spaces (k : Nat) (v : Int) :
    List.foldl (fun (n : Int) (c : Nat) =>
        if c = 32 then n else wrapInt32 (n * 10 + (toSChar c - 48))) v (List.replicate k 32) = v := by
  induction k with
  | zero => rfl
  | succ k ih => rw [List.replicate_succ, List.foldl_cons, if_pos rfl, ih]

theorem fmtInt_nonneg (N : Int) (h : 0 ≤ N) : fmtInt N = utoa N.toNat := by
  unfold fmtInt
  rw [if_neg (by omega)]

theorem parseSeqNum_padded (N : Int) (lpad rpad : Nat) (h0 : 0 ≤ N) (h1 : N < 2147483648) :
    parseSeqNum (List.replicate lpad 32 ++ fmtInt N ++ List.replicate rpad 32) = N := by
  unfold parseSeqNum
  simp only [List.foldl_append, foldl_spaces]
  rw [fmtInt_nonneg N h0]
  unfold utoa
  rw [foldl_utoaAux _ _ _ (by omega) (by omega), List.foldl_nil]
  omega

theorem fmtInt_length (N : Int) (h0 : 0 ≤ N) (h1 : N < 2147483648) : (fmtInt N).length ≤ 10 := by
  rw [fmtInt_nonneg N h0]
  unfold utoa
  have := utoaAux_length (N.toNat + 1) N.toNat 9 [] (by norm_num; omega)
  simpa using this

theorem fmtInt_digits (N : Int) (h0 : 0 ≤ N) : ∀ c ∈ fmtInt N, 48 ≤ c ∧ c ≤ 57 := by
  rw [fmtInt_nonneg N h0]
  intro c hc
  rcases utoaAux_digits _ _ _ c hc with h | h
  · simp at h
  · exact h

theorem strncpy_nulfree (l : List Nat) (h : ∀ c ∈ l, c ≠ 0) : strncpy l l.length = l := by
  unfold strncpy
  have : l.takeWhile (fun c => c != 0) = l := by
    rw [List.takeWhile_eq_self_iff]
    intro c hc
    simpa using h c hc
  rw [this]
  simp

theorem strncpy_length (src : List Nat) (n : Nat) : (strncpy src n).length = n := by
  unfold strncpy
  simp only [List.length_append, List.length_replicate, List.length_take]
  omega

theorem rpadStr_length (n : Nat) (src : List Nat) : (rpadStr n src).length = n := by
  unfold rpadStr
  split
  · simp only [List.length_append, List.length_take, strncpy_length, List.length_replicate]
    omega
  · exact strncpy_length _ _

theorem lpadStr_fmtInt (N : Int) (h0 : 0 ≤ N) (h1 : N < 2147483648) :
    lpadStr 20 (fmtInt N) = List.replicate (20 - (fmtInt N).length) 32 ++ fmtInt N := by
  unfold lpadStr
  have := fmtInt_length N h0 h1
  rw [if_pos (by omega), strncpy_nulfree]
  intro c hc
  have := (fmtInt_digits N h0 c hc).1
  omega

/-- C9: for `0 ≤ n < 2^31` the sequence number field that `logon` and the answer to a login
request write, the decimal text of `n` left-padded with spaces to 20 characters, is read back
as `n` by the loop of the login accepted arm; the field is the last 20 bytes of the login
accepted packet built for `n`. -/
theorem seqnum_field_roundtrip (n : Int) (h0 : 0 ≤ n) (h1 : n < 2147483648) :
    (lpadStr 20 (fmtInt n)).length = 20 ∧ parseSeqNum (lpadStr 20 (fmtInt n)) = n ∧
    (loginAcceptedPacket n).drop soupbin3_packet_login_accepted.SequenceNumber =
      lpadStr 20 (fmtInt n) ∧
    parseSeqNum ((loginAcceptedPacket n).drop soupbin3_packet_login_accepted.SequenceNumber)
      = n ∧
    (∀ username password, (loginRequestPacket username password n).drop 29 =
      lpadStr 20 (fmtInt n)) := by
  have hl := fmtInt_length n h0 h1
  have e := lpadStr_fmtInt n h0 h1
  have hp : parseSeqNum (lpadStr 20 (fmtInt n)) = n := by
    rw [e]
    have := parseSeqNum_padded n (20 - (fmtInt n).length) 0 h0 h1
    simpa using this
  have hd : (loginAcceptedPacket n).drop soupbin3_packet_login_accepted.SequenceNumber =
      lpadStr 20 (fmtInt n) := by
    unfold loginAcceptedPacket
    simp [le16, soupbin3_packet_login_accepted.SequenceNumber, List.replicate]
  refine ⟨?_, hp, hd, by rw [hd, hp], ?_⟩
  · rw [e]
    simp
    omega
  · intro username password
    unfold loginRequestPacket
    have h6 := rpadStr_length 6 username
    have h10 := rpadStr_length 10 password
    have : le16 (htons (soupbin3_packet_login_request.sizeof - 2)) ++
        [SOUPBIN3_PACKET_LOGIN_REQUEST] ++ rpadStr 6 username ++ rpadStr 10 password ++
        List.replicate 10 32 ++ lpadStr 20 (fmtInt n) =
        (le16 (htons (soupbin3_packet_login_request.sizeof - 2)) ++
        [SOUPBIN3_PACKET_LOGIN_REQUEST] ++ rpadStr 6 username ++ rpadStr 10 password ++
        List.replicate 10 32) ++ lpadStr 20 (fmtInt n) := rfl
    rw [this]
    apply List.drop_left'
    simp [le16, h6, h10]

/-! ## Login accepted -/

theorem canon_readMem (p : List Nat) :
    readMem (fun i => p.getD i 0) 0 p.length = p :=
  (readMem_eq_iff _ _ _).2 (fun i _ => by simp)

theorem dispatch_login_accepted (c : Session) (p : List Nat)
    (hty : p.getD 2 0 = SOUPBIN3_PACKET_LOGIN_ACCEPTED)
    (hlen : p.length = soupbin3_packet_login_accepted.sizeof) :
    dispatch c p =
      (({ (if parseSeqNum ((p.drop 13).take 20) ≠ c.store.nextTargetMsgSeqNum
            then (c.core.event (str "Login accepted: " ++ cstr ((p.drop 3).take 30))
              ).setNextTargetMsgSeqNum (parseSeqNum ((p.drop 13).take 20))
            else c.core.event (str "Login accepted: " ++ cstr ((p.drop 3).take 30))) with
          state := SessionState.st_logon_received }).emit Effect.onLogon) := by
  have h33 : p.length = 33 := hlen
  unfold dispatch
  rw [handlePacket_login_accepted _ _ _ (by simpa using hty)]
  simp only [assertThen, hlen, decide_True, if_true, Step.session]
  have k1 := readMem_take_drop (fun i => p.getD i 0) 0 p 3 30 (canon_readMem p) (by omega)
  have k2 := readMem_take_drop (fun i => p.getD i 0) 0 p 13 20 (canon_readMem p) (by omega)
  simp only [soupbin3_packet_login_accepted.sizeof,
    soupbin3_packet_login_accepted.SequenceNumber, Nat.reduceSub, k1, k2,
    Session.getExpectedTargetNum, MemoryStore.getNextTargetMsgSeqNum]
  split <;> simp [core_eq_iff, Session.core, Session.emit, Session.event,
    Session.setNextTargetMsgSeqNum]

theorem getD_cons_cons_cons (a b c : Nat) (l : List Nat) :
    (a :: b :: c :: l).getD 0 0 = a ∧ (a :: b :: c :: l).getD 1 0 = b ∧
      (a :: b :: c :: l).getD 2 0 = c := by
  simp

/-- C8: a session with an empty receive buffer reads a login accepted packet whose sequence
number field is the decimal text of `N` (`0 ≤ N < 2^31`) padded with spaces to 20 characters.
Afterwards next-target-seq is `N`; the store is rewritten only when `N` differs from the
value expected before and is the same store otherwise; the state is logon-received; and the
calls added to the trace are one event and one `onLogon`. -/
theorem login_accepted (s : Session) (sess : List Nat) (N : Int) (lpad rpad : Nat) (e : Int)
    (now : Nat) (h0 : s.rxbuf.len = 0) (hsess : sess.length = 10)
    (hN0 : 0 ≤ N) (hN1 : N < 2147483648)
    (hfield : lpad + (fmtInt N).length + rpad = 20) :
    ∃ s1 text, s.in_event (ReadResult.data ([0, 31, SOUPBIN3_PACKET_LOGIN_ACCEPTED] ++ sess ++
        (List.replicate lpad 32 ++ fmtInt N ++ List.replicate rpad 32)) e) now = some s1 ∧
      s1.store.nextTargetMsgSeqNum = N ∧
      (N = s.store.nextTargetMsgSeqNum → s1.store = s.store) ∧
      (N ≠ s.store.nextTargetMsgSeqNum → s1.store = s.store.setNextTargetMsgSeqNum N) ∧
      s1.store.nextSenderMsgSeqNum = s.store.nextSenderMsgSeqNum ∧
      s1.state = SessionState.st_logon_received ∧
      s1.trace = s.trace ++ [Effect.event text, Effect.onLogon] := by
  generalize hp : [0, 31, SOUPBIN3_PACKET_LOGIN_ACCEPTED] ++ sess ++
        (List.replicate lpad 32 ++ fmtInt N ++ List.replicate rpad 32) = p
  have hlen : p.length = 33 := by
    rw [← hp]
    simp only [List.length_append, List.length_cons, List.length_nil, List.length_replicate,
      hsess]
    omega
  have hg : p.getD 0 0 = 0 ∧ p.getD 1 0 = 31 ∧ p.getD 2 0 = SOUPBIN3_PACKET_LOGIN_ACCEPTED := by
    rw [← hp]
    exact getD_cons_cons_cons _ _ _ _
  have hty := hg.2.2
  have hwf : wellFormed p = true := by
    unfold wellFormed
    rw [hg.1, hg.2.1, hty, hlen, if_neg (by decide), if_neg (by decide), if_pos rfl]
    decide
  have hfld : (p.drop 13).take 20 =
      List.replicate lpad 32 ++ fmtInt N ++ List.replicate rpad 32 := by
    rw [← hp]
    have : [0, 31, SOUPBIN3_PACKET_LOGIN_ACCEPTED] ++ sess ++
        (List.replicate lpad 32 ++ fmtInt N ++ List.replicate rpad 32) =
        ([0, 31, SOUPBIN3_PACKET_LOGIN_ACCEPTED] ++ sess) ++
        (List.replicate lpad 32 ++ fmtInt N ++ List.replicate rpad 32) := rfl
    rw [this, List.drop_left' (by simp [hsess])]
    apply List.take_of_length_le
    simp only [List.length_append, List.length_replicate]
    omega
  obtain ⟨s1, h1, hc1, _⟩ := in_event_one s p e now h0 hwf
    (by have := room_ge s h0; omega)
  rw [dispatch_login_accepted s.core p hty hlen, hfld, parseSeqNum_padded N lpad rpad hN0 hN1]
    at hc1
  refine ⟨s1, cstr ((str "Login accepted: " ++ cstr ((p.drop 3).take 30)).take 255), h1, ?_⟩
  have k4 := congrArg Session.state hc1
  have k5 := congrArg Session.store hc1
  have k9 := congrArg Session.trace hc1
  by_cases hN : N = s.store.nextTargetMsgSeqNum
  · rw [if_neg (by simpa [Session.core] using hN)] at k4 k5 k9
    simp only [Session.core, Session.emit, Session.event] at k4 k5 k9
    refine ⟨by rw [k5]; exact hN.symm, fun _ => k5, fun h => absurd hN h, by rw [k5], k4, ?_⟩
    rw [k9]; simp
  · rw [if_pos (by simpa [Session.core] using hN)] at k4 k5 k9
    simp only [Session.core, Session.emit, Session.event, Session.setNextTargetMsgSeqNum]
      at k4 k5 k9
    refine ⟨by rw [k5]; rfl, fun h => absurd h hN, fun _ => k5, by rw [k5]; rfl, k4, ?_⟩
    rw [k9]; simp

/-! ## Sequenced data -/

theorem seqDataCase_le (t size : Nat) (f : List Nat → List Nat)
    (h : seqDataCase t = some (size, f)) : size ≤ 80 := by
  unfold seqDataCase at h
  by_cases h0 : t = AcceptedMsg.TYPE
  · rw [if_pos h0] at h
    injection h with h
    injection h with ha hb
    subst ha
    decide
  rw [if_neg h0] at h
  by_cases h1 : t = ReplacedMsg.TYPE
  · rw [if_pos h1] at h
    injection h with h
    injection h with ha hb
    subst ha
    decide
  rw [if_neg h1] at h
  by_cases h2 : t = CanceledMsg.TYPE
  · rw [if_pos h2] at h
    injection h with h
    injection h with ha hb
    subst ha
    decide
  rw [if_neg h2] at h
  by_cases h3 : t = AIQCanceledMsg.TYPE
  · rw [if_pos h3] at h
    injection h with h
    injection h with ha hb
    subst ha
    decide
  rw [if_neg h3] at h
  by_cases h4 : t = ExecMsg.TYPE
  · rw [if_pos h4] at h
    injection h with h
    injection h with ha hb
    subst ha
    decide
  rw [if_neg h4] at h
  by_cases h5 : t = BrokenTradeMsg.TYPE
  · rw [if_pos h5] at h
    injection h with h
    injection h with ha hb
    subst ha
    decide
  rw [if_neg h5] at h
  by_cases h6 : t = RejectedMsg.TYPE
  · rw [if_pos h6] at h
    injection h with h
    injection h with ha hb
    subst ha
    decide
  rw [if_neg h6] at h
  by_cases h7 : t = CancelPendingMsg.TYPE
  · rw [if_pos h7] at h
    injection h with h
    injection h with ha hb
    subst ha
    decide
  rw [if_neg h7] at h
  by_cases h8 : t = CancelRejectMsg.TYPE
  · rw [if_pos h8] at h
    injection h with h
    injection h with ha hb
    subst ha
    decide
  rw [if_neg h8] at h
  by_cases h9 : t = PriorityMsg.TYPE
  · rw [if_pos h9] at h
    injection h with h
    injection h with ha hb
    subst ha
    decide
  rw [if_neg h9] at h
  by_cases h10 : t = ModifiedMsg.TYPE
  · rw [if_pos h10] at h
    injection h with h
    injection h with ha hb
    subst ha
    decide
  rw [if_neg h10] at h
  by_cases h11 : t = SysMsg.TYPE
  · rw [if_pos h11] at h
    injection h with h
    injection h with ha hb
    subst ha
    decide
  rw [if_neg h11] at h
  cases h

theorem unseqDataCase_le (t size : Nat) (f : List Nat → List Nat)
    (h : unseqDataCase t = some (size, f)) : size ≤ 80 := by
  unfold unseqDataCase at h
  by_cases h0 : t = OrderMsg.TYPE
  · rw [if_pos h0] at h
    injection h with h
    injection h with ha hb
    subst ha
    decide
  rw [if_neg h0] at h
  by_cases h1 : t = ReplaceMsg.TYPE
  · rw [if_pos h1] at h
    injection h with h
    injection h with ha hb
    subst ha
    decide
  rw [if_neg h1] at h
  by_cases h2 : t = CancelMsg.TYPE
  · rw [if_pos h2] at h
    injection h with h
    injection h with ha hb
    subst ha
    decide
  rw [if_neg h2] at h
  cases h


theorem seqDataCase_known (t : Nat) (h : t ∈ knownTags) :
    ∃ size f, seqDataCase t = some (size, f) := by
  simp only [knownTags, List.mem_cons, List.mem_singleton, List.not_mem_nil, or_false] at h
  rcases h with rfl | rfl | rfl | rfl | rfl | rfl | rfl | rfl | rfl | rfl | rfl | rfl <;>
    exact ⟨_, _, rfl⟩

theorem seqDataCase_unknown (t : Nat) (h : t ∉ knownTags) : seqDataCase t = none := by
  simp only [knownTags, List.mem_cons, List.mem_singleton, List.not_mem_nil, or_false,
    not_or] at h
  obtain ⟨h1, h2, h3, h4, h5, h6, h7, h8, h9, h10, h11, h12⟩ := h
  unfold seqDataCase
  rw [if_neg (show ¬t = AcceptedMsg.TYPE from h1), if_neg (show ¬t = ReplacedMsg.TYPE from h2),
    if_neg (show ¬t = CanceledMsg.TYPE from h3), if_neg (show ¬t = AIQCanceledMsg.TYPE from h4),
    if_neg (show ¬t = ExecMsg.TYPE from h5), if_neg (show ¬t = BrokenTradeMsg.TYPE from h6),
    if_neg (show ¬t = RejectedMsg.TYPE from h7), if_neg (show ¬t = CancelPendingMsg.TYPE from h8),
    if_neg (show ¬t = CancelRejectMsg.TYPE from h9), if_neg (show ¬t = PriorityMsg.TYPE from h10),
    if_neg (show ¬t = ModifiedMsg.TYPE from h11), if_neg (show ¬t = SysMsg.TYPE from h12)]

theorem incr_target (st : MemoryStore)
    (h : isInt32 st.nextTargetMsgSeqNum ∧ st.nextTargetMsgSeqNum < 2147483647) :
    st.incrNextTargetMsgSeqNum.nextTargetMsgSeqNum = st.nextTargetMsgSeqNum + 1 := by
  unfold MemoryStore.incrNextTargetMsgSeqNum
  simp only
  apply wrapInt32_id
  unfold isInt32 at h ⊢
  omega

theorem countseq_false_iff (d1 : Nat → Nat) (msg t : Nat) :
    countseq d1 msg t = false ↔ (t = RejectedMsg.TYPE ∧ d1 (msg + 23) = 84) := by
  unfold countseq
  have : (RejectedMsg.ofBytes (readMem d1 msg RejectedMsg.sizeof)).reason = d1 (msg + 23) := by
    simp only [RejectedMsg.ofBytes, byteAt]
    exact readMem_getD d1 msg RejectedMsg.sizeof 23 (by decide)
  rw [this]
  split <;> simp_all

theorem dispatch_seq (c : Session) (p : List Nat) (size : Nat) (f : List Nat → List Nat)
    (hty : p.getD 2 0 = SOUPBIN3_PACKET_SEQ_DATA)
    (hcase : seqDataCase (p.getD 3 0) = some (size, f))
    (hlen : p.length = size + 3) :
    dispatch c p = (if p.getD 3 0 = RejectedMsg.TYPE ∧
          (RejectedMsg.ofBytes (f (p.drop 3))).reason = 84
        then ((c.core.emit (Effect.onIncoming (f (p.drop 3)) p.length)).emit
          (Effect.fromApp (f (p.drop 3))))
        else ((c.core.emit (Effect.onIncoming (f (p.drop 3)) p.length)).emit
          (Effect.fromApp (f (p.drop 3)))).incrNextTargetMsgSeqNum) := by
  obtain ⟨s1, h1, hc⟩ := handlePacket_seq_exact
    { c with rxbuf := { data := fun i => p.getD i 0, start := 0, len := p.length } } p 0 size f
    (canon_readMem p) hty hcase hlen
  unfold dispatch
  rw [h1]
  exact hc

theorem dispatch_unseq (c : Session) (p : List Nat) (size : Nat) (f : List Nat → List Nat)
    (hty : p.getD 2 0 = SOUPBIN3_PACKET_UNSEQ_DATA)
    (hcase : unseqDataCase (p.getD 3 0) = some (size, f))
    (hlen : p.length = size + 3) :
    dispatch c p = (c.core.emit (Effect.onIncoming (f (p.drop 3)) p.length)).emit
          (Effect.fromApp (f (p.drop 3))) := by
  obtain ⟨s1, h1, hc⟩ := handlePacket_unseq_exact
    { c with rxbuf := { data := fun i => p.getD i 0, start := 0, len := p.length } } p 0 size f
    (canon_readMem p) hty hcase hlen
  unfold dispatch
  rw [h1]
  exact hc

/-! ## Conversion to host order -/

theorem byteAt_lt (w : List Nat) (hb : ∀ b ∈ w, b < 256) (i : Nat) : byteAt w i < 256 := by
  unfold byteAt
  by_cases h : i < w.length
  · rw [List.getD_eq_getElem _ _ h]
    exact hb _ (List.getElem_mem h)
  · rw [List.getD_eq_default _ _ (by omega)]
    decide

theorem list_eq_map (w : List Nat) : w = (List.range w.length).map (byteAt w) := by
  apply List.ext_getElem
  · simp
  · intro i h1 h2
    simp [byteAt, List.getD_eq_getElem?_getD, List.getElem?_eq_getElem h1]

theorem hostOrder_map (g : Nat → Nat) (fields : List (Nat × Nat)) : ∀ l : List Nat,
    hostOrder fields (l.map g) = (hostOrder fields l).map g := by
  induction fields with
  | nil => intro l; rfl
  | cons f rest ih =>
    intro l
    unfold hostOrder at ih ⊢
    rw [List.foldl_cons, List.foldl_cons, ← ih]
    simp only [List.map_append, List.map_take, List.map_drop, List.map_reverse]

theorem chars_eq_map (w : List Nat) (o n : Nat) :
    chars w o n = List.map (byteAt w) ((List.range n).map (fun i => o + i)) := by
  unfold chars
  rw [List.map_map]
  rfl

theorem byte_eq_map (w : List Nat) (o : Nat) : [byteAt w o] = List.map (byteAt w) [o] := rfl

theorem cons_map_byteAt (w : List Nat) (a : Nat) (l : List Nat) :
    byteAt w a :: List.map (byteAt w) l = List.map (byteAt w) (a :: l) := rfl

theorem ntohll_eq_htonll (y : Nat) : ntohll y = htonll y := rfl

theorem le64_ntohll_getU64 (w : List Nat) (o : Nat) (hb : ∀ b ∈ w, b < 256) :
    le64 (ntohll (getU64 w o)) =
      List.map (byteAt w) [o + 4 + 3, o + 4 + 2, o + 4 + 1, o + 4, o + 3, o + 2, o + 1, o] := by
  show _ = [byteAt w (o + 4 + 3), byteAt w (o + 4 + 2), byteAt w (o + 4 + 1), byteAt w (o + 4),
       byteAt w (o + 3), byteAt w (o + 2), byteAt w (o + 1), byteAt w o]
  rw [ntohll_eq_htonll, le64_htonll]
  unfold be64 be32 getU64 getU32
  have h0 := byteAt_lt w hb o
  have h1 := byteAt_lt w hb (o + 1)
  have h2 := byteAt_lt w hb (o + 2)
  have h3 := byteAt_lt w hb (o + 3)
  have h4 := byteAt_lt w hb (o + 4)
  have h5 := byteAt_lt w hb (o + 4 + 1)
  have h6 := byteAt_lt w hb (o + 4 + 2)
  have h7 := byteAt_lt w hb (o + 4 + 3)
  generalize byteAt w o = a at *
  generalize byteAt w (o + 1) = b at *
  generalize byteAt w (o + 2) = c at *
  generalize byteAt w (o + 3) = d at *
  generalize byteAt w (o + 4) = e at *
  generalize byteAt w (o + 4 + 1) = f at *
  generalize byteAt w (o + 4 + 2) = g at *
  generalize byteAt w (o + 4 + 3) = h at *
  simp only [List.cons_append, List.nil_append, List.cons.injEq, and_true]
  refine ⟨?_, ?_, ?_, ?_, ?_, ?_, ?_, ?_⟩ <;> omega

theorem leI32_ntohlInt_getI32 (w : List Nat) (o : Nat) (hb : ∀ b ∈ w, b < 256) :
    leI32 (ntohlInt (getI32 w o)) = List.map (byteAt w) [o + 3, o + 2, o + 1, o] := by
  show _ = [byteAt w (o + 3), byteAt w (o + 2), byteAt w (o + 1), byteAt w o]
  have h0 := byteAt_lt w hb o
  have h1 := byteAt_lt w hb (o + 1)
  have h2 := byteAt_lt w hb (o + 2)
  have h3 := byteAt_lt w hb (o + 3)
  have hlt : getU32 w o < 4294967296 := by unfold getU32; omega
  unfold leI32 ntohlInt getI32 ntohl
  rw [toU32_toI32 _ hlt, toU32_toI32 _ (htonl_lt _), le32_htonl]
  unfold be32 getU32
  generalize byteAt w o = a at *
  generalize byteAt w (o + 1) = b at *
  generalize byteAt w (o + 2) = c at *
  generalize byteAt w (o + 3) = d at *
  simp only [List.cons.injEq, and_true]
  refine ⟨?_, ?_, ?_, ?_⟩ <;> omega

theorem ntohlInt_guarded (v : Int) : (if v ≠ 0 then ntohlInt v else v) = ntohlInt v := by
  by_cases h : v = 0
  · subst h
    decide
  · rw [if_pos h]

theorem ntoh_hostOrder_AcceptedMsg (w : List Nat) (hlen : w.length = 66)
    (hb : ∀ b ∈ w, b < 256) :
    (AcceptedMsg.ofBytes w).ntoh.toBytes = hostOrder [(1, 8), (24, 4), (36, 4), (40, 4), (49, 8), (59, 4)] w := by
  have hw := list_eq_map w
  rw [hlen] at hw
  conv_rhs => rw [hw, hostOrder_map]
  simp only [AcceptedMsg.toBytes, AcceptedMsg.ntoh, AcceptedMsg.ofBytes]
  rw [ntohlInt_guarded, le64_ntohll_getU64 w 1 hb, le64_ntohll_getU64 w 49 hb, leI32_ntohlInt_getI32 w 24 hb, leI32_ntohlInt_getI32 w 36 hb, leI32_ntohlInt_getI32 w 40 hb, leI32_ntohlInt_getI32 w 59 hb, chars_eq_map w 9 14, chars_eq_map w 28 8, chars_eq_map w 44 4]
  simp only [byte_eq_map, cons_map_byteAt, ← List.map_append]
  exact congrArg (List.map (byteAt w)) (by decide)

theorem ntoh_hostOrder_ReplacedMsg (w : List Nat) (hlen : w.length = 80)
    (hb : ∀ b ∈ w, b < 256) :
    (ReplacedMsg.ofBytes w).ntoh.toBytes = hostOrder [(1, 8), (24, 4), (36, 4), (40, 4), (49, 8), (59, 4)] w := by
  have hw := list_eq_map w
  rw [hlen] at hw
  conv_rhs => rw [hw, hostOrder_map]
  simp only [ReplacedMsg.toBytes, ReplacedMsg.ntoh, ReplacedMsg.ofBytes]
  rw [ntohlInt_guarded, le64_ntohll_getU64 w 1 hb, le64_ntohll_getU64 w 49 hb, leI32_ntohlInt_getI32 w 24 hb, leI32_ntohlInt_getI32 w 36 hb, leI32_ntohlInt_getI32 w 40 hb, leI32_ntohlInt_getI32 w 59 hb, chars_eq_map w 9 14, chars_eq_map w 28 8, chars_eq_map w 44 4, chars_eq_map w 65 14]
  simp only [byte_eq_map, cons_map_byteAt, ← List.map_append]
  exact congrArg (List.map (byteAt w)) (by decide)

theorem ntoh_hostOrder_CanceledMsg (w : List Nat) (hlen : w.length = 28)
    (hb : ∀ b ∈ w, b < 256) :
    (CanceledMsg.ofBytes w).ntoh.toBytes = hostOrder [(1, 8), (23, 4)] w := by
  have hw := list_eq_map w
  rw [hlen] at hw
  conv_rhs => rw [hw, hostOrder_map]
  simp only [CanceledMsg.toBytes, CanceledMsg.ntoh, CanceledMsg.ofBytes]
  rw [le64_ntohll_getU64 w 1 hb, leI32_ntohlInt_getI32 w 23 hb, chars_eq_map w 9 14]
  simp only [byte_eq_map, cons_map_byteAt, ← List.map_append]
  exact congrArg (List.map (byteAt w)) (by decide)

theorem ntoh_hostOrder_AIQCanceledMsg (w : List Nat) (hlen : w.length = 37)
    (hb : ∀ b ∈ w, b < 256) :
    (AIQCanceledMsg.ofBytes w).ntoh.toBytes = hostOrder [(1, 8), (23, 4), (28, 4), (32, 4)] w := by
  have hw := list_eq_map w
  rw [hlen] at hw
  conv_rhs => rw [hw, hostOrder_map]
  simp only [AIQCanceledMsg.toBytes, AIQCanceledMsg.ntoh, AIQCanceledMsg.ofBytes]
  rw [le64_ntohll_getU64 w 1 hb, leI32_ntohlInt_getI32 w 23 hb, leI32_ntohlInt_getI32 w 28 hb, leI32_ntohlInt_getI32 w 32 hb, chars_eq_map w 9 14]
  simp only [byte_eq_map, cons_map_byteAt, ← List.map_append]
  exact congrArg (List.map (byteAt w)) (by decide)

theorem ntoh_hostOrder_ExecMsg (w : List Nat) (hlen : w.length = 40)
    (hb : ∀ b ∈ w, b < 256) :
    (ExecMsg.ofBytes w).ntoh.toBytes = hostOrder [(1, 8), (23, 4), (27, 4), (32, 8)] w := by
  have hw := list_eq_map w
  rw [hlen] at hw
  conv_rhs => rw [hw, hostOrder_map]
  simp only [ExecMsg.toBytes, ExecMsg.ntoh, ExecMsg.ofBytes]
  rw [le64_ntohll_getU64 w 1 hb, le64_ntohll_getU64 w 32 hb, leI32_ntohlInt_getI32 w 23 hb, leI32_ntohlInt_getI32 w 27 hb, chars_eq_map w 9 14]
  simp only [byte_eq_map, cons_map_byteAt, ← List.map_append]
  exact congrArg (List.map (byteAt w)) (by decide)

theorem ntoh_hostOrder_BrokenTradeMsg (w : List Nat) (hlen : w.length = 32)
    (hb : ∀ b ∈ w, b < 256) :
    (BrokenTradeMsg.ofBytes w).ntoh.toBytes = hostOrder [(1, 8), (23, 8)] w := by
  have hw := list_eq_map w
  rw [hlen] at hw
  conv_rhs => rw [hw, hostOrder_map]
  simp only [BrokenTradeMsg.toBytes, BrokenTradeMsg.ntoh, BrokenTradeMsg.ofBytes]
  rw [le64_ntohll_getU64 w 1 hb, le64_ntohll_getU64 w 23 hb, chars_eq_map w 9 14]
  simp only [byte_eq_map, cons_map_byteAt, ← List.map_append]
  exact congrArg (List.map (byteAt w)) (by decide)

theorem ntoh_hostOrder_RejectedMsg (w : List Nat) (hlen : w.length = 24)
    (hb : ∀ b ∈ w, b < 256) :
    (RejectedMsg.ofBytes w).ntoh.toBytes = hostOrder [(1, 8)] w := by
  have hw := list_eq_map w
  rw [hlen] at hw
  conv_rhs => rw [hw, hostOrder_map]
  simp only [RejectedMsg.toBytes, RejectedMsg.ntoh, RejectedMsg.ofBytes]
  rw [le64_ntohll_getU64 w 1 hb, chars_eq_map w 9 14]
  simp only [byte_eq_map, cons_map_byteAt, ← List.map_append]
  exact congrArg (List.map (byteAt w)) (by decide)

theorem ntoh_hostOrder_CancelPendingMsg (w : List Nat) (hlen : w.length = 23)
    (hb : ∀ b ∈ w, b < 256) :
    (CancelPendingMsg.ofBytes w).ntoh.toBytes = hostOrder [(1, 8)] w := by
  have hw := list_eq_map w
  rw [hlen] at hw
  conv_rhs => rw [hw, hostOrder_map]
  simp only [CancelPendingMsg.toBytes, CancelPendingMsg.ntoh, CancelPendingMsg.ofBytes]
  rw [le64_ntohll_getU64 w 1 hb, chars_eq_map w 9 14]
  simp only [byte_eq_map, cons_map_byteAt, ← List.map_append]
  exact congrArg (List.map (byteAt w)) (by decide)

theorem ntoh_hostOrder_CancelRejectMsg (w : List Nat) (hlen : w.length = 23)
    (hb : ∀ b ∈ w, b < 256) :
    (CancelRejectMsg.ofBytes w).ntoh.toBytes = hostOrder [(1, 8)] w := by
  have hw := list_eq_map w
  rw [hlen] at hw
  conv_rhs => rw [hw, hostOrder_map]
  simp only [CancelRejectMsg.toBytes, CancelRejectMsg.ntoh, CancelRejectMsg.ofBytes]
  rw [le64_ntohll_getU64 w 1 hb, chars_eq_map w 9 14]
  simp only [byte_eq_map, cons_map_byteAt, ← List.map_append]
  exact congrArg (List.map (byteAt w)) (by decide)

theorem ntoh_hostOrder_PriorityMsg (w : List Nat) (hlen : w.length = 36)
    (hb : ∀ b ∈ w, b < 256) :
    (PriorityMsg.ofBytes w).ntoh.toBytes = hostOrder [(1, 8), (23, 4), (28, 8)] w := by
  have hw := list_eq_map w
  rw [hlen] at hw
  conv_rhs => rw [hw, hostOrder_map]
  simp only [PriorityMsg.toBytes, PriorityMsg.ntoh, PriorityMsg.ofBytes]
  rw [le64_ntohll_getU64 w 1 hb, le64_ntohll_getU64 w 28 hb, leI32_ntohlInt_getI32 w 23 hb, chars_eq_map w 9 14]
  simp only [byte_eq_map, cons_map_byteAt, ← List.map_append]
  exact congrArg (List.map (byteAt w)) (by decide)

theorem ntoh_hostOrder_ModifiedMsg (w : List Nat) (hlen : w.length = 28)
    (hb : ∀ b ∈ w, b < 256) :
    (ModifiedMsg.ofBytes w).ntoh.toBytes = hostOrder [(1, 8), (24, 4)] w := by
  have hw := list_eq_map w
  rw [hlen] at hw
  conv_rhs => rw [hw, hostOrder_map]
  simp only [ModifiedMsg.toBytes, ModifiedMsg.ntoh, ModifiedMsg.ofBytes]
  rw [le64_ntohll_getU64 w 1 hb, leI32_ntohlInt_getI32 w 24 hb, chars_eq_map w 9 14]
  simp only [byte_eq_map, cons_map_byteAt, ← List.map_append]
  exact congrArg (List.map (byteAt w)) (by decide)

theorem ntoh_hostOrder_SysMsg (w : List Nat) (hlen : w.length = 10)
    (hb : ∀ b ∈ w, b < 256) :
    (SysMsg.ofBytes w).ntoh.toBytes = hostOrder [(1, 8)] w := by
  have hw := list_eq_map w
  rw [hlen] at hw
  conv_rhs => rw [hw, hostOrder_map]
  simp only [SysMsg.toBytes, SysMsg.ntoh, SysMsg.ofBytes]
  rw [le64_ntohll_getU64 w 1 hb]
  simp only [byte_eq_map, cons_map_byteAt, ← List.map_append]
  exact congrArg (List.map (byteAt w)) (by decide)

theorem seqDataCase_hostOrder (t size : Nat) (f : List Nat → List Nat)
    (h : seqDataCase t = some (size, f)) (w : List Nat) (hlen : w.length = size)
    (hb : ∀ b ∈ w, b < 256) : f w = hostOrder (seqIntFields t) w := by
  unfold seqDataCase at h
  by_cases h0 : t = AcceptedMsg.TYPE
  · rw [if_pos h0] at h
    injection h with h
    injection h with ha hf
    subst ha hf h0
    exact ntoh_hostOrder_AcceptedMsg w hlen hb
  rw [if_neg h0] at h
  by_cases h1 : t = ReplacedMsg.TYPE
  · rw [if_pos h1] at h
    injection h with h
    injection h with ha hf
    subst ha hf h1
    exact ntoh_hostOrder_ReplacedMsg w hlen hb
  rw [if_neg h1] at h
  by_cases h2 : t = CanceledMsg.TYPE
  · rw [if_pos h2] at h
    injection h with h
    injection h with ha hf
    subst ha hf h2
    exact ntoh_hostOrder_CanceledMsg w hlen hb
  rw [if_neg h2] at h
  by_cases h3 : t = AIQCanceledMsg.TYPE
  · rw [if_pos h3] at h
    injection h with h
    injection h with ha hf
    subst ha hf h3
    exact ntoh_hostOrder_AIQCanceledMsg w hlen hb
  rw [if_neg h3] at h
  by_cases h4 : t = ExecMsg.TYPE
  · rw [if_pos h4] at h
    injection h with h
    injection h with ha hf
    subst ha hf h4
    exact ntoh_hostOrder_ExecMsg w hlen hb
  rw [if_neg h4] at h
  by_cases h5 : t = BrokenTradeMsg.TYPE
  · rw [if_pos h5] at h
    injection h with h
    injection h with ha hf
    subst ha hf h5
    exact ntoh_hostOrder_BrokenTradeMsg w hlen hb
  rw [if_neg h5] at h
  by_cases h6 : t = RejectedMsg.TYPE
  · rw [if_pos h6] at h
    injection h with h
    injection h with ha hf
    subst ha hf h6
    exact ntoh_hostOrder_RejectedMsg w hlen hb
  rw [if_neg h6] at h
  by_cases h7 : t = CancelPendingMsg.TYPE
  · rw [if_pos h7] at h
    injection h with h
    injection h with ha hf
    subst ha hf h7
    exact ntoh_hostOrder_CancelPendingMsg w hlen hb
  rw [if_neg h7] at h
  by_cases h8 : t = CancelRejectMsg.TYPE
  · rw [if_pos h8] at h
    injection h with h
    injection h with ha hf
    subst ha hf h8
    exact ntoh_hostOrder_CancelRejectMsg w hlen hb
  rw [if_neg h8] at h
  by_cases h9 : t = PriorityMsg.TYPE
  · rw [if_pos h9] at h
    injection h with h
    injection h with ha hf
    subst ha hf h9
    exact ntoh_hostOrder_PriorityMsg w hlen hb
  rw [if_neg h9] at h
  by_cases h10 : t = ModifiedMsg.TYPE
  · rw [if_pos h10] at h
    injection h with h
    injection h with ha hf
    subst ha hf h10
    exact ntoh_hostOrder_ModifiedMsg w hlen hb
  rw [if_neg h10] at h
  by_cases h11 : t = SysMsg.TYPE
  · rw [if_pos h11] at h
    injection h with h
    injection h with ha hf
    subst ha hf h11
    exact ntoh_hostOrder_SysMsg w hlen hb
  rw [if_neg h11] at h
  cases h

/-- C6: the sequenced data arm on a packet with a known tag converts the message in place
with the `ntoh` of the type of the tag, which gives the image of the message in host order
(the bytes of every integer field of the struct in the reverse order, every other byte where
it was), hands the converted message once to the log and once to `fromApp`, and adds one to
next-target-seq, except for a `RejectedMsg` whose reason is `'T'` after the conversion, which
is handed over all the same while the store stays as it is.  The same holds for `in_event` on
a session with an empty receive buffer that reads exactly one such packet `p` with a body of
the size of its type: the message handed over is the converted body.  The counter is below
`INT_MAX`, where the increment of the `int` is defined. -/
theorem seq_data_delivery (s : Session) (len now tag : Nat) (s0 : Session) (p : List Nat)
    (e : Int)
    (hty : s.rxbuf.data (s.rxbuf.start + 2) = SOUPBIN3_PACKET_SEQ_DATA)
    (htag : s.rxbuf.data (s.rxbuf.start + 3) = tag) (hknown : tag ∈ knownTags)
    (hrange : isInt32 s.store.nextTargetMsgSeqNum ∧ s.store.nextTargetMsgSeqNum < 2147483647)
    (h0 : s0.rxbuf.len = 0) (hwf : wellFormed p = true)
    (hty0 : p.getD 2 0 = SOUPBIN3_PACKET_SEQ_DATA)
    (hrange0 : isInt32 s0.store.nextTargetMsgSeqNum ∧
      s0.store.nextTargetMsgSeqNum < 2147483647) :
    (∃ size f s1 d1 m, seqDataCase tag = some (size, f) ∧
      (∀ w : List Nat, w.length = size → (∀ b ∈ w, b < 256) →
        f w = hostOrder (seqIntFields tag) w) ∧
      d1 = ntohAt s.rxbuf.data (s.rxbuf.start + 3) size f ∧
      m = readMem d1 (s.rxbuf.start + 3) (len - 3) ∧
      handlePacket s len now = Step.next s1 ∧
      s1.rxbuf.data = d1 ∧
      s1.trace = s.trace ++ [Effect.onIncoming m len, Effect.fromApp m] ∧
      s1.store.nextSenderMsgSeqNum = s.store.nextSenderMsgSeqNum ∧
      s1.state = s.state ∧
      (if tag = RejectedMsg.TYPE ∧ d1 (s.rxbuf.start + 3 + 23) = 84 then s1.store = s.store
       else s1.store.nextTargetMsgSeqNum = s.store.nextTargetMsgSeqNum + 1)) ∧
    (∃ size f s1, seqDataCase (p.getD 3 0) = some (size, f) ∧ p.length = size + 3 ∧
      (∀ w : List Nat, w.length = size → (∀ b ∈ w, b < 256) →
        f w = hostOrder (seqIntFields (p.getD 3 0)) w) ∧
      s0.in_event (ReadResult.data p e) now = some s1 ∧
      s1.trace = s0.trace ++
        [Effect.onIncoming (f (p.drop 3)) p.length, Effect.fromApp (f (p.drop 3))] ∧
      s1.store.nextSenderMsgSeqNum = s0.store.nextSenderMsgSeqNum ∧
      s1.state = s0.state ∧
      (if p.getD 3 0 = RejectedMsg.TYPE ∧ (RejectedMsg.ofBytes (f (p.drop 3))).reason = 84
       then s1.store = s0.store
       else s1.store.nextTargetMsgSeqNum = s0.store.nextTargetMsgSeqNum + 1)) := by
  constructor
  · obtain ⟨size, f, hcase⟩ := seqDataCase_known tag hknown
    refine ⟨size, f, _, _, _, hcase, seqDataCase_hostOrder tag size f hcase, rfl, rfl,
      handlePacket_seq s len now size f hty (by rw [htag, hcase]), ?_⟩
    rw [htag]
    by_cases hc : tag = RejectedMsg.TYPE ∧
        ntohAt s.rxbuf.data (s.rxbuf.start + 3) size f (s.rxbuf.start + 3 + 23) = 84
    · have hcs := (countseq_false_iff _ _ _).2 hc
      rw [hcs, if_pos hc]
      simp [Session.emit]
    · have hcs : countseq (ntohAt s.rxbuf.data (s.rxbuf.start + 3) size f) (s.rxbuf.start + 3)
          tag = true := by
        cases h : countseq (ntohAt s.rxbuf.data (s.rxbuf.start + 3) size f)
          (s.rxbuf.start + 3) tag
        · exact absurd ((countseq_false_iff _ _ _).1 h) hc
        · rfl
      rw [hcs, if_neg hc]
      have hi := incr_target _ hrange
      simp [Session.emit, Session.incrNextTargetMsgSeqNum, hi]
      rfl
  · unfold wellFormed at hwf
    simp only [Bool.and_eq_true, decide_eq_true_eq] at hwf
    have hrest := hwf.2
    rw [if_pos hty0] at hrest
    cases hcase : seqDataCase (p.getD 3 0) with
    | none => rw [hcase] at hrest; cases hrest
    | some x =>
      obtain ⟨size, f⟩ := x
      rw [hcase] at hrest
      simp only [decide_eq_true_eq] at hrest
      have hwf' : wellFormed p = true := by
        unfold wellFormed
        simp only [Bool.and_eq_true, decide_eq_true_eq]
        exact hwf
      obtain ⟨s1, h1, hc1, _⟩ := in_event_one s0 p e now h0 hwf'
        (by
          have := room_ge s0 h0
          have := seqDataCase_length _ _ _ hcase []
          have hsz := seqDataCase_le _ _ _ hcase
          omega)
      rw [dispatch_seq s0.core p size f hty0 hcase hrest] at hc1
      have k4 := congrArg Session.state hc1
      have k5 := congrArg Session.store hc1
      have k9 := congrArg Session.trace hc1
      refine ⟨size, f, s1, rfl, hrest, seqDataCase_hostOrder _ size f hcase, h1, ?_⟩
      by_cases hc : p.getD 3 0 = RejectedMsg.TYPE ∧
          (RejectedMsg.ofBytes (f (p.drop 3))).reason = 84
      · rw [if_pos hc] at k4 k5 k9 ⊢
        simp only [Session.core, Session.emit] at k4 k5 k9
        refine ⟨?_, by rw [k5], k4, k5⟩
        rw [k9]; simp
      · rw [if_neg hc] at k4 k5 k9 ⊢
        simp only [Session.core, Session.emit, Session.incrNextTargetMsgSeqNum] at k4 k5 k9
        refine ⟨?_, by rw [k5]; rfl, k4, ?_⟩
        · rw [k9]; simp
        · rw [k5]
          exact incr_target _ hrange0

/-! ## Unknown tags -/

theorem disconnecting_text : cstr ((str "Disconnecting").take 255) = str "Disconnecting" := by
  decide

theorem close_fields (s : Session) :
    s.close.trace = s.trace ++ ([Effect.event (str "Disconnecting"), Effect.onLogout,
        Effect.rm_fd false] ++ (if s.sharedPoll then [] else [Effect.rm_fd true]) ++
        [Effect.closeSock s.fd]) ∧
      s.close.state = SessionState.st_session_terminated ∧ s.close.fd = -1 ∧
      s.close.store = s.store ∧ s.close.rxbuf.len = 0 ∧ s.close.rxbuf.start = 0 ∧
      s.close.outpipe = [] := by
  unfold Session.close
  by_cases h : s.sharedPoll = true
  · refine ⟨?_, ?_, ?_, ?_, ?_, ?_, ?_⟩ <;>
      simp [Session.event, Session.emit, h, Buffer.reset, disconnecting_text]
  · have h' : s.sharedPoll = false := by simpa using h
    refine ⟨?_, ?_, ?_, ?_, ?_, ?_, ?_⟩ <;>
      simp [Session.event, Session.emit, h', Buffer.reset, disconnecting_text]

theorem cstr_singleton (c : Nat) : cstr [c] = if c = 0 then [] else [c] := by
  by_cases h : c = 0
  · subst h; rfl
  · rw [if_neg h]
    simp [cstr, h]

theorem unknown_text (tag : Nat) :
    cstr ((str "unknown OUCH message type " ++ [tag]).take 255) =
      str "unknown OUCH message type " ++ (if tag = 0 then [] else [tag]) := by
  have h : (str "unknown OUCH message type " ++ [tag]).take 255 =
      str "unknown OUCH message type " ++ [tag] := by
    apply List.take_of_length_le
    simp only [List.length_append, List.length_cons, List.length_nil]
    decide
  rw [h, ← cstr_singleton]
  unfold cstr
  rw [List.takeWhile_append_of_pos]
  decide

theorem unknown_tag_step (s : Session) (len now tag : Nat)
    (hty : s.rxbuf.data (s.rxbuf.start + 2) = SOUPBIN3_PACKET_SEQ_DATA)
    (htag : s.rxbuf.data (s.rxbuf.start + 3) = tag) (hunk : tag ∉ knownTags) :
    ∃ s1, handlePacket s len now = Step.ret s1 ∧
      s1.trace = s.trace ++ (
        [Effect.event (str "unknown OUCH message type " ++
            (if tag = 0 then [] else [tag])),
        Effect.event (str "Disconnecting"), Effect.onLogout, Effect.rm_fd false] ++
        (if s.sharedPoll then [] else [Effect.rm_fd true]) ++ [Effect.closeSock s.fd]) ∧
      s1.state = SessionState.st_session_terminated ∧ s1.fd = -1 ∧ s1.store = s.store := by
  have hcase := seqDataCase_unknown tag hunk
  refine ⟨_, handlePacket_seq_unknown s len now hty (by rw [htag, hcase]), ?_⟩
  rw [htag]
  obtain ⟨h1, h2, h3, h4, _⟩ := close_fields
    (s.event (str "unknown OUCH message type " ++ [tag]))
  refine ⟨?_, h2, h3, by rw [h4]; rfl⟩
  rw [h1]
  simp only [Session.event, Session.emit, unknown_text]
  simp

theorem no_fromApp_added (t : List Effect) (tag : Nat) (sp : Bool) (fd : Int) (m : List Nat)
    (h : Effect.fromApp m ∈ t ++ (
      [Effect.event (str "unknown OUCH message type " ++
          (if tag = 0 then [] else [tag])),
        Effect.event (str "Disconnecting"), Effect.onLogout, Effect.rm_fd false] ++
        (if sp then [] else [Effect.rm_fd true]) ++ [Effect.closeSock fd])) :
    Effect.fromApp m ∈ t := by
  cases sp <;> simpa using h

/-- C7: the sequenced data arm on a packet whose tag is none of A, U, C, D, E, B, J, P, I, T,
M, S logs the event `unknown OUCH message type` followed by the tag (by nothing when the tag
is the NUL byte, where the text that the log is given ends) and closes the session: after the
events, `onLogout`, the removal from the pollers and `closeSock` the state is
session-terminated and no socket is bound; `fromApp` is not called and the store, hence
next-target-seq, is as before.  The same holds for `in_event` on a session with an empty
receive buffer whose read starts with such a packet `p`. -/
theorem unknown_tag_closes (s : Session) (len now tag : Nat) (s0 : Session) (p rest : List Nat)
    (e : Int)
    (hty : s.rxbuf.data (s.rxbuf.start + 2) = SOUPBIN3_PACKET_SEQ_DATA)
    (htag : s.rxbuf.data (s.rxbuf.start + 3) = tag) (hunk : tag ∉ knownTags)
    (h0 : s0.rxbuf.len = 0) (hlen : pktLen (p.getD 0 0) (p.getD 1 0) = p.length)
    (h4 : 4 ≤ p.length) (hty0 : p.getD 2 0 = SOUPBIN3_PACKET_SEQ_DATA)
    (htag0 : p.getD 3 0 = tag) (hfit : (p ++ rest).length ≤ s0.room) :
    (∃ s1, handlePacket s len now = Step.ret s1 ∧
      s1.trace = s.trace ++ (
        [Effect.event (str "unknown OUCH message type " ++
            (if tag = 0 then [] else [tag])),
        Effect.event (str "Disconnecting"), Effect.onLogout, Effect.rm_fd false] ++
        (if s.sharedPoll then [] else [Effect.rm_fd true]) ++ [Effect.closeSock s.fd]) ∧
      (∀ m, Effect.fromApp m ∈ s1.trace → Effect.fromApp m ∈ s.trace) ∧
      s1.state = SessionState.st_session_terminated ∧ s1.fd = -1 ∧ s1.store = s.store) ∧
    (∃ s1, s0.in_event (ReadResult.data (p ++ rest) e) now = some s1 ∧
      s1.trace = s0.trace ++ (
        [Effect.event (str "unknown OUCH message type " ++
            (if tag = 0 then [] else [tag])),
        Effect.event (str "Disconnecting"), Effect.onLogout, Effect.rm_fd false] ++
        (if s0.sharedPoll then [] else [Effect.rm_fd true]) ++ [Effect.closeSock s0.fd]) ∧
      (∀ m, Effect.fromApp m ∈ s1.trace → Effect.fromApp m ∈ s0.trace) ∧
      s1.state = SessionState.st_session_terminated ∧ s1.fd = -1 ∧ s1.store = s0.store) := by
  constructor
  · obtain ⟨s1, h1, h2, h3, h4, h5⟩ := unknown_tag_step s len now tag hty htag hunk
    exact ⟨s1, h1, h2, fun m hm => no_fromApp_added _ _ _ _ m (h2 ▸ hm), h3, h4, h5⟩
  · have hne : p ++ rest ≠ [] := by
      intro h
      have := congrArg List.length h
      simp only [List.length_append, List.length_nil] at this
      omega
    obtain ⟨sr, hin, hcore, hl, hr, _, _⟩ := in_event_read s0 (p ++ rest) e now hne
      (room_cap s0 _ h0 hfit)
    rw [h0] at hl hr
    simp only [readMem, List.range_zero, List.map_nil, List.nil_append, Nat.zero_add] at hl hr
    have hr' : readMem sr.rxbuf.data sr.rxbuf.start (p ++ rest).length = p ++ rest := by
      rw [← hl]; exact hr
    have hb := (readMem_eq_iff _ _ _).1 hr'
    have hpl : (p ++ rest).length = p.length + rest.length := List.length_append _ _
    have e0 := hb 0 (by omega)
    have e1 := hb 1 (by omega)
    have e2 := hb 2 (by omega)
    have e3 := hb 3 (by omega)
    rw [getD_append_left _ _ _ (by omega)] at e0 e1 e2 e3
    rw [Nat.add_zero] at e0
    obtain ⟨s1, h1, h2, h3, h4, h5⟩ := unknown_tag_step sr p.length now tag
      (by rw [e2, hty0]) (by rw [e3, htag0]) hunk
    obtain ⟨_, _, k3, _, k5, _, k7, _, k9⟩ := (core_eq_iff _ _).1 hcore
    rw [k9, k7, k3] at h2
    refine ⟨s1, ?_, h2, fun m hm => no_fromApp_added _ _ _ _ m (h2 ▸ hm), h3, h4,
      by rw [h5, k5]⟩
    rw [hin, drain]
    simp only [Buffer.begin]
    rw [if_pos (by omega), e0, e1, hlen, if_pos (by omega), if_pos (by omega), h1]

/-! ## The counters -/

theorem assertThen_store (c : Bool) (s : Session) :
    (assertThen c s Step.next).session.store = s.store ∧
      (assertThen c s Step.ret).session.store = s.store := by
  unfold assertThen
  cases c <;> simp [Step.session, Session.emit]

theorem close_store (s : Session) : s.close.store = s.store := (close_fields s).2.2.2.1

theorem handlePacket_store (s : Session) (len now : Nat) :
    (handlePacket s len now).session.store = s.store ∨
    (handlePacket s len now).session.store = s.store.incrNextTargetMsgSeqNum ∨
    (s.rxbuf.data (s.rxbuf.start + 2) = SOUPBIN3_PACKET_LOGIN_ACCEPTED ∧
      ∃ n, (handlePacket s len now).session.store = s.store.setNextTargetMsgSeqNum n) := by
  by_cases hS : s.rxbuf.data (s.rxbuf.start + 2) = SOUPBIN3_PACKET_SEQ_DATA
  · cases hc : seqDataCase (s.rxbuf.data (s.rxbuf.start + 3)) with
    | none =>
      left
      rw [handlePacket_seq_unknown s len now hS hc]
      simp only [Step.session, close_store]
      rfl
    | some x =>
      obtain ⟨size, f⟩ := x
      rw [handlePacket_seq s len now size f hS hc]
      simp only [Step.session]
      split
      · right; left; rfl
      · left; rfl
  by_cases hA : s.rxbuf.data (s.rxbuf.start + 2) = SOUPBIN3_PACKET_LOGIN_ACCEPTED
  · rw [handlePacket_login_accepted s len now hA, (assertThen_store _ _).1]
    simp only [Session.emit]
    split
    · right; right; exact ⟨hA, _, rfl⟩
    · left; rfl
  by_cases hJ : s.rxbuf.data (s.rxbuf.start + 2) = SOUPBIN3_PACKET_LOGIN_REJECTED
  · left
    rw [handlePacket_login_rejected s len now hJ, (assertThen_store _ _).2, close_store]
    rfl
  by_cases hH : s.rxbuf.data (s.rxbuf.start + 2) = SOUPBIN3_PACKET_SERVER_HEARTBEAT
  · left
    rw [handlePacket_server_heartbeat s len now hH, (assertThen_store _ _).1]
  by_cases hZ : s.rxbuf.data (s.rxbuf.start + 2) = SOUPBIN3_PACKET_END_OF_SESSION
  · left
    rw [handlePacket_end_of_session s len now hZ, (assertThen_store _ _).2, close_store]
    rfl
  by_cases hR : s.rxbuf.data (s.rxbuf.start + 2) = SOUPBIN3_PACKET_CLIENT_HEARTBEAT
  · left
    rw [handlePacket_client_heartbeat s len now hR, (assertThen_store _ _).1]
  by_cases hL : s.rxbuf.data (s.rxbuf.start + 2) = SOUPBIN3_PACKET_LOGIN_REQUEST
  · left
    rw [handlePacket_login_request s len now hL, (assertThen_store _ _).1]
    unfold Session.sendBytes
    split <;> rfl
  by_cases hU : s.rxbuf.data (s.rxbuf.start + 2) = SOUPBIN3_PACKET_UNSEQ_DATA
  · left
    rw [handlePacket_unseq s len now hU]
    rfl
  left
  rw [handlePacket_other s len now hS hA hJ hH hZ hR hL hU]
  rfl

theorem handlePacket_sender (s : Session) (len now : Nat) :
    (handlePacket s len now).session.store.nextSenderMsgSeqNum =
      s.store.nextSenderMsgSeqNum := by
  rcases handlePacket_store s len now with h | h | ⟨_, n, h⟩ <;> rw [h] <;> rfl

theorem drain_sender (fuel : Nat) : ∀ (s s1 : Session) (now : Nat),
    drain fuel s now = some s1 →
    s1.store.nextSenderMsgSeqNum = s.store.nextSenderMsgSeqNum := by
  induction fuel with
  | zero => intro s s1 now h; simp [drain] at h
  | succ f ih =>
    intro s s1 now h
    rw [drain] at h
    split at h
    · simp only at h
      split at h
      · split at h
        · have hs := handlePacket_sender s
            (pktLen (s.rxbuf.data s.rxbuf.begin) (s.rxbuf.data (s.rxbuf.begin + 1))) now
          split at h
          · rename_i s2 heq
            rw [heq] at hs
            injection h with h
            rw [← h]; exact hs
          · rename_i s2 heq
            rw [heq] at hs
            have hh := ih _ _ _ h
            exact hh.trans hs
        · have hh := ih _ _ _ h
          exact hh
      · injection h with h
        rw [← h]
    · injection h with h
      rw [← h]

theorem in_event_sender_aux (s0 s1 : Session) (rd : ReadResult) (now : Nat)
    (h : (match rd with
      | ReadResult.data bytes errno =>
        let got := bytes.take s0.rxbuf.remaining
        if got.length > 0 then
          let s := { s0 with
            rxtm := now
            rxbuf := { s0.rxbuf with
              data := writeMem s0.rxbuf.data s0.rxbuf.end_ got
              len := s0.rxbuf.len + got.length } }
          drain (s.rxbuf.len + 1) s now
        else
          some ((s0.event (str "Connection reset by peer: nr=" ++ fmtInt 0 ++ str " errno=" ++
            fmtInt errno)).close)
      | ReadResult.error errno =>
        if errno ≠ EAGAIN ∧ errno ≠ EINTR then
          some ((s0.event (str "Connection reset by peer: nr=" ++ fmtInt (-1) ++
            str " errno=" ++ fmtInt errno)).close)
        else some s0) = some s1) :
    s1.store.nextSenderMsgSeqNum = s0.store.nextSenderMsgSeqNum := by
  cases rd with
  | data bytes errno =>
    simp only at h
    split at h
    · have hh := drain_sender _ _ _ _ h
      exact hh
    · injection h with h
      rw [← h, close_store]
      rfl
  | error errno =>
    simp only at h
    split at h
    · injection h with h
      rw [← h, close_store]
      rfl
    · injection h with h
      rw [← h]

theorem in_event_sender (s s1 : Session) (rd : ReadResult) (now : Nat)
    (h : s.in_event rd now = some s1) :
    s1.store.nextSenderMsgSeqNum = s.store.nextSenderMsgSeqNum := by
  unfold Session.in_event at h
  have hh := in_event_sender_aux _ s1 rd now h
  refine hh.trans ?_
  split <;> rfl

/-- C10: next-target-seq can decrease: a session expecting
the sequenced message 5 that reads the login accepted packet for the sequence number 1
expects the message 1 afterwards. -/
theorem login_accepted_lowers_target :
    ({ Session.example true with
        store := { MemoryStore.new with nextTargetMsgSeqNum := 5 } } :
      Session).store.nextTargetMsgSeqNum = 5 ∧
    (({ Session.example true with
        store := { MemoryStore.new with nextTargetMsgSeqNum := 5 } } : Session).in_event
      (ReadResult.data (loginAcceptedPacket 1) 0) 7).map
        (fun s1 : Session => s1.store.nextTargetMsgSeqNum) = some 1 := by
  decide

/-- C10: what holds of the two counters.  A call of `in_event` that returns leaves
next-sender-seq as it was, whatever the session and whatever the read; so does the handling
of one packet.  The handling of a packet whose type is not login accepted leaves
next-target-seq as it was or adds one to it, so that it does not decrease, when the `int`
counter is in range and below `INT_MAX`.  (A login accepted packet sets next-target-seq to
the number it carries.) -/
theorem counters_monotone (s : Session) (len now : Nat)
    (hty : s.rxbuf.data (s.rxbuf.start + 2) ≠ SOUPBIN3_PACKET_LOGIN_ACCEPTED)
    (hrange : isInt32 s.store.nextTargetMsgSeqNum ∧ s.store.nextTargetMsgSeqNum < 2147483647) :
    (∀ (t t1 : Session) (rd : ReadResult) (n : Nat), t.in_event rd n = some t1 →
      t1.store.nextSenderMsgSeqNum = t.store.nextSenderMsgSeqNum) ∧
    (∀ (t : Session) (l n : Nat), (handlePacket t l n).session.store.nextSenderMsgSeqNum =
      t.store.nextSenderMsgSeqNum) ∧
    ((handlePacket s len now).session.store.nextTargetMsgSeqNum = s.store.nextTargetMsgSeqNum ∨
      (handlePacket s len now).session.store.nextTargetMsgSeqNum =
        s.store.nextTargetMsgSeqNum + 1) ∧
    s.store.nextTargetMsgSeqNum ≤ (handlePacket s len now).session.store.nextTargetMsgSeqNum := by
  have h3 : (handlePacket s len now).session.store.nextTargetMsgSeqNum =
        s.store.nextTargetMsgSeqNum ∨
      (handlePacket s len now).session.store.nextTargetMsgSeqNum =
        s.store.nextTargetMsgSeqNum + 1 := by
    rcases handlePacket_store s len now with h | h | ⟨h, _⟩
    · left; rw [h]
    · right; rw [h]; exact incr_target _ hrange
    · exact absurd h hty
  refine ⟨in_event_sender, handlePacket_sender, h3, ?_⟩
  rcases h3 with h | h <;> rw [h]
  omega

theorem counters_monotone_witness :
    (({ Session.example true with
        rxbuf := { data := fun i => [0, 66, 83, 65].getD i 0, start := 0, len := 69 } } : Session).rxbuf.data
      (0 + 2) ≠ SOUPBIN3_PACKET_LOGIN_ACCEPTED) ∧
    (((handlePacket ({ Session.example true with
        rxbuf := { data := fun i => [0, 66, 83, 65].getD i 0, start := 0, len := 69 } } : Session)
        69 7).session.store.nextTargetMsgSeqNum = MemoryStore.new.nextTargetMsgSeqNum ∨
      (handlePacket ({ Session.example true with
        rxbuf := { data := fun i => [0, 66, 83, 65].getD i 0, start := 0, len := 69 } } : Session)
        69 7).session.store.nextTargetMsgSeqNum = MemoryStore.new.nextTargetMsgSeqNum + 1)) :=
  ⟨by decide, (counters_monotone ({ Session.example true with
        rxbuf := { data := fun i => [0, 66, 83, 65].getD i 0, start := 0, len := 69 } } : Session)
      69 7 (by decide) (by decide)).2.2.1⟩

/-! ## An order and its acknowledgement across the wire -/

theorem rpadStr_nulfree (n : Nat) (src : List Nat) (hl : src.length ≤ n)
    (h : ∀ c ∈ src, c ≠ 0) : rpadStr n src = src ++ List.replicate (n - src.length) 32 := by
  have htw : src.takeWhile (fun c => c != 0) = src := by
    rw [List.takeWhile_eq_self_iff]
    intro c hc
    simpa using h c hc
  unfold rpadStr strncpy
  rw [htw, List.take_of_length_le hl]
  by_cases hlt : src.length < n
  · rw [if_pos hlt, List.take_left' rfl]
  · rw [if_neg hlt]
    have : n - src.length = 0 := by omega
    rw [this]
    rfl

theorem rpadStr_strncpy (n : Nat) (src : List Nat) (hl : src.length ≤ n)
    (h : ∀ c ∈ src, c ≠ 0) : strncpy (rpadStr n src) n = rpadStr n src := by
  have hlen := rpadStr_length n src
  have hnf : ∀ c ∈ rpadStr n src, c ≠ 0 := by
    rw [rpadStr_nulfree n src hl h]
    intro c hc
    rcases List.mem_append.1 hc with h1 | h1
    · exact h c h1
    · rw [(List.mem_replicate.1 h1).2]; decide
  have := strncpy_nulfree (rpadStr n src) hnf
  rw [hlen] at this
  exact this

theorem isInt32_toI32 (x : Nat) : isInt32 (toI32 x) := by
  unfold isInt32 toI32
  split <;> omega

theorem isInt32_htonlInt (v : Int) : isInt32 (htonlInt v) := isInt32_toI32 _

theorem isInt32_guarded (v : Int) (h : isInt32 v) :
    isInt32 (if v ≠ 0 then htonlInt v else v) := by
  split
  · exact isInt32_htonlInt v
  · exact h

theorem OrderMsg.new_WF (id symbol firm : List Nat) (side display : Nat) (shares price : Int)
    (hsh : isInt32 shares) (hpr : isInt32 price) :
    (OrderMsg.new id side shares symbol price firm display).WF :=
  ⟨rpadStr_length _ _, hsh, rpadStr_length _ _, hpr, (by decide : isInt32 99998),
    rpadStr_length _ _, (by decide : isInt32 0)⟩

theorem hton_WF_OrderMsg (o : OrderMsg) (h : o.WF) : o.hton.WF := by
  obtain ⟨h1, _, h3, _, _, h6, h7⟩ := h
  exact ⟨h1, isInt32_htonlInt _, h3, isInt32_htonlInt _, isInt32_htonlInt _, h6,
    isInt32_guarded _ h7⟩

theorem ntoh_hton_OrderMsg (o : OrderMsg) (h : o.WF) : o.hton.ntoh = o := by
  cases o
  obtain ⟨_, h2, _, h4, h5, _, h7⟩ := h
  dsimp only at h2 h4 h5 h7
  simp only [OrderMsg.hton, OrderMsg.ntoh, OrderMsg.mk.injEq, true_and]
  exact ⟨ntohlInt_htonlInt _ h2, ntohlInt_htonlInt _ h4, ntohlInt_htonlInt _ h5,
    ntohl_htonl_guarded _ h7, trivial⟩

theorem AcceptedMsg.ofOrder_WF (o : OrderMsg) (h : o.WF) : (AcceptedMsg.ofOrder o).WF := by
  obtain ⟨_, h2, _, h4, h5, _, h7⟩ := h
  exact ⟨(by decide : 0 < 18446744073709551616), strncpy_length _ _, h2, strncpy_length _ _,
    h4, h5, strncpy_length _ _, (by decide : 0 < 18446744073709551616), h7⟩

theorem hton_WF_AcceptedMsg (a : AcceptedMsg) (h : a.WF) : a.hton.WF := by
  obtain ⟨_, h2, _, h4, _, _, h7, _, h9⟩ := h
  exact ⟨htonll_lt _, h2, isInt32_htonlInt _, h4, isInt32_htonlInt _, isInt32_htonlInt _, h7,
    htonll_lt _, isInt32_guarded _ h9⟩

theorem ntoh_hton_AcceptedMsg (a : AcceptedMsg) (h : a.WF) : a.hton.ntoh = a := by
  cases a
  obtain ⟨h1, _, h3, _, h5, h6, _, h8, h9⟩ := h
  dsimp only at h1 h3 h5 h6 h8 h9
  simp only [AcceptedMsg.hton, AcceptedMsg.ntoh, AcceptedMsg.mk.injEq, true_and]
  exact ⟨ntohll_htonll _ h1, ntohlInt_htonlInt _ h3, ntohlInt_htonlInt _ h5,
    ntohlInt_htonlInt _ h6, ntohll_htonll _ h8, ntohl_htonl_guarded _ h9, trivial⟩

theorem toBytes_length_OrderMsg (o : OrderMsg) (h : o.WF) : o.toBytes.length = 48 := by
  obtain ⟨h1, _, h3, _, _, h6, _⟩ := h
  simp [OrderMsg.toBytes, leI32_length, h1, h3, h6]

theorem toBytes_length_AcceptedMsg (a : AcceptedMsg) (h : a.WF) : a.toBytes.length = 66 := by
  obtain ⟨_, h2, _, h4, _, _, h7, _⟩ := h
  simp [AcceptedMsg.toBytes, leI32_length, le64_length, h2, h4, h7]

theorem packet_order (o : OrderMsg) (h : o.WF) (hty : o.type = OrderMsg.TYPE) :
    Session.packet true o = [0, 49, SOUPBIN3_PACKET_UNSEQ_DATA] ++ o.hton.toBytes ∧
    (Session.packet true o).length = 48 + 3 ∧
    wellFormed (Session.packet true o) = true ∧
    (Session.packet true o).getD 2 0 = SOUPBIN3_PACKET_UNSEQ_DATA ∧
    (Session.packet true o).getD 3 0 = OrderMsg.TYPE := by
  have ep : Session.packet true o = [0, 49, SOUPBIN3_PACKET_UNSEQ_DATA] ++ o.hton.toBytes := rfl
  have hl := toBytes_length_OrderMsg _ (hton_WF_OrderMsg o h)
  have h3 : (Session.packet true o).getD 3 0 = OrderMsg.TYPE := by
    rw [ep, ← hty]; rfl
  have hlen : (Session.packet true o).length = 48 + 3 := by
    rw [ep, List.length_append, hl]; rfl
  refine ⟨ep, hlen, ?_, by rw [ep]; rfl, h3⟩
  have g0 : (Session.packet true o).getD 0 0 = 0 := by rw [ep]; rfl
  have g1 : (Session.packet true o).getD 1 0 = 49 := by rw [ep]; rfl
  have g2 : (Session.packet true o).getD 2 0 = SOUPBIN3_PACKET_UNSEQ_DATA := by
    rw [ep]; rfl
  unfold wellFormed
  rw [g0, g1, g2, h3, hlen]
  decide

theorem packet_accepted (a : AcceptedMsg) (h : a.WF) (hty : a.type = AcceptedMsg.TYPE) :
    Session.packet false a = [0, 67, SOUPBIN3_PACKET_SEQ_DATA] ++ a.hton.toBytes ∧
    (Session.packet false a).length = 66 + 3 ∧
    wellFormed (Session.packet false a) = true ∧
    (Session.packet false a).getD 2 0 = SOUPBIN3_PACKET_SEQ_DATA ∧
    (Session.packet false a).getD 3 0 = AcceptedMsg.TYPE := by
  have ep : Session.packet false a = [0, 67, SOUPBIN3_PACKET_SEQ_DATA] ++ a.hton.toBytes := rfl
  have hl := toBytes_length_AcceptedMsg _ (hton_WF_AcceptedMsg a h)
  have h3 : (Session.packet false a).getD 3 0 = AcceptedMsg.TYPE := by
    rw [ep, ← hty]; rfl
  have hlen : (Session.packet false a).length = 66 + 3 := by
    rw [ep, List.length_append, hl]; rfl
  refine ⟨ep, hlen, ?_, by rw [ep]; rfl, h3⟩
  have g0 : (Session.packet false a).getD 0 0 = 0 := by rw [ep]; rfl
  have g1 : (Session.packet false a).getD 1 0 = 67 := by rw [ep]; rfl
  have g2 : (Session.packet false a).getD 2 0 = SOUPBIN3_PACKET_SEQ_DATA := by
    rw [ep]; rfl
  unfold wellFormed
  rw [g0, g1, g2, h3, hlen]
  decide

theorem send_frame {T : Type} [OuchMsg T] (s : Session) (msg : T) (now : Nat) :
    (s.send msg now).rxbuf = s.rxbuf ∧ (s.send msg now).isClient = s.isClient ∧
      (s.send msg now).fd = s.fd := by
  unfold Session.send Session.sendBytes
  split <;> exact ⟨rfl, rfl, rfl⟩

/-- C5: an order built by the constructor of `OrderMsg` from a NUL-free id of at most 14
characters and a NUL-free symbol of at most 8 and sent by an initiator is, on the wire, one
`U` packet with a body of 48 bytes; an acceptor that reads this packet hands over once a
message that is the order itself.  The `AcceptedMsg` built from it and sent by the acceptor
is one `S` packet with a body of 66 bytes, and the initiator that reads it hands over once
an accepted message with the id, side, shares, symbol and price of the order. -/
theorem order_accept_roundtrip (ini acc : Session) (id symbol firm : List Nat)
    (side display : Nat) (shares price : Int) (o : OrderMsg) (e : Int) (t0 t1 t2 t3 : Nat)
    (ho : o = OrderMsg.new id side shares symbol price firm display)
    (hid : id.length ≤ 14 ∧ ∀ c ∈ id, c ≠ 0)
    (hsym : symbol.length ≤ 8 ∧ ∀ c ∈ symbol, c ≠ 0)
    (hsh : isInt32 shares) (hpr : isInt32 price)
    (hini : ini.isClient = true ∧ 0 ≤ ini.fd ∧ ini.rxbuf.len = 0)
    (hacc : acc.isClient = false ∧ 0 ≤ acc.fd ∧ acc.rxbuf.len = 0) :
    ∃ acc1 ini1,
      (ini.send o t0).outpipe = ini.outpipe ++ Session.packet true o ∧
      Session.packet true o = [0, 49, SOUPBIN3_PACKET_UNSEQ_DATA] ++ o.hton.toBytes ∧
      o.hton.toBytes.length = 48 ∧
      acc.in_event (ReadResult.data (Session.packet true o) e) t1 = some acc1 ∧
      acc1.trace = acc.trace ++ [Effect.onIncoming o.toBytes 51, Effect.fromApp o.toBytes] ∧
      OrderMsg.ofBytes o.toBytes = o ∧
      (acc1.send (AcceptedMsg.ofOrder o) t2).outpipe =
        acc.outpipe ++ Session.packet false (AcceptedMsg.ofOrder o) ∧
      Session.packet false (AcceptedMsg.ofOrder o) =
        [0, 67, SOUPBIN3_PACKET_SEQ_DATA] ++ (AcceptedMsg.ofOrder o).hton.toBytes ∧
      (AcceptedMsg.ofOrder o).hton.toBytes.length = 66 ∧
      (ini.send o t0).in_event
        (ReadResult.data (Session.packet false (AcceptedMsg.ofOrder o)) e) t3 = some ini1 ∧
      ini1.trace = (ini.send o t0).trace ++
        [Effect.onIncoming (AcceptedMsg.ofOrder o).toBytes 69,
         Effect.fromApp (AcceptedMsg.ofOrder o).toBytes] ∧
      AcceptedMsg.ofBytes (AcceptedMsg.ofOrder o).toBytes = AcceptedMsg.ofOrder o ∧
      ((AcceptedMsg.ofOrder o).id = o.id ∧ (AcceptedMsg.ofOrder o).side = o.side ∧
        (AcceptedMsg.ofOrder o).shares = o.shares ∧
        (AcceptedMsg.ofOrder o).symbol = o.symbol ∧ (AcceptedMsg.ofOrder o).price = o.price) ∧
      o.id = id ++ List.replicate (14 - id.length) 32 ∧ o.side = side ∧ o.shares = shares ∧
      o.symbol = symbol ++ List.replicate (8 - symbol.length) 32 ∧ o.price = price := by
  have hW : o.WF := by rw [ho]; exact OrderMsg.new_WF id symbol firm side display shares price hsh hpr
  have hty : o.type = OrderMsg.TYPE := by rw [ho]; rfl
  have hoid : o.id = rpadStr 14 id := by rw [ho]; rfl
  have hosym : o.symbol = rpadStr 8 symbol := by rw [ho]; rfl
  have hWa := AcceptedMsg.ofOrder_WF o hW
  obtain ⟨ep, hlen, hwf, g2, g3⟩ := packet_order o hW hty
  obtain ⟨epa, hlena, hwfa, g2a, g3a⟩ := packet_accepted (AcceptedMsg.ofOrder o) hWa rfl
  obtain ⟨hr0, hc0, hf0⟩ := send_frame ini o t0
  -- the acceptor
  obtain ⟨acc1, h1, hc1, _⟩ := in_event_one acc (Session.packet true o) e t1 hacc.2.2 hwf
    (by have := room_ge acc hacc.2.2; omega)
  have hcase : unseqDataCase ((Session.packet true o).getD 3 0) =
      some (OrderMsg.sizeof, fun w => (OrderMsg.ofBytes w).ntoh.toBytes) := by rw [g3]; rfl
  rw [dispatch_unseq acc.core _ _ _ g2 hcase (by rw [hlen]; rfl)] at hc1
  have hd : (Session.packet true o).drop 3 = o.hton.toBytes := by rw [ep]; rfl
  have hm : (OrderMsg.ofBytes ((Session.packet true o).drop 3)).ntoh.toBytes = o.toBytes := by
    rw [hd, ofBytes_toBytes_OrderMsg _ (hton_WF_OrderMsg o hW), ntoh_hton_OrderMsg o hW]
  rw [hm, hlen] at hc1
  have k1 := congrArg Session.trace hc1
  have k2 := congrArg Session.outpipe hc1
  have k3 := congrArg Session.fd hc1
  have k4 := congrArg Session.isClient hc1
  simp only [Session.core, Session.emit] at k1 k2 k3 k4
  -- the initiator
  obtain ⟨ini1, h2, hc2, _⟩ := in_event_one (ini.send o t0)
    (Session.packet false (AcceptedMsg.ofOrder o)) e t3 (by rw [hr0]; exact hini.2.2) hwfa
    (by have := room_ge (ini.send o t0) (by rw [hr0]; exact hini.2.2); omega)
  have hcasea : seqDataCase ((Session.packet false (AcceptedMsg.ofOrder o)).getD 3 0) =
      some (AcceptedMsg.sizeof, fun w => (AcceptedMsg.ofBytes w).ntoh.toBytes) := by
    rw [g3a]; rfl
  rw [dispatch_seq (ini.send o t0).core _ _ _ g2a hcasea (by rw [hlena]; rfl)] at hc2
  have hda : (Session.packet false (AcceptedMsg.ofOrder o)).drop 3 =
      (AcceptedMsg.ofOrder o).hton.toBytes := by rw [epa]; rfl
  have hma : (AcceptedMsg.ofBytes ((Session.packet false (AcceptedMsg.ofOrder o)).drop 3)
      ).ntoh.toBytes = (AcceptedMsg.ofOrder o).toBytes := by
    rw [hda, ofBytes_toBytes_AcceptedMsg _ (hton_WF_AcceptedMsg _ hWa),
      ntoh_hton_AcceptedMsg _ hWa]
  rw [if_neg (by rw [g3a]; intro h; exact absurd h.1 (by decide))] at hc2
  rw [hma, hlena] at hc2
  have k5 := congrArg Session.trace hc2
  simp only [Session.core, Session.emit, Session.incrNextTargetMsgSeqNum] at k5
  refine ⟨acc1, ini1, ?_, ep, toBytes_length_OrderMsg _ (hton_WF_OrderMsg o hW), h1, ?_,
    ofBytes_toBytes_OrderMsg o hW, ?_, epa,
    toBytes_length_AcceptedMsg _ (hton_WF_AcceptedMsg _ hWa), h2, ?_,
    ofBytes_toBytes_AcceptedMsg _ hWa, ⟨?_, rfl, rfl, ?_, rfl⟩, ?_, by rw [ho]; rfl,
    by rw [ho]; rfl, ?_, by rw [ho]; rfl⟩
  · have := send_outpipe ini o t0 hini.2.1
    rw [hini.1] at this
    exact this
  · rw [k1]; simp
  · have := send_outpipe acc1 (AcceptedMsg.ofOrder o) t2 (by rw [k3]; exact hacc.2.1)
    rw [k4, k2, hacc.1] at this
    exact this
  · rw [k5]; simp
  · show strncpy o.id 14 = o.id
    rw [hoid]; exact rpadStr_strncpy 14 id hid.1 hid.2
  · show strncpy o.symbol 8 = o.symbol
    rw [hosym]; exact rpadStr_strncpy 8 symbol hsym.1 hsym.2
  · rw [hoid]; exact rpadStr_nulfree 14 id hid.1 hid.2
  · rw [hosym]; exact rpadStr_nulfree 8 symbol hsym.1 hsym.2

/-! ## Concrete instances -/

theorem hton_ntoh_roundtrip_witness :
    (isInt32 OrderMsg.example.shares ∧ isInt32 OrderMsg.example.price ∧
      isInt32 OrderMsg.example.tif ∧ isInt32 OrderMsg.example.minQty) ∧
    OrderMsg.example.hton.ntoh = OrderMsg.example ∧
    (ReplaceMsg.new [49] [50] 200 123500 32).hton.ntoh = ReplaceMsg.new [49] [50] 200 123500 32 ∧
    (CancelMsg.new [49] 0).hton.ntoh = CancelMsg.new [49] 0 ∧
    (ModifyMsg.new [49] 66 50).hton.ntoh = ModifyMsg.new [49] 66 50 :=
  ⟨by decide, (hton_ntoh_roundtrip OrderMsg.example (ReplaceMsg.new [49] [50] 200 123500 32)
    (CancelMsg.new [49] 0) (ModifyMsg.new [49] 66 50) (by decide) (by decide) (by decide)
    (by decide)).1⟩

theorem in_event_slices_witness :
    (∀ p ∈ [[0, 1, 72], [0, 2, 85, 90], [0, 1, 82]], wellFormed p = true) ∧
    ∃ s1 s2,
      (Session.example true).in_event
        (ReadResult.data [[0, 1, 72], [0, 2, 85, 90], [0, 1, 82]].flatten 0) 1 = some s1 ∧
      feed (Session.example true) 0
        [([0, 1], 1), ([72, 0, 2, 85], 2), ([90, 0], 3), ([1, 82], 4)] = some s2 ∧
      s2.core = s1.core :=
  ⟨by decide,
    match (in_event_slices (Session.example true) 0 1 [[0, 1, 72], [0, 2, 85, 90], [0, 1, 82]]
      [([0, 1], 1), ([72, 0, 2, 85], 2), ([90, 0], 3), ([1, 82], 4)] [0, 1, 72] [0] [1, 72] 4 5
      rfl (by decide) (by decide) (by decide) (by decide) (by decide) (by decide) (by decide)
      (by decide) rfl (by decide)).1 with
    | ⟨s1, s2, h1, h2, h3, _⟩ => ⟨s1, s2, h1, h2, h3⟩⟩

theorem send_packet_witness :
    (OrderMsg.example.WF ∧ (AcceptedMsg.ofOrder OrderMsg.example).WF ∧
      0 ≤ (Session.example true).fd) ∧
    (Session.packet (Session.example true).isClient OrderMsg.example).length = 48 + 3 ∧
    ((Session.example true).send OrderMsg.example 3).outpipe =
      (Session.example true).outpipe ++
        Session.packet (Session.example true).isClient OrderMsg.example :=
  ⟨by decide, (send_packet (Session.example true) 3 OrderMsg.example
    (ReplaceMsg.new [49] [50] 200 123500 32) (CancelMsg.new [49] 0) (ModifyMsg.new [49] 66 50)
    (AcceptedMsg.ofOrder OrderMsg.example) (CanceledMsg.ofCancel (CancelMsg.new [49] 0) 0)
    (by decide) (by decide) (by decide) (by decide) (by decide) (by decide) (by decide)).1.2⟩

theorem order_accept_roundtrip_witness :
    ∃ acc1 ini1,
      (Session.example false).in_event
        (ReadResult.data (Session.packet true OrderMsg.example) 0) 2 = some acc1 ∧
      acc1.trace = (Session.example false).trace ++
        [Effect.onIncoming OrderMsg.example.toBytes 51,
         Effect.fromApp OrderMsg.example.toBytes] ∧
      OrderMsg.ofBytes OrderMsg.example.toBytes = OrderMsg.example ∧
      ((Session.example true).send OrderMsg.example 1).in_event
        (ReadResult.data (Session.packet false (AcceptedMsg.ofOrder OrderMsg.example)) 0) 4
          = some ini1 ∧
      ini1.trace = ((Session.example true).send OrderMsg.example 1).trace ++
        [Effect.onIncoming (AcceptedMsg.ofOrder OrderMsg.example).toBytes 69,
         Effect.fromApp (AcceptedMsg.ofOrder OrderMsg.example).toBytes] ∧
      (AcceptedMsg.ofOrder OrderMsg.example).id = OrderMsg.example.id ∧
      OrderMsg.example.id = [49, 50, 51, 52, 53] ++ List.replicate (14 - 5) 32 :=
  match order_accept_roundtrip (Session.example true) (Session.example false)
    [49, 50, 51, 52, 53] [77, 83, 70, 84] [] 66 32 100 123400 OrderMsg.example 0 1 2 3 4 rfl
    (by decide) (by decide) (by decide) (by decide) (by decide) (by decide) with
  | ⟨acc1, ini1, _, _, _, h4, h5, h6, _, _, _, h10, h11, _, h13, h14, _⟩ =>
    ⟨acc1, ini1, h4, h5, h6, h10, h11, h13.1, h14⟩

theorem seq_data_delivery_witness :
    wellFormed (Session.packet false (AcceptedMsg.ofOrder OrderMsg.example)) = true ∧
    ∃ size f s1,
      seqDataCase ((Session.packet false (AcceptedMsg.ofOrder OrderMsg.example)).getD 3 0) =
        some (size, f) ∧
      f ((Session.packet false (AcceptedMsg.ofOrder OrderMsg.example)).drop 3) =
        hostOrder (seqIntFields 65)
          ((Session.packet false (AcceptedMsg.ofOrder OrderMsg.example)).drop 3) ∧
      (Session.example true).in_event
        (ReadResult.data (Session.packet false (AcceptedMsg.ofOrder OrderMsg.example)) 0) 7
          = some s1 ∧
      s1.trace = (Session.example true).trace ++
        [Effect.onIncoming
          (f ((Session.packet false (AcceptedMsg.ofOrder OrderMsg.example)).drop 3))
          (Session.packet false (AcceptedMsg.ofOrder OrderMsg.example)).length,
         Effect.fromApp
          (f ((Session.packet false (AcceptedMsg.ofOrder OrderMsg.example)).drop 3))] :=
  ⟨by decide,
    match (seq_data_delivery
      ((Session.example true).holding
        (Session.packet false (AcceptedMsg.ofOrder OrderMsg.example)))
      69 7 65 (Session.example true)
      (Session.packet false (AcceptedMsg.ofOrder OrderMsg.example)) 0
      (by decide) (by decide) (by decide) (by decide) rfl (by decide) (by decide)
      (by decide)).2 with
    | ⟨size, f, s1, h1, h2, hho, h3, h4, _⟩ =>
      ⟨size, f, s1, h1, hho _ (by rw [List.length_drop]; omega) (by decide), h3, h4⟩⟩

theorem unknown_tag_closes_witness :
    (90 ∉ knownTags ∧ pktLen 0 2 = [0, 2, 83, 90].length) ∧
    (∃ s1, (Session.example true).in_event (ReadResult.data ([0, 2, 83, 90] ++ [0, 1, 72]) 0) 7
        = some s1 ∧
      s1.state = SessionState.st_session_terminated ∧ s1.fd = -1 ∧
      s1.store = (Session.example true).store) ∧
    ∃ s2, (Session.example true).in_event (ReadResult.data ([0, 2, 83, 0] ++ []) 0) 7
        = some s2 ∧
      s2.trace = [Effect.event (str "unknown OUCH message type "),
        Effect.event (str "Disconnecting"), Effect.onLogout, Effect.rm_fd false,
        Effect.closeSock 5] :=
  ⟨by decide,
    match (unknown_tag_closes ((Session.example true).holding [0, 2, 83, 90]) 4 7 90
      (Session.example true) [0, 2, 83, 90] [0, 1, 72] 0
      (by decide) (by decide) (by decide) rfl (by decide) (by decide) (by decide) (by decide)
      (by decide)).2 with
    | ⟨s1, h1, _, _, h4, h5, h6⟩ => ⟨s1, h1, h4, h5, h6⟩,
    match (unknown_tag_closes ((Session.example true).holding [0, 2, 83, 0]) 4 7 0
      (Session.example true) [0, 2, 83, 0] [] 0
      (by decide) (by decide) (by decide) rfl (by decide) (by decide) (by decide) (by decide)
      (by decide)).2 with
    | ⟨s2, h1, h2, _⟩ => ⟨s2, h1, h2.trans (by decide)⟩⟩

theorem login_accepted_witness :
    ∃ s1, (Session.example true).in_event
        (ReadResult.data ([0, 31, SOUPBIN3_PACKET_LOGIN_ACCEPTED] ++ List.replicate 10 32 ++
          (List.replicate 15 32 ++ fmtInt 12345 ++ List.replicate 0 32)) 0) 7 = some s1 ∧
      s1.store.nextTargetMsgSeqNum = 12345 ∧ s1.state = SessionState.st_logon_received :=
  match login_accepted (Session.example true) (List.replicate 10 32) 12345 15 0 0 7 rfl
    (by decide) (by decide) (by decide) (by decide) with
  | ⟨s1, _, h1, h2, _, _, _, h6, _⟩ => ⟨s1, h1, h2, h6⟩

theorem seqnum_field_roundtrip_witness :
    ((0 : Int) ≤ 12345 ∧ (12345 : Int) < 2147483648) ∧
    (lpadStr 20 (fmtInt 12345)).length = 20 ∧
    parseSeqNum (lpadStr 20 (fmtInt 12345)) = 12345 :=
  ⟨by decide, (seqnum_field_roundtrip 12345 (by decide) (by decide)).1,
    (seqnum_field_roundtrip 12345 (by decide) (by decide)).2.1⟩

/-! ## Decimal text -/

theorem utoaAux_acc (fuel : Nat) : ∀ (n : Nat) (acc : List Nat), n < fuel →
    utoaAux fuel n acc = utoa n ++ acc := by
  induction fuel using Nat.strong_induction_on with
  | _ fuel ih =>
    intro n acc h
    cases fuel with
    | zero => omega
    | succ f =>
      unfold utoa
      rw [utoaAux, utoaAux]
      by_cases h10 : n < 10
      · rw [if_pos h10, if_pos h10]; rfl
      · rw [if_neg h10, if_neg h10]
        rw [ih f (by omega) (n / 10) _ (by omega), ih n (by omega) (n / 10) _ (by omega)]
        simp

theorem utoa_lt_ten (n : Nat) (h : n < 10) : utoa n = [48 + n] := by
  unfold utoa
  rw [utoaAux, if_pos h]

theorem utoa_step (n : Nat) (h : 10 ≤ n) : utoa n = utoa (n / 10) ++ [48 + n % 10] := by
  conv => lhs; unfold utoa
  rw [utoaAux, if_neg (by omega), utoaAux_acc n (n / 10) _ (by omega)]

theorem utoa_ne_nil (n : Nat) : utoa n ≠ [] := by
  by_cases h : n < 10
  · rw [utoa_lt_ten n h]; simp
  · rw [utoa_step n (by omega)]; simp

theorem utoa_digits (n : Nat) : ∀ c ∈ utoa n, isdigit c = true := by
  intro c hc
  rcases utoaAux_digits _ _ _ c hc with h | h
  · cases h
  · simp [isdigit, h.1, h.2]

theorem setw_four (r : Nat) (h : r < 10000) :
    setw 4 48 (utoa r) = [48 + r / 1000, 48 + r / 100 % 10, 48 + r / 10 % 10, 48 + r % 10] := by
  unfold setw
  by_cases h1 : r < 10
  · rw [utoa_lt_ten r h1]
    simp only [List.length_singleton, List.replicate, List.cons_append, List.nil_append,
      List.cons.injEq, and_true]
    all_goals omega
  · rw [utoa_step r (by omega)]
    by_cases h2 : r / 10 < 10
    · rw [utoa_lt_ten _ h2]
      simp only [List.length_append, List.length_singleton, List.replicate, List.cons_append,
        List.nil_append, List.cons.injEq, and_true]
      all_goals omega
    · rw [utoa_step (r / 10) (by omega)]
      by_cases h3 : r / 10 / 10 < 10
      · rw [utoa_lt_ten _ h3]
        simp only [List.length_append, List.length_singleton, List.replicate, List.cons_append,
          List.nil_append, List.cons.injEq, and_true]
        all_goals omega
      · rw [utoa_step (r / 10 / 10) (by omega), utoa_lt_ten (r / 10 / 10 / 10) (by omega)]
        simp only [List.length_append, List.length_singleton, List.replicate, List.cons_append,
          List.nil_append, List.cons.injEq, and_true]
        all_goals omega

/-! ## The stores -/

theorem mapSet_mem {α : Type} (m : List (Int × α)) (k : Int) (v : α) :
    ∀ x ∈ mapSet m k v, x = (k, v) ∨ x ∈ m := by
  induction m with
  | nil =>
    intro x hx
    simp only [mapSet, List.mem_singleton] at hx
    exact Or.inl hx
  | cons a rest ih =>
    obtain ⟨k1, v1⟩ := a
    intro x hx
    simp only [mapSet] at hx
    by_cases h1 : k < k1
    · rw [if_pos h1] at hx
      rcases List.mem_cons.1 hx with h | h
      · exact Or.inl h
      · exact Or.inr h
    · rw [if_neg h1] at hx
      by_cases h2 : k = k1
      · rw [if_pos h2] at hx
        rcases List.mem_cons.1 hx with h | h
        · exact Or.inl h
        · exact Or.inr (List.mem_cons_of_mem _ h)
      · rw [if_neg h2] at hx
        rcases List.mem_cons.1 hx with h | h
        · exact Or.inr (h ▸ List.mem_cons_self _ _)
        · rcases ih x h with h | h
          · exact Or.inl h
          · exact Or.inr (List.mem_cons_of_mem _ h)

theorem mapSet_sorted {α : Type} (m : List (Int × α)) (k : Int) (v : α)
    (hs : m.Pairwise (fun a b => a.1 < b.1)) :
    (mapSet m k v).Pairwise (fun a b => a.1 < b.1) := by
  induction m with
  | nil => simp [mapSet]
  | cons a rest ih =>
    obtain ⟨k1, v1⟩ := a
    obtain ⟨h1, h2⟩ := List.pairwise_cons.1 hs
    simp only [mapSet]
    by_cases c1 : k < k1
    · rw [if_pos c1]
      refine List.pairwise_cons.2 ⟨?_, hs⟩
      intro x hx
      rcases List.mem_cons.1 hx with h | h
      · rw [h]; exact c1
      · exact lt_trans c1 (h1 x h)
    · rw [if_neg c1]
      by_cases c2 : k = k1
      · rw [if_pos c2]
        refine List.pairwise_cons.2 ⟨?_, h2⟩
        intro x hx
        rw [c2]; exact h1 x hx
      · rw [if_neg c2]
        refine List.pairwise_cons.2 ⟨?_, ih h2⟩
        intro x hx
        rcases mapSet_mem rest k v x hx with h | h
        · rw [h]
          show k1 < k
          omega
        · exact h1 x h

theorem takeWhile_sorted {α : Type} (m : List (Int × α)) (hi : Int)
    (hs : m.Pairwise (fun a b => a.1 < b.1)) :
    m.takeWhile (fun x => decide (x.1 ≤ hi)) = m.filter (fun x => decide (x.1 ≤ hi)) := by
  induction m with
  | nil => rfl
  | cons a rest ih =>
    obtain ⟨h1, h2⟩ := List.pairwise_cons.1 hs
    by_cases c : a.1 ≤ hi
    · rw [List.takeWhile_cons_of_pos (by simpa using c), List.filter_cons_of_pos (by simpa using c),
        ih h2]
    · rw [List.takeWhile_cons_of_neg (by simpa using c), List.filter_cons_of_neg (by simpa using c)]
      symm
      rw [List.filter_eq_nil_iff]
      intro x hx
      have := h1 x hx
      simp only [decide_eq_true_eq]
      omega

theorem mapFind_sorted {α : Type} (m : List (Int × α)) (lo : Int)
    (hs : m.Pairwise (fun a b => a.1 < b.1)) :
    ((∃ v, (lo, v) ∈ m) → mapFind m lo = m.filter (fun x => decide (lo ≤ x.1))) ∧
    ((∀ v, (lo, v) ∉ m) → mapFind m lo = []) := by
  induction m with
  | nil => exact ⟨fun _ => rfl, fun _ => rfl⟩
  | cons a rest ih =>
    obtain ⟨k1, v1⟩ := a
    obtain ⟨h1, h2⟩ := List.pairwise_cons.1 hs
    obtain ⟨ih1, ih2⟩ := ih h2
    simp only [mapFind]
    by_cases c : k1 = lo
    · rw [if_pos c]
      constructor
      · intro _
        symm
        rw [List.filter_eq_self]
        intro x hx
        simp only [decide_eq_true_eq]
        rcases List.mem_cons.1 hx with h | h
        · rw [h]; exact le_of_eq c.symm
        · have := h1 x h
          simp only at this
          omega
      · intro hno
        exact absurd (c ▸ List.mem_cons_self _ _) (hno v1)
    · rw [if_neg c]
      constructor
      · rintro ⟨v, hv⟩
        rcases List.mem_cons.1 hv with h | h
        · exact absurd (congrArg Prod.fst h).symm c
        · have hlt := h1 _ h
          simp only at hlt
          rw [ih1 ⟨v, h⟩, List.filter_cons_of_neg]
          simp only [decide_eq_true_eq]
          omega
      · intro hno
        exact ih2 (fun v hv => hno v (List.mem_cons_of_mem _ hv))

/-- C13: `MemoryStore::get(lo, hi)` on a store whose map is in ascending order of the
sequence numbers (every store is: `set` keeps the order).  When a message is stored at `lo`
the result is the messages with sequence number from `lo` to `hi`, in ascending order; when
none is stored at `lo` the result is empty, whatever is stored above `lo`. -/
theorem memoryStore_get (st : MemoryStore) (lo hi : Int) (data : List Nat)
    (hs : st.messages.Pairwise (fun a b => a.1 < b.1)) :
    ((∃ m, (lo, m) ∈ st.messages) →
      st.get lo hi =
        (st.messages.filter (fun x => decide (lo ≤ x.1) && decide (x.1 ≤ hi))).map Prod.snd) ∧
    ((∀ m, (lo, m) ∉ st.messages) → st.get lo hi = []) ∧
    (st.set data).2.messages.Pairwise (fun a b => a.1 < b.1) := by
  obtain ⟨h1, h2⟩ := mapFind_sorted st.messages lo hs
  refine ⟨?_, ?_, mapSet_sorted _ _ _ hs⟩
  · intro h
    unfold MemoryStore.get
    rw [h1 h, takeWhile_sorted _ _ (List.Pairwise.filter _ hs), List.filter_filter]
    congr 1
    apply List.filter_congr
    intro x _
    exact Bool.and_comm _ _
  · intro h
    unfold MemoryStore.get
    rw [h2 h]
    rfl

theorem memoryStore_get_witness :
    ((((MemoryStore.new.set [7]).2.incrNextSenderMsgSeqNum.set [8, 0]).2
        ).incrNextSenderMsgSeqNum.set [9]).2.messages = [(1, [7]), (2, [8, 0]), (3, [9])] ∧
    ((((MemoryStore.new.set [7]).2.incrNextSenderMsgSeqNum.set [8, 0]).2
        ).incrNextSenderMsgSeqNum.set [9]).2.get 2 3 = [[8, 0], [9]] :=
  ⟨by decide,
    ((memoryStore_get
      ((((MemoryStore.new.set [7]).2.incrNextSenderMsgSeqNum.set [8, 0]).2
        ).incrNextSenderMsgSeqNum.set [9]).2 2 3 [] (by decide)).1 ⟨[8, 0], by decide⟩).trans
      (by decide)⟩

/-- C13: a store that holds messages at the sequence numbers 2 and 3 and none at 1 answers
`get(1, 3)` with no message, where the messages from 1 to 3 are the two it holds. -/
theorem memoryStore_get_misses :
    (((MemoryStore.new.setNextSenderMsgSeqNum 2).set [8, 0]).2.incrNextSenderMsgSeqNum.set
      [9]).2.messages = [(2, [8, 0]), (3, [9])] ∧
    (((MemoryStore.new.setNextSenderMsgSeqNum 2).set [8, 0]).2.incrNextSenderMsgSeqNum.set
      [9]).2.get 1 3 = [] ∧
    (((MemoryStore.new.setNextSenderMsgSeqNum 2).set [8, 0]).2.incrNextSenderMsgSeqNum.set
      [9]).2.get 2 3 = [[8, 0], [9]] := by
  decide

/-! ## Reading numbers back -/

theorem digitsValue_append (l : List Nat) (d : Nat) :
    digitsValue (l ++ [d]) = digitsValue l * 10 + (d - 48) := by
  unfold digitsValue
  rw [List.foldl_append]
  rfl

theorem digitsValue_utoa (n : Nat) : digitsValue (utoa n) = n := by
  induction n using Nat.strong_induction_on with
  | _ n ih =>
    by_cases h : n < 10
    · rw [utoa_lt_ten n h]
      simp [digitsValue]
    · rw [utoa_step n (by omega), digitsValue_append, ih (n / 10) (by omega)]
      omega

theorem digitsValue_zeros (k : Nat) (l : List Nat) :
    digitsValue (List.replicate k 48 ++ l) = digitsValue l := by
  induction k with
  | zero => rfl
  | succ k ih =>
    unfold digitsValue at ih ⊢
    rw [List.replicate_succ, List.cons_append, List.foldl_cons]
    exact ih

theorem utoa_head (n : Nat) : ∃ c l, utoa n = c :: l ∧ isdigit c = true := by
  cases h : utoa n with
  | nil => exact absurd h (utoa_ne_nil n)
  | cons c l => exact ⟨c, l, rfl, utoa_digits n c (by rw [h]; exact List.mem_cons_self _ _)⟩

theorem isdigit_not_space (c : Nat) (h : isdigit c = true) :
    isspace c = false ∧ c ≠ 45 ∧ c ≠ 43 := by
  simp only [isdigit, Bool.and_eq_true, decide_eq_true_eq] at h
  refine ⟨?_, by omega, by omega⟩
  simp only [isspace, Bool.or_eq_false_iff, beq_eq_false_iff_ne, ne_eq, Bool.and_eq_false_imp,
    decide_eq_true_eq, decide_eq_false_iff_not]
  omega

/-- Reading with `%d` a run of digits that a character other than a digit ends. -/
theorem scanInt_digits (ds : List Nat) (c : Nat) (rest : List Nat)
    (hne : ds ≠ []) (hd : ∀ x ∈ ds, isdigit x = true) (hc : isdigit c = false) :
    scanInt (ds ++ c :: rest) = some ((digitsValue ds : Int), c :: rest) ∧
    scanInt (45 :: (ds ++ c :: rest)) = some (-(digitsValue ds : Int), c :: rest) := by
  obtain ⟨x, l, rfl⟩ : ∃ x l, ds = x :: l := by
    cases ds with
    | nil => exact absurd rfl hne
    | cons x l => exact ⟨x, l, rfl⟩
  have hx := isdigit_not_space x (hd x (List.mem_cons_self _ _))
  have htw : (x :: l ++ c :: rest).takeWhile isdigit = x :: l := by
    rw [List.takeWhile_append_of_pos hd, List.takeWhile_cons_of_neg (by simp [hc])]
    simp
  have hdw : (x :: l ++ c :: rest).dropWhile isdigit = c :: rest := by
    rw [List.dropWhile_append_of_pos hd, List.dropWhile_cons_of_neg (by simp [hc])]
  constructor
  · unfold scanInt
    have h1 : (x :: l ++ c :: rest).dropWhile isspace = x :: l ++ c :: rest := by
      rw [List.cons_append, List.dropWhile_cons_of_neg (by simp [hx.1])]
    simp only [h1]
    have h2 : (x :: l ++ c :: rest).head? = some x := rfl
    have b1 : (some x == some 45) = false := by simp [hx.2.1]
    have b2 : (some x == some 43) = false := by simp [hx.2.2]
    simp only [h2, b1, b2, Bool.or_self, Bool.false_eq_true, if_false, htw, hdw,
      List.isEmpty_cons]
  · unfold scanInt
    have h1 : (45 :: (x :: l ++ c :: rest)).dropWhile isspace = 45 :: (x :: l ++ c :: rest) := by
      rw [List.dropWhile_cons_of_neg (by decide)]
    simp only [h1]
    have h2 : (45 :: (x :: l ++ c :: rest)).head? = some 45 := rfl
    simp only [h2, beq_self_eq_true, Bool.true_or, if_true, List.tail_cons, htw, hdw,
      List.isEmpty_cons, Bool.false_eq_true, if_false]

theorem fmtInt_neg (v : Int) (h : v < 0) : fmtInt v = 45 :: utoa v.natAbs := by
  unfold fmtInt
  rw [if_pos h]

theorem scanInt_fmtInt (v : Int) (c : Nat) (rest : List Nat) (hc : isdigit c = false) :
    scanInt (fmtInt v ++ c :: rest) = some (v, c :: rest) := by
  by_cases h : v < 0
  · rw [fmtInt_neg v h, List.cons_append,
      (scanInt_digits (utoa v.natAbs) c rest (utoa_ne_nil _) (utoa_digits _) hc).2,
      digitsValue_utoa]
    congr 2
    omega
  · rw [fmtInt_nonneg v (by omega),
      (scanInt_digits (utoa v.toNat) c rest (utoa_ne_nil _) (utoa_digits _) hc).1,
      digitsValue_utoa]
    congr 2
    omega

theorem fmtInt_head (v : Int) : ∃ c l, fmtInt v = c :: l ∧ isspace c = false := by
  by_cases h : v < 0
  · exact ⟨45, _, fmtInt_neg v h, by decide⟩
  · obtain ⟨c, l, h1, h2⟩ := utoa_head v.toNat
    exact ⟨c, l, by rw [fmtInt_nonneg v (by omega), h1], (isdigit_not_space c h2).1⟩

theorem headerLine_head (e : Int × Int × Int) (rest : List Nat) :
    ∃ c l, headerLine e ++ rest = c :: l ∧ isspace c = false := by
  obtain ⟨c, l, h1, h2⟩ := fmtInt_head e.1
  refine ⟨c, l ++ [44] ++ fmtInt e.2.1 ++ [44] ++ fmtInt e.2.2 ++ [32] ++ rest, ?_, h2⟩
  unfold headerLine
  rw [h1]
  simp only [List.cons_append, List.append_assoc]

theorem scanHeaderEntry_line (e : Int × Int × Int) (rest : List Nat)
    (hrest : rest = [] ∨ ∃ c l, rest = c :: l ∧ isspace c = false) :
    scanHeaderEntry (headerLine e ++ rest) = some (e, rest) := by
  obtain ⟨num, offset, size⟩ := e
  have hs : scanSpace (32 :: rest) = rest := by
    unfold scanSpace
    rw [List.dropWhile_cons_of_pos (by decide)]
    rcases hrest with h | ⟨c, l, h, hc⟩
    · rw [h]; rfl
    · rw [h, List.dropWhile_cons_of_neg (by simp [hc])]
  unfold scanHeaderEntry headerLine
  simp only [List.append_assoc, List.singleton_append, List.cons_append, List.nil_append]
  rw [scanInt_fmtInt num 44 _ (by decide)]
  simp only [Option.some_bind, scanLit, if_true]
  rw [scanInt_fmtInt offset 44 _ (by decide)]
  simp only [Option.some_bind, scanLit, if_true]
  rw [scanInt_fmtInt size 32 _ (by decide)]
  simp only [Option.some_bind, hs]

theorem scanHeader_lines (es : List (Int × Int × Int)) :
    ∀ (fuel : Nat) (m : List (Int × (Int × Int))), es.length ≤ fuel →
    scanHeader fuel (es.map headerLine).flatten m =
      es.foldl (fun m e => mapSet m e.1 (e.2.1, e.2.2)) m := by
  induction es with
  | nil =>
    intro fuel m _
    cases fuel with
    | zero => rfl
    | succ f => rfl
  | cons e es ih =>
    intro fuel m hf
    cases fuel with
    | zero => simp at hf
    | succ f =>
      rw [List.map_cons, List.flatten_cons, scanHeader]
      rw [scanHeaderEntry_line e _ (by
        cases es with
        | nil => exact Or.inl rfl
        | cons e2 es2 =>
          right
          rw [List.map_cons, List.flatten_cons]
          exact headerLine_head e2 _)]
      simp only [List.foldl_cons]
      exact ih f _ (by simpa using hf)

theorem headerLines_length (es : List (Int × Int × Int)) :
    es.length ≤ (es.map headerLine).flatten.length := by
  induction es with
  | nil => simp
  | cons e es ih =>
    rw [List.map_cons, List.flatten_cons, List.length_append, List.length_cons]
    have : 1 ≤ (headerLine e).length := by
      unfold headerLine
      simp only [List.length_append, List.length_singleton]
      omega
    omega

theorem mapFind_mapSet {α : Type} (m : List (Int × α)) (k k1 : Int) (v : α) :
    (mapFind (mapSet m k v) k1).head? =
      if k1 = k then some (k, v) else (mapFind m k1).head? := by
  induction m with
  | nil =>
    simp only [mapSet, mapFind]
    by_cases h : k = k1
    · rw [if_pos h, if_pos h.symm]; rfl
    · rw [if_neg h, if_neg (fun h1 => h h1.symm)]
  | cons a rest ih =>
    obtain ⟨ka, va⟩ := a
    by_cases h : k1 = k
    · rw [if_pos h]
      subst h
      simp only [mapSet]
      by_cases c1 : k1 < ka
      · rw [if_pos c1, mapFind, if_pos rfl]; rfl
      · rw [if_neg c1]
        by_cases c2 : k1 = ka
        · rw [if_pos c2, mapFind, if_pos rfl]; rfl
        · rw [if_neg c2, mapFind, if_neg (fun h => c2 h.symm), ih, if_pos rfl]
    · rw [if_neg h]
      simp only [mapSet]
      by_cases c1 : k < ka
      · rw [if_pos c1, mapFind, if_neg (fun h1 => h h1.symm)]
      · rw [if_neg c1]
        by_cases c2 : k = ka
        · rw [if_pos c2, mapFind, if_neg (fun h1 => h h1.symm)]
          conv => rhs; rw [mapFind, if_neg (fun h1 => h (h1.symm.trans c2.symm))]
        · rw [if_neg c2]
          by_cases c3 : ka = k1
          · rw [mapFind, if_pos c3]
            conv => rhs; rw [mapFind, if_pos c3]
            rfl
          · rw [mapFind, if_neg c3, ih, if_neg h]
            conv => rhs; rw [mapFind, if_neg c3]

theorem mapSet_has {α : Type} (m : List (Int × α)) (k : Int) (v : α) :
    (k, v) ∈ mapSet m k v := by
  induction m with
  | nil => simp [mapSet]
  | cons a rest ih =>
    obtain ⟨k1, v1⟩ := a
    unfold mapSet
    by_cases h1 : k < k1
    · rw [if_pos h1]
      exact List.mem_cons_self _ _
    · rw [if_neg h1]
      by_cases h2 : k = k1
      · rw [if_pos h2]
        exact List.mem_cons_self _ _
      · rw [if_neg h2]
        exact List.mem_cons_of_mem _ ih

/-- C11: what `set` does.  `MemoryStore::set` and `FileStore::set` return `true`, store the
bytes under the current next-sender-seq and leave next-sender-seq and next-target-seq as they
were.  In the memory store the map gets the entry of that number with the bytes, so that
`find` of the number meets it and `find` of another number meets what it met before.  In the
file store the bytes are appended to the body file, the line of the number, the offset and
the length is appended to the header file, the map of the offsets gets the entry of the
number, and the sequence number file and the cache stay as they were; the call succeeds
whenever the body file is below 2 GiB.  The counter is advanced by the separate call
`incrNextSenderMsgSeqNum`, which adds exactly one below `INT_MAX` and leaves next-target-seq
alone. -/
theorem set_keeps_counters (st : MemoryStore) (fs : FileStore) (data : List Nat) :
    ((st.set data).1 = true ∧
      (st.set data).2.nextSenderMsgSeqNum = st.nextSenderMsgSeqNum ∧
      (st.set data).2.nextTargetMsgSeqNum = st.nextTargetMsgSeqNum ∧
      (st.set data).2.messages = mapSet st.messages st.nextSenderMsgSeqNum data ∧
      (st.nextSenderMsgSeqNum, data) ∈ (st.set data).2.messages ∧
      (∀ k : Int, (mapFind (st.set data).2.messages k).head? =
        if k = st.nextSenderMsgSeqNum then some (st.nextSenderMsgSeqNum, data)
        else (mapFind st.messages k).head?)) ∧
    (∀ r, fs.set data = some r → r.1 = true ∧
      r.2.getNextSenderMsgSeqNum = fs.getNextSenderMsgSeqNum ∧
      r.2.getNextTargetMsgSeqNum = fs.getNextTargetMsgSeqNum ∧
      r.2.seqNumsFile = fs.seqNumsFile ∧
      r.2.cache = fs.cache ∧
      r.2.msgFile = fs.msgFile ++ data ∧
      (r.2.msgFile.drop fs.msgFile.length).take data.length = data ∧
      r.2.headerFile = fs.headerFile ++ (fmtInt fs.getNextSenderMsgSeqNum ++ [44] ++
        fmtInt (wrapInt32 fs.msgFile.length) ++ [44] ++ fmtInt data.length ++ [32]) ∧
      (∀ k : Int, (mapFind r.2.offsets k).head? =
        if k = fs.getNextSenderMsgSeqNum then
          some (fs.getNextSenderMsgSeqNum, (wrapInt32 fs.msgFile.length, wrapInt32 data.length))
        else (mapFind fs.offsets k).head?)) ∧
    (fs.msgFile.length < 2147483648 → ∃ r, fs.set data = some r) ∧
    ((isInt32 st.nextSenderMsgSeqNum ∧ st.nextSenderMsgSeqNum < 2147483647 →
        st.incrNextSenderMsgSeqNum.nextSenderMsgSeqNum = st.nextSenderMsgSeqNum + 1) ∧
      st.incrNextSenderMsgSeqNum.nextTargetMsgSeqNum = st.nextTargetMsgSeqNum) ∧
    ((isInt32 fs.getNextSenderMsgSeqNum ∧ fs.getNextSenderMsgSeqNum < 2147483647 →
        fs.incrNextSenderMsgSeqNum.getNextSenderMsgSeqNum = fs.getNextSenderMsgSeqNum + 1) ∧
      fs.incrNextSenderMsgSeqNum.getNextTargetMsgSeqNum = fs.getNextTargetMsgSeqNum) := by
  have hw : ∀ v : Int, isInt32 v ∧ v < 2147483647 → wrapInt32 (v + 1) = v + 1 := by
    intro v h
    apply wrapInt32_id
    unfold isInt32 at h ⊢
    omega
  refine ⟨⟨rfl, rfl, rfl, rfl, mapSet_has _ _ _, fun k => mapFind_mapSet _ _ _ _⟩, ?_, ?_,
    ⟨fun h => hw _ h, rfl⟩, ⟨fun h => hw _ h, rfl⟩⟩
  · intro r hr
    unfold FileStore.set FileStore.set3 at hr
    simp only at hr
    split at hr
    · cases hr
    · injection hr with hr
      rw [← hr]
      refine ⟨rfl, rfl, rfl, rfl, rfl, rfl, ?_, rfl, fun k => mapFind_mapSet _ _ _ _⟩
      show ((fs.msgFile ++ data).drop fs.msgFile.length).take data.length = data
      rw [List.drop_left, List.take_length]
  · intro hlen
    unfold FileStore.set FileStore.set3
    simp only
    rw [if_neg]
    · exact ⟨_, rfl⟩
    · rw [wrapInt32_id]
      · omega
      · unfold isInt32; omega

/-- C11: a `set` on a fresh store of either kind returns `true` and next-sender-seq is still
1, not 2. -/
theorem set_does_not_count :
    (MemoryStore.new.set [79, 49]).1 = true ∧
    (MemoryStore.new.set [79, 49]).2.nextSenderMsgSeqNum = 1 ∧
    ((FileStore.new [] [] []).set [79, 49]).map (fun r => (r.1, r.2.getNextSenderMsgSeqNum))
      = some (true, 1) := by
  decide

theorem lastStored_snoc (hist : List (Int × List Nat)) (seq k : Int) (data : List Nat) :
    lastStored (hist ++ [(seq, data)]) k =
      if k = seq then some data else lastStored hist k := by
  unfold lastStored
  rw [List.reverse_append, List.reverse_singleton, List.singleton_append, List.find?_cons]
  by_cases h : k = seq
  · rw [if_pos h]
    have : ((seq, data).1 == k) = true := by simp [h]
    rw [this]
    rfl
  · rw [if_neg h]
    have : ((seq, data).1 == k) = false := by
      simp only [beq_eq_false_iff_ne, ne_eq]
      exact fun h1 => h h1.symm
    rw [this]

theorem set3_holds (fs : FileStore) (hist : List (Int × List Nat))
    (es : List (Int × Int × Int)) (seq : Int) (data : List Nat)
    (h : fs.holds hist es) (hb : fs.msgFile.length + data.length < 2147483648) :
    ∃ r, fs.set3 seq data = some (true, r) ∧
      r.holds (hist ++ [(seq, data)]) (es ++ [(seq, ((fs.msgFile.length : Int), (data.length : Int)))]) ∧
      r.cache = fs.cache ∧ r.seqNumsFile = fs.seqNumsFile := by
  obtain ⟨h1, h2, h3, h4⟩ := h
  have hw1 : wrapInt32 (fs.msgFile.length : Int) = fs.msgFile.length :=
    wrapInt32_id _ (by unfold isInt32; omega)
  have hw2 : wrapInt32 (data.length : Int) = data.length :=
    wrapInt32_id _ (by unfold isInt32; omega)
  unfold FileStore.set3
  simp only [hw1, hw2]
  rw [if_neg (by omega)]
  refine ⟨_, rfl, ⟨?_, ?_, ?_, ?_⟩, rfl, rfl⟩
  · simp [h1]
  · simp [h2, headerLine]
  · simp [h3, List.foldl_append]
  · intro k
    simp only
    rw [lastStored_snoc, mapFind_mapSet]
    by_cases hk : k = seq
    · rw [if_pos hk, if_pos hk]
      refine ⟨fun hn => (by cases hn), ?_⟩
      intro d hd
      injection hd with hd
      subst hd
      refine ⟨fs.msgFile.length, data.length, by rw [hk], by omega, by omega, ?_, ?_⟩
      · simp
      · simp
    · rw [if_neg hk, if_neg hk]
      refine ⟨(h4 k).1, ?_⟩
      intro d hd
      obtain ⟨off, len, e1, e2, e3, e4, e5⟩ := (h4 k).2 d hd
      refine ⟨off, len, e1, e2, e3, ?_, ?_⟩
      · simp only [List.length_append]; omega
      · rw [List.drop_append_of_le_length (by omega), List.take_append_of_le_length
          (by simp only [List.length_drop]; omega)]
        exact e5

theorem setAll_holds (ops : List (Int × List Nat)) :
    ∀ (fs : FileStore) (hist : List (Int × List Nat)) (es : List (Int × Int × Int)),
    fs.holds hist es →
    fs.msgFile.length + (ops.map fun op => op.2.length).sum < 2147483648 →
    ∃ r es1, fs.setAll ops = some r ∧ r.holds (hist ++ ops) es1 ∧
      r.cache = fs.cache ∧ r.seqNumsFile = fs.seqNumsFile := by
  induction ops with
  | nil =>
    intro fs hist es h _
    exact ⟨fs, es, rfl, by simpa using h, rfl, rfl⟩
  | cons op ops ih =>
    intro fs hist es h hb
    simp only [List.map_cons, List.sum_cons] at hb
    obtain ⟨r, hr, hh, hc, hq⟩ := set3_holds fs hist es op.1 op.2 h (by omega)
    have hlen : r.msgFile.length = fs.msgFile.length + op.2.length := by
      rw [hh.1, h.1]
      simp
    obtain ⟨r2, es2, hr2, hh2, hc2, hq2⟩ := ih r _ _ hh (by omega)
    refine ⟨r2, es2, ?_, ?_, hc2.trans hc, hq2.trans hq⟩
    · rw [FileStore.setAll, hr]
      exact hr2
    · simpa using hh2

theorem new_holds : (FileStore.new [] [] []).holds [] [] :=
  ⟨rfl, rfl, rfl, fun _ => ⟨fun _ => rfl, fun _ h => by cases h⟩⟩

theorem populateCache_files (fs : FileStore) :
    fs.populateCache.msgFile = fs.msgFile ∧ fs.populateCache.headerFile = fs.headerFile ∧
    fs.populateCache.seqNumsFile = fs.seqNumsFile ∧
    fs.populateCache.offsets = scanHeader fs.headerFile.length fs.headerFile fs.offsets ∧
    fs.populateCache.cache = (match scanSeqNums fs.seqNumsFile with
      | some (sender, target) =>
        (fs.cache.setNextSenderMsgSeqNum sender).setNextTargetMsgSeqNum target
      | none => fs.cache) := by
  unfold FileStore.populateCache
  simp only
  generalize scanSeqNums fs.seqNumsFile = x
  cases x with
  | none => exact ⟨rfl, rfl, rfl, rfl, rfl⟩
  | some x =>
    obtain ⟨a, b⟩ := x
    exact ⟨rfl, rfl, rfl, rfl, rfl⟩

theorem reopen_holds (fs : FileStore) (hist : List (Int × List Nat))
    (es : List (Int × Int × Int)) (q : List Nat) (h : fs.holds hist es) :
    (FileStore.new fs.msgFile fs.headerFile q).holds hist es ∧
    (FileStore.new fs.msgFile fs.headerFile q).offsets = fs.offsets ∧
    scanHeader fs.headerFile.length fs.headerFile [] = fs.offsets ∧
    (FileStore.new fs.msgFile fs.headerFile q).cache = (match scanSeqNums q with
      | some (sender, target) =>
        (MemoryStore.new.setNextSenderMsgSeqNum sender).setNextTargetMsgSeqNum target
      | none => MemoryStore.new) := by
  obtain ⟨h1, h2, h3, h4⟩ := h
  have hs : scanHeader fs.headerFile.length fs.headerFile [] = fs.offsets := by
    rw [h3]
    conv => lhs; rw [h2]
    exact scanHeader_lines es _ _ (headerLines_length es)
  have hp := populateCache_files (FileStore.mk MemoryStore.new [] fs.msgFile fs.headerFile q)
  simp only at hp
  obtain ⟨p1, p2, p3, p4, p5⟩ := hp
  have hn : (FileStore.new fs.msgFile fs.headerFile q).msgFile = fs.msgFile ∧
      (FileStore.new fs.msgFile fs.headerFile q).headerFile = fs.headerFile ∧
      (FileStore.new fs.msgFile fs.headerFile q).offsets = fs.offsets ∧
      (FileStore.new fs.msgFile fs.headerFile q).cache = (match scanSeqNums q with
        | some (sender, target) =>
          (MemoryStore.new.setNextSenderMsgSeqNum sender).setNextTargetMsgSeqNum target
        | none => MemoryStore.new) := by
    refine ⟨p1, p2, ?_, ?_⟩
    · exact p4.trans hs
    · exact Eq.trans rfl p5
  obtain ⟨n1, n2, n3, n4⟩ := hn
  refine ⟨⟨n1.trans h1, n2.trans h2, n3.trans h3, ?_⟩, n3, hs, n4⟩
  intro seq
  rw [n3, n1]
  exact h4 seq

/-- C14: after any sequence of calls `set(msgSeqNum, data, len)` on a fresh file store whose
messages come to less than 2 GiB in all, every call succeeded, the body file is the messages
one after the other, the entry of the index for a sequence number delimits in the body the
bytes stored last for that number (and a number never stored has no entry), and the replay of
the header file, as done when the store is opened again, gives the same index.  A call only
appends to the body and to the header. -/
theorem file_index (ops : List (Int × List Nat)) (q : List Nat)
    (hsize : (ops.map fun op => op.2.length).sum < 2147483648) :
    ∃ fs, (FileStore.new [] [] []).setAll ops = some fs ∧
      fs.msgFile = (ops.map Prod.snd).flatten ∧
      (∀ seq data, lastStored ops seq = some data →
        ∃ off len, (mapFind fs.offsets seq).head? = some (seq, (off, len)) ∧ 0 ≤ off ∧
          0 ≤ len ∧ (fs.msgFile.drop off.toNat).take len.toNat = data) ∧
      (∀ seq, lastStored ops seq = none → (mapFind fs.offsets seq).head? = none) ∧
      scanHeader fs.headerFile.length fs.headerFile [] = fs.offsets ∧
      (FileStore.new fs.msgFile fs.headerFile q).offsets = fs.offsets ∧
      (∀ (f : FileStore) (seq : Int) (data : List Nat) (r : Bool × FileStore),
        f.set3 seq data = some r →
        r.2.msgFile = f.msgFile ++ data ∧
        r.2.headerFile = f.headerFile ++
          headerLine (seq, wrapInt32 f.msgFile.length, (data.length : Int))) := by
  obtain ⟨fs, es, h1, h2, _, _⟩ := setAll_holds ops (FileStore.new [] [] []) [] [] new_holds
    (by
      have : (FileStore.new [] [] []).msgFile.length = 0 := rfl
      omega)
  rw [List.nil_append] at h2
  obtain ⟨r1, r2, r3, _⟩ := reopen_holds fs ops es q h2
  refine ⟨fs, h1, h2.1, ?_, fun seq => (h2.2.2.2 seq).1, r3, r2, ?_⟩
  · intro seq data hd
    obtain ⟨off, len, e1, e2, e3, _, e5⟩ := (h2.2.2.2 seq).2 data hd
    exact ⟨off, len, e1, e2, e3, e5⟩
  · intro f seq data r hr
    unfold FileStore.set3 at hr
    simp only at hr
    split at hr
    · cases hr
    · injection hr with hr
      rw [← hr]
      exact ⟨rfl, by simp [headerLine]⟩

theorem file_index_witness :
    ((([((1 : Int), [79, 0, 1]), (2, [88]), (1, [77, 5])] : List (Int × List Nat)).map
      fun op => op.2.length).sum < 2147483648) ∧
    ∃ fs, (FileStore.new [] [] []).setAll [(1, [79, 0, 1]), (2, [88]), (1, [77, 5])] = some fs ∧
      fs.msgFile = [79, 0, 1, 88, 77, 5] ∧
      scanHeader fs.headerFile.length fs.headerFile [] = fs.offsets :=
  ⟨by decide,
    match file_index [(1, [79, 0, 1]), (2, [88]), (1, [77, 5])] [] (by decide) with
    | ⟨fs, h1, h2, _, _, h5, _⟩ => ⟨fs, h1, h2, h5⟩⟩

/-! ## Opening a file store again -/

theorem cstr_append_zero (d : List Nat) : cstr (d ++ [0]) = cstr d := by
  unfold cstr
  induction d with
  | nil => rfl
  | cons x d ih =>
    by_cases h : x = 0
    · subst h
      rfl
    · rw [List.cons_append, List.takeWhile_cons_of_pos (by simpa using h),
        List.takeWhile_cons_of_pos (by simpa using h), ih]

theorem cstr_nulfree (d : List Nat) (h : ∀ c ∈ d, c ≠ 0) : cstr d = d := by
  unfold cstr
  rw [List.takeWhile_eq_self_iff]
  intro c hc
  simpa using h c hc

theorem get1_holds (fs : FileStore) (hist : List (Int × List Nat))
    (es : List (Int × Int × Int)) (h : fs.holds hist es) (seq : Int) (heap : Nat → Nat) :
    (lastStored hist seq = none → fs.get1 seq heap = some none) ∧
    (∀ data, lastStored hist seq = some data → fs.get1 seq heap = some (some (cstr data))) := by
  obtain ⟨h1, h2⟩ := h.2.2.2 seq
  constructor
  · intro hn
    unfold FileStore.get1
    rw [h1 hn]
  · intro data hd
    obtain ⟨off, len, e1, e2, e3, e4, e5⟩ := h2 data hd
    unfold FileStore.get1
    rw [e1]
    simp only
    rw [if_neg (by omega), e5]
    have hl : data.length = len.toNat := by
      rw [← e5, List.length_take, List.length_drop]
      omega
    rw [hl, Nat.sub_self]
    simp only [readMem, List.range_zero, List.map_nil, List.append_nil]
    rw [cstr_append_zero]

theorem incr_holds (fs : FileStore) (hist : List (Int × List Nat))
    (es : List (Int × Int × Int)) (h : fs.holds hist es) :
    fs.incrNextSenderMsgSeqNum.holds hist es := h

theorem incr_congr (a b : FileStore) (h1 : a.cache = b.cache)
    (h2 : a.seqNumsFile = b.seqNumsFile) :
    a.incrNextSenderMsgSeqNum.cache = b.incrNextSenderMsgSeqNum.cache ∧
    a.incrNextSenderMsgSeqNum.seqNumsFile = b.incrNextSenderMsgSeqNum.seqNumsFile := by
  unfold FileStore.incrNextSenderMsgSeqNum FileStore.setSeqNum
    FileStore.getNextSenderMsgSeqNum FileStore.getNextTargetMsgSeqNum
  simp only [h1, h2, and_self]

/-- C12: three messages that come to less than 2 GiB are stored in a fresh file store at the
sequence numbers 1, 2 and 3, each `set` followed by `incrNextSenderMsgSeqNum`.  The store
opened again on the files has next-sender-seq 4 and next-target-seq 1, and `get(1, 3)` gives
three messages in the order stored, each cut at its first zero byte: the messages themselves
when no byte of them is zero. -/
theorem file_store_reopen (b1 b2 b3 : List Nat) (heap : Nat → Nat)
    (hsize : b1.length + b2.length + b3.length < 2147483648) :
    ∃ f1 f2 f3 r,
      (FileStore.new [] [] []).set b1 = some (true, f1) ∧
      f1.incrNextSenderMsgSeqNum.set b2 = some (true, f2) ∧
      f2.incrNextSenderMsgSeqNum.set b3 = some (true, f3) ∧
      r = FileStore.new f3.incrNextSenderMsgSeqNum.msgFile
        f3.incrNextSenderMsgSeqNum.headerFile f3.incrNextSenderMsgSeqNum.seqNumsFile ∧
      f3.incrNextSenderMsgSeqNum.seqNumsFile = str "0000000004 : 0000000001" ∧
      r.getNextSenderMsgSeqNum = 4 ∧ r.getNextTargetMsgSeqNum = 1 ∧
      r.get 1 3 heap = some [cstr b1, cstr b2, cstr b3] ∧
      ((∀ c ∈ b1 ++ b2 ++ b3, c ≠ 0) → r.get 1 3 heap = some [b1, b2, b3]) := by
  -- first message
  obtain ⟨f1, s1, k1, c1, q1⟩ := set3_holds (FileStore.new [] [] []) [] [] 1 b1 new_holds
    (by
      have : (FileStore.new [] [] []).msgFile.length = 0 := rfl
      omega)
  have l1 : f1.msgFile.length = b1.length := by rw [k1.1]; simp
  obtain ⟨d1, e1⟩ := incr_congr f1 (FileStore.new [] [] []) c1 q1
  have n1 : f1.incrNextSenderMsgSeqNum.getNextSenderMsgSeqNum = 2 := by
    unfold FileStore.getNextSenderMsgSeqNum
    rw [d1]; rfl
  -- second message
  obtain ⟨f2, s2, k2, c2, q2⟩ := set3_holds f1.incrNextSenderMsgSeqNum _ _ 2 b2
    (incr_holds f1 _ _ k1) (by
      have : f1.incrNextSenderMsgSeqNum.msgFile.length = b1.length := l1
      omega)
  have l2 : f2.msgFile.length = b1.length + b2.length := by rw [k2.1]; simp
  obtain ⟨d2, e2⟩ := incr_congr f2 (FileStore.new [] [] []).incrNextSenderMsgSeqNum
    (c2.trans d1) (q2.trans e1)
  have n2 : f2.incrNextSenderMsgSeqNum.getNextSenderMsgSeqNum = 3 := by
    unfold FileStore.getNextSenderMsgSeqNum
    rw [d2]; rfl
  -- third message
  obtain ⟨f3, s3, k3, c3, q3⟩ := set3_holds f2.incrNextSenderMsgSeqNum _ _ 3 b3
    (incr_holds f2 _ _ k2) (by
      have : f2.incrNextSenderMsgSeqNum.msgFile.length = b1.length + b2.length := l2
      omega)
  obtain ⟨d3, e3⟩ := incr_congr f3
    (FileStore.new [] [] []).incrNextSenderMsgSeqNum.incrNextSenderMsgSeqNum
    (c3.trans d2) (q3.trans e2)
  have hq : f3.incrNextSenderMsgSeqNum.seqNumsFile = str "0000000004 : 0000000001" := by
    rw [e3]; decide
  -- the store opened again
  obtain ⟨r1, _, _, r4⟩ := reopen_holds f3.incrNextSenderMsgSeqNum _ _
    f3.incrNextSenderMsgSeqNum.seqNumsFile (incr_holds f3 _ _ k3)
  have hscan : scanSeqNums f3.incrNextSenderMsgSeqNum.seqNumsFile = some (4, 1) := by
    rw [hq]; decide
  rw [hscan] at r4
  simp only at r4
  have g1 := (get1_holds _ _ _ r1 1 heap).2 b1 (by rfl)
  have g2 := (get1_holds _ _ _ r1 2 heap).2 b2 (by rfl)
  have g3 := (get1_holds _ _ _ r1 3 heap).2 b3 (by rfl)
  have hget : (FileStore.new f3.incrNextSenderMsgSeqNum.msgFile
      f3.incrNextSenderMsgSeqNum.headerFile f3.incrNextSenderMsgSeqNum.seqNumsFile).get 1 3 heap
        = some [cstr b1, cstr b2, cstr b3] := by
    unfold FileStore.get
    have hr : ((3 : Int) - 1 + 1).toNat = 3 := by decide
    rw [hr]
    simp only [List.range_succ, List.range_zero, List.nil_append, List.cons_append,
      List.foldl_cons, List.foldl_nil, Option.some_bind]
    have a1 : ((1 : Int) + ((0 : Nat) : Int)) = 1 := by decide
    have a2 : ((1 : Int) + ((1 : Nat) : Int)) = 2 := by decide
    have a3 : ((1 : Int) + ((2 : Nat) : Int)) = 3 := by decide
    rw [a1, a2, a3, g1, g2, g3]
    rfl
  refine ⟨f1, f2, f3, _, ?_, ?_, ?_, rfl, hq, ?_, ?_, hget, ?_⟩
  · exact s1
  · unfold FileStore.set
    rw [n1]; exact s2
  · unfold FileStore.set
    rw [n2]; exact s3
  · unfold FileStore.getNextSenderMsgSeqNum
    rw [r4]; rfl
  · unfold FileStore.getNextTargetMsgSeqNum
    rw [r4]; rfl
  · intro hz
    rw [hget, cstr_nulfree b1 (fun c hc => hz c (by simp [hc])),
      cstr_nulfree b2 (fun c hc => hz c (by simp [hc])),
      cstr_nulfree b3 (fun c hc => hz c (by simp [hc]))]

theorem file_store_reopen_witness :
    ([79, 49].length + [88].length + [77, 53].length < 2147483648) ∧
    ∃ r : FileStore, r.getNextSenderMsgSeqNum = 4 ∧
      r.get 1 3 (fun _ => 0) = some [[79, 49], [88], [77, 53]] :=
  ⟨by decide,
    match file_store_reopen [79, 49] [88] [77, 53] (fun _ => 0) (by decide) with
    | ⟨_, _, _, r, _, _, _, _, _, h6, _, _, h9⟩ => ⟨r, h6, h9 (by decide)⟩⟩

/-- C12: the message `4F 00 01` stored at the sequence number 1 comes back from the store
opened again as the one byte `4F`; a `MemoryStore` gives back the three bytes. -/
theorem file_store_cuts_at_zero :
    (((FileStore.new [] [] []).set [79, 0, 1]).bind fun r1 =>
      (r1.2.incrNextSenderMsgSeqNum.set [88]).bind fun r2 =>
      (r2.2.incrNextSenderMsgSeqNum.set [77, 5]).bind fun r3 =>
      (FileStore.new r3.2.incrNextSenderMsgSeqNum.msgFile
        r3.2.incrNextSenderMsgSeqNum.headerFile
        r3.2.incrNextSenderMsgSeqNum.seqNumsFile).get 1 3 (fun _ => 0))
      = some [[79], [88], [77, 5]] ∧
    (((FileStore.new [] [] []).set [79, 0, 1]).bind fun r1 =>
      (r1.2.incrNextSenderMsgSeqNum.set [88]).bind fun r2 =>
      (r2.2.incrNextSenderMsgSeqNum.set [77, 5]).map fun r3 =>
      r3.2.msgFile) = some [79, 0, 1, 88, 77, 5] ∧
    (MemoryStore.new.set [79, 0, 1]).2.get 1 3 = [[79, 0, 1]] := by
  decide

/-! ## Unsequenced data -/

theorem hton_WF_ReplaceMsg (r : ReplaceMsg) (h : r.WF) : r.hton.WF := by
  obtain ⟨h1, h2, _, _, _, h6⟩ := h
  exact ⟨h1, h2, isInt32_htonlInt _, isInt32_htonlInt _, isInt32_htonlInt _,
    isInt32_guarded _ h6⟩

theorem hton_WF_CancelMsg (c : CancelMsg) (h : c.WF) : c.hton.WF :=
  ⟨h.1, isInt32_guarded _ h.2⟩

theorem hton_WF_ModifyMsg (m : ModifyMsg) (h : m.WF) : m.hton.WF :=
  ⟨h.1, isInt32_guarded _ h.2⟩

theorem ntoh_hton_ReplaceMsg (r : ReplaceMsg) (h : r.WF) : r.hton.ntoh = r := by
  cases r
  obtain ⟨_, _, h3, h4, h5, h6⟩ := h
  dsimp only at h3 h4 h5 h6
  simp only [ReplaceMsg.hton, ReplaceMsg.ntoh, ReplaceMsg.mk.injEq, true_and]
  exact ⟨ntohlInt_htonlInt _ h3, ntohlInt_htonlInt _ h4, ntohlInt_htonlInt _ h5,
    ntohl_htonl_guarded _ h6⟩

theorem ntoh_hton_CancelMsg (c : CancelMsg) (h : c.WF) : c.hton.ntoh = c := by
  cases c
  obtain ⟨_, h2⟩ := h
  dsimp only at h2
  simp only [CancelMsg.hton, CancelMsg.ntoh, CancelMsg.mk.injEq, true_and]
  exact ntohl_htonl_guarded _ h2

theorem toBytes_length_ReplaceMsg (r : ReplaceMsg) (h : r.WF) : r.toBytes.length = 47 := by
  obtain ⟨h1, h2, _⟩ := h
  simp [ReplaceMsg.toBytes, leI32_length, h1, h2]

theorem toBytes_length_CancelMsg (c : CancelMsg) (h : c.WF) : c.toBytes.length = 19 := by
  obtain ⟨h1, _⟩ := h
  simp [CancelMsg.toBytes, leI32_length, h1]

theorem toBytes_length_ModifyMsg (m : ModifyMsg) (h : m.WF) : m.toBytes.length = 20 := by
  obtain ⟨h1, _⟩ := h
  simp [ModifyMsg.toBytes, leI32_length, h1]

/-- The unsequenced data arm on a packet whose tag has no case in the inner `switch`: the
body is handed over as it came. -/
theorem dispatch_unseq_raw (c : Session) (p : List Nat)
    (hty : p.getD 2 0 = SOUPBIN3_PACKET_UNSEQ_DATA)
    (hcase : unseqDataCase (p.getD 3 0) = none) (hlen : 4 ≤ p.length) :
    dispatch c p = (c.core.emit (Effect.onIncoming (p.drop 3) p.length)).emit
          (Effect.fromApp (p.drop 3)) := by
  have hp := canon_readMem p
  have hbody := readMem_take_drop (fun i => p.getD i 0) 0 p 3 (p.length - 3) hp (by omega)
  have htk : (p.drop 3).take (p.length - 3) = p.drop 3 := by
    apply List.take_of_length_le
    simp only [List.length_drop]; omega
  rw [htk] at hbody
  rw [Nat.zero_add] at hbody
  unfold dispatch
  rw [handlePacket_unseq _ _ _ (by show p.getD (0 + 2) 0 = _; rw [Nat.zero_add]; exact hty)]
  simp only [Step.session]
  unfold unseqDataNtoh
  simp only [Nat.zero_add]
  rw [hcase]
  simp only
  rw [hbody]
  simp [Session.emit, Session.core]

theorem packet_replace (x : ReplaceMsg) (h : x.WF) (hty : x.type = ReplaceMsg.TYPE) :
    Session.packet true x = [0, 48, SOUPBIN3_PACKET_UNSEQ_DATA] ++ x.hton.toBytes ∧
    (Session.packet true x).length = 47 + 3 ∧
    wellFormed (Session.packet true x) = true ∧
    (Session.packet true x).getD 2 0 = SOUPBIN3_PACKET_UNSEQ_DATA ∧
    (Session.packet true x).getD 3 0 = ReplaceMsg.TYPE ∧
    (Session.packet true x).drop 3 = x.hton.toBytes := by
  have ep : Session.packet true x = [0, 48, SOUPBIN3_PACKET_UNSEQ_DATA] ++ x.hton.toBytes := rfl
  have hl := toBytes_length_ReplaceMsg _ (hton_WF_ReplaceMsg x h)
  have h3 : (Session.packet true x).getD 3 0 = ReplaceMsg.TYPE := by
    rw [ep, ← hty]; rfl
  have hlen : (Session.packet true x).length = 47 + 3 := by
    rw [ep, List.length_append, hl]; rfl
  refine ⟨ep, hlen, ?_, by rw [ep]; rfl, h3, by rw [ep]; rfl⟩
  have g0 : (Session.packet true x).getD 0 0 = 0 := by rw [ep]; rfl
  have g1 : (Session.packet true x).getD 1 0 = 48 := by rw [ep]; rfl
  have g2 : (Session.packet true x).getD 2 0 = SOUPBIN3_PACKET_UNSEQ_DATA := by
    rw [ep]; rfl
  unfold wellFormed
  rw [g0, g1, g2, h3, hlen]
  decide

theorem packet_cancel (x : CancelMsg) (h : x.WF) (hty : x.type = CancelMsg.TYPE) :
    Session.packet true x = [0, 20, SOUPBIN3_PACKET_UNSEQ_DATA] ++ x.hton.toBytes ∧
    (Session.packet true x).length = 19 + 3 ∧
    wellFormed (Session.packet true x) = true ∧
    (Session.packet true x).getD 2 0 = SOUPBIN3_PACKET_UNSEQ_DATA ∧
    (Session.packet true x).getD 3 0 = CancelMsg.TYPE ∧
    (Session.packet true x).drop 3 = x.hton.toBytes := by
  have ep : Session.packet true x = [0, 20, SOUPBIN3_PACKET_UNSEQ_DATA] ++ x.hton.toBytes := rfl
  have hl := toBytes_length_CancelMsg _ (hton_WF_CancelMsg x h)
  have h3 : (Session.packet true x).getD 3 0 = CancelMsg.TYPE := by
    rw [ep, ← hty]; rfl
  have hlen : (Session.packet true x).length = 19 + 3 := by
    rw [ep, List.length_append, hl]; rfl
  refine ⟨ep, hlen, ?_, by rw [ep]; rfl, h3, by rw [ep]; rfl⟩
  have g0 : (Session.packet true x).getD 0 0 = 0 := by rw [ep]; rfl
  have g1 : (Session.packet true x).getD 1 0 = 20 := by rw [ep]; rfl
  have g2 : (Session.packet true x).getD 2 0 = SOUPBIN3_PACKET_UNSEQ_DATA := by
    rw [ep]; rfl
  unfold wellFormed
  rw [g0, g1, g2, h3, hlen]
  decide

theorem packet_modify (x : ModifyMsg) (h : x.WF) (hty : x.type = ModifyMsg.TYPE) :
    Session.packet true x = [0, 21, SOUPBIN3_PACKET_UNSEQ_DATA] ++ x.hton.toBytes ∧
    (Session.packet true x).length = 20 + 3 ∧
    wellFormed (Session.packet true x) = true ∧
    (Session.packet true x).getD 2 0 = SOUPBIN3_PACKET_UNSEQ_DATA ∧
    (Session.packet true x).getD 3 0 = ModifyMsg.TYPE ∧
    (Session.packet true x).drop 3 = x.hton.toBytes := by
  have ep : Session.packet true x = [0, 21, SOUPBIN3_PACKET_UNSEQ_DATA] ++ x.hton.toBytes := rfl
  have hl := toBytes_length_ModifyMsg _ (hton_WF_ModifyMsg x h)
  have h3 : (Session.packet true x).getD 3 0 = ModifyMsg.TYPE := by
    rw [ep, ← hty]; rfl
  have hlen : (Session.packet true x).length = 20 + 3 := by
    rw [ep, List.length_append, hl]; rfl
  refine ⟨ep, hlen, ?_, by rw [ep]; rfl, h3, by rw [ep]; rfl⟩
  have g0 : (Session.packet true x).getD 0 0 = 0 := by rw [ep]; rfl
  have g1 : (Session.packet true x).getD 1 0 = 21 := by rw [ep]; rfl
  have g2 : (Session.packet true x).getD 2 0 = SOUPBIN3_PACKET_UNSEQ_DATA := by
    rw [ep]; rfl
  unfold wellFormed
  rw [g0, g1, g2, h3, hlen]
  decide

/-- C15: an acceptor with an empty receive buffer reads the `U` packet that an initiator
sends for a message.  For an `OrderMsg`, a `ReplaceMsg` and a `CancelMsg` the message handed
to the log and to `fromApp` is the original one, in host byte order.  For a `ModifyMsg` the
inner `switch` of the unsequenced data arm has no case: the message handed over is the one on
the wire, `shares` in network byte order. -/
theorem unseq_delivery (acc : Session) (o : OrderMsg) (r : ReplaceMsg) (c : CancelMsg)
    (m : ModifyMsg) (e : Int) (now : Nat)
    (ho : o.WF ∧ o.type = OrderMsg.TYPE) (hr : r.WF ∧ r.type = ReplaceMsg.TYPE)
    (hc : c.WF ∧ c.type = CancelMsg.TYPE) (hm : m.WF ∧ m.type = ModifyMsg.TYPE)
    (h0 : acc.rxbuf.len = 0) :
    (∃ s1, acc.in_event (ReadResult.data (Session.packet true o) e) now = some s1 ∧
      s1.trace = acc.trace ++ [Effect.onIncoming o.toBytes 51, Effect.fromApp o.toBytes] ∧
      OrderMsg.ofBytes o.toBytes = o) ∧
    (∃ s1, acc.in_event (ReadResult.data (Session.packet true r) e) now = some s1 ∧
      s1.trace = acc.trace ++ [Effect.onIncoming r.toBytes 50, Effect.fromApp r.toBytes] ∧
      ReplaceMsg.ofBytes r.toBytes = r) ∧
    (∃ s1, acc.in_event (ReadResult.data (Session.packet true c) e) now = some s1 ∧
      s1.trace = acc.trace ++ [Effect.onIncoming c.toBytes 22, Effect.fromApp c.toBytes] ∧
      CancelMsg.ofBytes c.toBytes = c) ∧
    (∃ s1, acc.in_event (ReadResult.data (Session.packet true m) e) now = some s1 ∧
      s1.trace = acc.trace ++
        [Effect.onIncoming m.hton.toBytes 23, Effect.fromApp m.hton.toBytes] ∧
      ModifyMsg.ofBytes m.hton.toBytes = m.hton ∧
      m.hton.shares = (if m.shares ≠ 0 then htonlInt m.shares else m.shares)) := by
  have hroom := room_ge acc h0
  refine ⟨?_, ?_, ?_, ?_⟩
  · obtain ⟨ep, hlen, hwf, g2, g3⟩ := packet_order o ho.1 ho.2
    obtain ⟨s1, h1, hc1, _⟩ := in_event_one acc _ e now h0 hwf (by omega)
    have hcase : unseqDataCase ((Session.packet true o).getD 3 0) =
        some (OrderMsg.sizeof, fun w => (OrderMsg.ofBytes w).ntoh.toBytes) := by rw [g3]; rfl
    rw [dispatch_unseq acc.core _ _ _ g2 hcase (by rw [hlen]; rfl)] at hc1
    have hdr : (Session.packet true o).drop 3 = o.hton.toBytes := by rw [ep]; rfl
    have hmm : (OrderMsg.ofBytes ((Session.packet true o).drop 3)).ntoh.toBytes = o.toBytes := by
      rw [hdr, ofBytes_toBytes_OrderMsg _ (hton_WF_OrderMsg o ho.1), ntoh_hton_OrderMsg o ho.1]
    rw [hmm, hlen] at hc1
    have k1 := congrArg Session.trace hc1
    simp only [Session.core, Session.emit] at k1
    exact ⟨s1, h1, by rw [k1]; simp, ofBytes_toBytes_OrderMsg o ho.1⟩
  · obtain ⟨ep, hlen, hwf, g2, g3, hdr⟩ := packet_replace r hr.1 hr.2
    obtain ⟨s1, h1, hc1, _⟩ := in_event_one acc _ e now h0 hwf (by omega)
    have hcase : unseqDataCase ((Session.packet true r).getD 3 0) =
        some (ReplaceMsg.sizeof, fun w => (ReplaceMsg.ofBytes w).ntoh.toBytes) := by
      rw [g3]; rfl
    rw [dispatch_unseq acc.core _ _ _ g2 hcase (by rw [hlen]; rfl)] at hc1
    have hmm : (ReplaceMsg.ofBytes ((Session.packet true r).drop 3)).ntoh.toBytes =
        r.toBytes := by
      rw [hdr, ofBytes_toBytes_ReplaceMsg _ (hton_WF_ReplaceMsg r hr.1),
        ntoh_hton_ReplaceMsg r hr.1]
    rw [hmm, hlen] at hc1
    have k1 := congrArg Session.trace hc1
    simp only [Session.core, Session.emit] at k1
    exact ⟨s1, h1, by rw [k1]; simp, ofBytes_toBytes_ReplaceMsg r hr.1⟩
  · obtain ⟨ep, hlen, hwf, g2, g3, hdr⟩ := packet_cancel c hc.1 hc.2
    obtain ⟨s1, h1, hc1, _⟩ := in_event_one acc _ e now h0 hwf (by omega)
    have hcase : unseqDataCase ((Session.packet true c).getD 3 0) =
        some (CancelMsg.sizeof, fun w => (CancelMsg.ofBytes w).ntoh.toBytes) := by
      rw [g3]; rfl
    rw [dispatch_unseq acc.core _ _ _ g2 hcase (by rw [hlen]; rfl)] at hc1
    have hmm : (CancelMsg.ofBytes ((Session.packet true c).drop 3)).ntoh.toBytes =
        c.toBytes := by
      rw [hdr, ofBytes_toBytes_CancelMsg _ (hton_WF_CancelMsg c hc.1),
        ntoh_hton_CancelMsg c hc.1]
    rw [hmm, hlen] at hc1
    have k1 := congrArg Session.trace hc1
    simp only [Session.core, Session.emit] at k1
    exact ⟨s1, h1, by rw [k1]; simp, ofBytes_toBytes_CancelMsg c hc.1⟩
  · obtain ⟨ep, hlen, hwf, g2, g3, hdr⟩ := packet_modify m hm.1 hm.2
    obtain ⟨s1, h1, hc1, _⟩ := in_event_one acc _ e now h0 hwf (by omega)
    have hcase : unseqDataCase ((Session.packet true m).getD 3 0) = none := by
      rw [g3]; rfl
    rw [dispatch_unseq_raw acc.core _ g2 hcase (by omega)] at hc1
    rw [hdr, hlen] at hc1
    have k1 := congrArg Session.trace hc1
    simp only [Session.core, Session.emit] at k1
    exact ⟨s1, h1, by rw [k1]; simp, ofBytes_toBytes_ModifyMsg _ (hton_WF_ModifyMsg m hm.1),
      rfl⟩

theorem unseq_delivery_witness :
    (OrderMsg.example.WF ∧ OrderMsg.example.type = OrderMsg.TYPE) ∧
    (∃ s1, (Session.example false).in_event
        (ReadResult.data (Session.packet true (ReplaceMsg.new [49] [50] 200 123500 32)) 0) 7
          = some s1 ∧
      s1.trace = (Session.example false).trace ++
        [Effect.onIncoming (ReplaceMsg.new [49] [50] 200 123500 32).toBytes 50,
         Effect.fromApp (ReplaceMsg.new [49] [50] 200 123500 32).toBytes]) :=
  ⟨by decide,
    match (unseq_delivery (Session.example false) OrderMsg.example
      (ReplaceMsg.new [49] [50] 200 123500 32) (CancelMsg.new [49] 0)
      (ModifyMsg.new [49] 66 100) 0 7 (by decide) (by decide) (by decide) (by decide)
      rfl).2.1 with
    | ⟨s1, h1, h2, _⟩ => ⟨s1, h1, h2⟩⟩

/-- C15: an acceptor that reads the `U` packet of `ModifyMsg("1", 'B', 100)` hands to
`fromApp` a message whose `shares` is 1677721600, the byte-swapped 100. -/
theorem modify_not_converted :
    ((Session.example false).in_event
      (ReadResult.data (Session.packet true (ModifyMsg.new [49] 66 100)) 0) 7).map
        (fun s : Session => s.trace.map fun ev =>
          match ev with
          | Effect.fromApp msg => (ModifyMsg.ofBytes msg).shares
          | _ => 0) = some [0, 1677721600] := by
  decide

/-! ## Packets that leave the store and the state alone -/

theorem assertThen_next_fields (c : Bool) (s : Session) :
    (assertThen c s Step.next).session.store = s.store ∧
      (assertThen c s Step.next).session.state = s.state ∧
      (assertThen c s Step.next).session.outpipe = s.outpipe := by
  unfold assertThen
  cases c <;> simp [Step.session, Session.emit]

/-- C16: the handling of an unsequenced data packet, of a server heartbeat and of a client
heartbeat leaves the store (the two counters and the stored messages) and the state of the
session as they were, whatever the length of the packet; so does `in_event` on a session with
an empty receive buffer that reads one such packet, and for a heartbeat it makes no call to
the log or the application. -/
theorem unseq_heartbeat_frame (s : Session) (len now : Nat) (s0 : Session) (p : List Nat)
    (e : Int)
    (hty : s.rxbuf.data (s.rxbuf.start + 2) = SOUPBIN3_PACKET_UNSEQ_DATA ∨
      s.rxbuf.data (s.rxbuf.start + 2) = SOUPBIN3_PACKET_SERVER_HEARTBEAT ∨
      s.rxbuf.data (s.rxbuf.start + 2) = SOUPBIN3_PACKET_CLIENT_HEARTBEAT)
    (h0 : s0.rxbuf.len = 0) (hwf : wellFormed p = true) (hfit : p.length ≤ s0.room)
    (hty0 : p.getD 2 0 = SOUPBIN3_PACKET_UNSEQ_DATA ∨
      p.getD 2 0 = SOUPBIN3_PACKET_SERVER_HEARTBEAT ∨
      p.getD 2 0 = SOUPBIN3_PACKET_CLIENT_HEARTBEAT) :
    ((handlePacket s len now).session.store = s.store ∧
      (handlePacket s len now).session.state = s.state ∧
      (handlePacket s len now).session.outpipe = s.outpipe) ∧
    (∃ s1, s0.in_event (ReadResult.data p e) now = some s1 ∧ s1.store = s0.store ∧
      s1.state = s0.state ∧ s1.outpipe = s0.outpipe ∧ s1.rxbuf.len = 0 ∧
      (p.getD 2 0 ≠ SOUPBIN3_PACKET_UNSEQ_DATA → s1.trace = s0.trace)) := by
  have key : ∀ (t : Session) (l n : Nat),
      (t.rxbuf.data (t.rxbuf.start + 2) = SOUPBIN3_PACKET_UNSEQ_DATA ∨
        t.rxbuf.data (t.rxbuf.start + 2) = SOUPBIN3_PACKET_SERVER_HEARTBEAT ∨
        t.rxbuf.data (t.rxbuf.start + 2) = SOUPBIN3_PACKET_CLIENT_HEARTBEAT) →
      (handlePacket t l n).session.store = t.store ∧
      (handlePacket t l n).session.state = t.state ∧
      (handlePacket t l n).session.outpipe = t.outpipe := by
    intro t l n h
    rcases h with h | h | h
    · rw [handlePacket_unseq t l n h]
      exact ⟨rfl, rfl, rfl⟩
    · rw [handlePacket_server_heartbeat t l n h]
      exact assertThen_next_fields _ _
    · rw [handlePacket_client_heartbeat t l n h]
      exact assertThen_next_fields _ _
  refine ⟨key s len now hty, ?_⟩
  obtain ⟨s1, h1, hc1, hl1⟩ := in_event_one s0 p e now h0 hwf hfit
  have hk := key (s0.core.holding p) p.length 0 (by simpa [Session.holding] using hty0)
  unfold Session.holding at hk
  have k1 := congrArg Session.store hc1
  have k2 := congrArg Session.state hc1
  have k3 := congrArg Session.outpipe hc1
  have k4 := congrArg Session.trace hc1
  unfold dispatch at k1 k2 k3 k4
  simp only [Session.core] at k1 k2 k3 k4 hk
  refine ⟨s1, h1, k1.trans hk.1, k2.trans hk.2.1, k3.trans hk.2.2, hl1, ?_⟩
  intro hnu
  rw [k4]
  have hwf2 := hwf
  unfold wellFormed at hwf2
  simp only [Bool.and_eq_true, decide_eq_true_eq] at hwf2
  have hrest := hwf2.2
  rcases hty0 with h | h | h
  · exact absurd h hnu
  · rw [h, if_neg (by decide), if_neg (by decide), if_neg (by decide), if_neg (by decide),
      if_pos rfl] at hrest
    simp only [decide_eq_true_eq] at hrest
    rw [handlePacket_server_heartbeat _ _ _ (by simpa using h)]
    unfold assertThen
    rw [if_pos (by simpa using hrest)]
    rfl
  · rw [h, if_neg (by decide), if_neg (by decide), if_neg (by decide), if_neg (by decide),
      if_neg (by decide), if_pos rfl] at hrest
    simp only [decide_eq_true_eq] at hrest
    rw [handlePacket_client_heartbeat _ _ _ (by simpa using h)]
    unfold assertThen
    rw [if_pos (by simpa using hrest)]
    rfl

theorem unseq_heartbeat_frame_witness :
    wellFormed [0, 1, 72] = true ∧
    ∃ s1, (Session.example true).in_event (ReadResult.data [0, 1, 72] 0) 7 = some s1 ∧
      s1.store = (Session.example true).store ∧ s1.state = (Session.example true).state ∧
      s1.trace = (Session.example true).trace :=
  ⟨by decide,
    match (unseq_heartbeat_frame ((Session.example false).holding [0, 1, 82]) 3 7
      (Session.example true) [0, 1, 72] 0 (by decide) rfl (by decide) (by decide)
      (by decide)).2 with
    | ⟨s1, h1, h2, h3, _, _, h6⟩ => ⟨s1, h1, h2, h3, h6 (by decide)⟩⟩

/-! ## Sending with no socket bound -/

/-- C17: with no socket bound, `send(data, len)` returns `true` and leaves the session as it
was, all fields included; the typed `send` returns `true` as well and leaves the outbound
pipe, the time of the last send, the state and the store as they were (it still hands the
message to the log). -/
theorem send_unbound {T : Type} [OuchMsg T] (s : Session) (data : List Nat) (msg : T)
    (now : Nat) (hfd : s.fd < 0) :
    s.sendBytesRet data now = true ∧ s.sendBytes data now = s ∧
    s.sendRet msg now = true ∧ (s.send msg now).outpipe = s.outpipe ∧
    (s.send msg now).txtm = s.txtm ∧ (s.send msg now).state = s.state ∧
    (s.send msg now).store = s.store ∧ (s.send msg now).fd = s.fd ∧
    (s.send msg now).trace =
      s.trace ++ [Effect.onOutgoing (OuchMsg.toBytes msg) (OuchMsg.sizeof T)] := by
  have h1 : s.sendBytes data now = s := by
    unfold Session.sendBytes
    rw [if_pos hfd]
  have h2 : ∀ d, s.sendBytes d now = s := by
    intro d
    unfold Session.sendBytes
    rw [if_pos hfd]
  refine ⟨?_, h1, rfl, ?_, ?_, ?_, ?_, ?_, ?_⟩
  · unfold Session.sendBytesRet
    rw [if_pos hfd]
  all_goals
    unfold Session.send
    simp only [h2]
    rfl

theorem send_unbound_witness :
    ({ Session.example true with fd := -1 } : Session).fd < 0 ∧
    (({ Session.example true with fd := -1 } : Session).send OrderMsg.example 3).outpipe
      = [] ∧
    ({ Session.example true with fd := -1 } : Session).sendBytesRet [0, 1, 82] 3 = true :=
  ⟨by decide,
    (send_unbound ({ Session.example true with fd := -1 } : Session) [0, 1, 82]
      OrderMsg.example 3 (by decide)).2.2.2.1,
    (send_unbound ({ Session.example true with fd := -1 } : Session) [0, 1, 82]
      OrderMsg.example 3 (by decide)).1⟩

/-! ## The byte pipe -/

theorem chunksOk_snoc (init : List Chunk) (tl : Chunk) :
    chunksOk (init ++ [tl]) ↔
      (∀ c ∈ init, c.head < c.capacity ∧ c.tail = c.capacity ∧ c.capacity < 4294967296) ∧
      (tl.head ≤ tl.tail ∧ tl.tail < tl.capacity ∧ tl.capacity < 4294967296) := by
  induction init with
  | nil => simp [chunksOk]
  | cons c init ih =>
    cases init with
    | nil =>
      simp only [List.cons_append, List.nil_append, chunksOk, List.mem_singleton, forall_eq]
      constructor
      · rintro ⟨h1, h2, h3, h4⟩
        exact ⟨⟨h1, h2, h3⟩, h4⟩
      · rintro ⟨⟨h1, h2, h3⟩, h4⟩
        exact ⟨h1, h2, h3, h4⟩
    | cons d init =>
      rw [List.cons_append, List.cons_append, chunksOk, ← List.cons_append, ih]
      constructor
      · rintro ⟨h1, h2, h3, h4, h5⟩
        refine ⟨?_, h5⟩
        intro x hx
        rcases List.mem_cons.1 hx with h | h
        · rw [h]; exact ⟨h1, h2, h3⟩
        · exact h4 x h
      · rintro ⟨h4, h5⟩
        obtain ⟨h1, h2, h3⟩ := h4 c (List.mem_cons_self _ _)
        exact ⟨h1, h2, h3, fun x hx => h4 x (List.mem_cons_of_mem _ hx), h5⟩

theorem chunksOk_concat (l : List Chunk) (h : chunksOk l) : ∃ init tl, l = init ++ [tl] := by
  rcases List.eq_nil_or_concat l with h1 | ⟨L, b, h1⟩
  · rw [h1] at h; exact absurd h (by simp [chunksOk])
  · exact ⟨L, b, by simpa using h1⟩

theorem contents_snoc (init : List Chunk) (tl : Chunk) (sp : Option Chunk) :
    Pipe.contents { chunks := init ++ [tl], spared := sp } =
      Pipe.contents { chunks := init, spared := none } ++
        readMem tl.data tl.head (tl.tail - tl.head) := by
  simp [Pipe.contents]

theorem readMem_write_tail (d : Nat → Nat) (head tail : Nat) (bs : List Nat)
    (h : head ≤ tail) :
    readMem (writeMem d tail bs) head (tail + bs.length - head) =
      readMem d head (tail - head) ++ bs := by
  have e : tail + bs.length - head = (tail - head) + bs.length := by omega
  rw [e, readMem_add, readMem_writeMem_disjoint _ _ _ _ _ (Or.inl (by omega))]
  have e2 : head + (tail - head) = tail := by omega
  rw [e2, readMem_writeMem_same]

theorem chunksOk_snoc2 (init : List Chunk) (a b : Chunk)
    (hi : ∀ c ∈ init, c.head < c.capacity ∧ c.tail = c.capacity ∧ c.capacity < 4294967296)
    (ha : a.head < a.capacity ∧ a.tail = a.capacity ∧ a.capacity < 4294967296)
    (hb : b.head ≤ b.tail ∧ b.tail < b.capacity ∧ b.capacity < 4294967296) :
    chunksOk (init ++ [a, b]) := by
  have : init ++ [a, b] = (init ++ [a]) ++ [b] := by simp
  rw [this, chunksOk_snoc]
  refine ⟨?_, hb⟩
  intro c hc
  rcases List.mem_append.1 hc with h | h
  · exact hi c h
  · rw [List.mem_singleton.1 h]; exact ha

theorem contents_snoc2 (init : List Chunk) (a b : Chunk) (sp : Option Chunk) :
    Pipe.contents { chunks := init ++ [a, b], spared := sp } =
      Pipe.contents { chunks := init, spared := none } ++
        (readMem a.data a.head (a.tail - a.head) ++ readMem b.data b.head (b.tail - b.head)) := by
  simp [Pipe.contents]

theorem push_next_chunk (t0 : Chunk) (rest : List Nat) (n : Nat) (h1 : t0.head = 0)
    (h2 : t0.tail = 0) (h3 : n < t0.capacity) (h4 : t0.capacity < 4294967296)
    (hr : rest.length = n) (t1 : Chunk)
    (ht : t1 = if n ≠ 0 then { t0 with data := writeMem t0.data 0 rest, tail := n % 4294967296 }
      else t0) :
    (t1.head ≤ t1.tail ∧ t1.tail < t1.capacity ∧ t1.capacity < 4294967296) ∧
    readMem t1.data t1.head (t1.tail - t1.head) = rest := by
  by_cases hz : n = 0
  · rw [if_neg (by simpa using hz)] at ht
    subst ht
    refine ⟨⟨by omega, by omega, h4⟩, ?_⟩
    rw [h1, h2]
    have : rest = [] := List.length_eq_zero.1 (hr.trans hz)
    rw [this]
    rfl
  · rw [if_pos hz] at ht
    subst ht
    have hm : n % 4294967296 = n := by omega
    simp only [hm]
    refine ⟨⟨by omega, h3, h4⟩, ?_⟩
    rw [h1, Nat.sub_zero, ← hr, readMem_writeMem_same]

theorem push_full_chunk (tl : Chunk) (bytes : List Nat) (h1 : tl.head ≤ tl.tail)
    (h2 : tl.tail < tl.capacity) (h3 : tl.capacity < 4294967296)
    (hr : tl.capacity - tl.tail ≤ bytes.length) (a : Chunk)
    (ha : a = { tl with data := writeMem tl.data tl.tail (bytes.take (tl.capacity - tl.tail)),
                        tail := tl.capacity }) :
    (a.head < a.capacity ∧ a.tail = a.capacity ∧ a.capacity < 4294967296) ∧
    readMem a.data a.head (a.tail - a.head) =
      readMem tl.data tl.head (tl.tail - tl.head) ++ bytes.take (tl.capacity - tl.tail) := by
  subst ha
  refine ⟨⟨by simp only; omega, rfl, h3⟩, ?_⟩
  have hlen : (List.take (tl.capacity - tl.tail) bytes).length = tl.capacity - tl.tail := by
    rw [List.length_take]; omega
  have e1 := readMem_write_tail tl.data tl.head tl.tail
    (List.take (tl.capacity - tl.tail) bytes) h1
  rw [hlen] at e1
  have e1' : tl.tail + (tl.capacity - tl.tail) - tl.head = tl.capacity - tl.head := by
    omega
  rw [e1'] at e1
  exact e1

theorem push_ok (p : Pipe) (bytes : List Nat) (mem : Nat → Nat) (hp : p.ok)
    (hn : bytes.length < 2147483648) :
    ∃ q, p.push bytes mem = some q ∧ q.ok ∧ q.contents = p.contents ++ bytes := by
  obtain ⟨hc, hs⟩ := hp
  obtain ⟨init, tl, hl⟩ := chunksOk_concat _ hc
  rw [hl] at hc
  obtain ⟨hi, h1, h2, h3⟩ := (chunksOk_snoc init tl).1 hc
  have hrem : (tl.capacity + 4294967296 - tl.tail) % 4294967296 = tl.capacity - tl.tail := by
    omega
  have hcont : p.contents = Pipe.contents { chunks := init, spared := none } ++
      readMem tl.data tl.head (tl.tail - tl.head) := by
    have : p = { chunks := init ++ [tl], spared := p.spared } := by
      cases p; simp only at hl; rw [hl]
    rw [this]
    exact contents_snoc _ _ _
  unfold Pipe.push
  rw [hl, List.getLast?_concat, List.dropLast_concat]
  simp only [hrem]
  by_cases hr : tl.capacity - tl.tail > bytes.length
  · rw [if_pos hr]
    have ht : (tl.tail + bytes.length) % 4294967296 = tl.tail + bytes.length := by omega
    simp only [ht]
    rw [if_pos (by omega)]
    refine ⟨_, rfl, ⟨?_, hs⟩, ?_⟩
    · exact (chunksOk_snoc init _).2 ⟨hi, by simp only; omega, by simp only; omega, h3⟩
    · rw [contents_snoc, hcont]
      simp only
      rw [readMem_write_tail _ _ _ _ h1, List.append_assoc]
  · rw [if_neg hr, if_pos (by omega)]
    have hdrop : (List.drop (tl.capacity - tl.tail) bytes).length =
        bytes.length - (tl.capacity - tl.tail) := List.length_drop _ _
    have fin : ∀ t0 b : Chunk, t0.head = 0 → t0.tail = 0 →
        bytes.length - (tl.capacity - tl.tail) < t0.capacity → t0.capacity < 4294967296 →
        b = (if bytes.length - (tl.capacity - tl.tail) ≠ 0 then
          { t0 with data := writeMem t0.data 0 (bytes.drop (tl.capacity - tl.tail)), tail := (bytes.length - (tl.capacity - tl.tail)) % 4294967296 }
          else t0) →
        ∀ a : Chunk, a = { tl with data := writeMem tl.data tl.tail (bytes.take (tl.capacity - tl.tail)), tail := tl.capacity } →
        Pipe.ok { chunks := init ++ [a, b], spared := none } ∧
        Pipe.contents { chunks := init ++ [a, b], spared := none } = p.contents ++ bytes := by
      intro t0 b z1 z2 z3 z4 hb a ha
      obtain ⟨ga, gb⟩ := push_next_chunk t0 _ _ z1 z2 z3 z4 hdrop b hb
      obtain ⟨fa, fb⟩ := push_full_chunk tl bytes h1 h2 h3 (by omega) a ha
      refine ⟨⟨chunksOk_snoc2 _ _ _ hi fa ga, fun t ht => by cases ht⟩, ?_⟩
      rw [contents_snoc2, fb, gb, hcont, List.append_assoc, List.append_assoc,
        List.take_append_drop]
    cases hsp : p.spared with
    | none =>
      simp only
      refine ⟨_, rfl, fin (Chunk.new ((bytes.length - (tl.capacity - tl.tail)) * 2) mem) _
        rfl rfl ?_ ?_ rfl _ rfl⟩
      · simp only [Chunk.new, CHUNK_SIZE]; omega
      · simp only [Chunk.new, CHUNK_SIZE]; omega
    | some t =>
      obtain ⟨g1, g2⟩ := hs t hsp
      simp only
      by_cases hcap : t.reset.capacity ≤ bytes.length - (tl.capacity - tl.tail)
      · rw [if_pos hcap]
        refine ⟨_, rfl, fin _ _ rfl rfl ?_ ?_ rfl _ rfl⟩
        · simp only [Chunk.reset, Chunk.resize] at hcap ⊢; omega
        · simp only [Chunk.reset, Chunk.resize] at hcap ⊢; omega
      · rw [if_neg hcap]
        refine ⟨_, rfl, fin _ _ rfl rfl ?_ ?_ rfl _ rfl⟩
        · simp only [Chunk.reset] at hcap ⊢; omega
        · simp only [Chunk.reset] at hcap ⊢; omega

theorem data_pop_ok (p : Pipe) (hp : p.ok) :
    (p.data = some none ∧ p.contents = []) ∨
    (∃ span, p.data = some (some span) ∧ span ≠ [] ∧
      ∀ k, k ≤ span.length →
        ∃ q, p.pop k = some q ∧ q.ok ∧ p.contents = span.take k ++ q.contents) := by
  obtain ⟨hc, hs⟩ := hp
  obtain ⟨chunks, spared⟩ := p
  simp only at hc hs
  cases chunks with
  | nil => exact absurd hc (by simp [chunksOk])
  | cons h rest =>
    have hgen : ∀ (hh : h.head ≤ h.tail) (hcap : h.tail ≤ h.capacity)
        (hc32 : h.capacity < 4294967296) (hne : h.tail ≠ h.head),
        ∀ k, k ≤ h.tail - h.head → h.head + k ≠ h.capacity →
        chunksOk ({ h with head := (h.head + k) % 4294967296 } :: rest) →
        ∃ q, Pipe.pop { chunks := h :: rest, spared := spared } k = some q ∧ q.ok ∧
          Pipe.contents { chunks := h :: rest, spared := spared } =
            (readMem h.data h.head (h.tail - h.head)).take k ++ q.contents := by
      intro hh hcap hc32 hne k hk hnc hok
      have e1 : (h.tail + 4294967296 - h.head) % 4294967296 = h.tail - h.head := by omega
      have e2 : (h.head + k) % 4294967296 = h.head + k := by omega
      unfold Pipe.pop
      simp only [e1]
      rw [if_pos hk]
      simp only [e2] at hok ⊢
      rw [if_neg hnc]
      refine ⟨_, rfl, ⟨hok, hs⟩, ?_⟩
      simp only [Pipe.contents, List.map_cons, List.flatten_cons]
      rw [← List.append_assoc]
      congr 1
      have e3 : h.tail - h.head = k + (h.tail - (h.head + k)) := by omega
      conv => lhs; rw [e3, readMem_add]
      rw [e3, readMem_add, List.take_left' (readMem_length _ _ _)]
    cases rest with
    | nil =>
      simp only [chunksOk] at hc
      obtain ⟨h1, h2, h3⟩ := hc
      by_cases he : h.tail = h.head
      · left
        constructor
        · unfold Pipe.data
          simp only [List.head?_cons]
          rw [if_neg (by omega), if_pos he]
        · simp [Pipe.contents, he, readMem]
      · right
        refine ⟨readMem h.data h.head (h.tail - h.head), ?_, ?_, ?_⟩
        · unfold Pipe.data
          simp only [List.head?_cons]
          rw [if_neg (by omega), if_neg he]
        · intro hnil
          have := congrArg List.length hnil
          rw [readMem_length] at this
          simp only [List.length_nil] at this
          omega
        · intro k hk
          rw [readMem_length] at hk
          exact hgen h1 (by omega) h3 he k hk (by omega)
            (by simp only [chunksOk]; omega)
    | cons d rest2 =>
      simp only [chunksOk] at hc
      obtain ⟨h1, h2, h3, h4⟩ := hc
      right
      refine ⟨readMem h.data h.head (h.tail - h.head), ?_, ?_, ?_⟩
      · unfold Pipe.data
        simp only [List.head?_cons]
        rw [if_neg (by omega), if_neg (by omega)]
      · intro hnil
        have := congrArg List.length hnil
        rw [readMem_length] at this
        simp only [List.length_nil] at this
        omega
      · intro k hk
        rw [readMem_length] at hk
        by_cases hfull : h.head + k = h.capacity
        · have e1 : (h.tail + 4294967296 - h.head) % 4294967296 = h.tail - h.head := by omega
          have e2 : (h.head + k) % 4294967296 = h.head + k := by omega
          unfold Pipe.pop
          simp only [e1]
          rw [if_pos hk]
          simp only [e2]
          rw [if_pos hfull]
          refine ⟨_, rfl, ⟨h4, ?_⟩, ?_⟩
          · intro t ht
            injection ht with ht
            rw [← ht]
            simp only
            omega
          · simp only [Pipe.contents, List.map_cons, List.flatten_cons]
            have : k = (readMem h.data h.head (h.tail - h.head)).length := by
              rw [readMem_length]; omega
            rw [this, List.take_length]
        · have e2 : (h.head + k) % 4294967296 = h.head + k := by omega
          refine hgen (by omega) (by omega) h3 (by omega) k hk hfull ?_
          show _ ∧ _ ∧ _ ∧ _
          refine ⟨?_, h2, h3, h4⟩
          show (h.head + k) % 4294967296 < h.capacity
          omega

theorem new_ok (mem : Nat → Nat) : (Pipe.new mem).ok ∧ (Pipe.new mem).contents = [] := by
  refine ⟨⟨?_, ?_⟩, ?_⟩
  · show (0 : Nat) ≤ 0 ∧ 0 < max (CHUNK_SIZE % 4294967296) CHUNK_SIZE ∧
      max (CHUNK_SIZE % 4294967296) CHUNK_SIZE < 4294967296
    simp only [CHUNK_SIZE]
    omega
  · intro t ht
    cases ht
  · rfl

theorem step_ok (p : Pipe) (op : PipeOp) (hp : p.ok) (hop : op.size < 2147483648) :
    ∃ q taken, p.step op = some (q, taken) ∧ q.ok ∧
      p.contents ++ pushed [op] = taken ++ q.contents ∧
      (p.data = some none → p.contents = []) := by
  have hd : p.data = some none → p.contents = [] := by
    intro h
    rcases data_pop_ok p hp with ⟨_, h2⟩ | ⟨span, h1, _⟩
    · exact h2
    · rw [h1] at h
      cases h
  cases op with
  | push bytes mem =>
    obtain ⟨q, h1, h2, h3⟩ := push_ok p bytes mem hp hop
    refine ⟨q, [], ?_, h2, ?_, hd⟩
    · simp only [Pipe.step, h1, Option.map_some']
    · simp only [pushed, List.append_nil, List.nil_append, h3]
  | consume k =>
    rcases data_pop_ok p hp with ⟨h1, h2⟩ | ⟨span, h1, _, h3⟩
    · refine ⟨p, [], ?_, hp, ?_, hd⟩
      · simp only [Pipe.step, h1]
      · simp only [pushed, List.append_nil, List.nil_append]
    · obtain ⟨q, e1, e2, e3⟩ := h3 (min k span.length) (Nat.min_le_right _ _)
      refine ⟨q, span.take k, ?_, e2, ?_, hd⟩
      · simp only [Pipe.step, h1, e1, Option.map_some']
      · simp only [pushed, List.append_nil]
        rw [e3]
        congr 1
        rw [List.take_eq_take]
        simp only [Nat.min_assoc, Nat.min_self]

theorem run_ok (ops : List PipeOp) : ∀ (p : Pipe), p.ok →
    (∀ op ∈ ops, op.size < 2147483648) →
    ∃ q taken, p.run ops = some (q, taken) ∧ q.ok ∧
      p.contents ++ pushed ops = taken ++ q.contents := by
  induction ops with
  | nil =>
    intro p hp _
    exact ⟨p, [], rfl, hp, by simp only [pushed, List.append_nil, List.nil_append]⟩
  | cons op ops ih =>
    intro p hp hops
    obtain ⟨q, t1, h1, h2, h3, _⟩ := step_ok p op hp (hops op (List.mem_cons_self _ _))
    obtain ⟨r, t2, g1, g2, g3⟩ := ih q h2 (fun o ho => hops o (List.mem_cons_of_mem _ ho))
    refine ⟨r, t1 ++ t2, ?_, g2, ?_⟩
    · simp only [Pipe.run, h1, Option.bind_eq_bind, Option.some_bind, g1, Option.map_some']
    · have e : pushed (op :: ops) = pushed [op] ++ pushed ops := by
        cases op <;> simp only [pushed, List.append_nil, List.nil_append]
      rw [e, ← List.append_assoc, h3, List.append_assoc, g3, List.append_assoc]

/-- C18: the byte pipe is a FIFO of raw bytes. Every sequence of calls of `push` (each of
less than 2 GiB) and of consumer steps (`data`, then `pop` of at most the span returned) on
a new pipe runs without a failed `assert`; the bytes consumed followed by the bytes the pipe
still holds are the bytes pushed, in order, so the bytes consumed are an initial segment of
the bytes pushed; and when `data` then returns `false`, every pushed byte was consumed. -/
theorem pipe_fifo (mem : Nat → Nat) (ops : List PipeOp)
    (hops : ∀ op ∈ ops, op.size < 2147483648) :
    ∃ q taken, (Pipe.new mem).run ops = some (q, taken) ∧
      taken ++ q.contents = pushed ops ∧ taken <+: pushed ops ∧
      (q.data = some none → taken = pushed ops) := by
  obtain ⟨hk, hc⟩ := new_ok mem
  obtain ⟨q, taken, h1, h2, h3⟩ := run_ok ops (Pipe.new mem) hk hops
  rw [hc, List.nil_append] at h3
  refine ⟨q, taken, h1, h3.symm, ⟨q.contents, h3.symm⟩, ?_⟩
  intro hd
  rcases data_pop_ok q h2 with ⟨_, e⟩ | ⟨span, e, _⟩
  · rw [h3, e, List.append_nil]
  · rw [e] at hd
    cases hd

theorem pipe_fifo_witness :
    (∀ op ∈ [PipeOp.push [1, 2, 3] (fun _ => 0), PipeOp.consume 2, PipeOp.push [4] (fun _ => 0),
        PipeOp.consume 9], op.size < 2147483648) ∧
    ∃ q taken, (Pipe.new (fun _ => 0)).run [PipeOp.push [1, 2, 3] (fun _ => 0),
        PipeOp.consume 2, PipeOp.push [4] (fun _ => 0), PipeOp.consume 9] = some (q, taken) ∧
      taken ++ q.contents = pushed [PipeOp.push [1, 2, 3] (fun _ => 0), PipeOp.consume 2,
        PipeOp.push [4] (fun _ => 0), PipeOp.consume 9] ∧
      taken <+: pushed [PipeOp.push [1, 2, 3] (fun _ => 0), PipeOp.consume 2,
        PipeOp.push [4] (fun _ => 0), PipeOp.consume 9] ∧
      (q.data = some none → taken = pushed [PipeOp.push [1, 2, 3] (fun _ => 0),
        PipeOp.consume 2, PipeOp.push [4] (fun _ => 0), PipeOp.consume 9]) :=
  ⟨by decide, pipe_fifo (fun _ => 0) _ (by decide)⟩

theorem pipe_run_example :
    ((Pipe.new (fun _ => 0)).run [PipeOp.push [1, 2, 3] (fun _ => 0), PipeOp.consume 2,
      PipeOp.push [4] (fun _ => 0), PipeOp.consume 9]).map Prod.snd = some [1, 2, 3, 4] := by
  decide

/-! ## The renderers -/

/-- C19: an `OrderMsg` whose `price` field holds the unsigned 32-bit value `p`, non-zero and
below 2^31, renders it as `44=`, the decimal text of `p / 10000`, a point, the four decimal
digits of `p % 10000` and the delimiter; the token follows the symbol in what `write` puts
out. -/
theorem price_token (o : OrderMsg) (tv_sec tv_nsec : Int) (p : Nat)
    (hp0 : 0 < p) (hp1 : p < 2147483648) (ho : o.price = toI32 p) :
    writePrice (str "44=") o.price =
      str "44=" ++ utoa (p / 10000) ++ [46] ++
        [48 + p % 10000 / 1000, 48 + p % 10000 / 100 % 10, 48 + p % 10000 / 10 % 10,
          48 + p % 10000 % 10] ++ [1] ∧
    o.write tv_sec tv_nsec =
      (str "35=" ++ str "D" ++ [1] ++ str "11=" ++ writeRTrim o.id ++ [1] ++
        writeSide o.side ++ str "38=" ++ fmtInt o.shares ++ [1] ++
        str "55=" ++ writeRTrim o.symbol ++ [1]) ++
      writePrice (str "44=") o.price ++
      (str "59=" ++ fmtInt o.tif ++ [1] ++
        (if o.firm.getD 0 0 ≠ 32 then str "49=" ++ writeRTrim o.firm ++ [1] else []) ++
        (if o.display ≠ 32 then str "9140=" ++ [o.display] ++ [1] else []) ++
        (if o.capacity ≠ 32 then str "47=" ++ [o.capacity] ++ [1] else []) ++
        (if o.sweep = 89 then str "18=f" ++ [1] else []) ++
        (if o.minQty > 0 then str "110=" ++ fmtInt o.minQty ++ [1] else []) ++
        (if o.cross ≠ 32 then str "9355=" ++ [o.cross] ++ [1] else []) ++
        str "0=" ++ fmtInt tv_sec ++ [46] ++ fmtInt tv_nsec ++ [1]) := by
  constructor
  · have hI : toI32 p = (p : Int) := by
      unfold toI32
      rw [if_pos (by omega)]
      congr 1
      omega
    rw [ho, hI]
    unfold writePrice
    rw [if_pos (by omega)]
    have hd : (p : Int).tdiv 10000 = ((p / 10000 : Nat) : Int) := by
      rw [Int.tdiv_eq_ediv (by omega) (by omega)]; omega
    have hm : (p : Int).tmod 10000 = ((p % 10000 : Nat) : Int) := by
      rw [Int.tmod_eq_emod (by omega) (by omega)]; omega
    rw [hd, hm, fmtInt_nonneg _ (by omega), fmtInt_nonneg _ (by omega), Int.toNat_ofNat,
      Int.toNat_ofNat, setw_four _ (Nat.mod_lt _ (by decide))]
  · unfold OrderMsg.write
    simp only [List.append_assoc]

theorem price_token_witness :
    ((0 : Nat) < 123400 ∧ OrderMsg.example.price = toI32 123400) ∧
    writePrice (str "44=") OrderMsg.example.price = str "44=12.3400" ++ [1] :=
  ⟨by decide,
    ((price_token OrderMsg.example 0 0 123400 (by decide) (by decide) (by decide)).1).trans
      (by decide)⟩

/-- C19: the unsigned price 4294967295 is -1 in the `int` field and is rendered as
`44=0.00-1`, not as `44=429496.7295`; the price 2147483648 is rendered as
`44=-214748.-3648`. -/
theorem price_token_negative :
    writePrice (str "44=") (toI32 4294967295) = str "44=0.00-1" ++ [1] ∧
    writePrice (str "44=") (toI32 2147483648) = str "44=-214748.-3648" ++ [1] ∧
    (OrderMsg.ofBytes ({ OrderMsg.example with price := toI32 2147483648 }).toBytes).price
      = toI32 2147483648 := by
  decide

/-- C20: `writeSide` writes the side `B` as 1, `S` as 2, `T` as 5 and `E` as 6, and the
renderers of `OrderMsg`, `ModifyMsg`, `AcceptedMsg` and `ModifiedMsg` put out the side field
through it.  The renderer of `ReplacedMsg` does not: it puts out `54=` followed by the side
byte as it is. -/
theorem side_field (o : OrderMsg) (m : ModifyMsg) (a : AcceptedMsg) (r : ReplacedMsg)
    (d : ModifiedMsg) (tv_sec tv_nsec : Int) :
    (writeSide 66 = str "54=1" ++ [1] ∧ writeSide 83 = str "54=2" ++ [1] ∧
      writeSide 84 = str "54=5" ++ [1] ∧ writeSide 69 = str "54=6" ++ [1]) ∧
    o.write tv_sec tv_nsec =
      (str "35=" ++ str "D" ++ [1] ++ str "11=" ++ writeRTrim o.id ++ [1]) ++
      writeSide o.side ++
      (str "38=" ++ fmtInt o.shares ++ [1] ++ str "55=" ++ writeRTrim o.symbol ++ [1] ++
        writePrice (str "44=") o.price ++ str "59=" ++ fmtInt o.tif ++ [1] ++
        (if o.firm.getD 0 0 ≠ 32 then str "49=" ++ writeRTrim o.firm ++ [1] else []) ++
        (if o.display ≠ 32 then str "9140=" ++ [o.display] ++ [1] else []) ++
        (if o.capacity ≠ 32 then str "47=" ++ [o.capacity] ++ [1] else []) ++
        (if o.sweep = 89 then str "18=f" ++ [1] else []) ++
        (if o.minQty > 0 then str "110=" ++ fmtInt o.minQty ++ [1] else []) ++
        (if o.cross ≠ 32 then str "9355=" ++ [o.cross] ++ [1] else []) ++
        str "0=" ++ fmtInt tv_sec ++ [46] ++ fmtInt tv_nsec ++ [1]) ∧
    m.write =
      (str "35=" ++ str "G" ++ [1] ++ str "11=" ++ writeRTrim m.id ++ [1]) ++
      writeSide m.side ++ (str "38=" ++ fmtInt m.shares ++ [1]) ∧
    a.write tv_sec tv_nsec =
      (str "35=" ++ str "8" ++ [1] ++ str "60=" ++ utoa a.tm ++ [1] ++
        str "11=" ++ writeRTrim a.id ++ [1]) ++
      writeSide a.side ++
      (str "38=" ++ fmtInt a.shares ++ [1] ++ str "55=" ++ writeRTrim a.symbol ++ [1] ++
        writePrice (str "44=") a.price ++ str "59=" ++ fmtInt a.tif ++ [1] ++
        (if a.firm.getD 0 0 ≠ 32 then str "49=" ++ writeRTrim a.firm ++ [1] else []) ++
        (if a.display ≠ 32 then str "9140=" ++ [a.display] ++ [1] else []) ++
        str "37=" ++ utoa a.ref ++ [1] ++
        (if a.capacity ≠ 32 then str "47=" ++ [a.capacity] ++ [1] else []) ++
        (if a.sweep = 89 then str "18=f" ++ [1] else []) ++
        (if a.minQty > 0 then str "110=" ++ fmtInt a.minQty ++ [1] else []) ++
        (if a.cross ≠ 32 then str "9355=" ++ [a.cross] ++ [1] else []) ++
        str "150=" ++ [if a.state = 68 then 52 else 48] ++ [1] ++
        (if a.bbo ≠ 32 then str "9883=" ++ [a.bbo] ++ [1] else []) ++
        str "0=" ++ fmtInt tv_sec ++ [46] ++ fmtInt tv_nsec ++ [1]) ∧
    d.write =
      (str "35=" ++ str "8" ++ [1] ++ str "60=" ++ utoa d.tm ++ [1] ++
        str "11=" ++ writeRTrim d.id ++ [1] ++ str "150=5" ++ [1]) ++
      writeSide d.side ++ (str "38=" ++ fmtInt d.shares ++ [1]) ∧
    r.write =
      (str "35=" ++ str "8" ++ [1] ++ str "60=" ++ utoa r.tm ++ [1] ++
        str "11=" ++ writeRTrim r.newid ++ [1]) ++
      (str "54=" ++ [r.side] ++ [1]) ++
      (str "38=" ++ fmtInt r.shares ++ [1] ++ str "55=" ++ writeRTrim r.symbol ++ [1] ++
        writePrice (str "44=") r.price ++ str "59=" ++ fmtInt r.tif ++ [1] ++
        (if r.firm.getD 0 0 ≠ 32 then str "49=" ++ writeRTrim r.firm ++ [1] else []) ++
        (if r.display ≠ 32 then str "9140=" ++ [r.display] ++ [1] else []) ++
        str "37=" ++ utoa r.ref ++ [1] ++
        (if r.capacity ≠ 32 then str "47=" ++ [r.capacity] ++ [1] else []) ++
        (if r.sweep = 89 then str "18=f" ++ [1] else []) ++
        (if r.minQty > 0 then str "110=" ++ fmtInt r.minQty ++ [1] else []) ++
        (if r.cross ≠ 32 then str "9355=" ++ [r.cross] ++ [1] else []) ++
        str "150=" ++ [if r.state = 68 then 52 else 53] ++ [1] ++
        str "41=" ++ writeRTrim r.oldid ++ [1] ++
        (if r.bbo ≠ 32 then str "9883=" ++ [r.bbo] ++ [1] else [])) := by
  refine ⟨by decide, ?_, ?_, ?_, ?_, ?_⟩
  · unfold OrderMsg.write; simp only [List.append_assoc]
  · unfold ModifyMsg.write; simp only [List.append_assoc]
  · unfold AcceptedMsg.write; simp only [List.append_assoc]
  · unfold ModifiedMsg.write; simp only [List.append_assoc]
  · unfold ReplacedMsg.write; simp only [List.append_assoc]

/-- C20: a `ReplacedMsg` for the side `B` is rendered with `54=B`, where the `AcceptedMsg`
with the same side is rendered with `54=1`. -/
theorem replaced_side_raw :
    (({ type := 85, tm := 0, newid := rpadStr 14 [50], side := 66, shares := 100,
        symbol := rpadStr 8 [77, 83, 70, 84], price := 123400, tif := 99998,
        firm := rpadStr 4 [], display := 32, ref := 0, capacity := 65, sweep := 78,
        minQty := 0, cross := 78, state := 76, oldid := rpadStr 14 [49], bbo := 32 } :
      ReplacedMsg).write.take 20) = str "35=8" ++ [1] ++ str "60=0" ++ [1] ++ str "11=2" ++
        [1] ++ str "54=B" ++ [1] ∧
    ((AcceptedMsg.ofOrder OrderMsg.example).write 0 0).take 24 =
      str "35=8" ++ [1] ++ str "60=0" ++ [1] ++ str "11=12345" ++ [1] ++ str "54=1" ++ [1] := by
  decide

/-! ## Padded fields -/

theorem lengthRTrim_padded (s : List Nat) (k : Nat) (h : s.getLast? ≠ some 32) :
    lengthRTrim (s ++ List.replicate k 32) = s.length := by
  have hrep : ∀ x ∈ List.replicate k 32, (fun c : Nat => c == 32) x = true := by
    intro x hx
    rw [(List.mem_replicate.1 hx).2]
    rfl
  have hd : (s.reverse.dropWhile fun c => c == 32) = s.reverse := by
    cases hr : s.reverse with
    | nil => rfl
    | cons x l =>
      have hx : s.getLast? = some x := by
        rw [List.getLast?_eq_head?_reverse, hr]; rfl
      have : x ≠ 32 := fun e => h (by rw [hx, e])
      rw [List.dropWhile_cons_of_neg (by simpa using this)]
  unfold lengthRTrim
  rw [List.reverse_append, List.reverse_replicate, List.dropWhile_append_of_pos hrep, hd,
    List.length_reverse]

/-- C21: for a string `s` without NUL and a width `w`, `rpadStr` fills exactly `w` bytes:
the first `min(|s|, w)` bytes of `s`, then spaces.  When `s` is no longer than `w` and does
not end with a space, `lengthRTrim` of the field is the length of `s` and what `WRITE_RTRIM`
puts out is `s`. -/
theorem rpadStr_rtrim (s : List Nat) (w : Nat) (hs : ∀ c ∈ s, c ≠ 0) :
    (rpadStr w s).length = w ∧
    rpadStr w s = s.take (min s.length w) ++ List.replicate (w - s.length) 32 ∧
    (s.length ≤ w → s.getLast? ≠ some 32 →
      lengthRTrim (rpadStr w s) = s.length ∧ writeRTrim (rpadStr w s) = s) := by
  have htw : s.takeWhile (fun c => c != 0) = s := by
    rw [List.takeWhile_eq_self_iff]
    intro c hc
    simpa using hs c hc
  refine ⟨rpadStr_length w s, ?_, ?_⟩
  · by_cases hl : s.length ≤ w
    · rw [rpadStr_nulfree w s hl hs, Nat.min_eq_left hl, List.take_length]
    · have h0 : w - s.length = 0 := by omega
      unfold rpadStr strncpy
      rw [if_neg (by omega), htw, h0, Nat.min_eq_right (by omega)]
      have : w - (List.take w s).length = 0 := by
        rw [List.length_take]; omega
      rw [this]
      rfl
  · intro hl hlast
    rw [rpadStr_nulfree w s hl hs]
    have h1 := lengthRTrim_padded s (w - s.length) hlast
    refine ⟨h1, ?_⟩
    unfold writeRTrim
    rw [h1, List.take_left' rfl]

theorem rpadStr_rtrim_witness :
    (∀ c ∈ str "MSFT", c ≠ 0) ∧ rpadStr 8 (str "MSFT") = str "MSFT    " ∧
    writeRTrim (rpadStr 8 (str "MSFT")) = str "MSFT" :=
  ⟨by decide,
    ((rpadStr_rtrim (str "MSFT") 8 (by decide)).2.1).trans (by decide),
    ((rpadStr_rtrim (str "MSFT") 8 (by decide)).2.2 (by decide) (by decide)).2⟩

/-! ## The sequence number file -/

theorem utoa_length_le (n : Nat) (h : n < 10000000000) : (utoa n).length ≤ 10 := by
  unfold utoa
  have := utoaAux_length (n + 1) n 9 [] (by norm_num; omega)
  simpa using this

theorem fmtInt10_length (v : Int) (h0 : 0 ≤ v) (h1 : v < 2147483648) :
    (fmtInt10 v).length = 10 := by
  unfold fmtInt10
  rw [if_neg (by omega)]
  have := utoa_length_le v.natAbs (by omega)
  simp only [List.nil_append, List.length_append, List.length_replicate]
  omega

theorem fmtInt10_neg_length (v : Int) (h0 : v < 0) (h1 : -2147483648 ≤ v) :
    (fmtInt10 v).length = 11 := by
  unfold fmtInt10
  rw [if_pos h0]
  have := utoa_length_le v.natAbs (by omega)
  simp only [List.length_append, List.length_replicate, List.length_singleton]
  omega

/-- Reading with `%d` a run of digits that the end of the input ends. -/
theorem scanInt_digits_end (ds : List Nat) (hne : ds ≠ []) (hd : ∀ x ∈ ds, isdigit x = true) :
    scanInt ds = some ((digitsValue ds : Int), []) ∧
    scanInt (45 :: ds) = some (-(digitsValue ds : Int), []) := by
  obtain ⟨x, l, rfl⟩ : ∃ x l, ds = x :: l := by
    cases ds with
    | nil => exact absurd rfl hne
    | cons x l => exact ⟨x, l, rfl⟩
  have hx := isdigit_not_space x (hd x (List.mem_cons_self _ _))
  have htw : (x :: l).takeWhile isdigit = x :: l := List.takeWhile_eq_self_iff.2 hd
  have hdw : (x :: l).dropWhile isdigit = [] := List.dropWhile_eq_nil_iff.2 hd
  constructor
  · unfold scanInt
    have h1 : (x :: l).dropWhile isspace = x :: l := by
      rw [List.dropWhile_cons_of_neg (by simp [hx.1])]
    simp only [h1]
    have h2 : (x :: l).head? = some x := rfl
    have b1 : (some x == some 45) = false := by simp [hx.2.1]
    have b2 : (some x == some 43) = false := by simp [hx.2.2]
    simp only [h2, b1, b2, Bool.or_self, Bool.false_eq_true, if_false, htw, hdw,
      List.isEmpty_cons]
  · unfold scanInt
    have h1 : (45 :: (x :: l)).dropWhile isspace = 45 :: (x :: l) := by
      rw [List.dropWhile_cons_of_neg (by decide)]
    simp only [h1]
    have h2 : (45 :: (x :: l)).head? = some 45 := rfl
    simp only [h2, beq_self_eq_true, Bool.true_or, if_true, List.tail_cons, htw, hdw,
      List.isEmpty_cons, Bool.false_eq_true, if_false]

theorem padded_digits (k n : Nat) :
    List.replicate k 48 ++ utoa n ≠ [] ∧
    (∀ x ∈ List.replicate k 48 ++ utoa n, isdigit x = true) ∧
    digitsValue (List.replicate k 48 ++ utoa n) = n := by
  refine ⟨?_, ?_, ?_⟩
  · intro h
    exact utoa_ne_nil n (List.append_eq_nil.1 h).2
  · intro x hx
    rcases List.mem_append.1 hx with h | h
    · rw [(List.mem_replicate.1 h).2]; rfl
    · exact utoa_digits n x h
  · rw [digitsValue_zeros, digitsValue_utoa]

theorem fmtInt10_eq (v : Int) :
    fmtInt10 v = (if v < 0 then [45] else []) ++
      (List.replicate (10 - (utoa v.natAbs).length) 48 ++ utoa v.natAbs) := by
  unfold fmtInt10
  rw [List.append_assoc]

theorem scanInt_fmtInt10 (v : Int) (c : Nat) (rest : List Nat) (hc : isdigit c = false) :
    scanInt (fmtInt10 v ++ c :: rest) = some (v, c :: rest) ∧
    scanInt (fmtInt10 v) = some (v, []) := by
  obtain ⟨p1, p2, p3⟩ := padded_digits (10 - (utoa v.natAbs).length) v.natAbs
  rw [fmtInt10_eq]
  by_cases h : v < 0
  · rw [if_pos h]
    simp only [List.singleton_append, List.cons_append, List.nil_append]
    rw [(scanInt_digits _ c rest p1 p2 hc).2, (scanInt_digits_end _ p1 p2).2, p3]
    have : -((v.natAbs : Nat) : Int) = v := by omega
    rw [this]
    exact ⟨rfl, rfl⟩
  · rw [if_neg h]
    simp only [List.nil_append]
    rw [(scanInt_digits _ c rest p1 p2 hc).1, (scanInt_digits_end _ p1 p2).1, p3]
    have : ((v.natAbs : Nat) : Int) = v := by omega
    rw [this]
    exact ⟨rfl, rfl⟩

/-- Reading back the record that `setSeqNum` writes, when the file holds nothing after it. -/
theorem scanSeqNums_record (a b : Int) :
    scanSeqNums (fmtInt10 a ++ str " : " ++ fmtInt10 b) = some (a, b) := by
  have e : fmtInt10 a ++ str " : " ++ fmtInt10 b = fmtInt10 a ++ 32 :: (58 :: 32 :: fmtInt10 b) := by
    rw [List.append_assoc]
    rfl
  obtain ⟨p1, p2, p3⟩ := padded_digits (10 - (utoa b.natAbs).length) b.natAbs
  have hb : scanSpace (32 :: fmtInt10 b) = fmtInt10 b := by
    unfold scanSpace
    rw [List.dropWhile_cons_of_pos (by decide)]
    rw [fmtInt10_eq]
    by_cases h : b < 0
    · rw [if_pos h]
      exact List.dropWhile_cons_of_neg (by decide)
    · rw [if_neg h, List.nil_append]
      cases hl : List.replicate (10 - (utoa b.natAbs).length) 48 ++ utoa b.natAbs with
      | nil => exact absurd hl p1
      | cons x l =>
        have hx := isdigit_not_space x (p2 x (by rw [hl]; exact List.mem_cons_self _ _))
        exact List.dropWhile_cons_of_neg (by simp [hx.1])
  unfold scanSeqNums
  rw [e, (scanInt_fmtInt10 a 32 _ (by decide)).1]
  simp only [Option.some_bind]
  have hs : scanSpace (32 :: 58 :: 32 :: fmtInt10 b) = 58 :: 32 :: fmtInt10 b := by
    unfold scanSpace
    rw [List.dropWhile_cons_of_pos (by decide), List.dropWhile_cons_of_neg (by decide)]
  rw [hs]
  simp only [scanLit, if_true, Option.some_bind]
  rw [hb, (scanInt_fmtInt10 b 0 []  (by decide)).2]
  rfl

theorem new_cache (body header q : List Nat) :
    (FileStore.new body header q).cache = (match scanSeqNums q with
      | some (sender, target) =>
        (MemoryStore.new.setNextSenderMsgSeqNum sender).setNextTargetMsgSeqNum target
      | none => MemoryStore.new) := by
  have hp := populateCache_files (FileStore.mk MemoryStore.new [] body header q)
  simp only at hp
  obtain ⟨_, _, _, _, p5⟩ := hp
  exact Eq.trans rfl p5

/-- C27: for counters from 0 to `INT_MAX`, `setSeqNum` writes a record of 23 bytes, two
numbers of ten digits with ` : ` between them; written from the start of a file that holds
no more than 23 bytes (nothing, or such a record) it is all that the file holds afterwards,
and the store opened again on the file has exactly the two counters written.  A negative
counter is written with a sign before its ten digits, in 11 bytes. -/
theorem seqnums_record (fs : FileStore)
    (hs : 0 ≤ fs.getNextSenderMsgSeqNum ∧ fs.getNextSenderMsgSeqNum < 2147483648)
    (ht : 0 ≤ fs.getNextTargetMsgSeqNum ∧ fs.getNextTargetMsgSeqNum < 2147483648)
    (hfile : fs.seqNumsFile.length ≤ 23) :
    (fmtInt10 fs.getNextSenderMsgSeqNum).length = 10 ∧
    (fmtInt10 fs.getNextTargetMsgSeqNum).length = 10 ∧
    fs.setSeqNum.seqNumsFile =
      fmtInt10 fs.getNextSenderMsgSeqNum ++ str " : " ++ fmtInt10 fs.getNextTargetMsgSeqNum ∧
    fs.setSeqNum.seqNumsFile.length = 23 ∧
    scanSeqNums fs.setSeqNum.seqNumsFile =
      some (fs.getNextSenderMsgSeqNum, fs.getNextTargetMsgSeqNum) ∧
    (FileStore.new fs.msgFile fs.headerFile fs.setSeqNum.seqNumsFile).getNextSenderMsgSeqNum =
      fs.getNextSenderMsgSeqNum ∧
    (FileStore.new fs.msgFile fs.headerFile fs.setSeqNum.seqNumsFile).getNextTargetMsgSeqNum =
      fs.getNextTargetMsgSeqNum ∧
    (∀ v : Int, v < 0 → -2147483648 ≤ v → (fmtInt10 v).length = 11) := by
  have l1 := fmtInt10_length _ hs.1 hs.2
  have l2 := fmtInt10_length _ ht.1 ht.2
  have hl : (fmtInt10 fs.getNextSenderMsgSeqNum ++ str " : " ++
      fmtInt10 fs.getNextTargetMsgSeqNum).length = 23 := by
    rw [List.length_append, List.length_append, l1, l2]
    rfl
  have hw : fs.setSeqNum.seqNumsFile =
      fmtInt10 fs.getNextSenderMsgSeqNum ++ str " : " ++ fmtInt10 fs.getNextTargetMsgSeqNum := by
    unfold FileStore.setSeqNum overwrite
    simp only
    rw [hl, List.drop_of_length_le hfile, List.append_nil]
  have hscan := scanSeqNums_record fs.getNextSenderMsgSeqNum fs.getNextTargetMsgSeqNum
  have hc := new_cache fs.msgFile fs.headerFile fs.setSeqNum.seqNumsFile
  rw [hw, hscan] at hc
  simp only at hc
  refine ⟨l1, l2, hw, by rw [hw, hl], by rw [hw, hscan], ?_, ?_, fmtInt10_neg_length⟩
  · unfold FileStore.getNextSenderMsgSeqNum
    rw [hw, hc]
    rfl
  · unfold FileStore.getNextTargetMsgSeqNum
    rw [hw, hc]
    rfl

theorem seqnums_record_witness :
    (FileStore.new [] [] []).incrNextSenderMsgSeqNum.getNextSenderMsgSeqNum = 2 ∧
    (FileStore.new [] [] []).incrNextSenderMsgSeqNum.setSeqNum.seqNumsFile =
      str "0000000002 : 0000000001" ∧
    scanSeqNums (FileStore.new [] [] []).incrNextSenderMsgSeqNum.setSeqNum.seqNumsFile =
      some (2, 1) :=
  ⟨by decide,
    ((seqnums_record (FileStore.new [] [] []).incrNextSenderMsgSeqNum (by decide) (by decide)
      (by decide)).2.2.1).trans (by decide),
    ((seqnums_record (FileStore.new [] [] []).incrNextSenderMsgSeqNum (by decide) (by decide)
      (by decide)).2.2.2.2.1).trans (by decide)⟩

/-- C27: a store whose next-target-seq was set to -3 and then to 7 has the counters 1 and 7,
and its file holds 24 bytes, the record `0000000001 : 0000000007` followed by the last byte
of the longer record written before; the store opened again on the file has the counters 1
and 73. -/
theorem seqnums_stale_byte :
    (((FileStore.new [] [] []).setNextTargetMsgSeqNum (-3)).seqNumsFile =
      str "0000000001 : -0000000003") ∧
    ((((FileStore.new [] [] []).setNextTargetMsgSeqNum (-3)).setNextTargetMsgSeqNum 7
      ).getNextTargetMsgSeqNum = 7) ∧
    ((((FileStore.new [] [] []).setNextTargetMsgSeqNum (-3)).setNextTargetMsgSeqNum 7
      ).seqNumsFile = str "0000000001 : 00000000073") ∧
    (FileStore.new [] []
      (((FileStore.new [] [] []).setNextTargetMsgSeqNum (-3)).setNextTargetMsgSeqNum 7
        ).seqNumsFile).getNextSenderMsgSeqNum = 1 ∧
    (FileStore.new [] []
      (((FileStore.new [] [] []).setNextTargetMsgSeqNum (-3)).setNextTargetMsgSeqNum 7
        ).seqNumsFile).getNextTargetMsgSeqNum = 73 := by
  decide

/-! ## The maps of the settings -/

theorem strLess_irrefl (a : List Nat) : strLess a a = false := by
  induction a with
  | nil => rfl
  | cons x l ih =>
    unfold strLess
    rw [if_neg (Nat.lt_irrefl x), if_neg (Nat.lt_irrefl x)]
    exact ih

theorem strLess_trans : ∀ (a b c : List Nat), strLess a b = true → strLess b c = true →
    strLess a c = true := by
  intro a
  induction a with
  | nil =>
    intro b c h1 h2
    cases b with
    | nil => cases h1
    | cons y bs =>
      cases c with
      | nil => cases h2
      | cons z cs => rfl
  | cons x as ih =>
    intro b c h1 h2
    cases b with
    | nil => cases h1
    | cons y bs =>
      cases c with
      | nil => cases h2
      | cons z cs =>
        unfold strLess at h1 h2 ⊢
        by_cases hxy : x < y
        · by_cases hyz : y < z
          · rw [if_pos (by omega)]
          · rw [if_neg hyz] at h2
            by_cases hzy : z < y
            · rw [if_pos hzy] at h2; cases h2
            · rw [if_pos (by omega)]
        · rw [if_neg hxy] at h1
          by_cases hyx : y < x
          · rw [if_pos hyx] at h1; cases h1
          · rw [if_neg hyx] at h1
            have hxy' : x = y := by omega
            subst hxy'
            by_cases hyz : x < z
            · rw [if_pos hyz]
            · rw [if_neg hyz] at h2 ⊢
              by_cases hzy : z < x
              · rw [if_pos hzy] at h2; cases h2
              · rw [if_neg hzy] at h2 ⊢
                exact ih bs cs h1 h2

theorem strLess_total : ∀ (a b : List Nat), strLess a b = false → a ≠ b →
    strLess b a = true := by
  intro a
  induction a with
  | nil =>
    intro b h1 h2
    cases b with
    | nil => exact absurd rfl h2
    | cons y bs => cases h1
  | cons x as ih =>
    intro b h1 h2
    cases b with
    | nil => rfl
    | cons y bs =>
      unfold strLess at h1 ⊢
      by_cases hxy : x < y
      · rw [if_pos hxy] at h1; cases h1
      · rw [if_neg hxy] at h1
        by_cases hyx : y < x
        · rw [if_pos hyx]
        · rw [if_neg hyx] at h1
          rw [if_neg hyx, if_neg hxy]
          have e : x = y := by omega
          subst e
          exact ih bs h1 (fun h => h2 (by rw [h]))

theorem strmapSet_mem {α : Type} (m : List (List Nat × α)) (k : List Nat) (v : α) :
    ∀ a ∈ strmapSet m k v, a = (k, v) ∨ a ∈ m := by
  intro a
  induction m with
  | nil =>
    intro ha
    left
    simpa [strmapSet] using ha
  | cons e2 r2 ih2 =>
    obtain ⟨k2, v2⟩ := e2
    unfold strmapSet
    intro ha
    by_cases d1 : strLess k k2 = true
    · rw [if_pos d1] at ha
      rcases List.mem_cons.1 ha with e | e
      · left; exact e
      · right; exact e
    · rw [if_neg d1] at ha
      by_cases d2 : k = k2
      · rw [if_pos d2] at ha
        rcases List.mem_cons.1 ha with e | e
        · left; exact e
        · right; exact List.mem_cons_of_mem _ e
      · rw [if_neg d2] at ha
        rcases List.mem_cons.1 ha with e | e
        · right; rw [e]; exact List.mem_cons_self _ _
        · rcases ih2 e with e3 | e3
          · left; exact e3
          · right; exact List.mem_cons_of_mem _ e3

/-- The keys of a map are in ascending order. -/
theorem strmapSet_sorted {α : Type} (m : List (List Nat × α)) (k : List Nat) (v : α)
    (h : m.Pairwise fun a b => strLess a.1 b.1 = true) :
    (strmapSet m k v).Pairwise fun a b => strLess a.1 b.1 = true := by
  induction m with
  | nil => exact List.pairwise_singleton _ _
  | cons e rest ih =>
    obtain ⟨k1, v1⟩ := e
    rw [List.pairwise_cons] at h
    obtain ⟨h1, h2⟩ := h
    unfold strmapSet
    by_cases c1 : strLess k k1 = true
    · rw [if_pos c1]
      refine List.pairwise_cons.2 ⟨?_, List.pairwise_cons.2 ⟨h1, h2⟩⟩
      intro a ha
      rcases List.mem_cons.1 ha with e | e
      · rw [e]; exact c1
      · exact strLess_trans _ _ _ c1 (h1 a e)
    · rw [if_neg c1]
      by_cases c2 : k = k1
      · rw [if_pos c2]
        refine List.pairwise_cons.2 ⟨?_, h2⟩
        intro a ha
        rw [c2]
        exact h1 a ha
      · rw [if_neg c2]
        refine List.pairwise_cons.2 ⟨?_, ih h2⟩
        have c3 : strLess k1 k = true :=
          strLess_total k k1 (by simpa using c1) c2
        intro a ha
        rcases strmapSet_mem rest k v a ha with e | e
        · rw [e]; exact c3
        · exact h1 a e

theorem strmapFind_set {α : Type} (m : List (List Nat × α)) (k k1 : List Nat) (v : α) :
    strmapFind (strmapSet m k v) k1 = if k1 = k then some v else strmapFind m k1 := by
  induction m with
  | nil =>
    unfold strmapSet strmapFind
    by_cases h : k1 = k
    · rw [if_pos h, h]
      simp
    · rw [if_neg h]
      have : (k == k1) = false := by simpa using fun e => h e.symm
      simp [List.find?, this]
  | cons e rest ih =>
    obtain ⟨k2, v2⟩ := e
    unfold strmapSet
    by_cases c1 : strLess k k2 = true
    · rw [if_pos c1]
      by_cases h : k1 = k
      · rw [if_pos h, h]
        simp [strmapFind]
      · rw [if_neg h]
        have : (k == k1) = false := by simpa using fun e => h e.symm
        simp [strmapFind, List.find?, this]
    · rw [if_neg c1]
      by_cases c2 : k = k2
      · rw [if_pos c2]
        subst c2
        by_cases h : k1 = k
        · rw [if_pos h, h]
          simp [strmapFind]
        · rw [if_neg h]
          have : (k == k1) = false := by simpa using fun e => h e.symm
          simp [strmapFind, List.find?, this]
      · rw [if_neg c2]
        have e1 : strmapFind ((k2, v2) :: strmapSet rest k v) k1 =
            if k2 = k1 then some v2 else strmapFind (strmapSet rest k v) k1 := by
          by_cases h : k2 = k1
          · rw [if_pos h, h]; simp [strmapFind]
          · rw [if_neg h]
            have : (k2 == k1) = false := by simpa using h
            simp [strmapFind, List.find?, this]
        have e2 : strmapFind ((k2, v2) :: rest) k1 =
            if k2 = k1 then some v2 else strmapFind rest k1 := by
          by_cases h : k2 = k1
          · rw [if_pos h, h]; simp [strmapFind]
          · rw [if_neg h]
            have : (k2 == k1) = false := by simpa using h
            simp [strmapFind, List.find?, this]
        rw [e1, e2, ih]
        by_cases h : k2 = k1
        · rw [if_pos h, if_neg (by rw [← h]; exact fun e => c2 e.symm), if_pos h]
        · rw [if_neg h, if_neg h]

theorem strmapFind_cons {α : Type} (k2 : List Nat) (v2 : α) (rest : List (List Nat × α))
    (k1 : List Nat) :
    strmapFind ((k2, v2) :: rest) k1 = if k2 = k1 then some v2 else strmapFind rest k1 := by
  by_cases h : k2 = k1
  · rw [if_pos h, h]; simp [strmapFind]
  · rw [if_neg h]
    have : (k2 == k1) = false := by simpa using h
    simp [strmapFind, List.find?, this]

theorem strmapFind_none {α : Type} (m : List (List Nat × α)) (k : List Nat) :
    strmapFind m k = none ↔ ∀ v, (k, v) ∉ m := by
  induction m with
  | nil => simp [strmapFind]
  | cons e rest ih =>
    obtain ⟨k2, v2⟩ := e
    rw [strmapFind_cons]
    by_cases h : k2 = k
    · rw [if_pos h]
      constructor
      · intro c; cases c
      · intro c
        exact absurd (List.mem_cons_self _ _) (h ▸ c v2)
    · rw [if_neg h, ih]
      constructor
      · intro c v hv
        rcases List.mem_cons.1 hv with e | e
        · exact h (congrArg Prod.fst e).symm
        · exact c v e
      · intro c v hv
        exact c v (List.mem_cons_of_mem _ hv)

/-- In a map every key has one entry: `find` gives the value of the entry. -/
theorem strmapFind_mem {α : Type} (m : List (List Nat × α)) (k : List Nat) (v : α)
    (hs : m.Pairwise fun a b => strLess a.1 b.1 = true) (h : (k, v) ∈ m) :
    strmapFind m k = some v := by
  induction m with
  | nil => cases h
  | cons e rest ih =>
    obtain ⟨k2, v2⟩ := e
    rw [List.pairwise_cons] at hs
    rw [strmapFind_cons]
    rcases List.mem_cons.1 h with e | e
    · injection e with e1 e2
      rw [if_pos e1.symm, e2]
    · have hlt := hs.1 _ e
      simp only at hlt
      have hne : k2 ≠ k := by
        intro c
        rw [c, strLess_irrefl] at hlt
        cases hlt
      rw [if_neg hne]
      exact ih hs.2 e

theorem overrideWith_find (own : StrMap) : ∀ (defaults : StrMap) (k : List Nat),
    own.Pairwise (fun a b => strLess a.1 b.1 = true) →
    strmapFind (overrideWith defaults own) k =
      (match strmapFind own k with
       | some v => some v
       | none => strmapFind defaults k) := by
  induction own with
  | nil => intro d k _; rfl
  | cons e rest ih =>
    obtain ⟨k1, v1⟩ := e
    intro d k hs
    rw [List.pairwise_cons] at hs
    have hstep : overrideWith d ((k1, v1) :: rest) = overrideWith (strmapSet d k1 v1) rest := rfl
    rw [hstep, ih _ k hs.2, strmapFind_cons, strmapFind_set]
    by_cases h : k1 = k
    · rw [if_pos h, if_pos h.symm]
      have hn : strmapFind rest k = none := by
        rw [strmapFind_none]
        intro v hv
        have hlt := hs.1 _ hv
        simp only at hlt
        rw [h, strLess_irrefl] at hlt
        cases hlt
      rw [hn]
    · rw [if_neg h, if_neg (fun e => h e.symm)]

theorem overrideWith_sorted (own : StrMap) : ∀ (defaults : StrMap),
    defaults.Pairwise (fun a b => strLess a.1 b.1 = true) →
    (overrideWith defaults own).Pairwise (fun a b => strLess a.1 b.1 = true) := by
  induction own with
  | nil => intro d h; exact h
  | cons e rest ih =>
    intro d h
    exact ih _ (strmapSet_sorted d e.1 e.2 h)

theorem overrideWith_mem (own : StrMap) : ∀ (defaults : StrMap),
    ∀ a ∈ overrideWith defaults own, a ∈ own ∨ a ∈ defaults := by
  induction own with
  | nil => intro d a h; right; exact h
  | cons e rest ih =>
    intro d a h
    rcases ih (strmapSet d e.1 e.2) a h with c | c
    · left; exact List.mem_cons_of_mem _ c
    · rcases strmapSet_mem d e.1 e.2 a c with c2 | c2
      · left; rw [c2]; exact List.mem_cons_self _ _
      · right; exact c2

theorem tolower_idem (c : Nat) : tolower (tolower c) = tolower c := by
  unfold tolower
  by_cases h : 65 ≤ c ∧ c ≤ 90
  · rw [if_pos h, if_neg (by omega)]
  · rw [if_neg h, if_neg h]

theorem toLower_idem (s : List Nat) : toLower (toLower s) = toLower s := by
  unfold toLower
  rw [List.map_map]
  apply List.map_congr_left
  intro c _
  exact tolower_idem c

theorem readSettingsLine_header (secmap : List (List Nat × StrMap)) (line name : List Nat)
    (h : headerName line = some name) :
    readSettingsLine secmap line = secmap ++ [(name, [])] := by
  unfold headerName at h
  split at h
  · rename_i hc
    injection h with h
    have hne : line.isEmpty = false := by
      cases line with
      | nil => simp at hc
      | cons x l => rfl
    have h35 : ¬ line.head? = some 35 := by
      rw [hc.1]; decide
    unfold readSettingsLine
    rw [hne]
    simp only [Bool.false_eq_true, if_false]
    rw [if_neg h35, if_pos hc, h]
  · cases h

theorem readSettingsLine_other (secmap : List (List Nat × StrMap)) (line name : List Nat)
    (m : StrMap) (h : headerName line = none) :
    readSettingsLine (secmap ++ [(name, m)]) line =
      secmap ++ [(name, match keyValue line with
        | some kv => strmapSet m kv.1 kv.2
        | none => m)] := by
  have hh : ¬ (line.head? = some 91 ∧ line.getLast? = some 93) := by
    intro hc
    unfold headerName at h
    rw [if_pos hc] at h
    cases h
  unfold readSettingsLine keyValue
  rw [h]
  by_cases he : line.isEmpty = true
  · rw [if_pos he]
    have : line = [] := List.isEmpty_iff.1 he
    subst this
    simp
  · rw [if_neg he]
    by_cases h35 : line.head? = some 35
    · rw [if_pos h35, if_pos (Or.inl h35)]
    · rw [if_neg h35, if_neg hh]
      have : ¬ (line.head? = some 35 ∨ (none : Option (List Nat)).isSome = true) := by
        simp [h35]
      rw [if_neg this]
      by_cases heq : 61 ∈ line
      · rw [if_pos heq, if_pos heq]
        simp only [List.getLast?_append, List.getLast?_singleton, List.dropLast_concat]
        rfl
      · rw [if_neg heq, if_neg heq]

theorem readSettingsLine_first (line : List Nat) (h : headerName line = none) :
    readSettingsLine [] line = [] := by
  have hh : ¬ (line.head? = some 91 ∧ line.getLast? = some 93) := by
    intro hc
    unfold headerName at h
    rw [if_pos hc] at h
    cases h
  unfold readSettingsLine
  rw [if_neg hh]
  simp

/-- The key lines that follow the header of a section, up to the next header, make the map
of the section. -/
theorem foldl_section (body : List (List Nat)) : ∀ (secmap : List (List Nat × StrMap))
    (name : List Nat) (m : StrMap), (∀ l ∈ body, headerName l = none) →
    body.foldl readSettingsLine (secmap ++ [(name, m)]) =
      secmap ++ [(name, assignAll m (body.filterMap keyValue))] := by
  induction body with
  | nil => intro secmap name m _; rfl
  | cons l rest ih =>
    intro secmap name m h
    rw [List.foldl_cons, readSettingsLine_other _ _ _ _ (h l (List.mem_cons_self _ _)),
      ih _ _ _ (fun x hx => h x (List.mem_cons_of_mem _ hx))]
    cases hk : keyValue l with
    | none => simp only [List.filterMap_cons, hk]
    | some kv => simp only [List.filterMap_cons, hk]; rfl

theorem readSections_snoc (pre : List (List Nat)) (line : List Nat) :
    readSections (pre ++ [line]) = readSettingsLine (readSections pre) line := by
  unfold readSections
  rw [List.foldl_append]
  rfl

theorem readSections_names (lines : List (List Nat)) :
    (readSections lines).map Prod.fst = lines.filterMap headerName := by
  induction lines using List.reverseRecOn with
  | nil => rfl
  | append_singleton pre line ih =>
    rw [readSections_snoc, List.filterMap_append]
    cases hn : headerName line with
    | some name =>
      rw [readSettingsLine_header _ _ _ hn, List.map_append, ih]
      simp only [List.filterMap_cons, hn, List.filterMap_nil, List.map_cons, List.map_nil]
    | none =>
      simp only [List.filterMap_cons, hn, List.filterMap_nil, List.append_nil]
      rw [← ih]
      rcases List.eq_nil_or_concat (readSections pre) with e | ⟨init, last, e⟩
      · rw [e, readSettingsLine_first _ hn]
      · obtain ⟨name, m⟩ := last
        rw [e, List.concat_eq_append, readSettingsLine_other _ _ _ _ hn]
        simp only [List.map_append, List.map_cons, List.map_nil]

/-- Every map that the loop collects is in ascending order of its keys, which are in lower
case. -/
theorem readSections_maps (lines : List (List Nat)) :
    ∀ e ∈ readSections lines, e.2.Pairwise (fun a b => strLess a.1 b.1 = true) ∧
      ∀ kv ∈ e.2, toLower kv.1 = kv.1 := by
  induction lines using List.reverseRecOn with
  | nil => intro e he; cases he
  | append_singleton pre line ih =>
    rw [readSections_snoc]
    cases hn : headerName line with
    | some name =>
      rw [readSettingsLine_header _ _ _ hn]
      intro e he
      rcases List.mem_append.1 he with c | c
      · exact ih e c
      · rw [List.mem_singleton.1 c]
        exact ⟨List.Pairwise.nil, fun kv hkv => by cases hkv⟩
    | none =>
      rcases List.eq_nil_or_concat (readSections pre) with e0 | ⟨init, last, e0⟩
      · rw [e0, readSettingsLine_first _ hn]
        intro e he; cases he
      · obtain ⟨name, m⟩ := last
        rw [e0, List.concat_eq_append] at ih
        rw [e0, List.concat_eq_append, readSettingsLine_other _ _ _ _ hn]
        intro e he
        rcases List.mem_append.1 he with c | c
        · exact ih e (List.mem_append_left _ c)
        · rw [List.mem_singleton.1 c]
          have hm := ih (name, m) (List.mem_append_right _ (List.mem_singleton.2 rfl))
          cases hk : keyValue line with
          | none => exact hm
          | some kv =>
            refine ⟨strmapSet_sorted _ _ _ hm.1, ?_⟩
            intro a ha
            rcases strmapSet_mem _ _ _ a ha with c2 | c2
            · rw [c2]
              unfold keyValue at hk
              split at hk
              · cases hk
              · split at hk
                · injection hk with hk
                  rw [← hk]
                  exact toLower_idem _
                · cases hk
            · exact hm.2 a c2

theorem headerName_brackets (inner : List Nat) :
    headerName (91 :: (inner ++ [93])) = some (toLower (trim inner)) := by
  unfold headerName
  have h1 : (91 :: (inner ++ [93])).head? = some 91 := rfl
  have h2 : (91 :: (inner ++ [93])).getLast? = some 93 := by
    rw [← List.cons_append, List.getLast?_append]
    rfl
  rw [if_pos ⟨h1, h2⟩]
  have h3 : ((91 :: (inner ++ [93])).drop 1).take ((91 :: (inner ++ [93])).length - 2) = inner := by
    simp only [List.drop_succ_cons, List.drop_zero, List.length_cons, List.length_append,
      List.length_nil]
    have : inner.length + (0 + 1) + 1 - 2 = inner.length := by omega
    rw [this, List.take_left' rfl]
  rw [h3]

theorem defaultsOf_sorted (lines : List (List Nat)) :
    (defaultsOf (readSections lines)).Pairwise (fun a b => strLess a.1 b.1 = true) ∧
    ∀ kv ∈ defaultsOf (readSections lines), toLower kv.1 = kv.1 := by
  unfold defaultsOf
  cases h : ((readSections lines).filter fun e => e.1 == str "default").head? with
  | none => exact ⟨List.Pairwise.nil, fun kv hkv => by cases hkv⟩
  | some e =>
    have hm : e ∈ (readSections lines).filter fun e => e.1 == str "default" :=
      List.mem_of_mem_head? h
    exact readSections_maps lines e (List.mem_filter.1 hm).1

/-- C28: what `readSettings` returns.  The loop collects one section for every line that
starts with `[` and ends with `]`, in the order of the file, named by the text between the
brackets in lower case; the lines with `=` that follow the header, up to the next header,
are assigned to the map of the section under their key in lower case.  The function returns
one map for every section named `session`, in that order: the copy of the entries of the
first section named `default` in which the entries of the section are assigned, so that a key
has the value the section gives it and otherwise the value the defaults give it.  The keys of
the maps are in lower case and `StrMapIgnoreCase` looks a key up in lower case: every spelling
of a key gives the value of the entry.  For the stream of the test program the result is four
maps, each with the host, the two ports and the two paths of the defaults. -/
theorem readSettings_sessions (lines : List (List Nat)) :
    (readSections lines).map Prod.fst = lines.filterMap headerName ∧
    (∀ inner, headerName (91 :: (inner ++ [93])) = some (toLower (trim inner))) ∧
    (∀ (pre body : List (List Nat)) (h name : List Nat), headerName h = some name →
      (∀ l ∈ body, headerName l = none) →
      readSections (pre ++ [h] ++ body) =
        readSections pre ++ [(name, assignAll [] (body.filterMap keyValue))]) ∧
    readSettingsLines lines =
      ((readSections lines).filter fun e => e.1 == str "session").map
        (fun e => overrideWith (defaultsOf (readSections lines)) e.2) ∧
    (readSettingsLines lines).length = (lines.filterMap headerName).count (str "session") ∧
    (∀ e ∈ readSections lines, ∀ k,
      strmapFind (overrideWith (defaultsOf (readSections lines)) e.2) k =
        (match strmapFind e.2 k with
         | some v => some v
         | none => strmapFind (defaultsOf (readSections lines)) k)) ∧
    (∀ m ∈ readSettingsLines lines, ∀ kv ∈ m, toLower kv.1 = kv.1 ∧
      ∀ k, toLower k = kv.1 → StrMapIgnoreCase.index m k = kv.2) ∧
    (∀ (m : StrMap) (k k1 : List Nat) (d : Int), toLower k = toLower k1 →
      StrMapIgnoreCase.index m k = StrMapIgnoreCase.index m k1 ∧
      StrMapIgnoreCase.get m k d = StrMapIgnoreCase.get m k1 d) ∧
    (readSettings (testSettings 9123)).map (fun m =>
      [StrMapIgnoreCase.index m (str "Username"),
       StrMapIgnoreCase.index m (str "ConnectionType"),
       StrMapIgnoreCase.index m (str "SocketConnectHost"),
       StrMapIgnoreCase.index m (str "SocketConnectPort"),
       StrMapIgnoreCase.index m (str "SocketAcceptPort"),
       StrMapIgnoreCase.index m (str "FileStorePath"),
       StrMapIgnoreCase.index m (str "FileLogPath")]) =
      [[str "zhb", str "acceptor", str "localhost", str "9123", str "9123",
         str "out/test_store", str "out/test_log"],
       [str "zhb2", str "acceptor", str "localhost", str "9123", str "9123",
         str "out/test_store", str "out/test_log"],
       [str "zhb", str "initiator", str "localhost", str "9123", str "9123",
         str "out/test_store", str "out/test_log"],
       [str "zhb2", str "initiator", str "localhost", str "9123", str "9123",
         str "out/test_store", str "out/test_log"]] := by
  refine ⟨readSections_names lines, headerName_brackets, ?_, rfl, ?_, ?_, ?_, ?_, by decide⟩
  · intro pre body h name hh hb
    unfold readSections
    rw [List.foldl_append, List.foldl_append]
    have e : List.foldl readSettingsLine (List.foldl readSettingsLine [] pre) [h] =
        readSettingsLine (readSections pre) h := rfl
    rw [e, readSettingsLine_header _ _ _ hh, foldl_section body _ _ _ hb]
    rfl
  · unfold readSettingsLines
    simp only [List.length_map]
    rw [← readSections_names, List.count_eq_countP, List.countP_eq_length_filter,
      List.filter_map, List.length_map]
    rfl
  · intro e he k
    exact overrideWith_find e.2 _ k (readSections_maps lines e he).1
  · intro m hm kv hkv
    unfold readSettingsLines at hm
    simp only [List.mem_map, List.mem_filter] at hm
    obtain ⟨e, ⟨he, _⟩, rfl⟩ := hm
    have hd := defaultsOf_sorted lines
    have hs := overrideWith_sorted e.2 _ hd.1
    have hl : toLower kv.1 = kv.1 := by
      rcases overrideWith_mem e.2 _ kv hkv with c | c
      · exact (readSections_maps lines e he).2 kv c
      · exact hd.2 kv c
    refine ⟨hl, ?_⟩
    intro k hk
    unfold StrMapIgnoreCase.index
    rw [hk, strmapFind_mem _ kv.1 kv.2 hs hkv]
  · intro m k k1 d h
    unfold StrMapIgnoreCase.index StrMapIgnoreCase.get
    rw [h]
    exact ⟨rfl, rfl⟩

/-- C28: the call `trim(line)` at the top of the loop of `readSettings` drops its result, so
that a header with white space around it is not taken as a header.  A stream whose lines end
with a carriage return and a line feed gives no map at all, where the same lines ending with
a line feed give one session with the host of the defaults; so does a header after a
blank. -/
theorem readSettings_untrimmed :
    readSettings (str "[DEFAULT]\r\nSocketConnectHost=localhost\r\n[SESSION]\r\nUsername=zhb\r\n")
      = [] ∧
    (readSettings (str "[DEFAULT]\nSocketConnectHost=localhost\n[SESSION]\nUsername=zhb\n")).map
      (fun m => [StrMapIgnoreCase.index m (str "Username"),
        StrMapIgnoreCase.index m (str "SocketConnectHost")]) = [[str "zhb", str "localhost"]] ∧
    readSettings (str "[DEFAULT]\nSocketConnectHost=localhost\n [SESSION]\nUsername=zhb\n") = [] ∧
    trim (str " [SESSION]\r") = str "[SESSION]" := by
  decide

/-! ## The identity of a session -/

theorem reconnectInterval_pos (settings : StrMap) :
    0 < (SessionInfo.new settings).reconnectInterval := by
  unfold SessionInfo.new
  simp only
  split <;> omega

/-- C29: the sender and the target that the constructor of `Session` settles on.  An
initiator has the sender `SenderCompId`, or `Username` when that is empty, and the target
`TargetCompId` as it is.  An acceptor has the target `TargetCompId`, or `Username` when that
is empty; its sender is `SenderCompId` when that is not empty, `OUCH` when both
`SenderCompId` and `TargetCompId` are empty, and empty when `SenderCompId` is empty and
`TargetCompId` is not.  The id is the sender, `->` and the target. -/
theorem session_identity (settings : StrMap) :
    ((SessionInfo.new settings).isClient = true ↔
      (StrMapIgnoreCase.index settings (str "ConnectionType") = str "initiator" ∨
       StrMapIgnoreCase.index settings (str "ConnectionType") = str "client")) ∧
    ((SessionInfo.new settings).isClient = true →
      (SessionInfo.new settings).senderCompId =
        (if (StrMapIgnoreCase.index settings (str "SenderCompId")).isEmpty
         then StrMapIgnoreCase.index settings (str "Username")
         else StrMapIgnoreCase.index settings (str "SenderCompId")) ∧
      (SessionInfo.new settings).targetCompId =
        StrMapIgnoreCase.index settings (str "TargetCompId")) ∧
    ((SessionInfo.new settings).isClient = false →
      (SessionInfo.new settings).targetCompId =
        (if (StrMapIgnoreCase.index settings (str "TargetCompId")).isEmpty
         then StrMapIgnoreCase.index settings (str "Username")
         else StrMapIgnoreCase.index settings (str "TargetCompId")) ∧
      (SessionInfo.new settings).senderCompId =
        (if (StrMapIgnoreCase.index settings (str "SenderCompId")).isEmpty
         then (if (StrMapIgnoreCase.index settings (str "TargetCompId")).isEmpty
           then str "OUCH" else [])
         else StrMapIgnoreCase.index settings (str "SenderCompId"))) ∧
    (SessionInfo.new settings).id =
      (SessionInfo.new settings).senderCompId ++ str "->" ++
        (SessionInfo.new settings).targetCompId ∧
    0 < (SessionInfo.new settings).reconnectInterval := by
  refine ⟨?_, ?_, ?_, rfl, reconnectInterval_pos settings⟩
  · unfold SessionInfo.new
    simp only [Bool.or_eq_true, decide_eq_true_eq]
  · intro hc
    unfold SessionInfo.new at hc ⊢
    simp only at hc ⊢
    rw [hc]
    simp only [Bool.not_true, Bool.and_false, Bool.false_eq_true, if_false, Bool.and_true,
      and_self]
  · intro hc
    unfold SessionInfo.new at hc ⊢
    simp only at hc ⊢
    rw [hc]
    simp only [Bool.not_false, Bool.and_true, Bool.and_false, Bool.false_eq_true, if_false,
      true_and]
    cases h1 : (StrMapIgnoreCase.index settings (str "TargetCompId")).isEmpty <;>
      cases h2 : (StrMapIgnoreCase.index settings (str "SenderCompId")).isEmpty <;>
      simp [h2, List.isEmpty_iff.1]

/-- C29: an acceptor section that gives `TargetCompId` and no `SenderCompId` has an empty
sender, not the sender `OUCH`; with neither of the two the sender is `OUCH`. -/
theorem acceptor_sender_empty :
    (readSettings (str "[SESSION]\nUsername=zhb\nPassword=xxx\nConnectionType=acceptor\n" ++
      str "TargetCompId=CLIENT\n")).map
      (fun m => ((SessionInfo.new m).isClient, (SessionInfo.new m).senderCompId,
        (SessionInfo.new m).targetCompId, (SessionInfo.new m).id)) =
      [(false, [], str "CLIENT", str "->CLIENT")] ∧
    (readSettings (str "[SESSION]\nUsername=zhb\nPassword=xxx\nConnectionType=acceptor\n")).map
      (fun m => ((SessionInfo.new m).isClient, (SessionInfo.new m).senderCompId,
        (SessionInfo.new m).targetCompId, (SessionInfo.new m).id)) =
      [(false, str "OUCH", str "zhb", str "OUCH->zhb")] := by
  decide

/-! ## Duplicate sessions -/

theorem createSessionsFrom_cons (reg : Registry) (ans : List SessionInfo) (i : Nat)
    (s : StrMap) (rest : List StrMap) (hv : Session.checkSection i s = none) :
    Session.createSessionsFrom reg ans i (s :: rest) =
      if (strmapFind reg.sessionMap (SessionInfo.new s).id).isSome then
        Except.error (str "duplicate session " ++ (SessionInfo.new s).id)
      else
        Session.createSessionsFrom
          { sessionMap := strmapSet reg.sessionMap (SessionInfo.new s).id (SessionInfo.new s),
            sessions := reg.sessions ++ [SessionInfo.new s] }
          (ans ++ [SessionInfo.new s]) (i + 1) rest := by
  rw [Session.createSessionsFrom, hv]

/-- The sections that the loop accepts are registered under their ids, and the loop goes on
with the sections that follow. -/
theorem createSessionsFrom_append (pre : List StrMap) : ∀ (reg : Registry)
    (ans : List SessionInfo) (i : Nat) (reg1 : Registry) (ans1 : List SessionInfo),
    Session.createSessionsFrom reg ans i pre = Except.ok (reg1, ans1) →
    (∀ id, (strmapFind reg1.sessionMap id).isSome = true ↔
      ((strmapFind reg.sessionMap id).isSome = true ∨ ∃ t ∈ pre, (SessionInfo.new t).id = id)) ∧
    ans1 = ans ++ pre.map SessionInfo.new ∧
    reg1.sessions = reg.sessions ++ pre.map SessionInfo.new ∧
    ∀ rest, Session.createSessionsFrom reg ans i (pre ++ rest) =
      Session.createSessionsFrom reg1 ans1 (i + pre.length) rest := by
  induction pre with
  | nil =>
    intro reg ans i reg1 ans1 h
    rw [Session.createSessionsFrom] at h
    injection h with h
    injection h with h1 h2
    subst h1 h2
    refine ⟨fun id => ?_, by simp, by simp, fun rest => rfl⟩
    constructor
    · intro c; left; exact c
    · rintro (c | ⟨t, ht, _⟩)
      · exact c
      · cases ht
  | cons s pre ih =>
    intro reg ans i reg1 ans1 h
    rw [Session.createSessionsFrom] at h
    cases hv : Session.checkSection i s with
    | some msg => rw [hv] at h; cases h
    | none =>
      rw [hv] at h
      simp only at h
      by_cases hd : (strmapFind reg.sessionMap (SessionInfo.new s).id).isSome = true
      · rw [if_pos hd] at h; cases h
      · rw [if_neg hd] at h
        obtain ⟨k1, k2, k3, k4⟩ := ih _ _ _ _ _ h
        refine ⟨fun id => ?_, ?_, ?_, fun rest => ?_⟩
        · rw [k1 id]
          simp only [strmapFind_set]
          constructor
          · rintro (c | ⟨t, ht, e⟩)
            · by_cases hid : id = (SessionInfo.new s).id
              · right; exact ⟨s, List.mem_cons_self _ _, hid.symm⟩
              · rw [if_neg hid] at c; left; exact c
            · right; exact ⟨t, List.mem_cons_of_mem _ ht, e⟩
          · rintro (c | ⟨t, ht, e⟩)
            · by_cases hid : id = (SessionInfo.new s).id
              · left; rw [if_pos hid]; rfl
              · left; rw [if_neg hid]; exact c
            · rcases List.mem_cons.1 ht with e1 | e1
              · left
                rw [if_pos (by rw [← e, e1])]
                rfl
              · right; exact ⟨t, e1, e⟩
        · rw [k2]; simp
        · rw [k3]; simp
        · rw [List.cons_append, createSessionsFrom_cons _ _ _ _ _ hv, if_neg hd, k4 rest]
          congr 1
          simp only [List.length_cons]
          omega

/-- A sender without `>` is a sender that the id tells from the target. -/
theorem makeId_injective (s1 : List Nat) : ∀ (s2 t1 t2 : List Nat), 62 ∉ s1 → 62 ∉ s2 →
    Session.makeId s1 t1 = Session.makeId s2 t2 → s1 = s2 ∧ t1 = t2 := by
  have key : ∀ (l t u : List Nat), 62 ∉ l → [45, 62] ++ t = l ++ [45, 62] ++ u → l = [] := by
    intro l t u hl h
    cases l with
    | nil => rfl
    | cons y l1 =>
      cases l1 with
      | nil =>
        simp only [List.cons_append, List.nil_append, List.cons.injEq] at h
        omega
      | cons z l2 =>
        simp only [List.cons_append, List.nil_append, List.cons.injEq] at h
        exact absurd (by rw [← h.2.1]; simp) hl
  induction s1 with
  | nil =>
    intro s2 t1 t2 _ h2 h
    unfold Session.makeId at h
    have e : s2 = [] := key s2 t1 t2 h2 (by simpa [str] using h)
    subst e
    exact ⟨rfl, by simpa [str] using h⟩
  | cons x l ih =>
    intro s2 t1 t2 h1 h2 h
    cases s2 with
    | nil =>
      unfold Session.makeId at h
      have e : x :: l = [] := key (x :: l) t2 t1 h1 (by simpa [str] using h.symm)
      cases e
    | cons y l2 =>
      unfold Session.makeId at h
      simp only [List.cons_append, List.cons.injEq] at h
      obtain ⟨e1, e2⟩ := ih l2 t1 t2 (fun c => h1 (List.mem_cons_of_mem _ c))
        (fun c => h2 (List.mem_cons_of_mem _ c)) h.2
      exact ⟨by rw [h.1, e1], e2⟩

/-- C30: `createSessions` from an empty registry, on the sections `pre` that it accepts
followed by a section `s` that passes the tests on its keys.  The section `s` is refused as
a duplicate exactly when a section of `pre` has the same id, the text made of the sender,
`->` and the target; it is accepted otherwise.  Sections with the same sender and the same
target have the same id, and sections with the same id have the same sender and target when
there is no `>` in the two senders. -/
theorem duplicate_session (pre : List StrMap) (s : StrMap) (reg1 : Registry)
    (ans1 : List SessionInfo)
    (hpre : Session.createSessions { sessionMap := [], sessions := [] } pre =
      Except.ok (reg1, ans1))
    (hv : Session.checkSection pre.length s = none) :
    ans1 = pre.map SessionInfo.new ∧
    (Session.createSessions { sessionMap := [], sessions := [] } (pre ++ [s]) =
        Except.error (str "duplicate session " ++ (SessionInfo.new s).id) ↔
      ∃ t ∈ pre, (SessionInfo.new t).id = (SessionInfo.new s).id) ∧
    ((¬ ∃ t ∈ pre, (SessionInfo.new t).id = (SessionInfo.new s).id) →
      ∃ reg2, Session.createSessions { sessionMap := [], sessions := [] } (pre ++ [s]) =
        Except.ok (reg2, pre.map SessionInfo.new ++ [SessionInfo.new s])) ∧
    (∀ t : StrMap, (SessionInfo.new t).senderCompId = (SessionInfo.new s).senderCompId →
      (SessionInfo.new t).targetCompId = (SessionInfo.new s).targetCompId →
      (SessionInfo.new t).id = (SessionInfo.new s).id) ∧
    (∀ t : StrMap, 62 ∉ (SessionInfo.new t).senderCompId →
      62 ∉ (SessionInfo.new s).senderCompId →
      (SessionInfo.new t).id = (SessionInfo.new s).id →
      (SessionInfo.new t).senderCompId = (SessionInfo.new s).senderCompId ∧
      (SessionInfo.new t).targetCompId = (SessionInfo.new s).targetCompId) := by
  unfold Session.createSessions at hpre ⊢
  obtain ⟨k1, k2, _, k4⟩ := createSessionsFrom_append pre _ _ _ _ _ hpre
  have hstep := k4 [s]
  rw [Nat.zero_add, createSessionsFrom_cons _ _ _ _ _ hv] at hstep
  have hdup : (strmapFind reg1.sessionMap (SessionInfo.new s).id).isSome = true ↔
      ∃ t ∈ pre, (SessionInfo.new t).id = (SessionInfo.new s).id := by
    rw [k1]
    constructor
    · rintro (c | c)
      · cases c
      · exact c
    · intro c; right; exact c
  refine ⟨by rw [k2]; rfl, ?_, ?_, ?_, ?_⟩
  · rw [hstep]
    constructor
    · intro h
      by_cases hd : (strmapFind reg1.sessionMap (SessionInfo.new s).id).isSome = true
      · exact hdup.1 hd
      · rw [if_neg hd, Session.createSessionsFrom] at h
        cases h
    · intro h
      rw [if_pos (hdup.2 h)]
  · intro h
    rw [hstep, if_neg (fun c => h (hdup.1 c)), Session.createSessionsFrom, k2]
    exact ⟨_, rfl⟩
  · intro t h1 h2
    have e1 : (SessionInfo.new t).id =
        Session.makeId (SessionInfo.new t).senderCompId (SessionInfo.new t).targetCompId := rfl
    have e2 : (SessionInfo.new s).id =
        Session.makeId (SessionInfo.new s).senderCompId (SessionInfo.new s).targetCompId := rfl
    rw [e1, e2, h1, h2]
  · intro t h1 h2 h
    have e1 : (SessionInfo.new t).id =
        Session.makeId (SessionInfo.new t).senderCompId (SessionInfo.new t).targetCompId := rfl
    have e2 : (SessionInfo.new s).id =
        Session.makeId (SessionInfo.new s).senderCompId (SessionInfo.new s).targetCompId := rfl
    rw [e1, e2] at h
    exact makeId_injective _ _ _ _ h1 h2 h

theorem duplicate_session_witness :
    Session.checkSection 1 ((readSettings (testSettings 9123)).headD []) = none ∧
    Session.createSessions { sessionMap := [], sessions := [] }
      ([(readSettings (testSettings 9123)).headD []] ++
        [(readSettings (testSettings 9123)).headD []])
        = Except.error (str "duplicate session OUCH->zhb") :=
  ⟨by decide,
    ((duplicate_session [(readSettings (testSettings 9123)).headD []]
      ((readSettings (testSettings 9123)).headD [])
      { sessionMap := [(str "OUCH->zhb",
          SessionInfo.new ((readSettings (testSettings 9123)).headD []))],
        sessions := [SessionInfo.new ((readSettings (testSettings 9123)).headD [])] }
      [SessionInfo.new ((readSettings (testSettings 9123)).headD [])]
      (by decide) (by decide)).2.1.2
      ⟨(readSettings (testSettings 9123)).headD [], List.mem_singleton.2 rfl, rfl⟩).trans
      (by decide)⟩

/-- C30: two sections with different senders and different targets that have the same id:
the second one is refused as a duplicate of the first. -/
theorem duplicate_of_another_pair :
    (readSettings (str "[SESSION]\nUsername=a\nPassword=x\nConnectionType=acceptor\n" ++
      str "SocketAcceptPort=9123\nSenderCompId=X->Y\nTargetCompId=Z\n" ++
      str "[SESSION]\nUsername=b\nPassword=x\nConnectionType=acceptor\n" ++
      str "SocketAcceptPort=9123\nSenderCompId=X\nTargetCompId=Y->Z\n")).map
      (fun m => ((SessionInfo.new m).senderCompId, (SessionInfo.new m).targetCompId)) =
      [(str "X->Y", str "Z"), (str "X", str "Y->Z")] ∧
    Session.createSessions { sessionMap := [], sessions := [] }
      (readSettings (str "[SESSION]\nUsername=a\nPassword=x\nConnectionType=acceptor\n" ++
        str "SocketAcceptPort=9123\nSenderCompId=X->Y\nTargetCompId=Z\n" ++
        str "[SESSION]\nUsername=b\nPassword=x\nConnectionType=acceptor\n" ++
        str "SocketAcceptPort=9123\nSenderCompId=X\nTargetCompId=Y->Z\n")) =
      Except.error (str "duplicate session X->Y->Z") := by
  decide

/-! ## Closing a session -/

theorem reset_empty (p : Pipe) (hp : p.ok) :
    p.reset.contents = [] ∧ p.reset.data = some none ∧ p.reset.ok := by
  obtain ⟨hc, hs⟩ := hp
  rcases List.eq_nil_or_concat p.chunks with e | ⟨init, tl, e⟩
  · rw [e] at hc
    exact absurd hc (by simp [chunksOk])
  · rw [List.concat_eq_append] at e
    rw [e, chunksOk_snoc] at hc
    have hl : p.chunks.getLast? = some tl := by rw [e]; simp
    unfold Pipe.reset
    rw [hl]
    refine ⟨rfl, rfl, ?_, hs⟩
    show (0 : Nat) ≤ 0 ∧ 0 < tl.capacity ∧ tl.capacity < 4294967296
    omega

/-- C22: after `close`, whatever the session was: the trace has gained the event
`Disconnecting`, one call of `onLogout`, the removal of the socket from the pollers and its
closing; no socket is bound, the state is session-terminated, the receive buffer is empty,
the outbound pipe holds nothing (a pipe that is reset holds nothing and its `data` returns
`false`), and the timer is set to the reconnect interval, once, for an initiator and to zero,
which disarms it, for an acceptor.  The reconnect interval that the constructor sets is
positive. -/
theorem close_resets (s : Session) (p : Pipe) (settings : StrMap) (hp : p.ok) :
    s.close.trace = s.trace ++ ([Effect.event (str "Disconnecting"), Effect.onLogout,
        Effect.rm_fd false] ++ (if s.sharedPoll then [] else [Effect.rm_fd true]) ++
        [Effect.closeSock s.fd]) ∧
    (s.close.trace.drop s.trace.length).count Effect.onLogout = 1 ∧
    s.close.fd = -1 ∧
    s.close.state = SessionState.st_session_terminated ∧
    s.close.rxbuf.start = 0 ∧ s.close.rxbuf.len = 0 ∧
    s.close.outpipe = [] ∧
    p.reset.contents = [] ∧ p.reset.data = some none ∧ p.reset.ok ∧
    s.close.timer = (if s.isClient then s.reconnectInterval else 0, 0) ∧
    0 < (SessionInfo.new settings).reconnectInterval := by
  obtain ⟨h1, h2, h3, _, h5, h6, h7⟩ := close_fields s
  obtain ⟨r1, r2, r3⟩ := reset_empty p hp
  refine ⟨h1, ?_, h3, h2, h6, h5, h7, r1, r2, r3, ?_, reconnectInterval_pos settings⟩
  · rw [h1, List.drop_left' rfl]
    generalize s.fd = fd
    cases s.sharedPoll <;> simp [List.count_cons, List.count_nil]
  · unfold Session.close
    by_cases h : s.sharedPoll = true
    · simp only [Session.emit, Session.event, h, if_true]
    · simp only [Session.emit, Session.event, h, if_false, Bool.false_eq_true]

theorem close_resets_witness :
    (Pipe.new (fun _ => 0)).ok ∧
    (Session.example true).close.fd = -1 ∧
    (Session.example true).close.timer = (15, 0) ∧
    (Session.example false).close.timer = (0, 0) ∧
    (Pipe.new (fun _ => 0)).reset.data = some none :=
  ⟨(new_ok _).1,
    (close_resets (Session.example true) (Pipe.new (fun _ => 0)) [] (new_ok _).1).2.2.1,
    ((close_resets (Session.example true) (Pipe.new (fun _ => 0)) [] (new_ok _).1
      ).2.2.2.2.2.2.2.2.2.2.1).trans (by decide),
    ((close_resets (Session.example false) (Pipe.new (fun _ => 0)) [] (new_ok _).1
      ).2.2.2.2.2.2.2.2.2.2.1).trans (by decide),
    (close_resets (Session.example true) (Pipe.new (fun _ => 0)) [] (new_ok _).1
      ).2.2.2.2.2.2.2.2.1⟩

/-! ## The error of the comparison of two times -/

theorem bitLenAux_spec (fuel : Nat) : ∀ n, n < 2 ^ fuel →
    (n = 0 → bitLenAux fuel n = 0) ∧
    (0 < n → 2 ^ (bitLenAux fuel n - 1) ≤ n ∧ n < 2 ^ bitLenAux fuel n) := by
  induction fuel with
  | zero =>
    intro n hn
    have : n = 0 := by simpa using hn
    subst this
    exact ⟨fun _ => rfl, fun h => absurd h (by decide)⟩
  | succ f ih =>
    intro n hn
    constructor
    · intro h0
      subst h0
      rfl
    · intro hpos
      have hne : n ≠ 0 := by omega
      have hhalf : n / 2 < 2 ^ f := by
        rw [Nat.pow_succ] at hn
        omega
      obtain ⟨i0, i1⟩ := ih (n / 2) hhalf
      show 2 ^ ((if n = 0 then 0 else bitLenAux f (n / 2) + 1) - 1) ≤ n ∧
        n < 2 ^ (if n = 0 then 0 else bitLenAux f (n / 2) + 1)
      rw [if_neg hne, Nat.add_sub_cancel]
      by_cases h2 : n / 2 = 0
      · rw [i0 h2]
        have : n = 1 := by omega
        subst this
        decide
      · obtain ⟨j1, j2⟩ := i1 (by omega)
        have e : bitLenAux f (n / 2) = (bitLenAux f (n / 2) - 1) + 1 := by
          have : 0 < bitLenAux f (n / 2) := by
            by_contra hc
            have hz : bitLenAux f (n / 2) = 0 := by omega
            rw [hz] at j2
            simp at j2
            exact h2 j2
          omega
        constructor
        · rw [e, Nat.pow_succ]
          omega
        · rw [Nat.pow_succ]
          omega

theorem bitLen_spec (n : Nat) (h : 0 < n) : 2 ^ (bitLen n - 1) ≤ n ∧ n < 2 ^ bitLen n :=
  (bitLenAux_spec n n (Nat.lt_two_pow n)).2 h

theorem bitLen_le (n k : Nat) (h : n < 2 ^ k) : bitLen n ≤ k := by
  by_cases h0 : n = 0
  · subst h0
    have : bitLen 0 = 0 := rfl
    omega
  · obtain ⟨h1, _⟩ := bitLen_spec n (by omega)
    by_contra hc
    have : 2 ^ k ≤ 2 ^ (bitLen n - 1) := Nat.pow_le_pow_right (by decide) (by omega)
    omega

theorem roundHalfEven_err (n d : Nat) (hd : 0 < d) :
    2 * (roundHalfEven n d * d) ≤ 2 * n + d ∧ 2 * n ≤ 2 * (roundHalfEven n d * d) + d := by
  have h1 := Nat.div_add_mod n d
  have h2 := Nat.mod_lt n hd
  generalize hq : n / d = q at *
  generalize hr : n % d = r at *
  have e1 : (q + 1) * d = d * q + d := by ring
  have e2 : q * d = d * q := Nat.mul_comm _ _
  unfold roundHalfEven
  rw [hq, hr]
  by_cases c1 : 2 * r < d
  · rw [if_pos c1, e2]; omega
  · rw [if_neg c1]
    by_cases c2 : d < 2 * r
    · rw [if_pos c2, e1]; omega
    · rw [if_neg c2]
      by_cases c3 : q % 2 = 0
      · rw [if_pos c3, e2]; omega
      · rw [if_neg c3, e1]; omega

theorem fpNearest_err (n d k : Nat) (hd : 0 < d) (hk : n / d < 2 ^ k) (h53 : 53 ≤ k) :
    2 * (fpNearest n d * d) ≤ 2 * n + d * 2 ^ (k - 53) ∧
    2 * n ≤ 2 * (fpNearest n d * d) + d * 2 ^ (k - 53) := by
  have hb := bitLen_le (n / d) k hk
  have hu : 2 ^ (bitLen (n / d) - 53) ≤ 2 ^ (k - 53) :=
    Nat.pow_le_pow_right (by decide) (by omega)
  have hupos : 0 < 2 ^ (bitLen (n / d) - 53) := Nat.pow_pos (by decide)
  unfold fpNearest
  generalize 2 ^ (bitLen (n / d) - 53) = u at hu hupos ⊢
  obtain ⟨a1, a2⟩ := roundHalfEven_err n (d * u) (Nat.mul_pos hd hupos)
  have hdu : d * u ≤ d * 2 ^ (k - 53) := Nat.mul_le_mul_left _ hu
  have e : roundHalfEven n (d * u) * u * d = roundHalfEven n (d * u) * (d * u) := by ring
  show 2 * (roundHalfEven n (d * u) * u * d) ≤ _ ∧ _ ≤ 2 * (roundHalfEven n (d * u) * u * d) + _
  rw [e]
  omega

theorem fpRound_err (v : Int) (k : Nat) (hk : v.natAbs < 2 ^ k) (h53 : 53 ≤ k) :
    2 * (fpRound v - v) ≤ ((2 ^ (k - 53) : Nat) : Int) ∧
    2 * (v - fpRound v) ≤ ((2 ^ (k - 53) : Nat) : Int) := by
  obtain ⟨a1, a2⟩ := fpNearest_err v.natAbs 1 k (by decide) (by rw [Nat.div_one]; exact hk) h53
  rw [Nat.mul_one, Nat.one_mul] at a1 a2
  generalize 2 ^ (k - 53) = e at a1 a2 ⊢
  unfold fpRound
  generalize fpNearest v.natAbs 1 = r at a1 a2
  by_cases hv : v < 0
  · rw [if_pos hv]
    omega
  · rw [if_neg hv]
    omega

theorem roundHalfEven_exact (n u : Nat) (h : n % u = 0) (hu : 0 < u) :
    roundHalfEven n u * u = n := by
  unfold roundHalfEven
  rw [h, if_pos (by omega)]
  exact Nat.div_mul_cancel (Nat.dvd_of_mod_eq_zero h)

/-- The conversion of an integer below 2^53 to `double` is exact. -/
theorem fpOfInt_exact (v : Int) (h : v.natAbs < 9007199254740992) :
    fpOfInt v = v * 4835703278458516698824704 := by
  have hn : (v * 4835703278458516698824704).natAbs = v.natAbs * 2 ^ 82 := by
    rw [Int.natAbs_mul]; rfl
  have hlt : v.natAbs * 2 ^ 82 < 2 ^ 135 := by
    have : (2 : Nat) ^ 135 = 9007199254740992 * 2 ^ 82 := by norm_num
    rw [this]
    exact Nat.mul_lt_mul_of_pos_right h (by norm_num)
  have hb := bitLen_le _ _ hlt
  have hdvd : 2 ^ (bitLen (v.natAbs * 2 ^ 82) - 53) ∣ v.natAbs * 2 ^ 82 :=
    Dvd.dvd.mul_left (Nat.pow_dvd_pow 2 (by omega)) _
  have hex : fpNearest (v.natAbs * 2 ^ 82) 1 = v.natAbs * 2 ^ 82 := by
    unfold fpNearest
    rw [Nat.div_one, Nat.one_mul]
    exact roundHalfEven_exact _ _ (Nat.mod_eq_zero_of_dvd hdvd) (Nat.pow_pos (by decide))
  unfold fpOfInt fpRound
  rw [hn, hex]
  by_cases hv : v < 0
  · rw [if_pos (by omega)]
    have : ((v.natAbs * 2 ^ 82 : Nat) : Int) = (v.natAbs : Int) * 4835703278458516698824704 := by
      push_cast; norm_num
    rw [this]
    omega
  · rw [if_neg (by omega)]
    have : ((v.natAbs * 2 ^ 82 : Nat) : Int) = (v.natAbs : Int) * 4835703278458516698824704 := by
      push_cast; norm_num
    rw [this]
    omega

theorem fpNanos_err (nsec : Nat) (h : nsec < 1000000000) :
    0 ≤ fpNanos nsec ∧
    2 * (fpNanos nsec * 1000000000) ≤
      2 * (nsec * 4835703278458516698824704) + 1000000000 * 536870912 ∧
    2 * (nsec * 4835703278458516698824704) ≤
      2 * (fpNanos nsec * 1000000000) + 1000000000 * 536870912 := by
  have hk : nsec * 4835703278458516698824704 / 1000000000 < 2 ^ 82 := by
    rw [Nat.div_lt_iff_lt_mul (by decide)]
    have : (2 : Nat) ^ 82 = 4835703278458516698824704 := by norm_num
    rw [this]
    omega
  obtain ⟨a1, a2⟩ := fpNearest_err (nsec * 4835703278458516698824704) 1000000000 82
    (by decide) hk (by decide)
  have e : (2 : Nat) ^ (82 - 53) = 536870912 := by norm_num
  rw [e] at a1 a2
  unfold fpNanos
  generalize fpNearest (nsec * 4835703278458516698824704) 1000000000 = r at a1 a2
  omega

/-- The value that `Timer::in_event` compares is within 3 * 2^-22 + 2^-53 seconds, less
than 716 nanoseconds, of the exact difference of the two times, for times before 2^31
seconds. -/
theorem fpElapsed_err (now t : Nat) (hnow : now < 2147483648000000000)
    (ht : t < 2147483648000000000) :
    fpElapsed now t * 1000000000 ≤
      ((now : Int) - t) * 4835703278458516698824704 +
        (3 * 1152921504606846976 + 536870912) * 1000000000 ∧
    ((now : Int) - t) * 4835703278458516698824704 ≤
      fpElapsed now t * 1000000000 + (3 * 1152921504606846976 + 536870912) * 1000000000 := by
  have hs1 : now / 1000000000 < 2147483648 := by omega
  have hs2 : t / 1000000000 < 2147483648 := by omega
  have hn1 : now % 1000000000 < 1000000000 := Nat.mod_lt _ (by decide)
  have hn2 : t % 1000000000 < 1000000000 := Nat.mod_lt _ (by decide)
  have d1 := Nat.div_add_mod now 1000000000
  have d2 := Nat.div_add_mod t 1000000000
  unfold fpElapsed
  generalize now / 1000000000 = S1 at *
  generalize now % 1000000000 = N1 at *
  generalize t / 1000000000 = S2 at *
  generalize t % 1000000000 = N2 at *
  obtain ⟨a0, a1, a2⟩ := fpNanos_err N1 hn1
  obtain ⟨b0, b1, b2⟩ := fpNanos_err N2 hn2
  have c1 : fpOfInt (S1 : Int) = (S1 : Int) * 4835703278458516698824704 :=
    fpOfInt_exact _ (by simp only [Int.natAbs_ofNat]; omega)
  have c2 : fpOfInt (S2 : Int) = (S2 : Int) * 4835703278458516698824704 :=
    fpOfInt_exact _ (by simp only [Int.natAbs_ofNat]; omega)
  rw [c1, c2]
  generalize fpNanos N1 = A at *
  generalize fpNanos N2 = B at *
  have e61n : (2 : Nat) ^ (114 - 53) = 2305843009213693952 := by norm_num
  have h114 : (2 : Nat) ^ 114 = 20769187434139310514121985316880384 := by norm_num
  have x1 : ((S1 : Int) * 4835703278458516698824704 + A).natAbs < 2 ^ 114 := by
    rw [h114]; omega
  obtain ⟨p1, p2⟩ := fpRound_err _ 114 x1 (by decide)
  rw [e61n] at p1 p2
  generalize fpRound ((S1 : Int) * 4835703278458516698824704 + A) = R1 at *
  have x2 : (R1 - (S2 : Int) * 4835703278458516698824704).natAbs < 2 ^ 114 := by
    rw [h114]; omega
  obtain ⟨q1, q2⟩ := fpRound_err _ 114 x2 (by decide)
  rw [e61n] at q1 q2
  generalize fpRound (R1 - (S2 : Int) * 4835703278458516698824704) = R2 at *
  have x3 : (R2 - B).natAbs < 2 ^ 114 := by
    rw [h114]; omega
  obtain ⟨r1, r2⟩ := fpRound_err _ 114 x3 (by decide)
  rw [e61n] at r1 r2
  generalize fpRound (R2 - B) = R3 at *
  omega

/-! ## The timer -/

theorem heartbeat_bound (s : Session) (now : Nat) (hfd : 0 ≤ s.fd) :
    s.heartbeat now =
      ({ s with txtm := now, outpipe := s.outpipe ++
          [0, 1, if s.isClient then SOUPBIN3_PACKET_CLIENT_HEARTBEAT
            else SOUPBIN3_PACKET_SERVER_HEARTBEAT] } : Session).emit Effect.set_pollout := by
  unfold Session.heartbeat Session.sendBytes
  rw [if_neg (by omega)]
  rfl

theorem fpElapsed_ge (now t : Nat) (v : Int) (hnow : now < 2147483648000000000)
    (ht : t < 2147483648000000000) (hv : v.natAbs < 2147483648)
    (h : (now : Int) - (t : Int) ≥ v * 1000000000 + 1000) : fpElapsed now t ≥ fpOfInt v := by
  rw [fpOfInt_exact v (by omega)]
  obtain ⟨e1, e2⟩ := fpElapsed_err now t hnow ht
  generalize fpElapsed now t = E at *
  omega

theorem fpElapsed_lt (now t : Nat) (v : Int) (hnow : now < 2147483648000000000)
    (ht : t < 2147483648000000000) (hv : v.natAbs < 2147483648)
    (h : (now : Int) - (t : Int) ≤ v * 1000000000 - 1000) : ¬ fpElapsed now t ≥ fpOfInt v := by
  rw [fpOfInt_exact v (by omega)]
  obtain ⟨e1, e2⟩ := fpElapsed_err now t hnow ht
  generalize fpElapsed now t = E at *
  omega

/-- C23: a tick of the timer of a session with a socket bound and the timer set, for times
below 2^31 seconds.  The two elapsed times are computed in `double`, which decides as the exact
values do when they are a microsecond or more from the threshold.  When the last byte was
received the reconnect interval and a microsecond ago, or longer, the session logs the
time-out and is closed: no socket, state session-terminated, nothing in the pipe.  When it
was received less than the reconnect interval ago by a microsecond or more and the last byte
was sent one second and a microsecond ago, or longer, the three bytes of one heartbeat packet
(length 1, type `R` for an initiator, `H` for an acceptor) are pushed into the pipe, the time
of the last send is set and the poller is told; nothing else changes.  When both times are
below their thresholds by a microsecond or more the session is as it was.  Whatever the times,
the handler returns with one of these three results. -/
theorem timer_tick_bound (s : Session) (settings : StrMap) (env : SockEnv) (now : Nat)
    (hfd : 0 ≤ s.fd) (htm : s.timer.1 ≠ 0) (hnow : now < 2147483648000000000)
    (hrx : s.rxtm < 2147483648000000000) (htx : s.txtm < 2147483648000000000)
    (hri : s.reconnectInterval.natAbs < 2147483648) :
    ((now : Int) - (s.rxtm : Int) ≥ s.reconnectInterval * 1000000000 + 1000 →
      ∃ r, Timer.in_event s settings env now = some r ∧
        r = (s.event (str "Timed out waiting for heartbeat")).close ∧
        r.fd = -1 ∧ r.state = SessionState.st_session_terminated ∧ r.outpipe = [] ∧
        r.store = s.store) ∧
    ((now : Int) - (s.rxtm : Int) ≤ s.reconnectInterval * 1000000000 - 1000 →
      (now : Int) - (s.txtm : Int) ≥ 1000000000 + 1000 →
      ∃ r, Timer.in_event s settings env now = some r ∧
        r = ({ s with txtm := now, outpipe := s.outpipe ++
          [0, 1, if s.isClient then 82 else 72] } : Session).emit Effect.set_pollout ∧
        r.outpipe = s.outpipe ++ [0, 1, if s.isClient then 82 else 72] ∧
        r.trace = s.trace ++ [Effect.set_pollout] ∧
        r.state = s.state ∧ r.fd = s.fd ∧ r.store = s.store) ∧
    ((now : Int) - (s.rxtm : Int) ≤ s.reconnectInterval * 1000000000 - 1000 →
      (now : Int) - (s.txtm : Int) ≤ 1000000000 - 1000 →
      Timer.in_event s settings env now = some s) ∧
    (Timer.in_event s settings env now =
        some (s.event (str "Timed out waiting for heartbeat")).close ∨
      Timer.in_event s settings env now =
        some (({ s with txtm := now, outpipe := s.outpipe ++
          [0, 1, if s.isClient then 82 else 72] } : Session).emit Effect.set_pollout) ∨
      Timer.in_event s settings env now = some s) := by
  have hb : s.heartbeat now = ({ s with txtm := now, outpipe := s.outpipe ++
      [0, 1, if s.isClient then 82 else 72] } : Session).emit Effect.set_pollout := by
    rw [heartbeat_bound s now hfd]
    rfl
  refine ⟨?_, ?_, ?_, ?_⟩
  · intro h
    have e : Timer.in_event s settings env now =
        some (s.event (str "Timed out waiting for heartbeat")).close := by
      unfold Timer.in_event
      rw [if_neg htm, if_neg (by omega),
        if_pos (fpElapsed_ge now s.rxtm s.reconnectInterval hnow hrx hri h)]
    obtain ⟨_, h2, h3, h4, _, _, h7⟩ :=
      close_fields (s.event (str "Timed out waiting for heartbeat"))
    exact ⟨_, e, rfl, h3, h2, h7, h4⟩
  · intro h1 h2
    have e : Timer.in_event s settings env now = some (s.heartbeat now) := by
      unfold Timer.in_event
      rw [if_neg htm, if_neg (by omega),
        if_neg (fpElapsed_lt now s.rxtm s.reconnectInterval hnow hrx hri h1),
        if_pos (fpElapsed_ge now s.txtm 1 hnow htx (by decide) (by omega))]
    rw [hb] at e
    exact ⟨_, e, rfl, rfl, rfl, rfl, rfl, rfl⟩
  · intro h1 h2
    unfold Timer.in_event
    rw [if_neg htm, if_neg (by omega),
      if_neg (fpElapsed_lt now s.rxtm s.reconnectInterval hnow hrx hri h1),
      if_neg (fpElapsed_lt now s.txtm 1 hnow htx (by decide) (by omega))]
  · unfold Timer.in_event
    rw [if_neg htm, if_neg (by omega), ← hb]
    by_cases c1 : fpElapsed now s.rxtm ≥ fpOfInt s.reconnectInterval
    · rw [if_pos c1]
      exact Or.inl rfl
    · rw [if_neg c1]
      by_cases c2 : fpElapsed now s.txtm ≥ fpOfInt 1
      · rw [if_pos c2]
        exact Or.inr (Or.inl rfl)
      · rw [if_neg c2]
        exact Or.inr (Or.inr rfl)

set_option maxRecDepth 8192 in
theorem timer_tick_bound_witness :
    (0 : Int) ≤ (Session.example true).fd ∧
    (Timer.in_event (Session.example true) [] ⟨-1, 0, 0, 0, 0⟩ 2000000000).map Session.outpipe =
      some [0, 1, 82] ∧
    (Timer.in_event (Session.example false) [] ⟨-1, 0, 0, 0, 0⟩ 2000000000).map Session.outpipe =
      some [0, 1, 72] ∧
    (Timer.in_event (Session.example true) [] ⟨-1, 0, 0, 0, 0⟩ 15000001000).map Session.fd =
      some (-1) ∧
    Timer.in_event (Session.example true) [] ⟨-1, 0, 0, 0, 0⟩ 999999000 =
      some (Session.example true) := by
  obtain ⟨r1, a1, _, a2, _⟩ :=
    (timer_tick_bound (Session.example true) [] ⟨-1, 0, 0, 0, 0⟩ 2000000000 (by decide)
      (by decide) (by decide) (by decide) (by decide) (by decide)).2.1 (by decide) (by decide)
  obtain ⟨r2, b1, _, b2, _⟩ :=
    (timer_tick_bound (Session.example false) [] ⟨-1, 0, 0, 0, 0⟩ 2000000000 (by decide)
      (by decide) (by decide) (by decide) (by decide) (by decide)).2.1 (by decide) (by decide)
  obtain ⟨r3, c1, _, c2, _⟩ :=
    (timer_tick_bound (Session.example true) [] ⟨-1, 0, 0, 0, 0⟩ 15000001000 (by decide)
      (by decide) (by decide) (by decide) (by decide) (by decide)).1 (by decide)
  refine ⟨by decide, ?_, ?_, ?_, ?_⟩
  · rw [a1]; exact congrArg some a2
  · rw [b1]; exact congrArg some b2
  · rw [c1]; exact congrArg some c2
  · exact (timer_tick_bound (Session.example true) [] ⟨-1, 0, 0, 0, 0⟩ 999999000 (by decide)
      (by decide) (by decide) (by decide) (by decide) (by decide)).2.2.1 (by decide) (by decide)

set_option maxRecDepth 8192 in
/-- C23: the comparison in `double` against the exact one, for a session with the reconnect
interval of 15 seconds.  A byte received at 1700000000 s and a tick 14.9999999 s later: the
sum of the seconds and the nanoseconds of the tick rounds to 1700000015 and the session is
closed, 100 ns before the interval is over.  A byte received at 1700000000.0000001 s and a
tick exactly 15 s later: the difference comes out below 15 and the session is not closed. -/
theorem timer_tick_rounding :
    (1700000014999999900 : Int) - 1700000000000000000 < 15 * 1000000000 ∧
    (Timer.in_event ({ Session.example true with rxtm := 1700000000000000000, txtm := 1700000014999999900 } : Session)
      [] ⟨-1, 0, 0, 0, 0⟩ 1700000014999999900).map Session.fd = some (-1) ∧
    (Timer.in_event ({ Session.example true with rxtm := 1700000000000000000, txtm := 1700000014999999900 } : Session)
      [] ⟨-1, 0, 0, 0, 0⟩ 1700000014999999900).map Session.state =
        some SessionState.st_session_terminated ∧
    (1700000015000000100 : Int) - 1700000000000000100 ≥ 15 * 1000000000 ∧
    (Timer.in_event ({ Session.example true with rxtm := 1700000000000000100, txtm := 1700000015000000100 } : Session)
      [] ⟨-1, 0, 0, 0, 0⟩ 1700000015000000100).map Session.fd = some 5 ∧
    (Timer.in_event ({ Session.example true with rxtm := 1700000000000000100, txtm := 1700000015000000100 } : Session)
      [] ⟨-1, 0, 0, 0, 0⟩ 1700000015000000100).map Session.trace = some [] := by
  decide

theorem assertThen_state (c : Bool) (s : Session) :
    (assertThen c s Step.next).session.state = s.state ∧
      (assertThen c s Step.ret).session.state = s.state := by
  unfold assertThen
  cases c <;> simp [Step.session, Session.emit]

theorem close_state (s : Session) : s.close.state = SessionState.st_session_terminated :=
  (close_fields s).2.1

theorem handlePacket_state (s : Session) (len now : Nat) :
    (s.rxbuf.data (s.rxbuf.start + 2) = SOUPBIN3_PACKET_LOGIN_ACCEPTED ∧
      (handlePacket s len now).session.state = SessionState.st_logon_received) ∨
    (s.rxbuf.data (s.rxbuf.start + 2) ≠ SOUPBIN3_PACKET_LOGIN_ACCEPTED ∧
      ((handlePacket s len now).session.state = s.state ∨
       (handlePacket s len now).session.state = SessionState.st_session_terminated)) := by
  by_cases hS : s.rxbuf.data (s.rxbuf.start + 2) = SOUPBIN3_PACKET_SEQ_DATA
  · right
    refine ⟨by rw [hS]; decide, ?_⟩
    cases hc : seqDataCase (s.rxbuf.data (s.rxbuf.start + 3)) with
    | none =>
      right
      rw [handlePacket_seq_unknown s len now hS hc]
      simp only [Step.session, close_state]
    | some x =>
      obtain ⟨size, f⟩ := x
      left
      rw [handlePacket_seq s len now size f hS hc]
      simp only [Step.session]
      split <;> rfl
  by_cases hA : s.rxbuf.data (s.rxbuf.start + 2) = SOUPBIN3_PACKET_LOGIN_ACCEPTED
  · left
    refine ⟨hA, ?_⟩
    rw [handlePacket_login_accepted s len now hA, (assertThen_state _ _).1]
    rfl
  right
  refine ⟨hA, ?_⟩
  by_cases hJ : s.rxbuf.data (s.rxbuf.start + 2) = SOUPBIN3_PACKET_LOGIN_REJECTED
  · right
    rw [handlePacket_login_rejected s len now hJ, (assertThen_state _ _).2, close_state]
  by_cases hH : s.rxbuf.data (s.rxbuf.start + 2) = SOUPBIN3_PACKET_SERVER_HEARTBEAT
  · left
    rw [handlePacket_server_heartbeat s len now hH, (assertThen_state _ _).1]
  by_cases hZ : s.rxbuf.data (s.rxbuf.start + 2) = SOUPBIN3_PACKET_END_OF_SESSION
  · right
    rw [handlePacket_end_of_session s len now hZ, (assertThen_state _ _).2, close_state]
  by_cases hR : s.rxbuf.data (s.rxbuf.start + 2) = SOUPBIN3_PACKET_CLIENT_HEARTBEAT
  · left
    rw [handlePacket_client_heartbeat s len now hR, (assertThen_state _ _).1]
  by_cases hL : s.rxbuf.data (s.rxbuf.start + 2) = SOUPBIN3_PACKET_LOGIN_REQUEST
  · left
    rw [handlePacket_login_request s len now hL, (assertThen_state _ _).1]
    unfold Session.sendBytes
    split <;> rfl
  by_cases hU : s.rxbuf.data (s.rxbuf.start + 2) = SOUPBIN3_PACKET_UNSEQ_DATA
  · left
    rw [handlePacket_unseq s len now hU]
    rfl
  left
  rw [handlePacket_other s len now hS hA hJ hH hZ hR hL hU]
  rfl

/-- C25: how the state logon-received is entered.  The handling of a login accepted packet
leaves the session in the state logon-received whatever its state was before, logon-sent or
not; the handling of a packet of another type leaves the state as it was or, when it closes
the session, session-terminated, so that it never enters logon-received.  The same holds of
`in_event` on a session with an empty receive buffer that reads one well-formed packet.
`logon` sets the state to logon-sent, `logout` to logoff-sent and `close` to
session-terminated. -/
theorem logon_received_entry (s : Session) (len now : Nat) (settings : StrMap) :
    (s.rxbuf.data (s.rxbuf.start + 2) = SOUPBIN3_PACKET_LOGIN_ACCEPTED →
      (handlePacket s len now).session.state = SessionState.st_logon_received) ∧
    (s.rxbuf.data (s.rxbuf.start + 2) ≠ SOUPBIN3_PACKET_LOGIN_ACCEPTED →
      (handlePacket s len now).session.state = s.state ∨
      (handlePacket s len now).session.state = SessionState.st_session_terminated) ∧
    (∀ (t : Session) (p : List Nat) (e : Int) (n : Nat), t.rxbuf.len = 0 →
      wellFormed p = true → p.length ≤ t.room →
      ∃ t1, t.in_event (ReadResult.data p e) n = some t1 ∧
        (p.getD 2 0 = SOUPBIN3_PACKET_LOGIN_ACCEPTED →
          t1.state = SessionState.st_logon_received) ∧
        (p.getD 2 0 ≠ SOUPBIN3_PACKET_LOGIN_ACCEPTED →
          t1.state = t.state ∨ t1.state = SessionState.st_session_terminated)) ∧
    (s.logon settings now).state = SessionState.st_logon_sent ∧
    (s.logout now).state = SessionState.st_logoff_sent ∧
    s.close.state = SessionState.st_session_terminated := by
  refine ⟨?_, ?_, ?_, ?_, rfl, close_state s⟩
  · intro h
    rcases handlePacket_state s len now with ⟨_, c⟩ | ⟨c, _⟩
    · exact c
    · exact absurd h c
  · intro h
    rcases handlePacket_state s len now with ⟨c, _⟩ | ⟨_, c⟩
    · exact absurd c h
    · exact c
  · intro t p e n h0 hwf hfit
    obtain ⟨t1, h1, h2, _⟩ := in_event_one t p e n h0 hwf hfit
    have hst : t1.state = (handlePacket (t.core.holding p) p.length 0).session.state := by
      have h3 : t1.core.state = (dispatch t.core p).state := congrArg Session.state h2
      exact h3
    have hty : (t.core.holding p).rxbuf.data ((t.core.holding p).rxbuf.start + 2) =
        p.getD 2 0 := rfl
    have hcore : (t.core.holding p).state = t.state := rfl
    refine ⟨t1, h1, ?_, ?_⟩
    · intro h
      rw [hst]
      rcases handlePacket_state (t.core.holding p) p.length 0 with ⟨_, c⟩ | ⟨c, _⟩
      · exact c
      · rw [hty] at c
        exact absurd h c
    · intro h
      rw [hst]
      rcases handlePacket_state (t.core.holding p) p.length 0 with ⟨c, _⟩ | ⟨_, c⟩
      · rw [hty] at c
        exact absurd c h
      · rw [hcore] at c
        exact c
  · unfold Session.logon
    rfl

/-- C25: an acceptor right after `start`, in the state none, reads a login accepted packet
and is in the state logon-received afterwards; so is a session in the state logoff-sent or
session-terminated. -/
theorem logon_received_from_none :
    (Session.example false).state = SessionState.st_none ∧
    ((Session.example false).in_event (ReadResult.data (loginAcceptedPacket 1) 0) 7).map
      (fun s1 : Session => s1.state) = some SessionState.st_logon_received ∧
    (({ Session.example true with state := SessionState.st_logoff_sent } : Session).in_event
      (ReadResult.data (loginAcceptedPacket 1) 0) 7).map
      (fun s1 : Session => s1.state) = some SessionState.st_logon_received ∧
    (({ Session.example true with state := SessionState.st_session_terminated } :
      Session).in_event (ReadResult.data (loginAcceptedPacket 1) 0) 7).map
      (fun s1 : Session => s1.state) = some SessionState.st_logon_received := by
  decide

/-! ## Julian day numbers -/

theorem tdiv_of_nonpos (x n : Int) (hx : x ≤ 0) (hn : 0 ≤ n) : x.tdiv n = -((-x) / n) := by
  have h : x = -(-x) := by omega
  conv => lhs; rw [h, Int.neg_tdiv, Int.tdiv_eq_ediv (by omega) hn]

theorem jd_bounds (a b c d e m : Int)
    (hb : b = (4 * a + 3) / 146097) (hc : c = a - (b * 146097) / 4)
    (hd : d = (4 * c + 3) / 1461) (he : e = c - (1461 * d) / 4)
    (hm : m = (5 * e + 2) / 153) :
    0 ≤ c ∧ c ≤ 36524 ∧ 0 ≤ d ∧ d ≤ 99 ∧ 0 ≤ e ∧ e ≤ 365 ∧ 0 ≤ m ∧ m ≤ 11 := by
  have h1 : 0 ≤ c ∧ c ≤ 36524 := by omega
  have h2 : 0 ≤ d ∧ d ≤ 99 := by omega
  have h3 : 0 ≤ e ∧ e ≤ 365 := by omega
  have h4 : 0 ≤ m ∧ m ≤ 11 := by omega
  omega

theorem jd_roundtrip (a b c d e m day month year a1 y m1 : Int)
    (hb : b = (4 * a + 3) / 146097) (hc : c = a - (b * 146097) / 4)
    (hd : d = (4 * c + 3) / 1461) (he : e = c - (1461 * d) / 4)
    (hm : m = (5 * e + 2) / 153)
    (hday : day = e - (153 * m + 2) / 5 + 1)
    (hmonth : month = m + 3 - 12 * (m / 10))
    (hyear : year = b * 100 + d - 4800 + m / 10)
    (ha1 : a1 = (14 - month) / 12)
    (hy : y = year + 4800 - a1)
    (hm1 : m1 = month + 12 * a1 - 3) :
    day + (153 * m1 + 2) / 5 + y * 365 + y / 4 - y / 100 + y / 400 - 32045 = a - 32044 ∧
    1 ≤ month ∧ month ≤ 12 ∧ 1 ≤ day ∧ day ≤ 31 ∧ m1 = m ∧ y = b * 100 + d := by
  obtain ⟨h1, h1', h2, h2', h3, h3', h4, h4'⟩ := jd_bounds a b c d e m hb hc hd he hm
  have q : (m / 10 = 0 ∧ m ≤ 9) ∨ (m / 10 = 1 ∧ 10 ≤ m) := by omega
  have hmon : 1 ≤ month ∧ month ≤ 12 := by
    rcases q with ⟨q1, q2⟩ | ⟨q1, q2⟩ <;> rw [q1] at hmonth <;> omega
  have k1 : m1 = m := by
    rcases q with ⟨q1, q2⟩ | ⟨q1, q2⟩ <;> rw [q1] at hmonth <;> omega
  have k2 : y = b * 100 + d := by
    rcases q with ⟨q1, q2⟩ | ⟨q1, q2⟩ <;> rw [q1] at hyear <;> omega
  have k3 : y / 4 = 25 * b + d / 4 := by omega
  have k4 : y / 100 = b := by omega
  have k5 : y / 400 = b / 4 := by omega
  have k6 : (b * 146097) / 4 = 36524 * b + b / 4 := by omega
  have k7 : (1461 * d) / 4 = 365 * d + d / 4 := by omega
  have hd1 : 1 ≤ day ∧ day ≤ 31 := by omega
  refine ⟨?_, hmon.1, hmon.2, hd1.1, hd1.2, k1, k2⟩
  rw [k1, k3, k4, k5, k2]
  omega

/-- The year, the month and the day of a day number from -32044 on, with the division that
rounds down. -/
theorem getYMD_nonneg (jd b c d e m : Int) (h : 0 ≤ jd + 32044)
    (hb : b = (4 * (jd + 32044) + 3) / 146097) (hc : c = (jd + 32044) - (b * 146097) / 4)
    (hd : d = (4 * c + 3) / 1461) (he : e = c - (1461 * d) / 4)
    (hm : m = (5 * e + 2) / 153) :
    DateTime.getYMD jd =
      (b * 100 + d - 4800 + m / 10, m + 3 - 12 * (m / 10), e - (153 * m + 2) / 5 + 1) := by
  obtain ⟨h1, h1', h2, h2', h3, h3', h4, h4'⟩ := jd_bounds (jd + 32044) b c d e m hb hc hd he hm
  have hb0 : 0 ≤ b := by omega
  have e1 : (4 * (jd + 32044) + 3).tdiv 146097 = b := by
    rw [Int.tdiv_eq_ediv (by omega) (by omega), hb]
  have e2 : (jd + 32044) - (b * 146097).tdiv 4 = c := by
    rw [Int.tdiv_eq_ediv (by omega) (by omega), hc]
  have e3 : (4 * c + 3).tdiv 1461 = d := by
    rw [Int.tdiv_eq_ediv (by omega) (by omega), hd]
  have e4 : c - (1461 * d).tdiv 4 = e := by
    rw [Int.tdiv_eq_ediv (by omega) (by omega), he]
  have e5 : (5 * e + 2).tdiv 153 = m := by
    rw [Int.tdiv_eq_ediv (by omega) (by omega), hm]
  have e6 : m.tdiv 10 = m / 10 := Int.tdiv_eq_ediv (by omega) (by omega)
  have e7 : (153 * m + 2).tdiv 5 = (153 * m + 2) / 5 := Int.tdiv_eq_ediv (by omega) (by omega)
  unfold DateTime.getYMD
  simp only [e1, e2, e3, e4, e5, e6, e7]

/-- A day number below -32044 has a negative year. -/
theorem getYMD_negative (jd : Int) (h : jd + 32044 < 0) : (DateTime.getYMD jd).1 < 0 := by
  unfold DateTime.getYMD
  simp only
  generalize ha : jd + 32044 = a at h
  have e1 : (4 * a + 3).tdiv 146097 = -((-(4 * a + 3)) / 146097) :=
    tdiv_of_nonpos _ _ (by omega) (by omega)
  rw [e1]
  generalize hb : -((-(4 * a + 3)) / 146097) = b
  have hb0 : b ≤ 0 := by omega
  have e2 : (b * 146097).tdiv 4 = -((-(b * 146097)) / 4) :=
    tdiv_of_nonpos _ _ (by omega) (by omega)
  rw [e2]
  generalize hc : a - -((-(b * 146097)) / 4) = c
  have hc0 : c ≤ -1 := by omega
  have e3 : (4 * c + 3).tdiv 1461 = -((-(4 * c + 3)) / 1461) :=
    tdiv_of_nonpos _ _ (by omega) (by omega)
  rw [e3]
  generalize hd : -((-(4 * c + 3)) / 1461) = d
  have hd0 : d ≤ 0 := by omega
  have e4 : (1461 * d).tdiv 4 = -((-(1461 * d)) / 4) :=
    tdiv_of_nonpos _ _ (by omega) (by omega)
  rw [e4]
  generalize he : c - -((-(1461 * d)) / 4) = e
  have he0 : e ≤ -1 := by omega
  have e5 : (5 * e + 2).tdiv 153 = -((-(5 * e + 2)) / 153) :=
    tdiv_of_nonpos _ _ (by omega) (by omega)
  rw [e5]
  generalize hm : -((-(5 * e + 2)) / 153) = m
  have hm0 : m ≤ 0 := by omega
  have e6 : m.tdiv 10 = -((-m) / 10) := tdiv_of_nonpos _ _ hm0 (by omega)
  rw [e6]
  omega

/-- The day numbers of the years 0 to 9999, and the way back from the year, the month and
the day to the day number. -/
theorem julianDate_getYMD (jd : Int) (hy : 0 ≤ (DateTime.getYMD jd).1)
    (hy1 : (DateTime.getYMD jd).1 ≤ 9999) :
    DateTime.julianDate (DateTime.getYMD jd).1 (DateTime.getYMD jd).2.1
      (DateTime.getYMD jd).2.2 = jd ∧
    1 ≤ (DateTime.getYMD jd).2.1 ∧ (DateTime.getYMD jd).2.1 ≤ 12 ∧
    1 ≤ (DateTime.getYMD jd).2.2 ∧ (DateTime.getYMD jd).2.2 ≤ 31 := by
  have ha : 0 ≤ jd + 32044 := by
    by_contra hneg
    have := getYMD_negative jd (by omega)
    omega
  generalize hb : (4 * (jd + 32044) + 3) / 146097 = b
  generalize hc : (jd + 32044) - (b * 146097) / 4 = c
  generalize hd : (4 * c + 3) / 1461 = d
  generalize he : c - (1461 * d) / 4 = e
  generalize hm : (5 * e + 2) / 153 = m
  have hg := getYMD_nonneg jd b c d e m ha hb.symm hc.symm hd.symm he.symm hm.symm
  rw [hg]
  simp only
  obtain ⟨r1, r2, r3, r4, r5, r6, r7⟩ := jd_roundtrip (jd + 32044) b c d e m
    (e - (153 * m + 2) / 5 + 1) (m + 3 - 12 * (m / 10)) (b * 100 + d - 4800 + m / 10)
    ((14 - (m + 3 - 12 * (m / 10))) / 12)
    (b * 100 + d - 4800 + m / 10 + 4800 - (14 - (m + 3 - 12 * (m / 10))) / 12)
    (m + 3 - 12 * (m / 10) + 12 * ((14 - (m + 3 - 12 * (m / 10))) / 12) - 3)
    hb.symm hc.symm hd.symm he.symm hm.symm rfl rfl rfl rfl rfl rfl
  obtain ⟨h1, h1', h2, h2', h3, h3', h4, h4'⟩ :=
    jd_bounds (jd + 32044) b c d e m hb.symm hc.symm hd.symm he.symm hm.symm
  have hb0 : 0 ≤ b := by omega
  refine ⟨?_, r2, r3, r4, r5⟩
  unfold DateTime.julianDate
  simp only
  have t1 : (14 - (m + 3 - 12 * (m / 10))).tdiv 12 = (14 - (m + 3 - 12 * (m / 10))) / 12 :=
    Int.tdiv_eq_ediv (by omega) (by omega)
  rw [t1]
  generalize hyy : b * 100 + d - 4800 + m / 10 + 4800 - (14 - (m + 3 - 12 * (m / 10))) / 12 = y
    at r1 r7
  generalize hmm : m + 3 - 12 * (m / 10) + 12 * ((14 - (m + 3 - 12 * (m / 10))) / 12) - 3 = m1
    at r1 r6
  have t2 : (153 * m1 + 2).tdiv 5 = (153 * m1 + 2) / 5 := Int.tdiv_eq_ediv (by omega) (by omega)
  have t3 : y.tdiv 4 = y / 4 := Int.tdiv_eq_ediv (by omega) (by omega)
  have t4 : y.tdiv 100 = y / 100 := Int.tdiv_eq_ediv (by omega) (by omega)
  have t5 : y.tdiv 400 = y / 400 := Int.tdiv_eq_ediv (by omega) (by omega)
  rw [t2, t3, t4, t5, r1]
  omega

/-! ## The text of a time stamp -/

theorem writeMem_writeMem (m : Nat → Nat) (p : Nat) (l1 : List Nat) (k : Nat) (l2 : List Nat)
    (hk : k ≤ l1.length) (hl : l1.length ≤ k + l2.length) :
    writeMem (writeMem m p l1) (p + k) l2 = writeMem m p (l1.take k ++ l2) := by
  funext j
  unfold writeMem
  have hlen : (l1.take k ++ l2).length = k + l2.length := by
    rw [List.length_append, List.length_take, Nat.min_eq_left hk]
  rw [hlen]
  by_cases h1 : p + k ≤ j ∧ j < p + k + l2.length
  · rw [if_pos h1, if_pos (by omega)]
    have e : j - p = (l1.take k).length + (j - (p + k)) := by
      rw [List.length_take, Nat.min_eq_left hk]; omega
    rw [e, List.getD_append_right _ _ _ _ (Nat.le_add_right _ _)]
    congr 1
    omega
  · rw [if_neg h1]
    by_cases h2 : p ≤ j ∧ j < p + k
    · rw [if_pos (by omega), if_pos (by omega)]
      have hj : j - p < (l1.take k).length := by
        rw [List.length_take, Nat.min_eq_left hk]; omega
      rw [List.getD_append _ _ _ _ hj]
      simp only [List.getD_eq_getElem?_getD, List.getElem?_take]
      rw [if_pos (by omega)]
    · rw [if_neg (by omega), if_neg (by omega)]

theorem setw_two (r : Nat) (h : r < 100) :
    setw 2 48 (utoa r) = [48 + r / 10, 48 + r % 10] := by
  unfold setw
  by_cases h1 : r < 10
  · rw [utoa_lt_ten r h1]
    simp only [List.length_singleton, List.replicate, List.cons_append, List.nil_append,
      List.cons.injEq, and_true]
    omega
  · rw [utoa_step r (by omega), utoa_lt_ten (r / 10) (by omega)]
    simp only [List.length_append, List.length_singleton, List.replicate, List.cons_append,
      List.nil_append, List.cons.injEq, and_true]

/-- A number that is not negative and has no more digits than the width fills the width. -/
theorem integer_to_string_padded_fit (mem : Nat → Nat) (off width : Nat) (t : Nat)
    (hl : (utoa t).length ≤ width) :
    integer_to_string_padded mem off (width + 1) (t : Int) width 48 =
      some (writeMem mem off (setw width 48 (utoa t) ++ [0]), off) := by
  unfold integer_to_string_padded setw
  have h0 : ¬ ((t : Int) < 0) := by omega
  simp only [Int.natAbs_ofNat, h0, false_and, if_false, Nat.add_sub_cancel, Nat.min_self]
  have hlen : (List.replicate (width - (utoa t).length) 48 ++ utoa t).length = width := by
    rw [List.length_append, List.length_replicate]; omega
  rw [hlen, if_neg (by omega)]
  have : off + (width + 1) - 1 - width = off := by omega
  rw [this]

theorem cstr_cut (t rest : List Nat) (h : ∀ c ∈ t, c ≠ 0) : cstr (t ++ 0 :: rest) = t := by
  unfold cstr
  rw [List.takeWhile_append_of_pos (fun c hc => by simpa using h c hc),
    List.takeWhile_cons_of_neg (by simp)]
  simp

theorem isdigit_dig (k : Nat) (h : k ≤ 9) : isdigit (48 + k) = true := by
  simp only [isdigit, Bool.and_eq_true, decide_eq_true_eq]
  omega

theorem toSChar_dig (k : Nat) (h : k ≤ 9) : toSChar (48 + k) - 48 = (k : Int) := by
  unfold toSChar
  have : (48 + k) % 256 = 48 + k := by omega
  rw [this, if_pos (by omega)]
  omega

theorem pad4 (mem : Nat → Nat) (off : Nat) (r : Nat) (h : r < 10000) :
    integer_to_string_padded mem off 5 (r : Int) 4 48 =
      some (writeMem mem off
        [48 + r / 1000, 48 + r / 100 % 10, 48 + r / 10 % 10, 48 + r % 10, 0], off) := by
  have hl : (utoa r).length ≤ 4 := by
    have := utoaAux_length (r + 1) r 3 [] (by norm_num; omega)
    simpa [utoa] using this
  have := integer_to_string_padded_fit mem off 4 r hl
  rw [setw_four r h] at this
  exact this

theorem pad2 (mem : Nat → Nat) (off : Nat) (r : Nat) (h : r < 100) :
    integer_to_string_padded mem off 3 (r : Int) 2 48 =
      some (writeMem mem off [48 + r / 10, 48 + r % 10, 0], off) := by
  have hl : (utoa r).length ≤ 2 := by
    have := utoaAux_length (r + 1) r 1 [] (by norm_num; omega)
    simpa [utoa] using this
  have := integer_to_string_padded_fit mem off 2 r hl
  rw [setw_two r h] at this
  exact this

theorem stamp_mem (stack : Nat → Nat) (y0 y1 y2 y3 m0 m1 d0 d1 h0 h1 i0 i1 s0 s1 : Nat) :
    readMem (writeMem (writeMem (writeMem (writeMem (writeMem (writeMem (writeMem (writeMem
      (writeMem stack 0 [y0, y1, y2, y3, 0]) 4 [m0, m1, 0]) 6 [d0, d1, 0]) 8 [45])
      9 [h0, h1, 0]) 11 [58]) 12 [i0, i1, 0]) 14 [58]) 15 [s0, s1, 0]) 0 22 =
    [y0, y1, y2, y3, m0, m1, d0, d1, 45, h0, h1, 58, i0, i1, 58, s0, s1] ++
      0 :: readMem stack 18 4 := by
  have e : List.range 22 = [0, 1, 2, 3, 4, 5, 6, 7, 8, 9, 10, 11, 12, 13, 14, 15, 16, 17, 18,
    19, 20, 21] := by decide
  have e4 : List.range 4 = [0, 1, 2, 3] := by decide
  simp [readMem, writeMem, e, e4]

theorem convert_text (ts : DateTime) (stack : Nat → Nat) (Y M D h mi s : Nat)
    (hY : (DateTime.getYMD ts.m_date).1 = Y) (hM : (DateTime.getYMD ts.m_date).2.1 = M)
    (hD : (DateTime.getYMD ts.m_date).2.2 = D) (hh : ts.getHMS.1 = h)
    (hmi : ts.getHMS.2.1 = mi) (hs : ts.getHMS.2.2.1 = s)
    (bY : Y < 10000) (bM : M < 100) (bD : D < 100) (bh : h < 100) (bmi : mi < 100)
    (bs : s < 100) :
    UtcTimeStampConvertor.convert ts false stack = some (stampText Y M D h mi s) := by
  unfold UtcTimeStampConvertor.convert
  rw [hY, hM, hD, hh, hmi, hs]
  simp only [pad4 _ _ Y bY, pad2 _ _ M bM, pad2 _ _ D bD, pad2 _ _ h bh, pad2 _ _ mi bmi,
    pad2 _ _ s bs, Option.some_bind, Bool.false_eq_true, if_false]
  rw [stamp_mem]
  congr 1
  apply cstr_cut
  intro c hc
  simp only [List.mem_cons, List.mem_singleton, List.not_mem_nil, or_false] at hc
  omega

theorem convertFrom_digits (y0 y1 y2 y3 m0 m1 d0 d1 h0 h1 i0 i1 s0 s1 : Nat)
    (by0 : y0 ≤ 9) (by1 : y1 ≤ 9) (by2 : y2 ≤ 9) (by3 : y3 ≤ 9) (bm0 : m0 ≤ 9) (bm1 : m1 ≤ 9)
    (bd0 : d0 ≤ 9) (bd1 : d1 ≤ 9) (bh0 : h0 ≤ 9) (bh1 : h1 ≤ 9) (bi0 : i0 ≤ 9) (bi1 : i1 ≤ 9)
    (bs0 : s0 ≤ 9) (bs1 : s1 ≤ 9)
    (hm : 1 ≤ 10 * m0 + m1 ∧ 10 * m0 + m1 ≤ 12) (hd : 1 ≤ 10 * d0 + d1 ∧ 10 * d0 + d1 ≤ 31)
    (hh : 10 * h0 + h1 ≤ 23) (hi : 10 * i0 + i1 ≤ 59) (hs : 10 * s0 + s1 ≤ 60) :
    UtcTimeStampConvertor.convertFrom [48 + y0, 48 + y1, 48 + y2, 48 + y3, 48 + m0, 48 + m1,
      48 + d0, 48 + d1, 45, 48 + h0, 48 + h1, 58, 48 + i0, 48 + i1, 58, 48 + s0, 48 + s1] =
    some (UtcTimeStamp.new (10 * h0 + h1 : Nat) (10 * i0 + i1 : Nat) (10 * s0 + s1 : Nat) 0
      (10 * d0 + d1 : Nat) (10 * m0 + m1 : Nat) (10 * (10 * (10 * y0 + y1) + y2) + y3 : Nat)) := by
  have e8 : List.range 8 = [0, 1, 2, 3, 4, 5, 6, 7] := by decide
  unfold UtcTimeStampConvertor.convertFrom
  simp only [e8, List.length_cons, List.length_nil, List.getD_cons_zero, List.getD_cons_succ,
    List.all_cons, List.all_nil, isdigit_dig _ by0, isdigit_dig _ by1, isdigit_dig _ by2,
    isdigit_dig _ by3, isdigit_dig _ bm0, isdigit_dig _ bm1, isdigit_dig _ bd0,
    isdigit_dig _ bd1, isdigit_dig _ bh0, isdigit_dig _ bh1, isdigit_dig _ bi0,
    isdigit_dig _ bi1, isdigit_dig _ bs0, isdigit_dig _ bs1, toSChar_dig _ by0,
    toSChar_dig _ by1, toSChar_dig _ by2, toSChar_dig _ by3, toSChar_dig _ bm0,
    toSChar_dig _ bm1, toSChar_dig _ bd0, toSChar_dig _ bd1, toSChar_dig _ bh0,
    toSChar_dig _ bh1, toSChar_dig _ bi0, toSChar_dig _ bi1, toSChar_dig _ bs0,
    toSChar_dig _ bs1]
  rw [if_neg (by decide), if_neg (by simp), if_neg (by decide), if_neg (by omega),
    if_neg (by omega), if_neg (by omega), if_neg (by omega), if_neg (by omega),
    if_neg (by decide)]
  simp only [Nat.cast_add, Nat.cast_mul, Nat.cast_ofNat]

theorem getHMS_eq (ts : DateTime) (h0 : 0 ≤ ts.m_time) :
    ts.getHMS = (ts.m_time / 1000 / 3600, ts.m_time / 1000 / 60 % 60, ts.m_time / 1000 % 60,
      ts.m_time % 1000) := by
  have k : 0 ≤ ts.m_time / 1000 := by omega
  unfold DateTime.getHMS
  rw [Int.tdiv_eq_ediv h0 (by omega), Int.tdiv_eq_ediv k (by omega),
    Int.tdiv_eq_ediv k (by omega), Int.tmod_eq_emod (by omega) (by omega),
    Int.tmod_eq_emod k (by omega), Int.tmod_eq_emod h0 (by omega)]

theorem convert_convertFrom (ts : DateTime) (stack : Nat → Nat)
    (hy : 0 ≤ (DateTime.getYMD ts.m_date).1 ∧ (DateTime.getYMD ts.m_date).1 ≤ 9999)
    (ht : 0 ≤ ts.m_time ∧ ts.m_time < 86400000) (hms : ts.m_time % 1000 = 0) :
    UtcTimeStampConvertor.convert ts false stack =
      some (stampText (DateTime.getYMD ts.m_date).1.toNat (DateTime.getYMD ts.m_date).2.1.toNat
        (DateTime.getYMD ts.m_date).2.2.toNat (ts.m_time / 1000 / 3600).toNat
        (ts.m_time / 1000 / 60 % 60).toNat (ts.m_time / 1000 % 60).toNat) ∧
    UtcTimeStampConvertor.convertFrom
      (stampText (DateTime.getYMD ts.m_date).1.toNat (DateTime.getYMD ts.m_date).2.1.toNat
        (DateTime.getYMD ts.m_date).2.2.toNat (ts.m_time / 1000 / 3600).toNat
        (ts.m_time / 1000 / 60 % 60).toNat (ts.m_time / 1000 % 60).toNat) = some ts := by
  obtain ⟨hj, hm1, hm2, hd1, hd2⟩ := julianDate_getYMD ts.m_date hy.1 hy.2
  have hg := getHMS_eq ts ht.1
  generalize hY : (DateTime.getYMD ts.m_date).1.toNat = Y
  generalize hM : (DateTime.getYMD ts.m_date).2.1.toNat = M
  generalize hD : (DateTime.getYMD ts.m_date).2.2.toNat = D
  generalize hh : (ts.m_time / 1000 / 3600).toNat = h
  generalize hmi : (ts.m_time / 1000 / 60 % 60).toNat = mi
  generalize hs : (ts.m_time / 1000 % 60).toNat = s
  have eY : (DateTime.getYMD ts.m_date).1 = (Y : Int) := by omega
  have eM : (DateTime.getYMD ts.m_date).2.1 = (M : Int) := by omega
  have eD : (DateTime.getYMD ts.m_date).2.2 = (D : Int) := by omega
  have eh : ts.m_time / 1000 / 3600 = (h : Int) := by omega
  have emi : ts.m_time / 1000 / 60 % 60 = (mi : Int) := by omega
  have es : ts.m_time / 1000 % 60 = (s : Int) := by omega
  constructor
  · apply convert_text ts stack Y M D h mi s eY eM eD
    · rw [hg]; exact eh
    · rw [hg]; exact emi
    · rw [hg]; exact es
    all_goals omega
  · unfold stampText
    rw [convertFrom_digits (Y / 1000) (Y / 100 % 10) (Y / 10 % 10) (Y % 10) (M / 10) (M % 10)
      (D / 10) (D % 10) (h / 10) (h % 10) (mi / 10) (mi % 10) (s / 10) (s % 10)
      (by omega) (by omega) (by omega) (by omega) (by omega) (by omega) (by omega) (by omega)
      (by omega) (by omega) (by omega) (by omega) (by omega) (by omega) (by omega) (by omega)
      (by omega) (by omega) (by omega)]
    have r1 : 10 * (h / 10) + h % 10 = h := by omega
    have r2 : 10 * (mi / 10) + mi % 10 = mi := by omega
    have r3 : 10 * (s / 10) + s % 10 = s := by omega
    have r4 : 10 * (D / 10) + D % 10 = D := by omega
    have r5 : 10 * (M / 10) + M % 10 = M := by omega
    have r6 : 10 * (10 * (10 * (Y / 1000) + Y / 100 % 10) + Y / 10 % 10) + Y % 10 = Y := by
      omega
    rw [r1, r2, r3, r4, r5, r6]
    unfold UtcTimeStamp.new
    rw [← eY, ← eM, ← eD, hj]
    have e : DateTime.makeHMS (h : Int) mi s 0 = ts.m_time := by
      unfold DateTime.makeHMS
      omega
    rw [e]

theorem stampText_chars (Y M D h mi s : Nat) (bY : Y < 10000) (bM : M < 100) (bD : D < 100)
    (bh : h < 100) (bmi : mi < 100) (bs : s < 100) :
    ∀ c ∈ stampText Y M D h mi s, 45 ≤ c ∧ c ≤ 58 := by
  intro c hc
  simp only [stampText, List.mem_cons, List.mem_singleton, List.not_mem_nil, or_false] at hc
  omega

theorem scanStr_word (l : List Nat) (hne : l ≠ []) (h : ∀ c ∈ l, isspace c = false) :
    scanStr l = some l := by
  have e1 : l.dropWhile isspace = l := by
    cases l with
    | nil => exact absurd rfl hne
    | cons a t =>
      rw [List.dropWhile_cons_of_neg]
      rw [h a (List.mem_cons_self _ _)]
      decide
  have e2 : (l.takeWhile fun c => !isspace c) = l := by
    rw [List.takeWhile_eq_self_iff]
    intro c hc
    rw [h c hc]
    rfl
  unfold scanStr
  rw [e1, e2]
  cases l with
  | nil => exact absurd rfl hne
  | cons a t => rfl

/-- C26: for every creation time stamp of whole seconds whose year is one of 0..9999, the
text written to the session file of a new store is the 17 characters `YYYYMMDD-HH:MM:SS`
(four digits of the year, two each of the month, the day, the hour, the minute and the
second), the convertor reads that text back as the same time stamp, a store made when the
file does not exist holds the time stamp and writes the text, and a store opened again on
that file at any later time holds the same time stamp and leaves the file as it is. -/
theorem session_stamp_roundtrip (ts now2 : DateTime) (stack stack2 : Nat → Nat)
    (hy : 0 ≤ (DateTime.getYMD ts.m_date).1 ∧ (DateTime.getYMD ts.m_date).1 ≤ 9999)
    (ht : 0 ≤ ts.m_time ∧ ts.m_time < 86400000) (hms : ts.m_time % 1000 = 0) :
    UtcTimeStampConvertor.convert ts false stack = some ts.stamp ∧
    ts.stamp.length = 17 ∧
    ts.stamp.getD 8 0 = 45 ∧ ts.stamp.getD 11 0 = 58 ∧ ts.stamp.getD 14 0 = 58 ∧
    (∀ i, i < 17 → i ≠ 8 → i ≠ 11 → i ≠ 14 → isdigit (ts.stamp.getD i 0) = true) ∧
    UtcTimeStampConvertor.convertFrom ts.stamp = some ts ∧
    StoreSession.new ts none stack = some ⟨ts, some ts.stamp⟩ ∧
    StoreSession.new now2 (some ts.stamp) stack2 = some ⟨ts, some ts.stamp⟩ := by
  have hc : UtcTimeStampConvertor.convert ts false stack = some ts.stamp :=
    (convert_convertFrom ts stack hy ht hms).1
  have hf : UtcTimeStampConvertor.convertFrom ts.stamp = some ts :=
    (convert_convertFrom ts stack hy ht hms).2
  obtain ⟨_, hm1, hm2, hd1, hd2⟩ := julianDate_getYMD ts.m_date hy.1 hy.2
  have hch := stampText_chars (DateTime.getYMD ts.m_date).1.toNat
    (DateTime.getYMD ts.m_date).2.1.toNat (DateTime.getYMD ts.m_date).2.2.toNat
    (ts.m_time / 1000 / 3600).toNat (ts.m_time / 1000 / 60 % 60).toNat
    (ts.m_time / 1000 % 60).toNat (by omega) (by omega) (by omega) (by omega) (by omega)
    (by omega)
  have hlen : ts.stamp.length = 17 := rfl
  have hne : ts.stamp ≠ [] := by
    intro h
    rw [h] at hlen
    exact absurd hlen (by decide)
  have hsp : ∀ c ∈ ts.stamp, isspace c = false := by
    intro c hc1
    have := hch c hc1
    simp only [isspace, Bool.or_eq_false_iff, beq_eq_false_iff_ne, ne_eq,
      Bool.and_eq_false_imp, decide_eq_true_eq, decide_eq_false_iff_not]
    omega
  have hnul : ∀ c ∈ ts.stamp, c ≠ 0 := by
    intro c hc1
    have := hch c hc1
    omega
  refine ⟨hc, hlen, rfl, rfl, rfl, ?_, hf, ?_, ?_⟩
  · intro i hi h8 h11 h14
    interval_cases i
    all_goals first
      | exact absurd rfl h8
      | exact absurd rfl h11
      | exact absurd rfl h14
      | (apply isdigit_dig; omega)
  · unfold StoreSession.new StoreSession.open_ StoreSession.populateCache
    simp only [Option.some_bind]
    unfold StoreSession.setSession
    simp only [hc, Option.map_some']
    simp [overwrite]
  · unfold StoreSession.new StoreSession.open_ StoreSession.populateCache
    simp only [scanStr_word _ hne hsp, hlen, cstr_nulfree _ hnul, hf, Option.map_some',
      Option.some_bind]
    simp

theorem session_stamp_roundtrip_witness :
    DateTime.getYMD 2461345 = (2026, 10, 31) ∧
    UtcTimeStampConvertor.convert ⟨2461345, 45296000⟩ false (fun _ => 0) =
      some (str "20261031-12:34:56") ∧
    StoreSession.new ⟨2461345, 45296000⟩ none (fun _ => 0) =
      some ⟨⟨2461345, 45296000⟩, some (str "20261031-12:34:56")⟩ ∧
    StoreSession.new ⟨2461346, 1000⟩ (some (str "20261031-12:34:56")) (fun _ => 0) =
      some ⟨⟨2461345, 45296000⟩, some (str "20261031-12:34:56")⟩ :=
  have h := session_stamp_roundtrip ⟨2461345, 45296000⟩ ⟨2461346, 1000⟩ (fun _ => 0)
    (fun _ => 0) (by decide) (by decide) (by decide)
  ⟨by decide, h.1.trans (by decide), h.2.2.2.2.2.2.2.1.trans (by decide),
    h.2.2.2.2.2.2.2.2.trans (by decide)⟩

/-! ## The 64-bit conversions, the conversion of `minQty` -/

theorem be64_eq_reverse (x : Nat) : be64 x = (le64 (x % 18446744073709551616)).reverse := by
  have e1 : x % 18446744073709551616 % 4294967296 = x % 4294967296 := by omega
  have e2 : x % 18446744073709551616 / 4294967296 % 4294967296 = x / 4294967296 % 4294967296 := by
    omega
  unfold be64 le64
  rw [e1, e2]
  simp [le32, be32]

theorem ntoh_hton_CanceledMsg (c : CanceledMsg) (h : c.WF) : c.hton.ntoh = c := by
  cases c
  obtain ⟨h1, _, h3⟩ := h
  dsimp only at h1 h3
  simp only [CanceledMsg.hton, CanceledMsg.ntoh, CanceledMsg.mk.injEq, true_and, and_true]
  exact ⟨ntohll_htonll _ h1, ntohlInt_htonlInt _ h3⟩

/-- C32: for every 64-bit value `x`, `htonll(x)` is `x` with its eight bytes in the reverse
order, so that the bytes stored on a little-endian host are the big-endian encoding of `x`;
`ntohll` is the same function and `ntohll(htonll(x)) = x`.  An `AcceptedMsg` and a
`CanceledMsg` whose fields fit their types are the same after `hton` followed by `ntoh`, the
time stamp and the order reference included, and `hton` stores these in big-endian order. -/
theorem htonll_reverses (x : Nat) (a : AcceptedMsg) (c : CanceledMsg)
    (hx : x < 18446744073709551616) (ha : a.WF) (hc : c.WF) :
    le64 (htonll x) = (le64 x).reverse ∧
    le64 (htonll x) = be64 x ∧
    htonll x < 18446744073709551616 ∧
    ntohll x = htonll x ∧
    ntohll (htonll x) = x ∧
    htonll (ntohll x) = x ∧
    a.hton.ntoh = a ∧ c.hton.ntoh = c ∧
    a.hton.ntoh.tm = a.tm ∧ a.hton.ntoh.ref = a.ref ∧ c.hton.ntoh.tm = c.tm ∧
    le64 a.hton.tm = be64 a.tm ∧ le64 a.hton.ref = be64 a.ref ∧ le64 c.hton.tm = be64 c.tm := by
  have e : ntohll x = htonll x := rfl
  have hmod : x % 18446744073709551616 = x := Nat.mod_eq_of_lt hx
  have hrev := be64_eq_reverse x
  rw [hmod] at hrev
  have r1 := ntohll_htonll x hx
  have ra := ntoh_hton_AcceptedMsg a ha
  have rc := ntoh_hton_CanceledMsg c hc
  refine ⟨?_, le64_htonll x, htonll_lt x, e, r1, ?_, ra, rc, ?_, ?_, ?_, le64_htonll _,
    le64_htonll _, le64_htonll _⟩
  · rw [le64_htonll, hrev]
  · rw [e]; exact r1
  · rw [ra]
  · rw [ra]
  · rw [rc]

theorem htonll_reverses_witness :
    le64 (htonll 72623859790382856) = [1, 2, 3, 4, 5, 6, 7, 8] ∧
    le64 72623859790382856 = [8, 7, 6, 5, 4, 3, 2, 1] ∧
    ntohll (htonll 72623859790382856) = 72623859790382856 ∧
    ({ AcceptedMsg.ofOrder OrderMsg.example with tm := 72623859790382856, ref := 258 } :
      AcceptedMsg).hton.ntoh =
      { AcceptedMsg.ofOrder OrderMsg.example with tm := 72623859790382856, ref := 258 } :=
  have h := htonll_reverses 72623859790382856
    { AcceptedMsg.ofOrder OrderMsg.example with tm := 72623859790382856, ref := 258 }
    (CanceledMsg.ofCancel (CancelMsg.new [49] 0) 7) (by decide) (by decide) (by decide)
  ⟨h.2.1.trans (by decide), by decide, h.2.2.2.2.1, h.2.2.2.2.2.2.1⟩

theorem htonlInt_zero : htonlInt 0 = 0 := by decide

/-- C33: the test `if (minQty)` before the conversion of `minQty` changes nothing.  For every
value `v` of the field, the conversion of the source (the bytes are swapped when `v` is not
zero) gives what the byte swap gives without the test, in `hton` and in `ntoh`; so `minQty`
after `hton` or `ntoh` of an `OrderMsg`, a `ReplaceMsg` or an `AcceptedMsg` is the swapped
value, and its four bytes in memory after `hton` are the big-endian encoding. -/
theorem minQty_guard_harmless (v : Int) (o : OrderMsg) (r : ReplaceMsg) (a : AcceptedMsg) :
    (if v ≠ 0 then htonlInt v else v) = htonlInt v ∧
    (if v ≠ 0 then ntohlInt v else v) = ntohlInt v ∧
    o.hton.minQty = htonlInt o.minQty ∧ o.ntoh.minQty = ntohlInt o.minQty ∧
    r.hton.minQty = htonlInt r.minQty ∧ r.ntoh.minQty = ntohlInt r.minQty ∧
    a.hton.minQty = htonlInt a.minQty ∧ a.ntoh.minQty = ntohlInt a.minQty ∧
    leI32 o.hton.minQty = beI32 o.minQty ∧ leI32 r.hton.minQty = beI32 r.minQty ∧
    leI32 a.hton.minQty = beI32 a.minQty := by
  have g : ∀ w : Int, (if w ≠ 0 then htonlInt w else w) = htonlInt w := by
    intro w
    by_cases hw : w = 0
    · subst hw; decide
    · rw [if_pos hw]
  have g2 : ∀ w : Int, (if w ≠ 0 then ntohlInt w else w) = ntohlInt w := g
  exact ⟨g v, g2 v, g _, g2 _, g _, g2 _, g _, g2 _, leI32_htonl_guarded _,
    leI32_htonl_guarded _, leI32_htonl_guarded _⟩

/-! ## C34 -/

/-- C34: `Log::write` on a message with the tag `M` calls the `write` of `ModifiedMsg` when
the length is 28 + 3 and that of `ModifyMsg` otherwise, and then, the case having no `break`,
the `write` of `CanceledMsg` on the same bytes.  The tag `U` is written as a `ReplacedMsg`
when the length is 80 + 3 and as a `ReplaceMsg` otherwise.  Each of the other twelve tags
calls the one `write` of its type, and a tag that is none of the fourteen calls nothing. -/
theorem log_write_renderers (type len : Nat) :
    Log.write 77 len =
      [if len = 28 + 3 then Renderer.ModifiedMsg else Renderer.ModifyMsg,
        Renderer.CanceledMsg] ∧
    Log.write 85 len = [if len = 80 + 3 then Renderer.ReplacedMsg else Renderer.ReplaceMsg] ∧
    [79, 88, 65, 67, 68, 69, 66, 74, 80, 73, 84, 83].map (fun t => Log.write t len) =
      [[Renderer.OrderMsg], [Renderer.CancelMsg], [Renderer.AcceptedMsg],
       [Renderer.CanceledMsg], [Renderer.AIQCanceledMsg], [Renderer.ExecMsg],
       [Renderer.BrokenTradeMsg], [Renderer.RejectedMsg], [Renderer.CancelPendingMsg],
       [Renderer.CancelRejectMsg], [Renderer.PriorityMsg], [Renderer.SysMsg]] ∧
    (type ≠ 77 → type ∈ Log.writeCases.map SwitchCase.label → (Log.write type len).length = 1) ∧
    (type ∉ Log.writeCases.map SwitchCase.label → Log.write type len = []) ∧
    ((Log.write type len).length = 2 ↔ type = 77) ∧
    Log.writeCases.map SwitchCase.label =
      [79, 88, 65, 85, 77, 67, 68, 69, 66, 74, 80, 73, 84, 83] := by
  have hl : Log.writeCases.map SwitchCase.label =
      [79, 88, 65, 85, 77, 67, 68, 69, 66, 74, 80, 73, 84, 83] := rfl
  have key : (type ∉ [79, 88, 65, 85, 77, 67, 68, 69, 66, 74, 80, 73, 84, 83] →
      Log.write type len = []) ∧
      (type ∈ [79, 88, 65, 85, 77, 67, 68, 69, 66, 74, 80, 73, 84, 83] → type ≠ 77 →
        (Log.write type len).length = 1) := by
    constructor
    · intro h
      simp only [List.mem_cons, List.mem_singleton, List.not_mem_nil, or_false, not_or] at h
      obtain ⟨h1, h2, h3, h4, h5, h6, h7, h8, h9, h10, h11, h12, h13, h14⟩ := h
      simp [Log.write, Log.writeCases, runSwitch, OrderMsg.TYPE, CancelMsg.TYPE,
        AcceptedMsg.TYPE, ReplacedMsg.TYPE, ModifiedMsg.TYPE, CanceledMsg.TYPE,
        AIQCanceledMsg.TYPE, ExecMsg.TYPE, BrokenTradeMsg.TYPE, RejectedMsg.TYPE,
        CancelPendingMsg.TYPE, CancelRejectMsg.TYPE, PriorityMsg.TYPE, SysMsg.TYPE,
        Ne.symm h1, Ne.symm h2, Ne.symm h3, Ne.symm h4, Ne.symm h5, Ne.symm h6, Ne.symm h7,
        Ne.symm h8, Ne.symm h9, Ne.symm h10, Ne.symm h11, Ne.symm h12, Ne.symm h13,
        Ne.symm h14]
    · intro h h77
      simp only [List.mem_cons, List.mem_singleton, List.not_mem_nil, or_false] at h
      rcases h with h | h | h | h | h | h | h | h | h | h | h | h | h | h <;>
        first
        | exact absurd h h77
        | (subst h; rfl)
  refine ⟨rfl, rfl, rfl, ?_, ?_, ?_, hl⟩
  · intro h1 h2
    rw [hl] at h2
    exact key.2 h2 h1
  · intro h
    rw [hl] at h
    exact key.1 h
  · constructor
    · intro h2
      by_contra h77
      by_cases hm : type ∈ [79, 88, 65, 85, 77, 67, 68, 69, 66, 74, 80, 73, 84, 83]
      · rw [key.2 hm h77] at h2
        exact absurd h2 (by decide)
      · rw [key.1 hm] at h2
        exact absurd h2 (by decide)
    · intro h
      subst h
      rfl

/-! ## C35 -/

theorem julianDate_ediv (year month day a y m : Int) (hm : 1 ≤ month ∧ month ≤ 12)
    (hy : 0 ≤ year) (ha : a = (14 - month) / 12) (hyy : y = year + 4800 - a)
    (hmm : m = month + 12 * a - 3) :
    DateTime.julianDate year month day =
      day + (153 * m + 2) / 5 + y * 365 + y / 4 - y / 100 + y / 400 - 32045 := by
  have e1 : (14 - month).tdiv 12 = a := by
    rw [Int.tdiv_eq_ediv (by omega) (by omega), ha]
  unfold DateTime.julianDate
  simp only [e1]
  have e2 : (153 * (month + 12 * a - 3) + 2).tdiv 5 = (153 * m + 2) / 5 := by
    rw [Int.tdiv_eq_ediv (by omega) (by omega), hmm]
  have e3 : (year + 4800 - a).tdiv 4 = y / 4 := by
    rw [Int.tdiv_eq_ediv (by omega) (by omega), hyy]
  have e4 : (year + 4800 - a).tdiv 100 = y / 100 := by
    rw [Int.tdiv_eq_ediv (by omega) (by omega), hyy]
  have e5 : (year + 4800 - a).tdiv 400 = y / 400 := by
    rw [Int.tdiv_eq_ediv (by omega) (by omega), hyy]
  rw [e2, e3, e4, e5, hyy]

theorem month_of_day (e0 m : Int) (hm : 0 ≤ m ∧ m ≤ 11)
    (he : (153 * m + 2) / 5 ≤ e0) (he1 : e0 < (153 * (m + 1) + 2) / 5) :
    (5 * e0 + 2) / 153 = m ∧ 0 ≤ e0 := by
  have h : m = 0 ∨ m = 1 ∨ m = 2 ∨ m = 3 ∨ m = 4 ∨ m = 5 ∨ m = 6 ∨ m = 7 ∨ m = 8 ∨ m = 9 ∨
      m = 10 ∨ m = 11 := by omega
  rcases h with h | h | h | h | h | h | h | h | h | h | h | h <;> subst h <;> omega

theorem ymd_of_day_number (y e0 m A : Int) (hm : 0 ≤ m ∧ m ≤ 11)
    (he : (153 * m + 2) / 5 ≤ e0) (he1 : e0 < (153 * (m + 1) + 2) / 5) (he2 : e0 ≤ 365)
    (hleap : e0 = 365 → (y + 1) % 4 = 0 ∧ ((y + 1) % 100 ≠ 0 ∨ (y + 1) % 400 = 0))
    (hA : A = e0 + y * 365 + y / 4 - y / 100 + y / 400) :
    (4 * A + 3) / 146097 = y / 100 ∧
    (4 * (A - ((y / 100) * 146097) / 4) + 3) / 1461 = y % 100 ∧
    A - ((y / 100) * 146097) / 4 - (1461 * (y % 100)) / 4 = e0 ∧
    (5 * e0 + 2) / 153 = m := by
  obtain ⟨hm5, he0⟩ := month_of_day e0 m hm he he1
  clear he he1
  generalize hq4 : y / 400 = q4 at *
  generalize hc1 : y % 400 / 100 = c1 at *
  generalize hq : y % 100 / 4 = q at *
  generalize hr3 : y % 4 = r3 at *
  have b1 : 0 ≤ c1 ∧ c1 ≤ 3 := by omega
  have b2 : 0 ≤ q ∧ q ≤ 24 := by omega
  have b3 : 0 ≤ r3 ∧ r3 ≤ 3 := by omega
  have dy : y = 400 * q4 + 100 * c1 + 4 * q + r3 := by omega
  have d100 : y / 100 = 4 * q4 + c1 := by omega
  have d4 : y / 4 = 100 * q4 + 25 * c1 + q := by omega
  have dm100 : y % 100 = 4 * q + r3 := by omega
  have hAA : A = 146097 * q4 + 36524 * c1 + 1461 * q + 365 * r3 + e0 := by
    rw [hA, d4, d100, dy]; omega
  have hl : e0 = 365 → r3 = 3 ∧ (q ≠ 24 ∨ c1 = 3) := by
    intro h
    have := hleap h
    omega
  have k1 : (4 * A + 3) / 146097 = 4 * q4 + c1 := by
    rw [hAA]
    by_cases h : e0 = 365
    · have := hl h
      omega
    · omega
  have k2 : ((4 * q4 + c1) * 146097) / 4 = 146097 * q4 + 36524 * c1 := by omega
  have k3 : A - ((4 * q4 + c1) * 146097) / 4 = 1461 * q + 365 * r3 + e0 := by
    rw [k2, hAA]; omega
  have k4 : (4 * (1461 * q + 365 * r3 + e0) + 3) / 1461 = 4 * q + r3 := by
    by_cases h : e0 = 365
    · have := hl h
      omega
    · omega
  have k5 : (1461 * (4 * q + r3)) / 4 = 1461 * q + 365 * r3 := by omega
  rw [d100, dm100, k1, k3, k4, k5]
  refine ⟨rfl, rfl, by omega, hm5⟩

theorem daysInMonth_cases (year month : Int) (hm : 1 ≤ month ∧ month ≤ 12) :
    (month = 2 ∧ isLeapYear year = true ∧ daysInMonth year month = 29 ∧
      year % 4 = 0 ∧ (year % 100 ≠ 0 ∨ year % 400 = 0)) ∨
    (month = 2 ∧ isLeapYear year = false ∧ daysInMonth year month = 28 ∧
      ¬ (year % 4 = 0 ∧ (year % 100 ≠ 0 ∨ year % 400 = 0))) ∨
    ((month = 4 ∨ month = 6 ∨ month = 9 ∨ month = 11) ∧ daysInMonth year month = 30) ∨
    ((month = 1 ∨ month = 3 ∨ month = 5 ∨ month = 7 ∨ month = 8 ∨ month = 10 ∨ month = 12) ∧
      daysInMonth year month = 31) := by
  unfold daysInMonth
  by_cases h2 : month = 2
  · by_cases hl : isLeapYear year = true
    · left
      have hl2 := hl
      simp only [isLeapYear, decide_eq_true_eq] at hl2
      exact ⟨h2, hl, by rw [if_pos h2, if_pos hl], hl2.1, hl2.2⟩
    · right; left
      have hl1 : isLeapYear year = false := by simpa using hl
      have hl2 := hl1
      simp only [isLeapYear, decide_eq_false_iff_not] at hl2
      exact ⟨h2, hl1, by rw [if_pos h2, if_neg hl], hl2⟩
  · rw [if_neg h2]
    by_cases h30 : month = 4 ∨ month = 6 ∨ month = 9 ∨ month = 11
    · right; right; left
      exact ⟨h30, by rw [if_pos h30]⟩
    · right; right; right
      exact ⟨by omega, by rw [if_neg h30]⟩

theorem day_of_year (year month day a y m : Int) (hv : validDate year month day)
    (ha : a = (14 - month) / 12) (hyy : y = year + 4800 - a) (hmm : m = month + 12 * a - 3) :
    0 ≤ m ∧ m ≤ 11 ∧ m / 10 = a ∧ m + 3 - 12 * (m / 10) = month ∧
    (153 * m + 2) / 5 ≤ day - 1 + (153 * m + 2) / 5 ∧
    day - 1 + (153 * m + 2) / 5 < (153 * (m + 1) + 2) / 5 ∧
    day - 1 + (153 * m + 2) / 5 ≤ 365 ∧
    (day - 1 + (153 * m + 2) / 5 = 365 →
      (y + 1) % 4 = 0 ∧ ((y + 1) % 100 ≠ 0 ∨ (y + 1) % 400 = 0)) := by
  obtain ⟨h1, h2, h3, h4, h5, h6⟩ := hv
  have hmc : month = 1 ∨ month = 2 ∨ month = 3 ∨ month = 4 ∨ month = 5 ∨ month = 6 ∨
      month = 7 ∨ month = 8 ∨ month = 9 ∨ month = 10 ∨ month = 11 ∨ month = 12 := by omega
  rcases daysInMonth_cases year month ⟨h3, h4⟩ with ⟨c1, _, c2, c3, c4⟩ | ⟨c1, _, c2, c3⟩ |
    ⟨c1, c2⟩ | ⟨c1, c2⟩
  · subst c1
    rw [c2] at h6
    have ea : a = 1 := by omega
    subst ea
    have em : m = 11 := by omega
    subst em
    omega
  · subst c1
    rw [c2] at h6
    have ea : a = 1 := by omega
    subst ea
    have em : m = 11 := by omega
    subst em
    omega
  · rw [c2] at h6
    have ea : a = 0 := by omega
    subst ea
    rcases c1 with c | c | c | c <;> subst c <;>
      (have em : m = _ := hmm; norm_num at em; subst em; omega)
  · rw [c2] at h6
    rcases c1 with c | c | c | c | c | c | c <;> subst c <;>
      (have ea : a = _ := ha; norm_num at ea; subst ea
       have em : m = _ := hmm; norm_num at em; subst em; omega)

theorem getYMD_julianDate (year month day : Int) (hv : validDate year month day) :
    DateTime.getYMD (DateTime.julianDate year month day) = (year, month, day) := by
  have hv1 := hv
  obtain ⟨h1, h2, h3, h4, h5, h6⟩ := hv1
  generalize ha : (14 - month) / 12 = a
  generalize hyy : year + 4800 - a = y
  generalize hmm : month + 12 * a - 3 = m
  obtain ⟨m0, m11, mdiv, mmon, he, he1, he2, hleap⟩ :=
    day_of_year year month day a y m hv ha.symm hyy.symm hmm.symm
  have hjd := julianDate_ediv year month day a y m ⟨h3, h4⟩ h1 ha.symm hyy.symm hmm.symm
  generalize he0 : day - 1 + (153 * m + 2) / 5 = e0 at he he1 he2 hleap
  generalize hA : e0 + y * 365 + y / 4 - y / 100 + y / 400 = A
  obtain ⟨k1, k2, k3, k4⟩ := ymd_of_day_number y e0 m A ⟨m0, m11⟩ he he1 he2 hleap hA.symm
  have hjA : DateTime.julianDate year month day + 32044 = A := by
    rw [hjd, ← hA, ← he0]; omega
  have hA0 : 0 ≤ A := by
    have : 0 ≤ y := by omega
    have : 0 ≤ e0 := by omega
    omega
  have g := getYMD_nonneg (DateTime.julianDate year month day) (y / 100)
    (A - ((y / 100) * 146097) / 4) (y % 100) e0 m (by rw [hjA]; exact hA0)
    (by rw [hjA, k1]) (by rw [hjA]) k2.symm k3.symm k4.symm
  rw [g, mdiv]
  have r1 : y / 100 * 100 + y % 100 - 4800 + a = year := by omega
  have r2 : m + 3 - 12 * a = month := by rw [← mdiv]; exact mmon
  have r3 : e0 - (153 * m + 2) / 5 + 1 = day := by omega
  rw [r1, r2, r3]

theorem julianDate_janfeb (year month day : Int) (hm : month = 1 ∨ month = 2) (hy : 0 ≤ year) :
    DateTime.julianDate year month day =
      day + (306 + 31 * (month - 1)) + (year + 4799) * 365 + (year + 4799) / 4 -
        (year + 4799) / 100 + (year + 4799) / 400 - 32045 := by
  rcases hm with h | h <;> subst h
  · rw [julianDate_ediv year 1 day 1 (year + 4799) 10 (by omega) hy (by norm_num) (by omega)
      (by norm_num)]
    norm_num
  · rw [julianDate_ediv year 2 day 1 (year + 4799) 11 (by omega) hy (by norm_num) (by omega)
      (by norm_num)]
    norm_num

theorem julianDate_march (year month day : Int) (hm : 3 ≤ month ∧ month ≤ 12) (hy : 0 ≤ year) :
    DateTime.julianDate year month day =
      day + (153 * (month - 3) + 2) / 5 + (year + 4800) * 365 + (year + 4800) / 4 -
        (year + 4800) / 100 + (year + 4800) / 400 - 32045 := by
  rw [julianDate_ediv year month day 0 (year + 4800) (month - 3) (by omega) hy (by omega)
    (by omega) (by omega)]

theorem julianDate_nextDay (year month day : Int) (hv : validDate year month day) :
    DateTime.julianDate (nextDay year month day).1 (nextDay year month day).2.1
      (nextDay year month day).2.2 = DateTime.julianDate year month day + 1 ∧
    (validDate (nextDay year month day).1 (nextDay year month day).2.1
      (nextDay year month day).2.2 ∨ nextDay year month day = (10000, 1, 1)) := by
  have hv1 := hv
  obtain ⟨h1, h2, h3, h4, h5, h6⟩ := hv1
  unfold nextDay
  by_cases c1 : day < daysInMonth year month
  · rw [if_pos c1]
    refine ⟨?_, Or.inl (show validDate year month (day + 1) from
      ⟨h1, h2, h3, h4, by omega, by omega⟩)⟩
    show DateTime.julianDate year month (day + 1) = _
    by_cases hm : month ≤ 2
    · rw [julianDate_janfeb year month _ (by omega) h1, julianDate_janfeb year month _ (by omega) h1]
      omega
    · rw [julianDate_march year month _ (by omega) h1, julianDate_march year month _ (by omega) h1]
      omega
  · rw [if_neg c1]
    have hday : day = daysInMonth year month := by omega
    by_cases c2 : month < 12
    · rw [if_pos c2]
      have hdim : 1 ≤ daysInMonth year (month + 1) := by
        rcases daysInMonth_cases year (month + 1) ⟨by omega, by omega⟩ with
          ⟨_, _, c, _⟩ | ⟨_, _, c, _⟩ | ⟨_, c⟩ | ⟨_, c⟩ <;> omega
      refine ⟨?_, Or.inl (show validDate year (month + 1) 1 from
        ⟨h1, h2, by omega, by omega, by omega, hdim⟩)⟩
      show DateTime.julianDate year (month + 1) 1 = _
      rw [hday]
      rcases daysInMonth_cases year month ⟨h3, h4⟩ with ⟨e1, _, e2, e3, e4⟩ | ⟨e1, _, e2, e3⟩ |
        ⟨e1, e2⟩ | ⟨e1, e2⟩
      · subst e1
        rw [e2, julianDate_janfeb year 2 _ (by omega) h1,
          julianDate_march year (2 + 1) _ (by omega) h1]
        norm_num
        omega
      · subst e1
        rw [e2, julianDate_janfeb year 2 _ (by omega) h1,
          julianDate_march year (2 + 1) _ (by omega) h1]
        norm_num
        omega
      · rw [e2, julianDate_march year month _ (by omega) h1,
          julianDate_march year (month + 1) _ (by omega) h1]
        rcases e1 with c | c | c | c <;> subst c <;> norm_num <;> omega
      · rw [e2]
        rcases e1 with c | c | c | c | c | c | c
        · subst c
          rw [julianDate_janfeb year 1 _ (by omega) h1,
            julianDate_janfeb year (1 + 1) _ (by omega) h1]
          norm_num
          omega
        all_goals first
          | (exfalso; omega)
          | (rw [julianDate_march year month _ (by omega) h1,
              julianDate_march year (month + 1) _ (by omega) h1]
             subst c
             norm_num
             omega)
    · rw [if_neg c2]
      have hm12 : month = 12 := by omega
      subst hm12
      have hd31 : daysInMonth year 12 = 31 := by
        rcases daysInMonth_cases year 12 ⟨by omega, by omega⟩ with
          ⟨c, _⟩ | ⟨c, _⟩ | ⟨c, _⟩ | ⟨_, c⟩
        · exact absurd c (by decide)
        · exact absurd c (by decide)
        · omega
        · exact c
      constructor
      · show DateTime.julianDate (year + 1) 1 1 = _
        rw [hday, hd31, julianDate_march year 12 _ (by omega) h1,
          julianDate_janfeb (year + 1) 1 _ (by omega) (by omega)]
        norm_num
        omega
      · by_cases hy : year = 9999
        · right; rw [hy]; rfl
        · left
          show validDate (year + 1) 1 1
          refine ⟨by omega, by omega, by omega, by omega, by omega, ?_⟩
          rcases daysInMonth_cases (year + 1) 1 ⟨by omega, by omega⟩ with
            ⟨c, _⟩ | ⟨c, _⟩ | ⟨_, c⟩ | ⟨_, c⟩
          · exact absurd c (by decide)
          · exact absurd c (by decide)
          · omega
          · omega

/-- C35: for every date of the Gregorian calendar in the years 0 to 9999 (month 1 to 12, day
1 to the number of days of the month), `getYMD` of the day number that `julianDate` gives is
the same year, month and day; and the day number of the next calendar day is the day number
plus one, the next day being a date of those years again or the first of January of the year
10000.  The day number of the first of January 1970 is the constant `JULIAN_19700101`. -/
theorem julian_day_roundtrip (year month day : Int) (hv : validDate year month day) :
    DateTime.getYMD (DateTime.julianDate year month day) = (year, month, day) ∧
    DateTime.julianDate (nextDay year month day).1 (nextDay year month day).2.1
      (nextDay year month day).2.2 = DateTime.julianDate year month day + 1 ∧
    (validDate (nextDay year month day).1 (nextDay year month day).2.1
      (nextDay year month day).2.2 ∨ nextDay year month day = (10000, 1, 1)) ∧
    DateTime.julianDate 1970 1 1 = DateTime.JULIAN_19700101 ∧
    DateTime.getYMD DateTime.JULIAN_19700101 = (1970, 1, 1) :=
  ⟨getYMD_julianDate year month day hv, (julianDate_nextDay year month day hv).1,
    (julianDate_nextDay year month day hv).2, by decide, by decide⟩

theorem julian_day_roundtrip_witness :
    validDate 2024 2 29 ∧
    DateTime.julianDate 2024 2 29 = 2460370 ∧
    DateTime.getYMD (DateTime.julianDate 2024 2 29) = (2024, 2, 29) ∧
    nextDay 2024 2 29 = (2024, 3, 1) ∧
    DateTime.julianDate 2024 3 1 = DateTime.julianDate 2024 2 29 + 1 :=
  ⟨by decide, by decide, (julian_day_roundtrip 2024 2 29 (by decide)).1, by decide,
    (julian_day_roundtrip 2024 2 29 (by decide)).2.1⟩

/-! ## C36 -/

theorem unseqDataNtoh_outside (d : Nat → Nat) (msg : Nat) (j : Nat) :
    (∀ size f, unseqDataCase (d msg) = some (size, f) → j < msg ∨ msg + size ≤ j →
      unseqDataNtoh d msg j = d j) ∧
    (unseqDataCase (d msg) = none → unseqDataNtoh d msg j = d j) := by
  unfold unseqDataNtoh
  constructor
  · intro size f hc hj
    rw [hc]
    exact ntohAt_outside d msg size f (unseqDataCase_length _ size f hc) j hj
  · intro hc
    rw [hc]

theorem close_data (s : Session) : s.close.rxbuf.data = s.rxbuf.data := by
  unfold Session.close
  cases h : s.sharedPoll <;> simp [Session.event, Session.emit, h, Buffer.reset]

/-- C36: the bytes of the receive buffer that the handling of a data packet may change.  The
conversion is made on the struct of the type that the first byte of the body names, from the
start of the body, whatever the length of the packet: the bytes before the body and the bytes
from the end of that struct on are as they were, so that every byte after the packet is as it
was when the packet is at least as long as the struct with the three bytes before it.  When
the type is not one that is converted no byte changes. -/
theorem data_packet_frame (s : Session) (len now : Nat) :
    (∀ size f,
      (s.rxbuf.data (s.rxbuf.start + 2) = SOUPBIN3_PACKET_SEQ_DATA ∧
        seqDataCase (s.rxbuf.data (s.rxbuf.start + 3)) = some (size, f)) ∨
      (s.rxbuf.data (s.rxbuf.start + 2) = SOUPBIN3_PACKET_UNSEQ_DATA ∧
        unseqDataCase (s.rxbuf.data (s.rxbuf.start + 3)) = some (size, f)) →
      (∀ j, j < s.rxbuf.start + 3 ∨ s.rxbuf.start + 3 + size ≤ j →
        (handlePacket s len now).session.rxbuf.data j = s.rxbuf.data j) ∧
      (size + 3 ≤ len → ∀ j, s.rxbuf.start + len ≤ j →
        (handlePacket s len now).session.rxbuf.data j = s.rxbuf.data j) ∧
      (handlePacket s len now).session.rxbuf.data =
        ntohAt s.rxbuf.data (s.rxbuf.start + 3) size f) ∧
    ((s.rxbuf.data (s.rxbuf.start + 2) = SOUPBIN3_PACKET_SEQ_DATA ∧
        seqDataCase (s.rxbuf.data (s.rxbuf.start + 3)) = none) ∨
      (s.rxbuf.data (s.rxbuf.start + 2) = SOUPBIN3_PACKET_UNSEQ_DATA ∧
        unseqDataCase (s.rxbuf.data (s.rxbuf.start + 3)) = none) →
      (handlePacket s len now).session.rxbuf.data = s.rxbuf.data) := by
  constructor
  · intro size f hc
    have hd : (handlePacket s len now).session.rxbuf.data =
        ntohAt s.rxbuf.data (s.rxbuf.start + 3) size f ∧ ∀ w, (f w).length = size := by
      rcases hc with ⟨hS, hc⟩ | ⟨hU, hc⟩
      · rw [handlePacket_seq s len now size f hS hc]
        simp only [Step.session]
        refine ⟨?_, seqDataCase_length _ size f hc⟩
        split <;> rfl
      · rw [handlePacket_unseq s len now hU]
        refine ⟨?_, unseqDataCase_length _ size f hc⟩
        show unseqDataNtoh s.rxbuf.data (s.rxbuf.start + 3) = _
        unfold unseqDataNtoh
        rw [hc]
    have hout : ∀ j, j < s.rxbuf.start + 3 ∨ s.rxbuf.start + 3 + size ≤ j →
        (handlePacket s len now).session.rxbuf.data j = s.rxbuf.data j := by
      intro j hj
      rw [hd.1]
      exact ntohAt_outside _ _ size f hd.2 j hj
    refine ⟨hout, ?_, hd.1⟩
    intro hlen j hj
    exact hout j (Or.inr (by omega))
  · intro hc
    rcases hc with ⟨hS, hc⟩ | ⟨hU, hc⟩
    · rw [handlePacket_seq_unknown s len now hS hc]
      exact close_data _
    · rw [handlePacket_unseq s len now hU]
      show unseqDataNtoh s.rxbuf.data (s.rxbuf.start + 3) = _
      unfold unseqDataNtoh
      rw [hc]

theorem data_packet_frame_witness :
    wellFormed (([0, 11, 83] ++ (SysMsg.toBytes ⟨83, 258, 79⟩) ++ [0, 1, 72]).take 13) = true ∧
    ∀ j, 13 ≤ j →
      (handlePacket ((Session.example true).holding
        ([0, 11, 83] ++ (SysMsg.toBytes ⟨83, 258, 79⟩) ++ [0, 1, 72])) 13 7).session.rxbuf.data j =
      ([0, 11, 83] ++ (SysMsg.toBytes ⟨83, 258, 79⟩) ++ [0, 1, 72]).getD j 0 :=
  ⟨by decide,
    ((data_packet_frame ((Session.example true).holding
      ([0, 11, 83] ++ (SysMsg.toBytes ⟨83, 258, 79⟩) ++ [0, 1, 72])) 13 7).1 SysMsg.sizeof (fun w => (SysMsg.ofBytes w).ntoh.toBytes)
      (Or.inl ⟨by decide, by rfl⟩)).2.1 (by decide)⟩

/-- C36: a sequenced data packet of four bytes, whose body is the one byte `A`, followed in
the same read by a server heartbeat packet and five more bytes.  The handling of the first
packet converts an `AcceptedMsg` of 66 bytes from its body on: the eight bytes after the
packet, which are the heartbeat packet and the bytes after it, are reversed as the time
stamp of the message, and the loop then finds a packet of 2315 bytes there and waits for
it. -/
theorem short_packet_converts_next :
    pktLen 0 2 = 4 ∧
    readMem ((Session.example true).holding
      [0, 2, 83, 65, 0, 1, 72, 9, 9, 9, 9, 9]).rxbuf.data 4 8 = [0, 1, 72, 9, 9, 9, 9, 9] ∧
    readMem (handlePacket ((Session.example true).holding
      [0, 2, 83, 65, 0, 1, 72, 9, 9, 9, 9, 9]) 4 7).session.rxbuf.data 4 8 =
        [9, 9, 9, 9, 9, 72, 1, 0] ∧
    ((Session.example true).in_event
      (ReadResult.data [0, 2, 83, 65, 0, 1, 72, 9, 9, 9, 9, 9] 0) 7).map
        (fun s1 => (s1.rxbuf.start, s1.rxbuf.pending)) =
      some (4, [9, 9, 9, 9, 9, 72, 1, 0]) ∧
    pktLen 9 9 = 2315 := by
  decide

/-! ## C37 -/

theorem chunksOk_shape (l : List Chunk) (h : chunksOk l) :
    ∃ init tl, l = init ++ [tl] ∧ tl.head ≤ tl.tail ∧ tl.tail < tl.capacity ∧
      ∀ c ∈ init, c.head < c.capacity ∧ c.tail = c.capacity := by
  rcases List.eq_nil_or_concat l with h0 | ⟨init, tl, h1⟩
  · subst h0
    exact absurd h (by simp [chunksOk])
  · rw [List.concat_eq_append] at h1
    subst h1
    obtain ⟨k1, k2, k3, _⟩ := (chunksOk_snoc init tl).1 h
    exact ⟨init, tl, rfl, k2, k3, fun c hc => ⟨(k1 c hc).1, (k1 c hc).2.1⟩⟩

/-- C37: every sequence of calls of `push`, each of less than 2 GiB so that twice the count
fits 32 bits, and of consumer steps (`data`, then `pop` of no more than the span returned) on
a new pipe runs without a failed `assert`, and the pipe is then in order: the write offset of
the tail chunk is below its capacity, every chunk before it is full and not consumed to its
capacity, so that a head chunk whose `head` reaches its capacity in `pop` has a successor.
On such a pipe the next `push` of less than 2 GiB, the next `data` and the next `pop` of no
more than the span pass their assertions. -/
theorem pipe_asserts_hold (mem : Nat → Nat) (ops : List PipeOp)
    (hops : ∀ op ∈ ops, op.size < 2147483648) :
    ∃ q taken, (Pipe.new mem).run ops = some (q, taken) ∧
      (∃ init tl, q.chunks = init ++ [tl] ∧ tl.head ≤ tl.tail ∧ tl.tail < tl.capacity ∧
        ∀ c ∈ init, c.head < c.capacity ∧ c.tail = c.capacity) ∧
      (∀ h rest k, q.chunks = h :: rest → k ≤ h.tail - h.head → h.head + k = h.capacity →
        rest ≠ []) ∧
      (∀ bytes m2, bytes.length < 2147483648 → ∃ q1, q.push bytes m2 = some q1) ∧
      q.data ≠ none ∧
      (∀ span, q.data = some (some span) → ∀ k, k ≤ span.length → ∃ q1, q.pop k = some q1) := by
  obtain ⟨q, taken, h1, h2, _⟩ := run_ok ops (Pipe.new mem) (new_ok mem).1 hops
  obtain ⟨init, tl, s1, s2, s3, s4⟩ := chunksOk_shape q.chunks h2.1
  refine ⟨q, taken, h1, ⟨init, tl, s1, s2, s3, s4⟩, ?_, ?_, ?_, ?_⟩
  · intro h rest k hc hk hcap hrest
    subst hrest
    rw [hc] at s1
    cases init with
    | nil =>
      simp only [List.nil_append, List.cons.injEq, and_true] at s1
      subst s1
      omega
    | cons c t =>
      have := congrArg List.length s1
      simp at this
  · intro bytes m2 hb
    obtain ⟨q1, tk, e1, _⟩ := step_ok q (PipeOp.push bytes m2) h2 hb
    simp only [Pipe.step, Option.map_eq_some'] at e1
    obtain ⟨q2, e2, _⟩ := e1
    exact ⟨q2, e2⟩
  · rcases data_pop_ok q h2 with ⟨d, _⟩ | ⟨span, d, _⟩
    · rw [d]; simp
    · rw [d]; simp
  · intro span hd k hk
    rcases data_pop_ok q h2 with ⟨d, _⟩ | ⟨span1, d, _, hpop⟩
    · rw [d] at hd; cases hd
    · rw [d] at hd
      cases hd
      obtain ⟨q1, e1, _⟩ := hpop k hk
      exact ⟨q1, e1⟩

theorem pipe_asserts_hold_witness :
    (∀ op ∈ [PipeOp.push [1, 2, 3] (fun _ => 0), PipeOp.consume 2, PipeOp.push [4] (fun _ => 0),
        PipeOp.consume 9], op.size < 2147483648) ∧
    ∃ q taken, (Pipe.new (fun _ => 0)).run [PipeOp.push [1, 2, 3] (fun _ => 0),
        PipeOp.consume 2, PipeOp.push [4] (fun _ => 0), PipeOp.consume 9] = some (q, taken) ∧
      q.data ≠ none :=
  ⟨by decide,
    match pipe_asserts_hold (fun _ => 0) [PipeOp.push [1, 2, 3] (fun _ => 0),
        PipeOp.consume 2, PipeOp.push [4] (fun _ => 0), PipeOp.consume 9] (by decide) with
    | ⟨q, taken, h1, _, _, _, h5, _⟩ => ⟨q, taken, h1, h5⟩⟩

/-! ## C38 -/

theorem assertThen_rxbuf (c : Bool) (s : Session) :
    (assertThen c s Step.next).session.rxbuf = s.rxbuf ∧
      (assertThen c s Step.ret).session.rxbuf = s.rxbuf := by
  unfold assertThen
  cases c <;> simp [Step.session, Session.emit]

theorem assertThen_next (c : Bool) (s s1 : Session) (h : assertThen c s Step.next = Step.next s1) :
    s1 = s := by
  unfold assertThen at h
  cases c
  · simp at h
  · simp at h
    exact h.symm

theorem assertThen_ret_next (c : Bool) (s s1 : Session) :
    assertThen c s Step.ret ≠ Step.next s1 := by
  unfold assertThen
  cases c <;> simp

/-- The handling of a packet leaves the bounds of the receive buffer as they were, or, when
it closes the session and returns, resets them. -/
theorem handlePacket_bounds (s : Session) (len now : Nat) :
    (∀ s1, handlePacket s len now = Step.next s1 →
      s1.rxbuf.start = s.rxbuf.start ∧ s1.rxbuf.len = s.rxbuf.len) ∧
    (∀ s1, handlePacket s len now = Step.ret s1 →
      (s1.rxbuf.start = s.rxbuf.start ∧ s1.rxbuf.len = s.rxbuf.len) ∨
      (s1.rxbuf.start = 0 ∧ s1.rxbuf.len = 0)) := by
  have key : ((handlePacket s len now).session.rxbuf.start = s.rxbuf.start ∧
        (handlePacket s len now).session.rxbuf.len = s.rxbuf.len) ∨
      ((∃ s1, handlePacket s len now = Step.ret s1) ∧
        (handlePacket s len now).session.rxbuf.start = 0 ∧
        (handlePacket s len now).session.rxbuf.len = 0) := by
    by_cases hS : s.rxbuf.data (s.rxbuf.start + 2) = SOUPBIN3_PACKET_SEQ_DATA
    · cases hc : seqDataCase (s.rxbuf.data (s.rxbuf.start + 3)) with
      | none =>
        right
        rw [handlePacket_seq_unknown s len now hS hc]
        exact ⟨⟨_, rfl⟩, (close_fields _).2.2.2.2.2.1, (close_fields _).2.2.2.2.1⟩
      | some x =>
        obtain ⟨size, f⟩ := x
        left
        rw [handlePacket_seq s len now size f hS hc]
        simp only [Step.session]
        split <;> exact ⟨rfl, rfl⟩
    by_cases hA : s.rxbuf.data (s.rxbuf.start + 2) = SOUPBIN3_PACKET_LOGIN_ACCEPTED
    · left
      rw [handlePacket_login_accepted s len now hA, (assertThen_rxbuf _ _).1]
      simp only [Session.emit]
      split <;> exact ⟨rfl, rfl⟩
    by_cases hJ : s.rxbuf.data (s.rxbuf.start + 2) = SOUPBIN3_PACKET_LOGIN_REJECTED
    · rw [handlePacket_login_rejected s len now hJ, (assertThen_rxbuf _ _).2]
      right
      refine ⟨?_, (close_fields _).2.2.2.2.2.1, (close_fields _).2.2.2.2.1⟩
      unfold assertThen
      split <;> exact ⟨_, rfl⟩
    by_cases hH : s.rxbuf.data (s.rxbuf.start + 2) = SOUPBIN3_PACKET_SERVER_HEARTBEAT
    · left
      rw [handlePacket_server_heartbeat s len now hH, (assertThen_rxbuf _ _).1]
      exact ⟨rfl, rfl⟩
    by_cases hZ : s.rxbuf.data (s.rxbuf.start + 2) = SOUPBIN3_PACKET_END_OF_SESSION
    · rw [handlePacket_end_of_session s len now hZ, (assertThen_rxbuf _ _).2]
      right
      refine ⟨?_, (close_fields _).2.2.2.2.2.1, (close_fields _).2.2.2.2.1⟩
      unfold assertThen
      split <;> exact ⟨_, rfl⟩
    by_cases hR : s.rxbuf.data (s.rxbuf.start + 2) = SOUPBIN3_PACKET_CLIENT_HEARTBEAT
    · left
      rw [handlePacket_client_heartbeat s len now hR, (assertThen_rxbuf _ _).1]
      exact ⟨rfl, rfl⟩
    by_cases hL : s.rxbuf.data (s.rxbuf.start + 2) = SOUPBIN3_PACKET_LOGIN_REQUEST
    · left
      rw [handlePacket_login_request s len now hL, (assertThen_rxbuf _ _).1]
      unfold Session.sendBytes
      split <;> exact ⟨rfl, rfl⟩
    by_cases hU : s.rxbuf.data (s.rxbuf.start + 2) = SOUPBIN3_PACKET_UNSEQ_DATA
    · left
      rw [handlePacket_unseq s len now hU]
      exact ⟨rfl, rfl⟩
    left
    rw [handlePacket_other s len now hS hA hJ hH hZ hR hL hU]
    exact ⟨rfl, rfl⟩
  constructor
  · intro s1 h1
    rw [h1] at key
    rcases key with k | ⟨⟨s2, k⟩, _⟩
    · exact k
    · cases k
  · intro s1 h1
    rw [h1] at key
    rcases key with k | ⟨_, k⟩
    · exact Or.inl k
    · exact Or.inr k

theorem drain_bounds (fuel : Nat) : ∀ (s : Session) (now : Nat) (s1 : Session),
    s.rxbuf.start + s.rxbuf.len ≤ Buffer.cap → drain fuel s now = some s1 →
    s1.rxbuf.start + s1.rxbuf.len ≤ Buffer.cap := by
  induction fuel with
  | zero => intro s now s1 _ h; cases h
  | succ f ih =>
    intro s now s1 hs h
    rw [drain] at h
    by_cases h2 : s.rxbuf.len > 2
    · rw [if_pos h2] at h
      simp only at h
      generalize hlen : pktLen (s.rxbuf.data s.rxbuf.begin) (s.rxbuf.data (s.rxbuf.begin + 1))
        = len at h
      by_cases h3 : len ≤ s.rxbuf.len
      · rw [if_pos h3] at h
        by_cases h4 : len > 2
        · rw [if_pos h4] at h
          cases hp : handlePacket s len now with
          | ret s2 =>
            rw [hp] at h
            cases h
            rcases (handlePacket_bounds s len now).2 _ hp with ⟨k1, k2⟩ | ⟨k1, k2⟩
            · rw [k1, k2]; exact hs
            · rw [k1, k2]; exact Nat.zero_le _
          | next s2 =>
            rw [hp] at h
            obtain ⟨k1, k2⟩ := (handlePacket_bounds s len now).1 _ hp
            refine ih _ now s1 ?_ h
            show s2.rxbuf.start + len + (s2.rxbuf.len - len) ≤ Buffer.cap
            rw [k1, k2]
            omega
        · rw [if_neg h4] at h
          refine ih _ now s1 ?_ h
          show s.rxbuf.start + len + (s.rxbuf.len - len) ≤ Buffer.cap
          omega
      · rw [if_neg h3] at h
        cases h
        exact hs
    · rw [if_neg h2] at h
      cases h
      exact hs

theorem remaining_eq (b : Buffer) (hb : b.start + b.len ≤ Buffer.cap) :
    b.remaining = Buffer.cap - b.start - b.len := by
  unfold Buffer.remaining
  have : ((Buffer.cap : Int) - b.start - b.len) % 18446744073709551616 =
      ((Buffer.cap - b.start - b.len : Nat) : Int) := by
    have hc : Buffer.cap = 1048576 := rfl
    rw [hc] at hb ⊢
    omega
  rw [this]
  rfl

theorem compact_bounds (b : Buffer) :
    b.compact.start = 0 ∧ b.compact.len = b.len ∧ b.compact.pending = b.pending := by
  refine ⟨rfl, rfl, ?_⟩
  unfold Buffer.pending Buffer.compact
  apply readMem_congr
  intro i hi
  show (if 0 + i < b.len then b.data (b.start + (0 + i)) else b.data (0 + i)) = _
  rw [Nat.zero_add, if_pos hi]

theorem in_event_bounds (s : Session) (rd : ReadResult) (now : Nat) (s1 : Session)
    (hs : s.rxbuf.start + s.rxbuf.len ≤ Buffer.cap) (h : s.in_event rd now = some s1) :
    s1.rxbuf.start + s1.rxbuf.len ≤ Buffer.cap := by
  unfold Session.in_event at h
  simp only at h
  generalize hs0 : (if s.rxbuf.full = true then { s with rxbuf := s.rxbuf.compact } else s) = t
    at h
  have ht : t.rxbuf.start + t.rxbuf.len ≤ Buffer.cap := by
    rw [← hs0]
    by_cases hf : s.rxbuf.full = true
    · rw [if_pos hf]
      show 0 + s.rxbuf.len ≤ Buffer.cap
      omega
    · rw [if_neg hf]; exact hs
  cases rd with
  | data bytes errno =>
    simp only at h
    by_cases hg : (bytes.take t.rxbuf.remaining).length > 0
    · rw [if_pos hg] at h
      refine drain_bounds _ _ now s1 ?_ h
      show t.rxbuf.start + (t.rxbuf.len + (bytes.take t.rxbuf.remaining).length) ≤ Buffer.cap
      have := remaining_eq t.rxbuf ht
      have hl : (bytes.take t.rxbuf.remaining).length ≤ t.rxbuf.remaining := by
        rw [List.length_take]; exact Nat.min_le_left _ _
      omega
    · rw [if_neg hg] at h
      cases h
      rw [(close_fields _).2.2.2.2.2.1, (close_fields _).2.2.2.2.1]
      exact Nat.zero_le _
  | error errno =>
    simp only at h
    by_cases he : errno ≠ EAGAIN ∧ errno ≠ EINTR
    · rw [if_pos he] at h
      cases h
      rw [(close_fields _).2.2.2.2.2.1, (close_fields _).2.2.2.2.1]
      exact Nat.zero_le _
    · rw [if_neg he] at h
      cases h
      exact ht

/-- C38: the receive buffer keeps `start + len ≤ cap` (1 MiB).  For a session whose buffer
is within the bound: `compact` sets `start` to 0 and leaves `len` and the bytes held as they
were; `remaining()` is `cap - start - len`, so the bytes that `read` appends, which are no
more than that, keep the bound; `advance(n)` with `n ≤ len` leaves `start + len` as it was;
the handling of a packet leaves the bounds as they were or resets them; and the buffer is
within the bound after the loop over the packets, which advances only by a packet length
that is not larger than `len`, and after `in_event`. -/
theorem rxbuf_within_cap (s : Session) (rd : ReadResult) (len now n : Nat) (bytes : List Nat)
    (hs : s.rxbuf.start + s.rxbuf.len ≤ Buffer.cap) :
    (s.rxbuf.compact.start = 0 ∧ s.rxbuf.compact.len = s.rxbuf.len ∧
      s.rxbuf.compact.pending = s.rxbuf.pending ∧
      s.rxbuf.compact.start + s.rxbuf.compact.len ≤ Buffer.cap) ∧
    (s.rxbuf.remaining = Buffer.cap - s.rxbuf.start - s.rxbuf.len ∧
      s.rxbuf.start + (s.rxbuf.len + (bytes.take s.rxbuf.remaining).length) ≤ Buffer.cap) ∧
    (n ≤ s.rxbuf.len →
      (s.rxbuf.advance n).start + (s.rxbuf.advance n).len = s.rxbuf.start + s.rxbuf.len) ∧
    ((handlePacket s len now).session.rxbuf.start +
      (handlePacket s len now).session.rxbuf.len ≤ Buffer.cap) ∧
    (∀ fuel s1, drain fuel s now = some s1 → s1.rxbuf.start + s1.rxbuf.len ≤ Buffer.cap) ∧
    (∀ s1, s.in_event rd now = some s1 → s1.rxbuf.start + s1.rxbuf.len ≤ Buffer.cap) := by
  obtain ⟨c1, c2, c3⟩ := compact_bounds s.rxbuf
  have hr := remaining_eq s.rxbuf hs
  refine ⟨⟨c1, c2, c3, ?_⟩, ⟨hr, ?_⟩, ?_, ?_, ?_, ?_⟩
  · rw [c1, c2]; omega
  · have hl : (bytes.take s.rxbuf.remaining).length ≤ s.rxbuf.remaining := by
      rw [List.length_take]; exact Nat.min_le_left _ _
    omega
  · intro hn
    show s.rxbuf.start + n + (s.rxbuf.len - n) = _
    omega
  · cases hp : handlePacket s len now with
    | next s2 =>
      obtain ⟨k1, k2⟩ := (handlePacket_bounds s len now).1 _ hp
      show s2.rxbuf.start + s2.rxbuf.len ≤ Buffer.cap
      rw [k1, k2]; exact hs
    | ret s2 =>
      show s2.rxbuf.start + s2.rxbuf.len ≤ Buffer.cap
      rcases (handlePacket_bounds s len now).2 _ hp with ⟨k1, k2⟩ | ⟨k1, k2⟩
      · rw [k1, k2]; exact hs
      · rw [k1, k2]; exact Nat.zero_le _
  · intro fuel s1 h
    exact drain_bounds fuel s now s1 hs h
  · intro s1 h
    exact in_event_bounds s rd now s1 hs h

theorem rxbuf_within_cap_witness :
    (Session.example true).rxbuf.start + (Session.example true).rxbuf.len ≤ Buffer.cap ∧
    ((Session.example true).in_event (ReadResult.data [0, 1, 72, 0, 1] 0) 7).isSome = true ∧
    ∀ s1, (Session.example true).in_event (ReadResult.data [0, 1, 72, 0, 1] 0) 7 = some s1 →
      s1.rxbuf.start + s1.rxbuf.len ≤ Buffer.cap :=
  ⟨by decide, by decide,
    (rxbuf_within_cap (Session.example true) (ReadResult.data [0, 1, 72, 0, 1] 0) 3 7 0 []
      (by decide)).2.2.2.2.2⟩

/-! ## C39, C40 -/

theorem login_request_fields (s : Session) (len now : Nat)
    (hty : s.rxbuf.data (s.rxbuf.start + 2) = SOUPBIN3_PACKET_LOGIN_REQUEST) :
    (handlePacket s len now).session.state = s.state ∧
    (handlePacket s len now).session.store = s.store ∧
    (handlePacket s len now).session.fd = s.fd ∧
    (handlePacket s len now).session.isClient = s.isClient ∧
    (handlePacket s len now).session.outpipe =
      (if s.fd < 0 then s.outpipe
       else s.outpipe ++ loginAcceptedPacket s.getExpectedSenderNum) := by
  rw [handlePacket_login_request s len now hty]
  unfold assertThen
  by_cases hl : len = soupbin3_packet_login_request.sizeof
  · simp only [hl, decide_True, if_true, Step.session]
    unfold Session.sendBytes
    by_cases hfd : s.fd < 0
    · have e : (s.event (str "Received logon request: " ++ cstr (readMem s.rxbuf.data
          (s.rxbuf.start + 3) (soupbin3_packet_login_request.sizeof - 3)))).fd = s.fd := rfl
      rw [e, if_pos hfd, if_pos hfd]
      exact ⟨rfl, rfl, rfl, rfl, rfl⟩
    · have e : (s.event (str "Received logon request: " ++ cstr (readMem s.rxbuf.data
          (s.rxbuf.start + 3) (soupbin3_packet_login_request.sizeof - 3)))).fd = s.fd := rfl
      rw [e, if_neg hfd, if_neg hfd]
      exact ⟨rfl, rfl, rfl, rfl, rfl⟩
  · simp only [hl, decide_False, if_false, Step.session, Bool.false_eq_true]
    unfold Session.sendBytes
    by_cases hfd : s.fd < 0
    · have e : (s.event (str "Received logon request: " ++ cstr (readMem s.rxbuf.data
          (s.rxbuf.start + 3) (soupbin3_packet_login_request.sizeof - 3)))).fd = s.fd := rfl
      rw [e, if_pos hfd, if_pos hfd]
      exact ⟨rfl, rfl, rfl, rfl, rfl⟩
    · have e : (s.event (str "Received logon request: " ++ cstr (readMem s.rxbuf.data
          (s.rxbuf.start + 3) (soupbin3_packet_login_request.sizeof - 3)))).fd = s.fd := rfl
      rw [e, if_neg hfd, if_neg hfd]
      exact ⟨rfl, rfl, rfl, rfl, rfl⟩

/-- C40: the handling of a login request packet, whatever the role of the session and
whatever its state.  The state is left as it was, so `isLoggedOn()` is what it was; the
counters are left as they were; and with a socket bound one login accepted packet, with the
next sender sequence number, is pushed into the outbound pipe.  The same holds of `in_event`
on a session with an empty receive buffer that reads one login request packet of the right
size. -/
theorem login_request_keeps_state (s : Session) (len now : Nat) (t : Session) (p : List Nat)
    (e : Int)
    (hty : s.rxbuf.data (s.rxbuf.start + 2) = SOUPBIN3_PACKET_LOGIN_REQUEST)
    (h0 : t.rxbuf.len = 0) (hwf : wellFormed p = true) (hfit : p.length ≤ t.room)
    (hty0 : p.getD 2 0 = SOUPBIN3_PACKET_LOGIN_REQUEST) :
    ((handlePacket s len now).session.state = s.state ∧
      (handlePacket s len now).session.isLoggedOn = s.isLoggedOn ∧
      (handlePacket s len now).session.store = s.store ∧
      (0 ≤ s.fd → (handlePacket s len now).session.outpipe =
        s.outpipe ++ loginAcceptedPacket s.getExpectedSenderNum)) ∧
    (∃ t1, t.in_event (ReadResult.data p e) now = some t1 ∧ t1.state = t.state ∧
      t1.isLoggedOn = t.isLoggedOn ∧ t1.store = t.store ∧
      (0 ≤ t.fd → t1.outpipe = t.outpipe ++ loginAcceptedPacket t.getExpectedSenderNum)) := by
  obtain ⟨a1, a2, _, _, a5⟩ := login_request_fields s len now hty
  constructor
  · refine ⟨a1, ?_, a2, ?_⟩
    · unfold Session.isLoggedOn; rw [a1]
    · intro hfd
      rw [a5, if_neg (by omega)]
  · obtain ⟨t1, h1, h2, _⟩ := in_event_one t p e now h0 hwf hfit
    have hty1 : (t.core.holding p).rxbuf.data ((t.core.holding p).rxbuf.start + 2) =
        SOUPBIN3_PACKET_LOGIN_REQUEST := hty0
    obtain ⟨b1, b2, _, _, b5⟩ := login_request_fields (t.core.holding p) p.length 0 hty1
    have hst : t1.state = t.state := by
      have h3 : t1.core.state = (dispatch t.core p).state := congrArg Session.state h2
      exact h3.trans b1
    have hsto : t1.store = t.store := by
      have h3 : t1.core.store = (dispatch t.core p).store := congrArg Session.store h2
      exact h3.trans b2
    refine ⟨t1, h1, hst, ?_, hsto, ?_⟩
    · unfold Session.isLoggedOn; rw [hst]
    · intro hfd
      have h3 : t1.core.outpipe = (dispatch t.core p).outpipe := congrArg Session.outpipe h2
      have h4 : (t.core.holding p).fd = t.fd := rfl
      rw [h4, if_neg (by omega)] at b5
      exact h3.trans b5

theorem login_request_keeps_state_witness :
    wellFormed (loginRequestPacket (str "zhb") (str "xxx") 1) = true ∧
    (Session.example false).isLoggedOn = false ∧
    ∃ t1, (Session.example false).in_event
        (ReadResult.data (loginRequestPacket (str "zhb") (str "xxx") 1) 0) 7 = some t1 ∧
      t1.state = SessionState.st_none ∧ t1.isLoggedOn = false ∧
      t1.outpipe = loginAcceptedPacket 1 :=
  ⟨by decide, by decide,
    match (login_request_keeps_state
      ((Session.example true).holding (loginRequestPacket (str "zhb") (str "xxx") 1)) 49 7
      (Session.example false) (loginRequestPacket (str "zhb") (str "xxx") 1) 0
      (by decide) rfl (by decide) (by decide) (by decide)).2 with
    | ⟨t1, h1, h2, h3, _, h5⟩ => ⟨t1, h1, h2, h3, h5 (by decide)⟩⟩

/-- C39: the typed `send` hands the message, in host byte order, to `Log::onOutgoing`
exactly once on every call, with or without a socket.  With no socket bound the call adds
that one entry to the trace and nothing else: no byte is pushed into the outbound pipe, the
poller is not told and the time of the last send is kept.  With a socket bound the packet is
pushed and the poller is told before the message is logged. -/
theorem send_logs_once {T : Type} [OuchMsg T] (s : Session) (msg : T) (now : Nat) :
    (s.send msg now).trace =
      s.trace ++ (if s.fd < 0 then [] else [Effect.set_pollout]) ++
        [Effect.onOutgoing (OuchMsg.toBytes msg) (OuchMsg.sizeof T)] ∧
    onOutgoingCalls (s.send msg now).trace =
      onOutgoingCalls s.trace ++ [Effect.onOutgoing (OuchMsg.toBytes msg) (OuchMsg.sizeof T)] ∧
    (onOutgoingCalls (s.send msg now).trace).length = (onOutgoingCalls s.trace).length + 1 ∧
    (s.fd < 0 →
      (s.send msg now).outpipe = s.outpipe ∧ (s.send msg now).txtm = s.txtm ∧
      (s.send msg now).trace =
        s.trace ++ [Effect.onOutgoing (OuchMsg.toBytes msg) (OuchMsg.sizeof T)]) ∧
    (0 ≤ s.fd →
      (s.send msg now).outpipe = s.outpipe ++ Session.packet s.isClient msg ∧
      (s.send msg now).txtm = now) := by
  have ht : (s.send msg now).trace =
      s.trace ++ (if s.fd < 0 then [] else [Effect.set_pollout]) ++
        [Effect.onOutgoing (OuchMsg.toBytes msg) (OuchMsg.sizeof T)] := by
    unfold Session.send Session.sendBytes
    by_cases hfd : s.fd < 0
    · simp only [hfd, if_true, Session.emit, List.append_nil]
    · simp only [hfd, if_false, Session.emit]
  have hc : onOutgoingCalls (s.send msg now).trace =
      onOutgoingCalls s.trace ++
        [Effect.onOutgoing (OuchMsg.toBytes msg) (OuchMsg.sizeof T)] := by
    rw [ht]
    unfold onOutgoingCalls
    by_cases hfd : s.fd < 0
    · simp only [hfd, if_true, List.append_nil, List.filter_append, List.filter_cons,
        List.filter_nil]
    · simp only [hfd, if_false, List.filter_append, List.filter_cons, List.filter_nil,
        Bool.false_eq_true, if_true, List.append_nil]
  refine ⟨ht, hc, ?_, ?_, ?_⟩
  · rw [hc, List.length_append, List.length_singleton]
  · intro hfd
    refine ⟨?_, ?_, ?_⟩
    · unfold Session.send Session.sendBytes
      simp only [hfd, if_true, Session.emit]
    · unfold Session.send Session.sendBytes
      simp only [hfd, if_true, Session.emit]
    · rw [ht, if_pos hfd, List.append_nil]
  · intro hfd
    have hn : ¬ s.fd < 0 := by omega
    constructor
    · unfold Session.send Session.sendBytes
      simp only [hn, if_false, Session.emit]
    · unfold Session.send Session.sendBytes
      simp only [hn, if_false, Session.emit]

/-! ## C31 -/

theorem take_succ_getD (d : List Nat) (k : Nat) (h : k < d.length) :
    d.take k ++ [d.getD k 0] = d.take (k + 1) := by
  rw [List.take_succ, List.getD_eq_getElem?_getD, List.getElem?_eq_getElem h]
  rfl

theorem init_inv (pkts : List (List Nat)) (s : Session) (hfd : 0 ≤ s.fd) :
    SendInv pkts s.outpipe (SendState.init s) := by
  refine ⟨hfd, List.nodup_nil, ?_, ?_, ?_⟩
  · intro i hi; cases hi
  · intro i
    simp [SendState.init]
  · simp [SendState.init]

theorem sendStep_inv (pkts : List (List Nat)) (p0 : List Nat) (st : SendState) (i now : Nat)
    (h : SendInv pkts p0 st) : SendInv pkts p0 (sendStep pkts st i now) := by
  obtain ⟨h1, h2, h3, h4, h5⟩ := h
  unfold sendStep
  by_cases hi : pkts.length ≤ i
  · rw [if_pos hi]; exact ⟨h1, h2, h3, h4, h5⟩
  rw [if_neg hi]
  cases hpc : st.pc i with
  | start =>
    simp only
    rw [if_neg (by omega)]
    have hni : i ∉ st.order := by
      intro hin
      have := (h4 i).2 hin
      rw [hpc] at this
      rcases this with c | ⟨k, c⟩ <;> cases c
    refine ⟨h1, h2, h3, ?_, ?_⟩
    · intro j
      by_cases hj : j = i
      · subst hj
        simp only [if_true]
        constructor
        · rintro (c | ⟨k, c⟩) <;> cases c
        · intro hin; exact absurd hin hni
      · simp only [hj, if_false]
        exact h4 j
    · cases hm : st.mutex with
      | none =>
        rw [hm] at h5
        refine ⟨?_, h5.2⟩
        intro j k
        by_cases hj : j = i
        · subst hj; simp
        · simp only [hj, if_false]; exact h5.1 j k
      | some o =>
        rw [hm] at h5
        obtain ⟨k, init, c1, c2, c3, c4, c5⟩ := h5
        have hoi : o ≠ i := by
          intro e; subst e; rw [hpc] at c1; cases c1
        refine ⟨k, init, ?_, c2, c3, ?_, c5⟩
        · simp only [hoi, if_false]; exact c1
        · intro j hj k1
          by_cases hji : j = i
          · subst hji; simp
          · simp only [hji, if_false]; exact c4 j hj k1
  | stamp =>
    simp only
    have hni : i ∉ st.order := by
      intro hin
      have := (h4 i).2 hin
      rw [hpc] at this
      rcases this with c | ⟨k, c⟩ <;> cases c
    refine ⟨h1, h2, h3, ?_, ?_⟩
    · intro j
      by_cases hj : j = i
      · subst hj
        simp only [if_true]
        constructor
        · rintro (c | ⟨k, c⟩) <;> cases c
        · intro hin; exact absurd hin hni
      · simp only [hj, if_false]
        exact h4 j
    · cases hm : st.mutex with
      | none =>
        rw [hm] at h5
        refine ⟨?_, h5.2⟩
        intro j k
        by_cases hj : j = i
        · subst hj; simp
        · simp only [hj, if_false]; exact h5.1 j k
      | some o =>
        rw [hm] at h5
        obtain ⟨k, init, c1, c2, c3, c4, c5⟩ := h5
        have hoi : o ≠ i := by
          intro e; subst e; rw [hpc] at c1; cases c1
        refine ⟨k, init, ?_, c2, c3, ?_, c5⟩
        · simp only [hoi, if_false]; exact c1
        · intro j hj k1
          by_cases hji : j = i
          · subst hji; simp
          · simp only [hji, if_false]; exact c4 j hj k1
  | wait =>
    simp only
    have hni : i ∉ st.order := by
      intro hin
      have := (h4 i).2 hin
      rw [hpc] at this
      rcases this with c | ⟨k, c⟩ <;> cases c
    cases hm : st.mutex with
    | some o => exact ⟨h1, h2, h3, h4, h5⟩
    | none =>
      rw [hm] at h5
      simp only
      refine ⟨h1, ?_, ?_, ?_, ?_⟩
      · exact List.Nodup.append h2 (List.nodup_singleton i) (by simpa using hni)
      · intro j hj
        rcases List.mem_append.1 hj with c | c
        · exact h3 j c
        · rw [List.mem_singleton.1 c]; omega
      · intro j
        by_cases hj : j = i
        · subst hj
          simp
        · simp only [hj, if_false, List.mem_append, List.mem_singleton, or_false]
          exact h4 j
      · refine ⟨0, st.order, by simp, Nat.zero_le _, rfl, ?_, ?_⟩
        · intro j hj k1
          simp only [hj, if_false]
          exact h5.1 j k1
        · rw [h5.2]; simp
  | push k =>
    simp only
    have hin : i ∈ st.order := (h4 i).1 (Or.inr ⟨k, hpc⟩)
    cases hm : st.mutex with
    | none =>
      rw [hm] at h5
      exact absurd hpc (h5.1 i k)
    | some o =>
      rw [hm] at h5
      obtain ⟨k0, init, c1, c2, c3, c4, c5⟩ := h5
      have hoi : o = i := by
        by_contra hne
        exact c4 i (fun e => hne e.symm) k hpc
      subst hoi
      have hk : k0 = k := by
        rw [hpc] at c1
        injection c1 with c1
        exact c1.symm
      subst hk
      by_cases hlt : k0 < (pkts.getD o []).length
      · rw [if_pos hlt]
        refine ⟨h1, h2, h3, ?_, ?_⟩
        · intro j
          by_cases hj : j = o
          · subst hj
            simp only [if_true]
            constructor
            · intro _; exact hin
            · intro _; exact Or.inr ⟨_, rfl⟩
          · simp only [hj, if_false]
            exact h4 j
        · simp only [hm]
          refine ⟨k0 + 1, init, by simp, hlt, c3, ?_, ?_⟩
          · intro j hj k1
            simp only [hj, if_false]
            exact c4 j hj k1
          · rw [c5, List.append_assoc _ (List.take _ _), take_succ_getD _ _ hlt]
      · rw [if_neg hlt]
        have hke : k0 = (pkts.getD o []).length := by omega
        refine ⟨h1, h2, h3, ?_, ?_⟩
        · intro j
          by_cases hj : j = o
          · subst hj
            simp only [if_true]
            constructor
            · intro _; exact hin
            · intro _; exact Or.inl trivial
          · simp only [hj, if_false]
            exact h4 j
        · simp only
          refine ⟨?_, ?_⟩
          · intro j k1
            by_cases hj : j = o
            · subst hj; simp
            · simp only [hj, if_false]; exact c4 j hj k1
          · rw [c5, c3, hke, List.take_length]
            simp
  | done =>
    simp only
    exact ⟨h1, h2, h3, h4, h5⟩

theorem runSends_inv (pkts : List (List Nat)) (p0 : List Nat) (sched : List (Nat × Nat)) :
    ∀ st, SendInv pkts p0 st → SendInv pkts p0 (runSends pkts st sched) := by
  induction sched with
  | nil => intro st h; exact h
  | cons x rest ih =>
    intro st h
    exact ih _ (sendStep_inv pkts p0 st x.1 x.2 h)

theorem runSends_append (pkts : List (List Nat)) (st : SendState) (a b : List (Nat × Nat)) :
    runSends pkts st (a ++ b) = runSends pkts (runSends pkts st a) b := by
  unfold runSends
  rw [List.foldl_append]

theorem sendStep_other (pkts : List (List Nat)) (st : SendState) (i now j : Nat) (hj : j ≠ i) :
    (sendStep pkts st i now).pc j = st.pc j := by
  unfold sendStep
  by_cases hi : pkts.length ≤ i
  · rw [if_pos hi]
  rw [if_neg hi]
  cases hpc : st.pc i with
  | start =>
    simp only
    split <;> simp only [hj, if_false]
  | stamp => simp only [hj, if_false]
  | wait =>
    simp only
    cases hm : st.mutex with
    | none => simp only [hj, if_false]
    | some o => rfl
  | push k =>
    simp only
    split <;> simp only [hj, if_false]
  | done => rfl

theorem solo_steps (pkts : List (List Nat)) (p0 : List Nat) (i now : Nat) (hi : i < pkts.length)
    (n : Nat) : ∀ st, SendInv pkts p0 st → (st.mutex = none ∨ st.mutex = some i) →
      stepsLeft pkts i (st.pc i) ≤ n →
      (runSends pkts st (List.replicate n (i, now))).pc i = SendPc.done ∧
      (runSends pkts st (List.replicate n (i, now))).mutex = none ∧
      ∀ j, j ≠ i → (runSends pkts st (List.replicate n (i, now))).pc j = st.pc j := by
  induction n with
  | zero =>
    intro st hinv hm hn
    obtain ⟨h1, h2, h3, h4, h5⟩ := hinv
    have hd : st.pc i = SendPc.done := by
      cases hpc : st.pc i <;> rw [hpc] at hn <;> simp [stepsLeft] at hn
    refine ⟨hd, ?_, fun j _ => rfl⟩
    rcases hm with hm | hm
    · exact hm
    · rw [hm] at h5
      obtain ⟨k, init, c1, _⟩ := h5
      rw [hd] at c1
      cases c1
  | succ n ih =>
    intro st hinv hm hn
    have hinv1 := sendStep_inv pkts p0 st i now hinv
    obtain ⟨h1, h2, h3, h4, h5⟩ := hinv
    show (runSends pkts (sendStep pkts st i now) (List.replicate n (i, now))).pc i = _ ∧
      (runSends pkts (sendStep pkts st i now) (List.replicate n (i, now))).mutex = none ∧
      ∀ j, j ≠ i →
        (runSends pkts (sendStep pkts st i now) (List.replicate n (i, now))).pc j = st.pc j
    have key : ((sendStep pkts st i now).mutex = none ∨ (sendStep pkts st i now).mutex = some i) ∧
        stepsLeft pkts i ((sendStep pkts st i now).pc i) ≤ n := by
      unfold sendStep
      rw [if_neg (by omega)]
      cases hpc : st.pc i with
      | start =>
        rw [hpc] at hn
        simp only
        rw [if_neg (by omega)]
        simp only [if_true, stepsLeft] at hn ⊢
        exact ⟨hm, by omega⟩
      | stamp =>
        rw [hpc] at hn
        simp only [if_true, stepsLeft] at hn ⊢
        exact ⟨hm, by omega⟩
      | wait =>
        rw [hpc] at hn
        rcases hm with hm | hm
        · simp only [hm, if_true, stepsLeft] at hn ⊢
          exact ⟨Or.inr trivial, by omega⟩
        · rw [hm] at h5
          obtain ⟨k, init, c1, _⟩ := h5
          rw [hpc] at c1
          cases c1
      | push k =>
        rw [hpc] at hn
        simp only
        by_cases hlt : k < (pkts.getD i []).length
        · rw [if_pos hlt]
          simp only [if_true, stepsLeft] at hn ⊢
          exact ⟨hm, by omega⟩
        · rw [if_neg hlt]
          simp only [if_true, stepsLeft]
          exact ⟨Or.inl trivial, Nat.zero_le _⟩
      | done =>
        rw [hpc] at hn
        simp only [stepsLeft] at hn ⊢
        rw [hpc]
        exact ⟨hm, Nat.zero_le _⟩
    obtain ⟨r1, r2, r3⟩ := ih _ hinv1 key.1 key.2
    refine ⟨r1, r2, ?_⟩
    intro j hj
    rw [r3 j hj, sendStep_other pkts st i now j hj]

theorem stepsLeft_le (pkts : List (List Nat)) (i : Nat) (pc : SendPc) :
    stepsLeft pkts i pc ≤ (pkts.getD i []).length + 4 := by
  cases pc <;> simp only [stepsLeft] <;> omega

theorem solo_finish (pkts : List (List Nat)) (p0 : List Nat) (i now : Nat) (hi : i < pkts.length)
    (st : SendState) (hinv : SendInv pkts p0 st) (hm : st.mutex = none ∨ st.mutex = some i) :
    (runSends pkts st (soloSchedule pkts i now)).pc i = SendPc.done ∧
    (runSends pkts st (soloSchedule pkts i now)).mutex = none ∧
    ∀ j, j ≠ i → (runSends pkts st (soloSchedule pkts i now)).pc j = st.pc j :=
  solo_steps pkts p0 i now hi _ st hinv hm (stepsLeft_le pkts i _)

theorem finish_all (pkts : List (List Nat)) (p0 : List Nat) (now : Nat) (l : List Nat) :
    ∀ st, SendInv pkts p0 st → st.mutex = none → (∀ i ∈ l, i < pkts.length) →
    ∃ more, (runSends pkts st more).mutex = none ∧
      (∀ i ∈ l, (runSends pkts st more).pc i = SendPc.done) ∧
      (∀ j, st.pc j = SendPc.done → (runSends pkts st more).pc j = SendPc.done) := by
  induction l with
  | nil =>
    intro st _ hm _
    exact ⟨[], hm, fun i hi => absurd hi (List.not_mem_nil i), fun j hj => hj⟩
  | cons i l ih =>
    intro st hinv hm hl
    have hi : i < pkts.length := hl i (List.mem_cons_self _ _)
    obtain ⟨a1, a2, a3⟩ := solo_finish pkts p0 i now hi st hinv (Or.inl hm)
    have hinv1 := runSends_inv pkts p0 (soloSchedule pkts i now) st hinv
    obtain ⟨more, b1, b2, b3⟩ := ih _ hinv1 a2 (fun j hj => hl j (List.mem_cons_of_mem _ hj))
    refine ⟨soloSchedule pkts i now ++ more, ?_, ?_, ?_⟩
    · rw [runSends_append]; exact b1
    · intro j hj
      rw [runSends_append]
      rcases List.mem_cons.1 hj with c | c
      · rw [c]; exact b3 i a1
      · exact b2 j c
    · intro j hj
      rw [runSends_append]
      apply b3
      by_cases c : j = i
      · rw [c]; exact a1
      · rw [a3 j c]; exact hj

theorem sends_progress (pkts : List (List Nat)) (p0 : List Nat) (st : SendState)
    (hinv : SendInv pkts p0 st) :
    ∃ more, ∀ i, i < pkts.length → (runSends pkts st more).pc i = SendPc.done := by
  cases hm : st.mutex with
  | none =>
    obtain ⟨more, _, b2, _⟩ := finish_all pkts p0 0 (List.range pkts.length) st hinv hm
      (fun i hi => List.mem_range.1 hi)
    exact ⟨more, fun i hi => b2 i (List.mem_range.2 hi)⟩
  | some o =>
    have ho : o < pkts.length := by
      obtain ⟨_, _, h3, _, h5⟩ := hinv
      rw [hm] at h5
      obtain ⟨k, init, _, _, c3, _⟩ := h5
      apply h3
      rw [c3]
      simp
    obtain ⟨_, a2, _⟩ := solo_finish pkts p0 o 0 ho st hinv (Or.inr hm)
    have hinv1 := runSends_inv pkts p0 (soloSchedule pkts o 0) st hinv
    obtain ⟨more, _, b2, _⟩ := finish_all pkts p0 0 (List.range pkts.length) _ hinv1 a2
      (fun i hi => List.mem_range.1 hi)
    refine ⟨soloSchedule pkts o 0 ++ more, fun i hi => ?_⟩
    rw [runSends_append]
    exact b2 i (List.mem_range.2 hi)

theorem map_getD_range (pkts : List (List Nat)) :
    (List.range pkts.length).map (fun i => pkts.getD i []) = pkts := by
  apply List.ext_getElem
  · simp
  · intro n h1 h2
    simp only [List.getElem_map, List.getElem_range]
    rw [List.getD_eq_getElem?_getD, List.getElem?_eq_getElem h2]
    rfl

theorem sends_complete (pkts : List (List Nat)) (p0 : List Nat) (st : SendState)
    (hinv : SendInv pkts p0 st) (hdone : ∀ i, i < pkts.length → st.pc i = SendPc.done) :
    st.mutex = none ∧ st.order.Perm (List.range pkts.length) ∧
    st.outpipe = p0 ++ (st.order.map fun i => pkts.getD i []).flatten ∧
    st.outpipe.length = p0.length + (pkts.map List.length).sum := by
  obtain ⟨h1, h2, h3, h4, h5⟩ := hinv
  have hm : st.mutex = none := by
    cases hm : st.mutex with
    | none => rfl
    | some o =>
      rw [hm] at h5
      obtain ⟨k, init, c1, _, c3, _⟩ := h5
      have ho : o < pkts.length := by
        apply h3; rw [c3]; simp
      rw [hdone o ho] at c1
      cases c1
  rw [hm] at h5
  have hperm : st.order.Perm (List.range pkts.length) := by
    rw [List.perm_ext_iff_of_nodup h2 (List.nodup_range _)]
    intro a
    constructor
    · intro ha; exact List.mem_range.2 (h3 a ha)
    · intro ha
      exact (h4 a).1 (Or.inl (hdone a (List.mem_range.1 ha)))
  refine ⟨hm, hperm, h5.2, ?_⟩
  rw [h5.2, List.length_append, List.length_flatten, List.map_map]
  congr 1
  have := (hperm.map (List.length ∘ fun i => pkts.getD i [])).sum_eq
  rw [this, ← List.map_map, map_getD_range]

theorem solo_is_sendBytes (s : Session) (p : List Nat) (now : Nat) (hfd : 0 ≤ s.fd) :
    (runSends [p] (SendState.init s) (soloSchedule [p] 0 now)).outpipe =
      (s.sendBytes p now).outpipe := by
  have hinv := runSends_inv [p] s.outpipe (soloSchedule [p] 0 now) _ (init_inv [p] s hfd)
  obtain ⟨a1, _, _⟩ := solo_finish [p] s.outpipe 0 now (by simp) _ (init_inv [p] s hfd)
    (Or.inl rfl)
  have hdone : ∀ i, i < [p].length →
      (runSends [p] (SendState.init s) (soloSchedule [p] 0 now)).pc i = SendPc.done := by
    intro i hi
    have : i = 0 := by simpa using hi
    rw [this]; exact a1
  obtain ⟨_, hperm, hout, _⟩ := sends_complete [p] s.outpipe _ hinv hdone
  have ho : (runSends [p] (SendState.init s) (soloSchedule [p] 0 now)).order = [0] := by
    have : (List.range [p].length) = [0] := rfl
    rw [this] at hperm
    exact List.perm_singleton.1 hperm
  rw [hout, ho]
  unfold Session.sendBytes
  rw [if_neg (by omega)]
  simp [Session.emit]

/-- C31: `send` called by K threads at once on a session with a socket, the thread `i` with
the packet `pkts[i]`, under every schedule of their steps (`push` copies its bytes one step
at a time).  At every moment the pipe holds what it held before, then the whole packets of
the threads that have left `push`, in the order in which they took the lock, then the bytes
copied so far by the one thread in `push`.  Every run can be continued until all the threads
have returned.  When all have returned the pipe holds K whole packets, one of each thread,
in the order of the lock, and the number of bytes added is the sum of the K lengths.  One
thread alone adds what `send(data, len)` adds. -/
theorem concurrent_sends (s : Session) (pkts : List (List Nat)) (sched : List (Nat × Nat))
    (hfd : 0 ≤ s.fd) :
    SendInv pkts s.outpipe (runSends pkts (SendState.init s) sched) ∧
    (∃ more, ∀ i, i < pkts.length →
      (runSends pkts (SendState.init s) (sched ++ more)).pc i = SendPc.done) ∧
    ((∀ i, i < pkts.length → (runSends pkts (SendState.init s) sched).pc i = SendPc.done) →
      (runSends pkts (SendState.init s) sched).mutex = none ∧
      (runSends pkts (SendState.init s) sched).order.Perm (List.range pkts.length) ∧
      (runSends pkts (SendState.init s) sched).outpipe =
        s.outpipe ++ ((runSends pkts (SendState.init s) sched).order.map
          fun i => pkts.getD i []).flatten ∧
      (runSends pkts (SendState.init s) sched).outpipe.length =
        s.outpipe.length + (pkts.map List.length).sum) ∧
    (∀ p now, (runSends [p] (SendState.init s) (soloSchedule [p] 0 now)).outpipe =
      (s.sendBytes p now).outpipe) := by
  have hinv := runSends_inv pkts s.outpipe sched _ (init_inv pkts s hfd)
  refine ⟨hinv, ?_, ?_, ?_⟩
  · obtain ⟨more, h⟩ := sends_progress pkts s.outpipe _ hinv
    refine ⟨more, fun i hi => ?_⟩
    rw [runSends_append]
    exact h i hi
  · intro hdone
    exact sends_complete pkts s.outpipe _ hinv hdone
  · intro p now
    exact solo_is_sendBytes s p now hfd

theorem concurrent_sends_witness :
    (0 : Int) ≤ (Session.example true).fd ∧
    (∀ i, i < 2 → (runSends [[1, 2], [3]] (SendState.init (Session.example true))
      [(0, 1), (1, 1), (1, 2), (0, 2), (1, 3), (0, 3), (1, 3), (0, 3), (1, 3), (0, 4), (0, 4),
        (0, 4), (0, 4)]).pc i = SendPc.done) ∧
    (runSends [[1, 2], [3]] (SendState.init (Session.example true))
      [(0, 1), (1, 1), (1, 2), (0, 2), (1, 3), (0, 3), (1, 3), (0, 3), (1, 3), (0, 4), (0, 4),
        (0, 4), (0, 4)]).outpipe = [3, 1, 2] ∧
    (runSends [[1, 2], [3]] (SendState.init (Session.example true))
      [(0, 1), (1, 1), (1, 2), (0, 2), (1, 3), (0, 3), (1, 3), (0, 3), (1, 3), (0, 4), (0, 4),
        (0, 4), (0, 4)]).outpipe.length = 0 + 3 :=
  ⟨by decide, by decide, by decide,
    ((concurrent_sends (Session.example true) [[1, 2], [3]]
      [(0, 1), (1, 1), (1, 2), (0, 2), (1, 3), (0, 3), (1, 3), (0, 3), (1, 3), (0, 4), (0, 4),
        (0, 4), (0, 4)] (by decide)).2.2.1 (by decide)).2.2.2⟩

end OUCH
